import Mathlib

/-!
# Neural Pursuit: the adaptive opponent controller of `game.js`

A shallow embedding of the `NeuralNetwork` class and of the AI part of the
`Game` class, followed by the properties established about them.

Conventions of the embedding.

* JavaScript numbers are the elements of a linearly ordered field `α` (exact
  arithmetic; rounding, overflow and `NaN` of IEEE doubles are outside the model).
  Division by zero, which JavaScript answers with `Infinity` or `NaN`, is the
  field's `x / 0 = 0`.
* The functions of the `Math` object that have no field counterpart are the
  fields of a `JsMath` record passed to the code that calls them.  `realMath` is
  the exact instance over the reals; `underflowMath` is the same with the one
  effect of doubles that a field can express, `Math.exp` returning 0 on very
  negative arguments.
* `Math.random` is a stream of draws (`Rng`) consumed in program order, and
  `Date.now` is a record holding the reading of each call site (`Clock`).
* Arrays are lists, matrices are lists of rows.  A function returns `none` where
  the JavaScript raises a `TypeError` (indexing `undefined`) or would compute with
  an `undefined` entry; the mutations made before the exception are not modelled.
* Functions that mutate an argument in place return the mutated value.
* Drawing, the particle list and the trails are not modelled; the draws that
  particle effects take from `Math.random` are consumed.
-/

set_option linter.unusedSectionVars false
set_option linter.unusedVariables false

namespace NeuralPursuit

variable {α : Type} [LinearOrderedField α]

/-! ## Ports: `Math`, `Math.random`, `Date.now` -/

/-- The transcendental functions of the JavaScript `Math` object used by the game. -/
structure JsMath (α : Type) where
  exp : α → α
  hypot : α → α → α
  atan2 : α → α → α
  cos : α → α
  sin : α → α

/-- The stream of values that successive calls of `Math.random()` return. -/
abbrev Rng (α : Type) := Nat → α

/-- The stream left after `n` draws. -/
def Rng.skip (rng : Rng α) (n : Nat) : Rng α := fun k => rng (n + k)

/-! ## Matrices -/

/-- A matrix is an array of rows. -/
abbrev Mat (α : Type) := List (List α)

/-- Collect the results of a list of fallible computations; fails if one of them fails. -/
def allSome {β : Type} : List (Option β) → Option (List β)
  | [] => some []
  | none :: _ => none
  | some x :: rest => (allSome rest).map (x :: ·)

/-- The read `m[i][j]`. -/
def entry (m : Mat α) (i j : Nat) : Option α :=
  (m[i]?).bind fun row => row[j]?

/-- The matrix of the values `f i j`, `i < rows`, `j < cols`, computed in row-major order. -/
def buildMat (rows cols : Nat) (f : Nat → Nat → Option α) : Option (Mat α) :=
  allSome ((List.range rows).map fun i => allSome ((List.range cols).map fun j => f i j))

/-- One row of `createMatrix`: `Array(cols).fill().map(...)`. -/
def createRow (cols : Nat) (fillValue : Option α) (rng : Rng α) : List α :=
  (List.range cols).map fun j =>
    match fillValue with
    | some v => v
    | none => (rng j * 2 - 1) * 0.5

/-- `createMatrix(rows, cols, fillValue = null)`: a `rows × cols` matrix of `fillValue`, or of
random values `(Math.random() * 2 - 1) * 0.5` drawn in row-major order; returns the stream left. -/
def createMatrix (rows cols : Nat) (fillValue : Option α) (rng : Rng α) : Mat α × Rng α :=
  ((List.range rows).map fun i => createRow cols fillValue (rng.skip (i * cols)),
   match fillValue with
   | some _ => rng
   | none => rng.skip (rows * cols))

/-- `arrayToMatrix(arr)`: a column vector. -/
def arrayToMatrix (arr : List α) : Mat α := arr.map fun val => [val]

/-- `matrixToArray(matrix)`: the first entry of every row. -/
def matrixToArray (matrix : Mat α) : Option (List α) :=
  allSome (matrix.map fun row => row[0]?)

/-- `matrixMultiply(a, b)`: a fresh `a.length × b[0].length` matrix of the sums
`a[i][0] * b[0][j] + ... ` over `k < a[0].length`. -/
def matrixMultiply (a b : Mat α) : Option (Mat α) :=
  match b with
  | [] => none
  | b0 :: _ =>
    match a with
    | [] => some []
    | a0 :: _ =>
      buildMat a.length b0.length fun i j =>
        (allSome ((List.range a0.length).map fun k =>
          (entry a i k).bind fun x => (entry b k j).map fun y => x * y)).map
            fun products => products.foldl (· + ·) 0

/-- The shared loop of the in-place operations: `a[i][j] = f i j a[i][j]` for `i < a.length`
and `j < a[0].length`; entries of a row beyond `a[0].length` are left as they are. -/
def updateInPlace (a : Mat α) (f : Nat → Nat → α → Option α) : Option (Mat α) :=
  match a with
  | [] => some []
  | a0 :: _ =>
    allSome ((List.range a.length).map fun i =>
      (a[i]?).bind fun row =>
        (allSome ((List.range a0.length).map fun j => (row[j]?).bind (f i j))).map
          fun updated => updated ++ row.drop a0.length)

/-- `matrixAdd(a, b)`: `a[i][j] += b[i][j]`, in place. -/
def matrixAdd (a b : Mat α) : Option (Mat α) :=
  updateInPlace a fun i j x => (entry b i j).map fun y => x + y

/-- `matrixMultiplyElement(a, b)`: `a[i][j] *= b[i][j]`, in place. -/
def matrixMultiplyElement (a b : Mat α) : Option (Mat α) :=
  updateInPlace a fun i j x => (entry b i j).map fun y => x * y

/-- `matrixMultiplyScalar(matrix, scalar)`: `matrix[i][j] *= scalar`, in place. -/
def matrixMultiplyScalar (matrix : Mat α) (scalar : α) : Option (Mat α) :=
  updateInPlace matrix fun _ _ x => some (x * scalar)

/-- Assign `f i j` to every entry `(i, j)` of a freshly created scratch matrix. -/
def overwriteAll (scratch : Mat α) (f : Nat → Nat → Option α) : Option (Mat α) :=
  allSome ((List.range scratch.length).map fun i =>
    (scratch[i]?).bind fun srow => allSome ((List.range srow.length).map fun j => f i j))

/-- `matrixSubtract(a, b)`: a scratch matrix from `createMatrix(a.length, a[0].length)` (random
fill) whose entries are then assigned `a[i][j] - b[i][j]`. -/
def matrixSubtract (a b : Mat α) (rng : Rng α) : Option (Mat α × Rng α) :=
  match a with
  | [] => none
  | a0 :: _ =>
    let created := createMatrix a.length a0.length none rng
    (overwriteAll created.1 fun i j =>
      (entry a i j).bind fun x => (entry b i j).map fun y => x - y).map fun result =>
        (result, created.2)

/-- `matrixTranspose(matrix)`: a scratch matrix from
`createMatrix(matrix[0].length, matrix.length)` (random fill) whose entries are then assigned
`result[j][i] = matrix[i][j]`. -/
def matrixTranspose (matrix : Mat α) (rng : Rng α) : Option (Mat α × Rng α) :=
  match matrix with
  | [] => none
  | m0 :: _ =>
    let created := createMatrix m0.length matrix.length none rng
    (overwriteAll created.1 fun j i => entry matrix i j).map fun result => (result, created.2)

/-- `matrixMap(matrix, fn)` with `returnNew = false`: `matrix[i][j] = fn(matrix[i][j])`. -/
def matrixMap (matrix : Mat α) (fn : α → α) : Mat α :=
  matrix.map fun row => row.map fn

/-- `matrixMap(matrix, fn, true)`: a scratch matrix from
`createMatrix(matrix.length, matrix[0].length)` (random fill) in which row `i` receives
`fn(matrix[i][j])` at each `j` of the row `matrix[i]`. -/
def matrixMapNew (matrix : Mat α) (fn : α → α) (rng : Rng α) : Option (Mat α × Rng α) :=
  match matrix with
  | [] => none
  | m0 :: _ =>
    let created := createMatrix matrix.length m0.length none rng
    some (List.zipWith (fun row srow => row.map fn ++ srow.drop row.length) matrix created.1,
          created.2)

/-! ## The network -/

/-- The fields of a `NeuralNetwork` object. -/
structure NeuralNetwork (α : Type) where
  inputSize : Nat
  hiddenSize : Nat
  outputSize : Nat
  weightsIH : Mat α
  weightsHO : Mat α
  biasH : Mat α
  biasO : Mat α
  learningRate : α
  momentum : α
  prevWeightsIH : Mat α
  prevWeightsHO : Mat α

/-- The constructor `new NeuralNetwork(inputSize, hiddenSize, outputSize)`. -/
def NeuralNetwork.new (inputSize hiddenSize outputSize : Nat) (rng : Rng α) :
    NeuralNetwork α × Rng α :=
  let wIH := createMatrix hiddenSize inputSize none rng
  let wHO := createMatrix outputSize hiddenSize none wIH.2
  let bH := createMatrix hiddenSize 1 none wHO.2
  let bO := createMatrix outputSize 1 none bH.2
  let pIH := createMatrix hiddenSize inputSize (some 0) bO.2
  let pHO := createMatrix outputSize hiddenSize (some 0) pIH.2
  ({ inputSize := inputSize, hiddenSize := hiddenSize, outputSize := outputSize,
     weightsIH := wIH.1, weightsHO := wHO.1, biasH := bH.1, biasO := bO.1,
     learningRate := 0.1, momentum := 0.9,
     prevWeightsIH := pIH.1, prevWeightsHO := pHO.1 }, pHO.2)

/-- `sigmoid(x) = 1 / (1 + Math.exp(-x))`. -/
def sigmoid (M : JsMath α) (x : α) : α := 1 / (1 + M.exp (-x))

/-- `sigmoidDerivative(x) = x * (1 - x)`. -/
def sigmoidDerivative (x : α) : α := x * (1 - x)

/-- Forward propagation, the statements that open both `predict` and `train`:
`hidden = sigmoid(weightsIH * inputs + biasH)`, `outputs = sigmoid(weightsHO * hidden + biasO)`.
Returns `(hidden, outputs)`. -/
def NeuralNetwork.forward (M : JsMath α) (nn : NeuralNetwork α) (inputs : Mat α) :
    Option (Mat α × Mat α) := do
  let hidden ← matrixMultiply nn.weightsIH inputs
  let hidden ← matrixAdd hidden nn.biasH
  let hidden := matrixMap hidden (sigmoid M)
  let output ← matrixMultiply nn.weightsHO hidden
  let output ← matrixAdd output nn.biasO
  let output := matrixMap output (sigmoid M)
  pure (hidden, output)

/-- `predict(inputArray)`. -/
def NeuralNetwork.predict (M : JsMath α) (nn : NeuralNetwork α) (inputArray : List α) :
    Option (List α) := do
  let inputs := arrayToMatrix inputArray
  let fwd ← nn.forward M inputs
  matrixToArray fwd.2

/-- The momentum loop of `train`, first half: the matrix of the values
`delta = deltas[i][j] + momentum * prev[i][j]` for `i < w.length`, `j < w[i].length`. -/
def momentumDeltas (w deltas prev : Mat α) (momentum : α) : Option (Mat α) :=
  allSome ((List.range w.length).map fun i =>
    (w[i]?).bind fun row =>
      allSome ((List.range row.length).map fun j =>
        (entry deltas i j).bind fun d => (entry prev i j).map fun p => d + momentum * p))

/-- The momentum loop of `train`: `w[i][j] += delta`. -/
def applyDeltas (w ds : Mat α) : Mat α :=
  List.zipWith (fun row drow => List.zipWith (fun x d => x + d) row drow) w ds

/-- The momentum loop of `train`: `prev[i][j] = delta`; other entries of `prev` stay. -/
def storeDeltas (prev ds : Mat α) : Mat α :=
  List.zipWith (fun prow drow => drow ++ prow.drop drow.length) prev ds ++ prev.drop ds.length

/-- The return value of `train`:
`outputErrors.reduce((sum, row) => sum + Math.abs(row[0]), 0) / outputErrors.length`. -/
def meanAbsError (outputErrors : Mat α) : Option α :=
  (matrixToArray outputErrors).map fun errs =>
    errs.foldl (fun sum e => sum + |e|) 0 / (outputErrors.length : α)

/-- The local constants of the output-layer half of `train` and the fields it assigns. -/
structure OutputStage (α : Type) where
  outputErrors : Mat α
  gradients : Mat α
  weightsHODeltas : Mat α
  weightsHO : Mat α
  prevWeightsHO : Mat α
  biasO : Mat α
  rng : Rng α

/-- The output-layer half of `train`: from `const outputErrors = ...` to
`this.matrixAdd(this.biasO, gradients)`. -/
def NeuralNetwork.trainOutput (nn : NeuralNetwork α) (hidden outputs targets : Mat α)
    (rng : Rng α) : Option (OutputStage α) := do
  let outputErrors ← matrixSubtract targets outputs rng
  let gradients ← matrixMapNew outputs sigmoidDerivative outputErrors.2
  let gradients1 ← matrixMultiplyElement gradients.1 outputErrors.1
  let gradients2 ← matrixMultiplyScalar gradients1 nn.learningRate
  let hiddenT ← matrixTranspose hidden gradients.2
  let weightsHODeltas ← matrixMultiply gradients2 hiddenT.1
  let deltasHO ← momentumDeltas nn.weightsHO weightsHODeltas nn.prevWeightsHO nn.momentum
  let biasO ← matrixAdd nn.biasO gradients2
  pure
    { outputErrors := outputErrors.1, gradients := gradients2,
      weightsHODeltas := weightsHODeltas,
      weightsHO := applyDeltas nn.weightsHO deltasHO,
      prevWeightsHO := storeDeltas nn.prevWeightsHO deltasHO,
      biasO := biasO, rng := hiddenT.2 }

/-- The local constants of the hidden-layer half of `train` and the fields it assigns. -/
structure HiddenStage (α : Type) where
  weightsHOT : Mat α
  hiddenErrors : Mat α
  hiddenGradient : Mat α
  weightsIHDeltas : Mat α
  weightsIH : Mat α
  prevWeightsIH : Mat α
  biasH : Mat α
  rng : Rng α

/-- The hidden-layer half of `train`: from `const weightsHOT = ...` to
`this.matrixAdd(this.biasH, hiddenGradient)`.  `weightsHO` is the value of `this.weightsHO`
when `const weightsHOT = this.matrixTranspose(this.weightsHO)` is reached. -/
def NeuralNetwork.trainHidden (nn : NeuralNetwork α) (inputs hidden weightsHO outputErrors : Mat α)
    (rng : Rng α) : Option (HiddenStage α) := do
  let weightsHOT ← matrixTranspose weightsHO rng
  let hiddenErrors ← matrixMultiply weightsHOT.1 outputErrors
  let hiddenGradient ← matrixMapNew hidden sigmoidDerivative weightsHOT.2
  let hiddenGradient1 ← matrixMultiplyElement hiddenGradient.1 hiddenErrors
  let hiddenGradient2 ← matrixMultiplyScalar hiddenGradient1 nn.learningRate
  let inputsT ← matrixTranspose inputs hiddenGradient.2
  let weightsIHDeltas ← matrixMultiply hiddenGradient2 inputsT.1
  let deltasIH ← momentumDeltas nn.weightsIH weightsIHDeltas nn.prevWeightsIH nn.momentum
  let biasH ← matrixAdd nn.biasH hiddenGradient2
  pure
    { weightsHOT := weightsHOT.1, hiddenErrors := hiddenErrors,
      hiddenGradient := hiddenGradient2, weightsIHDeltas := weightsIHDeltas,
      weightsIH := applyDeltas nn.weightsIH deltasIH,
      prevWeightsIH := storeDeltas nn.prevWeightsIH deltasIH,
      biasH := biasH, rng := inputsT.2 }

/-- The local constants of one call of `train`, the network it leaves and what it returns. -/
structure TrainTrace (α : Type) where
  hidden : Mat α
  outputs : Mat α
  out : OutputStage α
  hid : HiddenStage α
  nn : NeuralNetwork α
  error : α

/-- The body of `train(inputArray, targetArray)`: forward propagation, the output-layer half
(which assigns `weightsHO`, `prevWeightsHO`, `biasO`), then the hidden-layer half, which reads
the `weightsHO` just assigned, and the returned mean absolute error. -/
def NeuralNetwork.trainTrace (M : JsMath α) (nn : NeuralNetwork α)
    (inputArray targetArray : List α) (rng : Rng α) : Option (TrainTrace α) := do
  let inputs := arrayToMatrix inputArray
  let fwd ← nn.forward M inputs
  let targets := arrayToMatrix targetArray
  let out ← nn.trainOutput fwd.1 fwd.2 targets rng
  let hid ← nn.trainHidden inputs fwd.1 out.weightsHO out.outputErrors out.rng
  let error ← meanAbsError out.outputErrors
  pure
    { hidden := fwd.1, outputs := fwd.2, out := out, hid := hid,
      nn := { nn with weightsIH := hid.weightsIH, weightsHO := out.weightsHO,
                      biasH := hid.biasH, biasO := out.biasO,
                      prevWeightsIH := hid.prevWeightsIH,
                      prevWeightsHO := out.prevWeightsHO },
      error := error }

/-- `train(inputArray, targetArray)`: the network after the call, the returned error and the
random stream left. -/
def NeuralNetwork.train (M : JsMath α) (nn : NeuralNetwork α)
    (inputArray targetArray : List α) (rng : Rng α) :
    Option (NeuralNetwork α × α × Rng α) :=
  (nn.trainTrace M inputArray targetArray rng).map fun t => (t.nn, t.error, t.hid.rng)

/-! ## The game state -/

/-- A direction record such as `ai.dashDirection`. -/
structure Vec2 (α : Type) where
  x : α
  y : α

/-- The fields of `this.player` that the AI reads or a restart assigns. -/
structure Player (α : Type) where
  x : α
  y : α
  targetX : α
  targetY : α
  radius : α
  vx : α
  vy : α

/-- The fields of `this.ai` (colour and trail left out). -/
structure Ai (α : Type) where
  x : α
  y : α
  vx : α
  vy : α
  radius : α
  speed : α
  baseSpeed : α
  isDashing : Bool
  isDashWindup : Bool
  dashTime : α
  dashWindupTime : α
  dashDirection : Vec2 α
  dashStartX : α
  dashStartY : α
  dashTargetX : α
  dashTargetY : α
  dashDistanceRemaining : α
  isSpeedBoosted : Bool
  speedBoostTime : α
  isBeamWindup : Bool
  beamWindupTime : α
  beamDirection : Vec2 α

/-- The record `abilities.projectile`. -/
structure ProjectileAbility (α : Type) where
  cooldown : α
  lastUsed : α
  range : α

/-- The record `abilities.dash`. -/
structure DashAbility (α : Type) where
  cooldown : α
  lastUsed : α
  windupDuration : α
  dashDistance : α
  dashSpeed : α

/-- The record `abilities.speedBoost`. -/
structure SpeedBoostAbility (α : Type) where
  cooldown : α
  lastUsed : α
  duration : α
  multiplier : α

/-- The record `abilities.slowProjectile`. -/
structure SlowProjectileAbility (α : Type) where
  cooldown : α
  lastUsed : α
  range : α
  speed : α
  windupDuration : α
  beamWidth : α
  inaccuracyAngle : α

/-- The record `this.abilities`. -/
structure Abilities (α : Type) where
  projectile : ProjectileAbility α
  dash : DashAbility α
  speedBoost : SpeedBoostAbility α
  slowProjectile : SlowProjectileAbility α

/-- An AI `Projectile` (colour and trail left out). -/
structure Projectile (α : Type) where
  x : α
  y : α
  radius : α
  speed : α
  life : α
  maxLife : α
  vx : α
  vy : α

/-- An AI beam, a `PlayerBeam` object (colour and the derived end point left out). -/
structure Beam (α : Type) where
  startX : α
  startY : α
  directionX : α
  directionY : α
  width : α
  canvasWidth : α
  canvasHeight : α

/-- An element of `trainingData`. -/
structure Sample (α : Type) where
  inputs : List α
  targets : List α

/-- The fields of the `Game` object that the AI controller reads or writes. -/
structure Game (α : Type) where
  canvasWidth : α
  canvasHeight : α
  isRunning : Bool
  isPaused : Bool
  score : α
  aiAccuracy : α
  timerMaxDuration : α
  player : Player α
  ai : Ai α
  abilities : Abilities α
  projectiles : List (Projectile α)
  aiBeams : List (Beam α)
  nn : NeuralNetwork α
  trainingData : List (Sample α)
  maxTrainingData : Nat

/-- The readings of `Date.now()` during one call of `updateAI`, one per call site. -/
structure Clock (α : Type) where
  updateAI : α
  getNeuralNetworkInputs : α
  useProjectile : α
  useDash : α
  useSpeedBoost : α
  useSlowProjectile : α

/-- The value of `this.abilities` that the `Game` constructor assigns. -/
def Abilities.initial : Abilities α :=
  { projectile := { cooldown := 3000, lastUsed := 0, range := 300 },
    dash := { cooldown := 6000, lastUsed := 0, windupDuration := 1500, dashDistance := 200,
              dashSpeed := 8 },
    speedBoost := { cooldown := 6000, lastUsed := 0, duration := 3000, multiplier := 2.0 },
    slowProjectile := { cooldown := 4000, lastUsed := 0, range := 300, speed := 4,
                        windupDuration := 2000, beamWidth := 6, inaccuracyAngle := 0.2 } }

/-- The state that the `Game` constructor builds on a canvas of the given size; the network is
drawn from the random source. -/
def Game.new (width height : α) (rng : Rng α) : Game α :=
  { canvasWidth := width, canvasHeight := height,
    isRunning := false, isPaused := false, score := 0, aiAccuracy := 0,
    timerMaxDuration := 30,
    player := { x := 100, y := height - 100, targetX := 100, targetY := height - 100,
                radius := 15, vx := 0, vy := 0 },
    ai := { x := width - 100, y := 100, vx := 0, vy := 0, radius := 15,
            speed := 1.125, baseSpeed := 1.125,
            isDashing := false, isDashWindup := false, dashTime := 0, dashWindupTime := 0,
            dashDirection := { x := 0, y := 0 }, dashStartX := 0, dashStartY := 0,
            dashTargetX := 0, dashTargetY := 0, dashDistanceRemaining := 0,
            isSpeedBoosted := false, speedBoostTime := 0,
            isBeamWindup := false, beamWindupTime := 0, beamDirection := { x := 0, y := 0 } },
    abilities := Abilities.initial,
    projectiles := [], aiBeams := [],
    nn := (NeuralNetwork.new 8 16 4 rng).1,
    trainingData := [], maxTrainingData := 100 }

/-! ## Ability registry -/

/-- The object literal `unlockMap` of `isAbilityUnlocked`. -/
def unlockMap : List (String × α) :=
  [("dash", 64 / 496), ("speedBoost", 136 / 496), ("slowProjectile", 208 / 496)]

/-- `isAbilityUnlocked(abilityKey)`. -/
def Game.isAbilityUnlocked (g : Game α) (abilityKey : String) : Bool :=
  if abilityKey = "projectile" then true
  else
    let progress := min 1 (g.score / g.timerMaxDuration)
    match (unlockMap : List (String × α)).lookup abilityKey with
    | none => false
    | some threshold => decide (progress ≥ threshold)

/-- The test `(currentTime - ability.lastUsed) >= ability.cooldown` that `updateAI` and
`getNeuralNetworkInputs` make for each ability. -/
def readyAt (currentTime lastUsed cooldown : α) : Bool :=
  decide (currentTime - lastUsed ≥ cooldown)

/-- The conversion `ready ? 1 : 0`. -/
def readyFlag (ready : Bool) : α := if ready then 1 else 0

/-- `getNeuralNetworkInputs()`; `currentTime` is its own reading of `Date.now()`. -/
def Game.getNeuralNetworkInputs (g : Game α) (currentTime : α) : List α :=
  [ g.player.x / g.canvasWidth,
    g.player.y / g.canvasHeight,
    g.player.vx / 10,
    g.player.vy / 10,
    g.ai.x / g.canvasWidth,
    g.ai.y / g.canvasHeight,
    readyFlag (readyAt currentTime g.abilities.projectile.lastUsed g.abilities.projectile.cooldown),
    readyFlag (readyAt currentTime g.abilities.dash.lastUsed g.abilities.dash.cooldown) ]

/-! ## Using abilities -/

/-- The constructor `new Projectile(x, y, targetX, targetY)` with the default `speed = 8`. -/
def Projectile.new (M : JsMath α) (x y targetX targetY : α) : Projectile α :=
  { x := x, y := y, radius := 8, speed := 8, life := 1.0, maxLife := 3.0,
    vx := (targetX - x) / M.hypot (targetX - x) (targetY - y) * 8,
    vy := (targetY - y) / M.hypot (targetX - x) (targetY - y) * 8 }

/-- `useProjectile()`: eight muzzle particles take three draws each. -/
def Game.useProjectile (M : JsMath α) (g : Game α) (currentTime : α) (rng : Rng α) :
    Game α × Rng α :=
  ({ g with
      abilities := { g.abilities with
        projectile := { g.abilities.projectile with lastUsed := currentTime } },
      projectiles := g.projectiles ++
        [Projectile.new M g.ai.x g.ai.y (g.player.x + g.player.vx * 20)
          (g.player.y + g.player.vy * 20)] },
   rng.skip 24)

/-- The direction that `useDash(dirX, dirY)` stores in `ai.dashDirection`. -/
def Game.dashDirectionFor (M : JsMath α) (g : Game α) (dirX dirY : α) : Vec2 α :=
  if M.hypot dirX dirY > 0 then
    { x := dirX / M.hypot dirX dirY, y := dirY / M.hypot dirX dirY }
  else
    { x := (g.player.x - g.ai.x) / M.hypot (g.player.x - g.ai.x) (g.player.y - g.ai.y),
      y := (g.player.y - g.ai.y) / M.hypot (g.player.x - g.ai.x) (g.player.y - g.ai.y) }

/-- `useDash(dirX, dirY)`. -/
def Game.useDash (M : JsMath α) (g : Game α) (dirX dirY currentTime : α) : Game α :=
  { g with
    abilities := { g.abilities with dash := { g.abilities.dash with lastUsed := currentTime } },
    ai := { g.ai with
      isDashWindup := true,
      dashWindupTime := g.abilities.dash.windupDuration,
      dashStartX := g.ai.x,
      dashStartY := g.ai.y,
      dashDirection := g.dashDirectionFor M dirX dirY,
      dashTargetX := g.ai.x + (g.dashDirectionFor M dirX dirY).x * g.abilities.dash.dashDistance,
      dashTargetY := g.ai.y + (g.dashDirectionFor M dirX dirY).y * g.abilities.dash.dashDistance } }

/-- `useSpeedBoost()`: ten particles take five draws each. -/
def Game.useSpeedBoost (g : Game α) (currentTime : α) (rng : Rng α) : Game α × Rng α :=
  ({ g with
      abilities := { g.abilities with
        speedBoost := { g.abilities.speedBoost with lastUsed := currentTime } },
      ai := { g.ai with
        isSpeedBoosted := true,
        speedBoostTime := g.abilities.speedBoost.duration,
        speed := g.ai.baseSpeed * g.abilities.speedBoost.multiplier } },
   rng.skip 50)

/-- The aim that the beam code computes: towards the player position predicted 15 ticks ahead,
turned by `(Math.random() - 0.5) * inaccuracyAngle`; `none` when that position is the AI's own
(`dist > 0` fails) and no value is drawn. -/
def Game.aimAtPlayer (M : JsMath α) (g : Game α) (rng : Rng α) : Option (Vec2 α) :=
  if M.hypot (g.player.x + g.player.vx * 15 - g.ai.x) (g.player.y + g.player.vy * 15 - g.ai.y) > 0
  then
    some
      { x := M.cos (M.atan2 (g.player.y + g.player.vy * 15 - g.ai.y)
                (g.player.x + g.player.vx * 15 - g.ai.x)
              + (rng 0 - 0.5) * g.abilities.slowProjectile.inaccuracyAngle),
        y := M.sin (M.atan2 (g.player.y + g.player.vy * 15 - g.ai.y)
                (g.player.x + g.player.vx * 15 - g.ai.x)
              + (rng 0 - 0.5) * g.abilities.slowProjectile.inaccuracyAngle) }
  else none

/-- `useSlowProjectile()`. -/
def Game.useSlowProjectile (M : JsMath α) (g : Game α) (currentTime : α) (rng : Rng α) :
    Game α × Rng α :=
  match g.aimAtPlayer M rng with
  | some dir =>
    ({ g with
        abilities := { g.abilities with
          slowProjectile := { g.abilities.slowProjectile with lastUsed := currentTime } },
        ai := { g.ai with
          isBeamWindup := true,
          beamWindupTime := g.abilities.slowProjectile.windupDuration,
          beamDirection := dir } },
     rng.skip 1)
  | none =>
    ({ g with
        abilities := { g.abilities with
          slowProjectile := { g.abilities.slowProjectile with lastUsed := currentTime } },
        ai := { g.ai with
          isBeamWindup := true,
          beamWindupTime := g.abilities.slowProjectile.windupDuration,
          beamDirection := { x := 1, y := 0 } } },
     rng)

/-! ## `updateAI` -/

/-- The block "Handle speed boost duration" of `updateAI`. -/
def Game.speedBoostCountdown (g : Game α) : Game α :=
  if g.ai.isSpeedBoosted then
    if g.ai.speedBoostTime - 16 ≤ 0 then
      { g with ai := { g.ai with speedBoostTime := g.ai.speedBoostTime - 16,
                                 isSpeedBoosted := false, speed := g.ai.baseSpeed } }
    else { g with ai := { g.ai with speedBoostTime := g.ai.speedBoostTime - 16 } }
  else g

/-- Beam windup, first part: the timer loses 16 and the velocity is zeroed. -/
def Game.beamCharge (g : Game α) : Game α :=
  { g with ai := { g.ai with beamWindupTime := g.ai.beamWindupTime - 16, vx := 0, vy := 0 } }

/-- Beam windup, second part: `directionLocked = windupProgress >= 0.5`; while it is false the
beam direction is aimed at the player again. -/
def Game.beamTrack (M : JsMath α) (g : Game α) (rng : Rng α) : Game α × Rng α :=
  if 1 - g.ai.beamWindupTime / g.abilities.slowProjectile.windupDuration ≥ 0.5 then (g, rng)
  else
    match g.aimAtPlayer M rng with
    | some dir => ({ g with ai := { g.ai with beamDirection := dir } }, rng.skip 1)
    | none => (g, rng)

/-- Beam windup, third part: when the timer is `<= 0` the beam is fired along
`ai.beamDirection`; twenty muzzle particles take three draws each. -/
def Game.beamFire (g : Game α) (rng : Rng α) : Game α × Rng α :=
  if g.ai.beamWindupTime ≤ 0 then
    ({ g with
        ai := { g.ai with isBeamWindup := false },
        aiBeams := g.aiBeams ++
          [{ startX := g.ai.x, startY := g.ai.y,
             directionX := g.ai.beamDirection.x, directionY := g.ai.beamDirection.y,
             width := g.abilities.slowProjectile.beamWidth,
             canvasWidth := g.canvasWidth, canvasHeight := g.canvasHeight }] },
     rng.skip 60)
  else (g, rng)

/-- The block `if (this.ai.isBeamWindup) { ... }` of `updateAI`. -/
def Game.beamWindupStep (M : JsMath α) (g : Game α) (rng : Rng α) : Game α × Rng α :=
  if g.ai.isBeamWindup then
    (g.beamCharge.beamTrack M rng).1.beamFire (g.beamCharge.beamTrack M rng).2
  else (g, rng)

/-- The branch `if (this.ai.isDashWindup) { ... }` of `updateAI`. -/
def Game.dashWindupStep (g : Game α) : Game α :=
  if g.ai.dashWindupTime - 16 ≤ 0 then
    { g with ai := { g.ai with
        dashWindupTime := g.ai.dashWindupTime - 16,
        isDashWindup := false,
        isDashing := true,
        dashStartX := g.ai.x,
        dashStartY := g.ai.y,
        dashDistanceRemaining := g.abilities.dash.dashDistance,
        dashTargetX := g.ai.x + g.ai.dashDirection.x * g.abilities.dash.dashDistance,
        dashTargetY := g.ai.y + g.ai.dashDirection.y * g.abilities.dash.dashDistance,
        vx := g.ai.dashDirection.x * g.abilities.dash.dashSpeed,
        vy := g.ai.dashDirection.y * g.abilities.dash.dashSpeed } }
  else
    { g with ai := { g.ai with dashWindupTime := g.ai.dashWindupTime - 16, vx := 0, vy := 0 } }

/-- The branch `else if (this.ai.isDashing) { ... }` of `updateAI`; five dash particles take
five draws each. -/
def Game.dashingStep (M : JsMath α) (g : Game α) (rng : Rng α) : Game α × Rng α :=
  if M.hypot (g.ai.dashTargetX - g.ai.x) (g.ai.dashTargetY - g.ai.y) < 5
      ∨ g.ai.dashDistanceRemaining ≤ 0 then
    ({ g with ai := { g.ai with x := g.ai.dashTargetX, y := g.ai.dashTargetY,
                                isDashing := false, vx := 0, vy := 0 } }, rng)
  else
    ({ g with ai := { g.ai with
        dashDistanceRemaining := g.ai.dashDistanceRemaining - M.hypot g.ai.vx g.ai.vy } },
     rng.skip 25)

/-- What `updateAI` computes before it touches the AI: the four cooldown tests and the
actions decoded from the network outputs. -/
structure Decision (α : Type) where
  projectileReady : Bool
  dashReady : Bool
  speedBoostReady : Bool
  slowProjectileReady : Bool
  moveX : α
  moveY : α
  useProjectile : Bool
  useDash : Bool

/-- Normal movement: `ai.vx = moveX * currentSpeed`, `ai.vy = moveY * currentSpeed`. -/
def Game.steer (g : Game α) (d : Decision α) : Game α :=
  { g with ai := { g.ai with vx := d.moveX * g.ai.speed, vy := d.moveY * g.ai.speed } }

/-- The statement `if (useProjectile && projectileReady && ...) this.useProjectile()`. -/
def Game.tryProjectile (M : JsMath α) (g : Game α) (d : Decision α) (clock : Clock α)
    (rng : Rng α) : Game α × Rng α :=
  if d.useProjectile && d.projectileReady && g.isAbilityUnlocked "projectile" then
    g.useProjectile M clock.useProjectile rng
  else (g, rng)

/-- The statement `if (useDash && dashReady && !isDashing && !isDashWindup && ...)
this.useDash(moveX, moveY)`. -/
def Game.tryDash (M : JsMath α) (g : Game α) (d : Decision α) (clock : Clock α) : Game α :=
  if d.useDash && d.dashReady && !g.ai.isDashing && !g.ai.isDashWindup
      && g.isAbilityUnlocked "dash" then
    g.useDash M d.moveX d.moveY clock.useDash
  else g

/-- The statement `if (speedBoostReady && !isSpeedBoosted && distToPlayer > 200 && ...)
this.useSpeedBoost()`. -/
def Game.trySpeedBoost (g : Game α) (d : Decision α) (distToPlayer : α) (clock : Clock α)
    (rng : Rng α) : Game α × Rng α :=
  if d.speedBoostReady && !g.ai.isSpeedBoosted && decide (distToPlayer > 200)
      && g.isAbilityUnlocked "speedBoost" then
    g.useSpeedBoost clock.useSpeedBoost rng
  else (g, rng)

/-- The statement `if (slowProjectileReady && !projectileReady && !isBeamWindup &&
distToPlayer < range && ...) this.useSlowProjectile()`. -/
def Game.trySlowProjectile (M : JsMath α) (g : Game α) (d : Decision α) (distToPlayer : α)
    (clock : Clock α) (rng : Rng α) : Game α × Rng α :=
  if d.slowProjectileReady && !d.projectileReady && !g.ai.isBeamWindup
      && decide (distToPlayer < g.abilities.slowProjectile.range)
      && g.isAbilityUnlocked "slowProjectile" then
    g.useSlowProjectile M clock.useSlowProjectile rng
  else (g, rng)

/-- The distance `distToPlayer = Math.hypot(player.x - ai.x, player.y - ai.y)`. -/
def Game.distToPlayer (M : JsMath α) (g : Game α) : α :=
  M.hypot (g.player.x - g.ai.x) (g.player.y - g.ai.y)

/-- The final `else { ... }` branch of `updateAI` up to the speed-boost trigger: normal
movement, then the projectile, dash and speed-boost triggers in this order. -/
def Game.normalStepBeforeBeam (M : JsMath α) (g : Game α) (d : Decision α) (clock : Clock α)
    (rng : Rng α) : Game α × Rng α :=
  (((g.steer d).tryProjectile M d clock rng).1.tryDash M d clock).trySpeedBoost d
    (g.distToPlayer M) clock ((g.steer d).tryProjectile M d clock rng).2

/-- The final `else { ... }` branch of `updateAI`: normal movement and the four ability
triggers.  `distToPlayer` is computed once, before the triggers. -/
def Game.normalStep (M : JsMath α) (g : Game α) (d : Decision α) (clock : Clock α)
    (rng : Rng α) : Game α × Rng α :=
  (g.normalStepBeforeBeam M d clock rng).1.trySlowProjectile M d (g.distToPlayer M) clock
    (g.normalStepBeforeBeam M d clock rng).2

/-- The chain `if (isDashWindup) ... else if (isDashing) ... else ...` of `updateAI`. -/
def Game.dashOrNormalStep (M : JsMath α) (g : Game α) (d : Decision α) (clock : Clock α)
    (rng : Rng α) : Game α × Rng α :=
  if g.ai.isDashWindup then (g.dashWindupStep, rng)
  else if g.ai.isDashing then g.dashingStep M rng
  else g.normalStep M d clock rng

/-- Position integration and "Keep AI in bounds". -/
def Game.moveAi (g : Game α) : Game α :=
  { g with ai := { g.ai with
      x := max g.ai.radius (min (g.canvasWidth - g.ai.radius) (g.ai.x + g.ai.vx)),
      y := max g.ai.radius (min (g.canvasHeight - g.ai.radius) (g.ai.y + g.ai.vy)) } }

/-- The draws of the block "Create particles": one for the test `Math.random() < 0.3`, three
more for the particle when it is created. -/
def aiParticleDraws (rng : Rng α) : Rng α :=
  if rng 0 < 0.3 then rng.skip 4 else rng.skip 1

/-- The array `targets` that `updateAI` pushes: the heuristic teacher signal. -/
def Game.heuristicTargets (M : JsMath α) (g : Game α) : List α :=
  [ (min 1 (max (-1) ((g.player.x + g.player.vx * 15 - g.ai.x) / 100)) + 1) / 2,
    (min 1 (max (-1) ((g.player.y + g.player.vy * 15 - g.ai.y) / 100)) + 1) / 2,
    if g.distToPlayer M < g.abilities.projectile.range ∧ g.distToPlayer M > 50 then 0.9 else 0.1,
    if g.distToPlayer M > 150 ∧ g.distToPlayer M < 250 then 0.9 else 0.1 ]

/-- The buffer update `trainingData.push(sample); if (trainingData.length > maxTrainingData)
trainingData.shift()`. -/
def pushSample {β : Type} (trainingData : List β) (maxTrainingData : Nat) (sample : β) : List β :=
  if (trainingData ++ [sample]).length > maxTrainingData then (trainingData ++ [sample]).tail
  else trainingData ++ [sample]

/-- The block "Collect training data" of `updateAI`; `inputs` is the array computed at the
start of the tick. -/
def Game.collectTrainingData (M : JsMath α) (g : Game α) (inputs : List α) : Game α :=
  { g with trainingData :=
      pushSample g.trainingData g.maxTrainingData (Sample.mk inputs (g.heuristicTargets M)) }

/-- The callback of `Array.from({ length: sampleSize }, (_, i) => ...)`, run for the indices
in the list: `train` on `trainingData[trainingData.length - 1 - i]`; returns the network, the
errors in call order and the random stream left. -/
def trainSamples (M : JsMath α) (trainingData : List (Sample α)) :
    List Nat → NeuralNetwork α → Rng α → Option (NeuralNetwork α × List α × Rng α)
  | [], nn, rng => some (nn, [], rng)
  | i :: rest, nn, rng =>
    (trainingData[trainingData.length - 1 - i]?).bind fun data =>
      (nn.train M data.inputs data.targets rng).bind fun r =>
        (trainSamples M trainingData rest r.1 r.2.2).map fun r' =>
          (r'.1, r.2.1 :: r'.2.1, r'.2.2)

/-- The accuracy formula `Math.max(0, Math.min(100, 100 - (totalError / sampleSize) * 150))`. -/
def accuracyOf (totalError : α) (sampleSize : Nat) : α :=
  max 0 (min 100 (100 - totalError / (sampleSize : α) * 150))

/-- The block "Train the network periodically" of `updateAI`. -/
def Game.trainPeriodically (M : JsMath α) (g : Game α) (rng : Rng α) :
    Option (Game α × Rng α) :=
  if g.trainingData.length > 15 then
    if rng 0 < 0.08 then
      (trainSamples M g.trainingData (List.range (min 8 g.trainingData.length)) g.nn
          (rng.skip 1)).map fun r =>
        ({ g with nn := r.1,
                  aiAccuracy := accuracyOf (r.2.1.foldl (fun sum err => sum + err) 0)
                    (min 8 g.trainingData.length) }, r.2.2)
    else some (g, rng.skip 1)
  else some (g, rng)

/-- The constants that `updateAI` computes from the clock and from the network outputs. -/
def Game.decision (g : Game α) (currentTime : α) (o0 o1 o2 o3 : α) : Decision α :=
  { projectileReady :=
      readyAt currentTime g.abilities.projectile.lastUsed g.abilities.projectile.cooldown,
    dashReady := readyAt currentTime g.abilities.dash.lastUsed g.abilities.dash.cooldown,
    speedBoostReady :=
      readyAt currentTime g.abilities.speedBoost.lastUsed g.abilities.speedBoost.cooldown,
    slowProjectileReady :=
      readyAt currentTime g.abilities.slowProjectile.lastUsed g.abilities.slowProjectile.cooldown,
    moveX := (o0 - 0.5) * 2,
    moveY := (o1 - 0.5) * 2,
    useProjectile := decide (o2 > 0.7),
    useDash := decide (o3 > 0.8) }

/-- The part of `updateAI` that acts on the decision: the beam windup block, the dash chain,
the position update and the particle draws. -/
def Game.act (M : JsMath α) (g : Game α) (d : Decision α) (clock : Clock α) (rng : Rng α) :
    Game α × Rng α :=
  (((g.beamWindupStep M rng).1.dashOrNormalStep M d clock (g.beamWindupStep M rng).2).1.moveAi,
   aiParticleDraws ((g.beamWindupStep M rng).1.dashOrNormalStep M d clock
     (g.beamWindupStep M rng).2).2)

/-- `updateAI()`.  The cooldown tests read the abilities as they are on entry; `inputs` is
computed after the speed-boost countdown and before anything moves. -/
def Game.updateAI (M : JsMath α) (g : Game α) (clock : Clock α) (rng : Rng α) :
    Option (Game α × Rng α) :=
  (g.speedBoostCountdown.nn.predict M
      (g.speedBoostCountdown.getNeuralNetworkInputs clock.getNeuralNetworkInputs)).bind
    fun outputs =>
  (outputs[0]?).bind fun o0 =>
  (outputs[1]?).bind fun o1 =>
  (outputs[2]?).bind fun o2 =>
  (outputs[3]?).bind fun o3 =>
    ((g.speedBoostCountdown.act M (g.decision clock.updateAI o0 o1 o2 o3) clock rng).1.collectTrainingData
        M (g.speedBoostCountdown.getNeuralNetworkInputs clock.getNeuralNetworkInputs)).trainPeriodically
      M (g.speedBoostCountdown.act M (g.decision clock.updateAI o0 o1 o2 o3) clock rng).2

/-! ## Match lifecycle -/

/-- The assignments to `this.ai` shared by `resetToInitialState()` and `start()`. -/
def Game.resetAi (g : Game α) : Ai α :=
  { g.ai with
    x := g.canvasWidth - 100, y := 100,
    isDashing := false, isDashWindup := false, dashTime := 0, dashWindupTime := 0,
    dashDistanceRemaining := 0, dashStartX := 0, dashStartY := 0,
    dashTargetX := 0, dashTargetY := 0,
    isSpeedBoosted := false, speedBoostTime := 0, speed := g.ai.baseSpeed,
    isBeamWindup := false, beamWindupTime := 0 }

/-- The block "Reset abilities": every `lastUsed` becomes 0. -/
def Abilities.resetLastUsed (a : Abilities α) : Abilities α :=
  { projectile := { a.projectile with lastUsed := 0 },
    dash := { a.dash with lastUsed := 0 },
    speedBoost := { a.speedBoost with lastUsed := 0 },
    slowProjectile := { a.slowProjectile with lastUsed := 0 } }

/-- `resetToInitialState()`. -/
def Game.resetToInitialState (g : Game α) : Game α :=
  { g with
    isPaused := false, isRunning := false, score := 0, aiAccuracy := 0, trainingData := [],
    player := { g.player with x := 100, y := g.canvasHeight - 100, targetX := 100,
                              targetY := g.canvasHeight - 100, vx := 0, vy := 0 },
    ai := g.resetAi,
    abilities := g.abilities.resetLastUsed,
    projectiles := [], aiBeams := [] }

/-- `start()`, the second definition in the class body, the one in force. -/
def Game.start (g : Game α) : Game α :=
  { g with
    isRunning := true, isPaused := false, score := 0, aiAccuracy := 0, trainingData := [],
    player := { g.player with x := 100, y := g.canvasHeight - 100, targetX := 100,
                              targetY := g.canvasHeight - 100 },
    ai := g.resetAi,
    abilities := g.abilities.resetLastUsed,
    projectiles := [] }

/-- `gameOver(reason)`. -/
def Game.gameOver (g : Game α) : Game α :=
  { g with isPaused := true, isRunning := false }

/-- What one frame receives from outside the controller: the player state left by
`updatePlayer`, whether the hover activation completed, whether `updateProjectiles` or
`checkCollision` ended the match, the clock readings, the random stream and `deltaTime`. -/
structure Frame (α : Type) where
  player : Player α
  hoverComplete : Bool
  collision : Bool
  clock : Clock α
  rng : Rng α
  deltaTime : α

/-- The running branch of `update(deltaTime)` when no collision ends the match: the player
state is the one left by `updatePlayer`, then `updateAI()`, then `score += deltaTime`. -/
def Game.tick (M : JsMath α) (g : Game α) (f : Frame α) : Option (Game α) :=
  (Game.updateAI M { g with player := f.player } f.clock f.rng).map fun r =>
    { r.1 with score := r.1.score + f.deltaTime }

/-- `update(deltaTime)`.  Player kinematics and collision detection are supplied by the frame;
the projectile, particle and interface updates are left out. -/
def Game.update (M : JsMath α) (g : Game α) (f : Frame α) : Option (Game α) :=
  if !g.isRunning || g.isPaused then
    if !g.isRunning && !g.isPaused && f.hoverComplete then some g.start else some g
  else
    (g.tick M f).map fun g' => if f.collision then g'.gameOver else g'

/-- Run `update` over a list of frames, oldest first. -/
def Game.run (M : JsMath α) (g : Game α) : List (Frame α) → Option (Game α)
  | [] => some g
  | f :: rest => (g.update M f).bind fun g' => Game.run M g' rest

/-- Run `tick` over a list of frames, oldest first. -/
def Game.ticks (M : JsMath α) (g : Game α) : List (Frame α) → Option (Game α)
  | [] => some g
  | f :: rest => (g.tick M f).bind fun g' => Game.ticks M g' rest

/-! ## Shapes -/

/-- The matrix has `rows` rows, each of length `cols`. -/
def HasShape (m : Mat α) (rows cols : Nat) : Prop :=
  m.length = rows ∧ ∀ row ∈ m, row.length = cols

/-- The matrices of the network have the sizes that the constructor gives them, and the input
and hidden layers are not empty. -/
structure NeuralNetwork.WellShaped (nn : NeuralNetwork α) : Prop where
  inputPos : 0 < nn.inputSize
  hiddenPos : 0 < nn.hiddenSize
  weightsIH : HasShape nn.weightsIH nn.hiddenSize nn.inputSize
  weightsHO : HasShape nn.weightsHO nn.outputSize nn.hiddenSize
  biasH : HasShape nn.biasH nn.hiddenSize 1
  biasO : HasShape nn.biasO nn.outputSize 1
  prevWeightsIH : HasShape nn.prevWeightsIH nn.hiddenSize nn.inputSize
  prevWeightsHO : HasShape nn.prevWeightsHO nn.outputSize nn.hiddenSize

/-- The entry `m[i][j]` of a matrix known to hold it (0 otherwise). -/
def entryD (m : Mat α) (i j : Nat) : α := (m.getD i []).getD j 0

/-- The `rows × cols` matrix with entries `f i j`. -/
def tabulate (rows cols : Nat) (f : Nat → Nat → α) : Mat α :=
  (List.range rows).map fun i => (List.range cols).map fun j => f i j

/-- The sum `a[i][0] * b[0][j] + ... + a[i][n-1] * b[n-1][j]`, accumulated from 0 as
`matrixMultiply` does. -/
def dotD (a b : Mat α) (n i j : Nat) : α :=
  ((List.range n).map fun k => entryD a i k * entryD b k j).foldl (· + ·) 0

/-- The hidden activations: `sigmoid(weightsIH * inputs + biasH)`. -/
def NeuralNetwork.hiddenOf (M : JsMath α) (nn : NeuralNetwork α) (inputs : Mat α) : Mat α :=
  tabulate nn.hiddenSize 1 fun i j =>
    sigmoid M (dotD nn.weightsIH inputs nn.inputSize i j + entryD nn.biasH i j)

/-- The output activations: `sigmoid(weightsHO * hidden + biasO)`. -/
def NeuralNetwork.outputsOf (M : JsMath α) (nn : NeuralNetwork α) (inputs : Mat α) : Mat α :=
  tabulate nn.outputSize 1 fun i j =>
    sigmoid M (dotD nn.weightsHO (nn.hiddenOf M inputs) nn.hiddenSize i j + entryD nn.biasO i j)

/-- The error matrix `targets - outputs` (a column of `n` entries). -/
def outputErrorsOf (targets outputs : Mat α) (n : Nat) : Mat α :=
  tabulate n 1 fun i j => entryD targets i j - entryD outputs i j

/-- The gradient column `sigmoidDerivative(activation) * error * learningRate`. -/
def gradientOf (learningRate : α) (activations errors : Mat α) (n : Nat) : Mat α :=
  tabulate n 1 fun i j =>
    sigmoidDerivative (entryD activations i j) * entryD errors i j * learningRate

/-- The weight deltas `gradient * activationsᵀ`: entry `(i, j)` is the one-term sum
`0 + gradient[i][0] * activations[j][0]`. -/
def weightDeltasOf (gradient activations : Mat α) (rows cols : Nat) : Mat α :=
  tabulate rows cols fun i j => 0 + entryD gradient i 0 * entryD activations j 0

/-- The deltas with momentum: `deltas[i][j] + momentum * prev[i][j]`. -/
def momentumOf (momentum : α) (deltas prev : Mat α) (rows cols : Nat) : Mat α :=
  tabulate rows cols fun i j => entryD deltas i j + momentum * entryD prev i j

/-- The entrywise sum of two `rows × cols` matrices. -/
def addOf (a b : Mat α) (rows cols : Nat) : Mat α :=
  tabulate rows cols fun i j => entryD a i j + entryD b i j

/-- The transpose of a `rows × cols` matrix. -/
def transposeOf (m : Mat α) (rows cols : Nat) : Mat α :=
  tabulate cols rows fun j i => entryD m i j

/-- The product of an `r × n` and an `n × c` matrix. -/
def mulOf (a b : Mat α) (r n c : Nat) : Mat α :=
  tabulate r c fun i j => dotD a b n i j

/-- What the output-layer half of `train` computes on a well-shaped network, in closed form. -/
def NeuralNetwork.outputStageOf (nn : NeuralNetwork α) (hidden outputs targets : Mat α)
    (rng : Rng α) : OutputStage α :=
  { outputErrors := outputErrorsOf targets outputs nn.outputSize,
    gradients := gradientOf nn.learningRate outputs
      (outputErrorsOf targets outputs nn.outputSize) nn.outputSize,
    weightsHODeltas := weightDeltasOf
      (gradientOf nn.learningRate outputs (outputErrorsOf targets outputs nn.outputSize)
        nn.outputSize) hidden nn.outputSize nn.hiddenSize,
    weightsHO := addOf nn.weightsHO
      (momentumOf nn.momentum
        (weightDeltasOf
          (gradientOf nn.learningRate outputs (outputErrorsOf targets outputs nn.outputSize)
            nn.outputSize) hidden nn.outputSize nn.hiddenSize)
        nn.prevWeightsHO nn.outputSize nn.hiddenSize) nn.outputSize nn.hiddenSize,
    prevWeightsHO := momentumOf nn.momentum
        (weightDeltasOf
          (gradientOf nn.learningRate outputs (outputErrorsOf targets outputs nn.outputSize)
            nn.outputSize) hidden nn.outputSize nn.hiddenSize)
        nn.prevWeightsHO nn.outputSize nn.hiddenSize,
    biasO := addOf nn.biasO
      (gradientOf nn.learningRate outputs (outputErrorsOf targets outputs nn.outputSize)
        nn.outputSize) nn.outputSize 1,
    rng := ((rng.skip (nn.outputSize * 1)).skip (nn.outputSize * 1)).skip (1 * nn.hiddenSize) }

/-- What the hidden-layer half of `train` computes on a well-shaped network, in closed form;
`weightsHO` is the matrix that the transpose reads. -/
def NeuralNetwork.hiddenStageOf (nn : NeuralNetwork α) (inputs hidden weightsHO outputErrors : Mat α)
    (rng : Rng α) : HiddenStage α :=
  { weightsHOT := transposeOf weightsHO nn.outputSize nn.hiddenSize,
    hiddenErrors := mulOf (transposeOf weightsHO nn.outputSize nn.hiddenSize) outputErrors
      nn.hiddenSize nn.outputSize 1,
    hiddenGradient := gradientOf nn.learningRate hidden
      (mulOf (transposeOf weightsHO nn.outputSize nn.hiddenSize) outputErrors
        nn.hiddenSize nn.outputSize 1) nn.hiddenSize,
    weightsIHDeltas := weightDeltasOf
      (gradientOf nn.learningRate hidden
        (mulOf (transposeOf weightsHO nn.outputSize nn.hiddenSize) outputErrors
          nn.hiddenSize nn.outputSize 1) nn.hiddenSize) inputs nn.hiddenSize nn.inputSize,
    weightsIH := addOf nn.weightsIH
      (momentumOf nn.momentum
        (weightDeltasOf
          (gradientOf nn.learningRate hidden
            (mulOf (transposeOf weightsHO nn.outputSize nn.hiddenSize) outputErrors
              nn.hiddenSize nn.outputSize 1) nn.hiddenSize) inputs nn.hiddenSize nn.inputSize)
        nn.prevWeightsIH nn.hiddenSize nn.inputSize) nn.hiddenSize nn.inputSize,
    prevWeightsIH := momentumOf nn.momentum
        (weightDeltasOf
          (gradientOf nn.learningRate hidden
            (mulOf (transposeOf weightsHO nn.outputSize nn.hiddenSize) outputErrors
              nn.hiddenSize nn.outputSize 1) nn.hiddenSize) inputs nn.hiddenSize nn.inputSize)
        nn.prevWeightsIH nn.hiddenSize nn.inputSize,
    biasH := addOf nn.biasH
      (gradientOf nn.learningRate hidden
        (mulOf (transposeOf weightsHO nn.outputSize nn.hiddenSize) outputErrors
          nn.hiddenSize nn.outputSize 1) nn.hiddenSize) nn.hiddenSize 1,
    rng := ((rng.skip (nn.hiddenSize * nn.outputSize)).skip (nn.hiddenSize * 1)).skip
      (1 * nn.inputSize) }

/-- The mean absolute error of an error column of `n` entries, accumulated as `reduce` does. -/
def meanAbsOf (errors : Mat α) (n : Nat) : α :=
  ((List.range n).map fun i => entryD errors i 0).foldl (fun sum e => sum + |e|) 0 / (n : α)

/-- The output-layer half of `train(inputArray, targetArray)` in closed form. -/
def NeuralNetwork.outOf (M : JsMath α) (nn : NeuralNetwork α) (inputArray targetArray : List α)
    (rng : Rng α) : OutputStage α :=
  nn.outputStageOf (nn.hiddenOf M (arrayToMatrix inputArray))
    (nn.outputsOf M (arrayToMatrix inputArray)) (arrayToMatrix targetArray) rng

/-- The hidden-layer half of `train(inputArray, targetArray)` in closed form. -/
def NeuralNetwork.hidOf (M : JsMath α) (nn : NeuralNetwork α) (inputArray targetArray : List α)
    (rng : Rng α) : HiddenStage α :=
  nn.hiddenStageOf (arrayToMatrix inputArray) (nn.hiddenOf M (arrayToMatrix inputArray))
    (nn.outOf M inputArray targetArray rng).weightsHO
    (nn.outOf M inputArray targetArray rng).outputErrors
    (nn.outOf M inputArray targetArray rng).rng

/-- The network that `train(inputArray, targetArray)` leaves, in closed form. -/
def NeuralNetwork.trained (M : JsMath α) (nn : NeuralNetwork α) (inputArray targetArray : List α)
    (rng : Rng α) : NeuralNetwork α :=
  { nn with weightsIH := (nn.hidOf M inputArray targetArray rng).weightsIH,
            weightsHO := (nn.outOf M inputArray targetArray rng).weightsHO,
            biasH := (nn.hidOf M inputArray targetArray rng).biasH,
            biasO := (nn.outOf M inputArray targetArray rng).biasO,
            prevWeightsIH := (nn.hidOf M inputArray targetArray rng).prevWeightsIH,
            prevWeightsHO := (nn.outOf M inputArray targetArray rng).prevWeightsHO }

/-- The value that `train(inputArray, targetArray)` returns, in closed form. -/
def NeuralNetwork.trainError (M : JsMath α) (nn : NeuralNetwork α)
    (inputArray targetArray : List α) : α :=
  meanAbsOf (outputErrorsOf (arrayToMatrix targetArray)
    (nn.outputsOf M (arrayToMatrix inputArray)) nn.outputSize) nn.outputSize

/-- The `Math` functions over the real numbers. -/
noncomputable def realMath : JsMath ℝ :=
  { exp := Real.exp,
    hypot := fun x y => Real.sqrt (x ^ 2 + y ^ 2),
    atan2 := fun y x => Complex.arg ⟨x, y⟩,
    cos := Real.cos,
    sin := Real.sin }

/-- The `Math` functions over the reals with the underflow of `Math.exp` on IEEE doubles: the
exponential of an argument below -746 is 0, as `Math.exp(-746)` and `Math.exp(-800)` are in
JavaScript; everywhere else it is the exact exponential. -/
noncomputable def underflowMath : JsMath ℝ :=
  { realMath with exp := fun x => if x < -746 then 0 else Real.exp x }

/-- The random source that always returns one half, so that `createMatrix` fills with 0. -/
def halfRng (α : Type) [LinearOrderedField α] : Rng α := fun _ => 0.5

/-- The network of the game as the constructor builds it when every draw is one half: all
weights and biases are 0. -/
def zeroNet (α : Type) [LinearOrderedField α] : NeuralNetwork α :=
  (NeuralNetwork.new 8 16 4 (halfRng α)).1

/-- The random source that always returns 0. -/
def zeroRng (α : Type) [LinearOrderedField α] : Rng α := fun _ => 0

/-- The fields of the game that `updateAI` never assigns agree in the two states. -/
structure Game.SameWorld (g g' : Game α) : Prop where
  canvasWidth : g'.canvasWidth = g.canvasWidth
  canvasHeight : g'.canvasHeight = g.canvasHeight
  isRunning : g'.isRunning = g.isRunning
  isPaused : g'.isPaused = g.isPaused
  score : g'.score = g.score
  timerMaxDuration : g'.timerMaxDuration = g.timerMaxDuration
  player : g'.player = g.player
  maxTrainingData : g'.maxTrainingData = g.maxTrainingData
  radius : g'.ai.radius = g.ai.radius
  baseSpeed : g'.ai.baseSpeed = g.ai.baseSpeed

/-- A network of the game's sizes that signals both the projectile and the dash on every
input: all weights are 0 and the output biases are (0, 0, 4, 4). -/
def triggerNet (α : Type) [LinearOrderedField α] : NeuralNetwork α :=
  { zeroNet α with biasO := [[0], [0], [4], [4]] }

/-- A game on an 800 x 600 canvas whose network is `network`, as the constructor leaves it. -/
def arena (network : NeuralNetwork α) : Game α :=
  { Game.new 800 600 (halfRng α) with nn := network }

/-- Every call site of `Date.now()` reads the same time during the tick. -/
def Clock.at (now : α) : Clock α :=
  { updateAI := now, getNeuralNetworkInputs := now, useProjectile := now, useDash := now,
    useSpeedBoost := now, useSlowProjectile := now }

/-- A player standing still at `(x, y)`. -/
def Player.standingAt (x y : α) : Player α :=
  { x := x, y := y, targetX := x, targetY := y, radius := 15, vx := 0, vy := 0 }

/-- A frame with the player standing at `(x, y)`, no collision, one clock reading, every random
draw equal to one half (no training, no particle) and the given `deltaTime`. -/
def Frame.quiet (x y now deltaTime : α) : Frame α :=
  { player := Player.standingAt x y, hoverComplete := false, collision := false,
    clock := Clock.at now, rng := halfRng α, deltaTime := deltaTime }

/-- The network has the sizes of the game's network and every stored sample has 8 inputs and
4 targets. -/
structure Game.WellFormed (g : Game α) : Prop where
  nn : g.nn.WellShaped
  inputSize : g.nn.inputSize = 8
  outputSize : g.nn.outputSize = 4
  samples : ∀ s ∈ g.trainingData, s.inputs.length = 8 ∧ s.targets.length = 4

/-- The condition of the projectile trigger of the normal branch. -/
def Game.firesProjectile (g : Game α) (d : Decision α) : Bool :=
  d.useProjectile && d.projectileReady && g.isAbilityUnlocked "projectile"

/-- The condition of the dash trigger of the normal branch. -/
def Game.firesDash (g : Game α) (d : Decision α) : Bool :=
  d.useDash && d.dashReady && !g.ai.isDashing && !g.ai.isDashWindup
    && g.isAbilityUnlocked "dash"

/-- The condition of the speed-boost trigger of the normal branch. -/
def Game.firesSpeedBoost (M : JsMath α) (g : Game α) (d : Decision α) : Bool :=
  d.speedBoostReady && !g.ai.isSpeedBoosted && decide (g.distToPlayer M > 200)
    && g.isAbilityUnlocked "speedBoost"

/-- The condition of the beam trigger of the normal branch. -/
def Game.firesSlowProjectile (M : JsMath α) (g : Game α) (d : Decision α) : Bool :=
  d.slowProjectileReady && !d.projectileReady && !g.ai.isBeamWindup
    && decide (g.distToPlayer M < g.abilities.slowProjectile.range)
    && g.isAbilityUnlocked "slowProjectile"

/-- `useProjectile()` when `fires` holds. -/
def applyProjectile (fires : Bool) (M : JsMath α) (clock : Clock α) (s : Game α × Rng α) :
    Game α × Rng α :=
  if fires then s.1.useProjectile M clock.useProjectile s.2 else s

/-- `useDash(moveX, moveY)` when `fires` holds. -/
def applyDash (fires : Bool) (M : JsMath α) (d : Decision α) (clock : Clock α)
    (s : Game α × Rng α) : Game α × Rng α :=
  if fires then (s.1.useDash M d.moveX d.moveY clock.useDash, s.2) else s

/-- `useSpeedBoost()` when `fires` holds. -/
def applySpeedBoost (fires : Bool) (clock : Clock α) (s : Game α × Rng α) : Game α × Rng α :=
  if fires then s.1.useSpeedBoost clock.useSpeedBoost s.2 else s

/-- `useSlowProjectile()` when `fires` holds. -/
def applySlowProjectile (fires : Bool) (M : JsMath α) (clock : Clock α) (s : Game α × Rng α) :
    Game α × Rng α :=
  if fires then s.1.useSlowProjectile M clock.useSlowProjectile s.2 else s

/-- The learning state (network, sample buffer, accuracy) agrees in the two states. -/
structure Game.SameLearning (g g' : Game α) : Prop where
  nn : g'.nn = g.nn
  trainingData : g'.trainingData = g.trainingData
  aiAccuracy : g'.aiAccuracy = g.aiAccuracy

/-- The function `Math.hypot` is the Euclidean norm. -/
def JsMath.HypotIsNorm (M : JsMath α) : Prop :=
  ∀ x y : α, 0 ≤ M.hypot x y ∧ M.hypot x y ^ 2 = x ^ 2 + y ^ 2

/-- The state of a dash along (1, 0) that started at `(x0, y0)`, `k` ticks after the tick on
which the windup expired. -/
structure Game.DashingAt (g : Game α) (x0 y0 : α) (k : Nat) : Prop where
  isDashing : g.ai.isDashing = true
  isDashWindup : g.ai.isDashWindup = false
  isBeamWindup : g.ai.isBeamWindup = false
  vx : g.ai.vx = 8
  vy : g.ai.vy = 0
  x : g.ai.x = x0 + 8 * ((k : α) + 1)
  y : g.ai.y = y0
  dashTargetX : g.ai.dashTargetX = x0 + 200
  dashTargetY : g.ai.dashTargetY = y0
  dashDistanceRemaining : g.ai.dashDistanceRemaining = 200 - 8 * (k : α)

/-- The game with the speed-boost fields of the AI replaced. -/
def Game.withBoost (g : Game α) (t : α) (b : Bool) (s : α) : Game α :=
  { g with ai := { g.ai with speedBoostTime := t, isSpeedBoosted := b, speed := s } }

/-- The game with the player replaced, as `updatePlayer` leaves it. -/
def Game.withPlayer (g : Game α) (p : Player α) : Game α := { g with player := p }

/-- A game whose AI stands at (100, 100) in the last tick of a dash windup towards (1, 0). -/
def dashWindupGame (α : Type) [LinearOrderedField α] : Game α :=
  { arena (zeroNet α) with
    ai := { (arena (zeroNet α)).ai with
      x := 100, y := 100, isDashWindup := true, dashWindupTime := 16,
      dashDirection := { x := 1, y := 0 } } }

/-- The AI, the abilities, the projectiles and the beams agree in the two states. -/
structure Game.SameBody (g g' : Game α) : Prop where
  ai : g'.ai = g.ai
  abilities : g'.abilities = g.abilities
  projectiles : g'.projectiles = g.projectiles
  aiBeams : g'.aiBeams = g.aiBeams

/-- A game 13 seconds into a match whose AI, at (700, 100), is in a beam windup with `t` ms
left on the timer, aimed along (1, 0), while the player stands at (550, 100); in the clock's
milliseconds the projectile was last used at 999000 and the beam at 990000. -/
def beamWindupGame (α : Type) [LinearOrderedField α] (t : α) : Game α :=
  { arena (zeroNet α) with
    score := 13,
    player := Player.standingAt 550 100,
    abilities := { (arena (zeroNet α)).abilities with
      projectile := { (arena (zeroNet α)).abilities.projectile with lastUsed := 999000 },
      slowProjectile :=
        { (arena (zeroNet α)).abilities.slowProjectile with lastUsed := 990000 } },
    ai := { (arena (zeroNet α)).ai with
      isBeamWindup := true, beamWindupTime := t, beamDirection := { x := 1, y := 0 } } }

/-! ## The object store

`predict` mutates matrices in place (`matrixAdd`, `matrixMap`).  To state what it leaves
untouched, objects live in a store and are named by their address; a matrix owns its rows. -/

/-- An object of the store: an array of numbers or a matrix. -/
inductive Obj (α : Type) where
  | array : List α → Obj α
  | matrix : Mat α → Obj α

/-- The store: the object at address `a` is the `a`-th element. -/
abbrev Store (α : Type) := List (Obj α)

/-- Allocation of a fresh object; returns its address. -/
def Store.alloc (s : Store α) (o : Obj α) : Store α × Nat := (s ++ [o], s.length)

/-- The matrix at address `a`. -/
def Store.matrixAt (s : Store α) (a : Nat) : Option (Mat α) :=
  match s[a]? with
  | some (Obj.matrix m) => some m
  | _ => none

/-- The array at address `a`. -/
def Store.arrayAt (s : Store α) (a : Nat) : Option (List α) :=
  match s[a]? with
  | some (Obj.array xs) => some xs
  | _ => none

/-- `arrayToMatrix(arr)` on the store: reads `arr`, allocates the column vector. -/
def Store.arrayToMatrix (s : Store α) (arr : Nat) : Option (Store α × Nat) :=
  (s.arrayAt arr).map fun xs => s.alloc (Obj.matrix (NeuralPursuit.arrayToMatrix xs))

/-- `matrixMultiply(a, b)` on the store: reads `a` and `b`, allocates the product. -/
def Store.matrixMultiply (s : Store α) (a b : Nat) : Option (Store α × Nat) :=
  (s.matrixAt a).bind fun ma => (s.matrixAt b).bind fun mb =>
    (NeuralPursuit.matrixMultiply ma mb).map fun result => s.alloc (Obj.matrix result)

/-- `matrixAdd(a, b)` on the store: reads `b`, writes `a`. -/
def Store.matrixAdd (s : Store α) (a b : Nat) : Option (Store α) :=
  (s.matrixAt a).bind fun ma => (s.matrixAt b).bind fun mb =>
    (NeuralPursuit.matrixAdd ma mb).map fun result => s.set a (Obj.matrix result)

/-- `matrixMap(matrix, fn)` on the store: writes `matrix`. -/
def Store.matrixMap (s : Store α) (matrix : Nat) (fn : α → α) : Option (Store α) :=
  (s.matrixAt matrix).map fun m => s.set matrix (Obj.matrix (NeuralPursuit.matrixMap m fn))

/-- `matrixToArray(matrix)` on the store: reads `matrix`, allocates the array. -/
def Store.matrixToArray (s : Store α) (matrix : Nat) : Option (Store α × Nat) :=
  (s.matrixAt matrix).bind fun m => (NeuralPursuit.matrixToArray m).map fun xs => s.alloc (Obj.array xs)

/-- The addresses held by the matrix fields of a `NeuralNetwork` object. -/
structure NetworkRefs where
  weightsIH : Nat
  weightsHO : Nat
  biasH : Nat
  biasO : Nat
  prevWeightsIH : Nat
  prevWeightsHO : Nat

/-- `predict(inputArray)` statement by statement on the store; returns the store it leaves and
the address of the returned array. -/
def NetworkRefs.predict (M : JsMath α) (r : NetworkRefs) (s : Store α) (inputArray : Nat) :
    Option (Store α × Nat) :=
  (s.arrayToMatrix inputArray).bind fun inputs =>
  (inputs.1.matrixMultiply r.weightsIH inputs.2).bind fun hidden =>
  (hidden.1.matrixAdd hidden.2 r.biasH).bind fun s1 =>
  (s1.matrixMap hidden.2 (sigmoid M)).bind fun s2 =>
  (s2.matrixMultiply r.weightsHO hidden.2).bind fun outputs =>
  (outputs.1.matrixAdd outputs.2 r.biasO).bind fun s3 =>
  (s3.matrixMap outputs.2 (sigmoid M)).bind fun s4 =>
  s4.matrixToArray outputs.2

/-- The store holds the matrices of `nn` at the addresses `r`. -/
structure NetworkRefs.Holds (r : NetworkRefs) (s : Store α) (nn : NeuralNetwork α) : Prop where
  weightsIH : s.matrixAt r.weightsIH = some nn.weightsIH
  weightsHO : s.matrixAt r.weightsHO = some nn.weightsHO
  biasH : s.matrixAt r.biasH = some nn.biasH
  biasO : s.matrixAt r.biasO = some nn.biasO
  prevWeightsIH : s.matrixAt r.prevWeightsIH = some nn.prevWeightsIH
  prevWeightsHO : s.matrixAt r.prevWeightsHO = some nn.prevWeightsHO

/-- A store that holds the six matrices of `nn` at addresses 0 to 5 and the array
`inputArray` at address 6. -/
def storeOf (nn : NeuralNetwork α) (inputArray : List α) : Store α :=
  [Obj.matrix nn.weightsIH, Obj.matrix nn.weightsHO, Obj.matrix nn.biasH, Obj.matrix nn.biasO,
   Obj.matrix nn.prevWeightsIH, Obj.matrix nn.prevWeightsHO, Obj.array inputArray]

/-- The addresses of the fields in `storeOf`. -/
def refsOf : NetworkRefs :=
  { weightsIH := 0, weightsHO := 1, biasH := 2, biasO := 3, prevWeightsIH := 4,
    prevWeightsHO := 5 }

/-- Every object of `s` is still in `t`, at the same address and with the same value. -/
structure Store.Extends (s t : Store α) : Prop where
  length : s.length ≤ t.length
  same : ∀ b, b < s.length → t[b]? = s[b]?

/-- The stream `rng'` is what is left of `rng` after some number of draws. -/
def Rng.LeftOf (rng' rng : Rng α) : Prop := ∃ n, ∀ k, rng' k = rng (n + k)

/-- A game on the canvas whose buffer already holds 16 samples. -/
def trainingGame (α : Type) [LinearOrderedField α] : Game α :=
  { arena (zeroNet α) with
    trainingData := List.replicate 16 (Sample.mk [0, 0, 0, 0, 0, 0, 0, 0] [1, 1, 1, 1]) }

/-- The random source whose every draw is 0.05. -/
def lowRng (α : Type) [LinearOrderedField α] : Rng α := fun _ => 0.05

/-- The network of the game's sizes with all weights 0 and the output biases
`(b0, b1, b2, b3)`: its outputs are the sigmoids of the biases on every input. -/
def biasNet (α : Type) [LinearOrderedField α] (b0 b1 b2 b3 : α) : NeuralNetwork α :=
  { zeroNet α with biasO := [[b0], [b1], [b2], [b3]] }

/-- A game 13 seconds into a match, in normal mode, whose network steers right and signals a
dash on every input; the AI is at (700, 100) and the player stands at (550, 100). -/
def dashReadyGame (α : Type) [LinearOrderedField α] : Game α :=
  { arena (biasNet α 4 0 0 4) with score := 13, player := Player.standingAt 550 100 }

/-- The game in a beam windup with 112 ms left, with a network that steers right on every
input and signals neither the projectile nor the dash. -/
def beamDriftGame (α : Type) [LinearOrderedField α] : Game α :=
  { beamWindupGame α 112 with nn := biasNet α 4 0 0 0 }

/-- The clamp of the specification: `clamp(lo, hi, v)`. -/
def clamp (lo hi v : α) : α := max lo (min hi v)

/-- The heuristic label as the specification defines it, for the player position `(px, py)`,
the player velocity `(pvx, pvy)`, the AI position `(ax, ay)` and the distance `d` between the
player and the AI: the two move targets normalised to [0, 1], the projectile label
(0.9 if `50 < d < 300`) and the dash label (0.9 if `150 < d < 250`). -/
def referenceTargets (px py pvx pvy ax ay d : α) : List α :=
  [ (clamp (-1) 1 ((px + 15 * pvx - ax) / 100) + 1) / 2,
    (clamp (-1) 1 ((py + 15 * pvy - ay) / 100) + 1) / 2,
    if 50 < d ∧ d < 300 then 0.9 else 0.1,
    if 150 < d ∧ d < 250 then 0.9 else 0.1 ]

/-- Sequential training: `train` is called once on every sample of the list, in list order,
each call on the network and the random stream left by the previous one; returns the last
network, the errors in call order and the stream left. -/
def trainSequence (M : JsMath α) :
    List (Sample α) → NeuralNetwork α → Rng α → Option (NeuralNetwork α × List α × Rng α)
  | [], nn, rng => some (nn, [], rng)
  | s :: rest, nn, rng =>
    (nn.train M s.inputs s.targets rng).bind fun r =>
      (trainSequence M rest r.1 r.2.2).map fun r' => (r'.1, r.2.1 :: r'.2.1, r'.2.2)

/-- A game in which the player stands on the AI, at (700, 100). -/
def coincideGame (α : Type) [LinearOrderedField α] : Game α :=
  { arena (zeroNet α) with player := Player.standingAt 700 100 }

/-- The game on the last tick of a beam windup that started 2000 ms before the clock reading
1000000: 16 ms are left on the timer and `slowProjectile.lastUsed` is 998000. -/
def beamExpiryGame (α : Type) [LinearOrderedField α] : Game α :=
  { beamWindupGame α 16 with
    abilities := { (beamWindupGame α 16).abilities with
      slowProjectile :=
        { (beamWindupGame α 16).abilities.slowProjectile with lastUsed := 998000 } } }

/-- A game 13 seconds into a match whose AI, at (700, 100), is in the middle of a dash windup
(160 ms left) while the player is at (100, 500), more than 200 away; the speed boost is
unlocked, ready and not active. -/
def dashMidWindupGame (α : Type) [LinearOrderedField α] : Game α :=
  { arena (zeroNet α) with
    score := 13,
    ai := { (arena (zeroNet α)).ai with
      isDashWindup := true, dashWindupTime := 160, dashDirection := { x := 1, y := 0 } } }

/-- The same situation in normal mode: no windup, not dashing. -/
def boostReadyGame (α : Type) [LinearOrderedField α] : Game α :=
  { arena (zeroNet α) with score := 13 }

/-- A game whose AI, at (700, 100), is in the last tick of a dash whose target (900, -50) lies
outside the 800 x 600 canvas: no distance remains, so the tick snaps the AI to the target. -/
def dashSnapGame (α : Type) [LinearOrderedField α] : Game α :=
  { arena (zeroNet α) with
    ai := { (arena (zeroNet α)).ai with
      isDashing := true, dashTargetX := 900, dashTargetY := -50, dashDistanceRemaining := 0 } }

/-- The test of repeated training: `train(inputArray, targetArray)` called `n` times in
succession with the same arguments, each call on the network and the random stream left by the
previous one; returns the last network, the errors in call order and the stream left. -/
def trainRepeatedly (M : JsMath α) (inputArray targetArray : List α) :
    Nat → NeuralNetwork α → Rng α → Option (NeuralNetwork α × List α × Rng α)
  | 0, nn, rng => some (nn, [], rng)
  | n + 1, nn, rng =>
    (nn.train M inputArray targetArray rng).bind fun r =>
      (trainRepeatedly M inputArray targetArray n r.1 r.2.2).map fun r' =>
        (r'.1, r.2.1 :: r'.2.1, r'.2.2)

/-- The six numbers that describe a network of the game's sizes whose 16 hidden units are alike
and read input 0 only, and whose 4 outputs are alike: `a` is every `weightsIH[i][0]`, `c` every
`biasH[i]`, `v` every `weightsHO[i][j]`, `d` every `biasO[i]`, `pa` every `prevWeightsIH[i][0]`
and `pv` every `prevWeightsHO[i][j]`. -/
structure SymState (α : Type) where
  a : α
  c : α
  v : α
  d : α
  pa : α
  pv : α

/-- The network that a `SymState` describes. -/
def symNet (s : SymState α) : NeuralNetwork α :=
  { inputSize := 8, hiddenSize := 16, outputSize := 4,
    weightsIH := tabulate 16 8 fun _ j => if j = 0 then s.a else 0,
    weightsHO := tabulate 4 16 fun _ _ => s.v,
    biasH := tabulate 16 1 fun _ _ => s.c,
    biasO := tabulate 4 1 fun _ _ => s.d,
    learningRate := 0.1, momentum := 0.9,
    prevWeightsIH := tabulate 16 8 fun _ j => if j = 0 then s.pa else 0,
    prevWeightsHO := tabulate 4 16 fun _ _ => s.pv }

/-- The activation of every hidden unit of `symNet s` on the input `(x, 0, 0, 0, 0, 0, 0, 0)`. -/
def SymState.hidden (M : JsMath α) (x : α) (s : SymState α) : α := sigmoid M (s.a * x + s.c)

/-- The value of every output of `symNet s` on the input `(x, 0, 0, 0, 0, 0, 0, 0)`. -/
def SymState.output (M : JsMath α) (x : α) (s : SymState α) : α :=
  sigmoid M (16 * (s.v * s.hidden M x) + s.d)

/-- The entry of `gradients` in `train` on `symNet s` with every target equal to `t`. -/
def SymState.gradient (M : JsMath α) (x t : α) (s : SymState α) : α :=
  sigmoidDerivative (s.output M x) * (t - s.output M x) * 0.1

/-- The new entry of `prevWeightsHO`: the delta of the output weights with momentum. -/
def SymState.deltaHO (M : JsMath α) (x t : α) (s : SymState α) : α :=
  s.gradient M x t * s.hidden M x + 0.9 * s.pv

/-- The entry of `hiddenGradient` in `train` on `symNet s`; the hidden error sums the four
output errors over the output weights already updated. -/
def SymState.hiddenGradient (M : JsMath α) (x t : α) (s : SymState α) : α :=
  sigmoidDerivative (s.hidden M x) * (4 * ((s.v + s.deltaHO M x t) * (t - s.output M x))) * 0.1

/-- The new entry `prevWeightsIH[i][0]`: the delta of the weights of input 0 with momentum. -/
def SymState.deltaIH (M : JsMath α) (x t : α) (s : SymState α) : α :=
  s.hiddenGradient M x t * x + 0.9 * s.pa

/-- One call `train((x, 0, 0, 0, 0, 0, 0, 0), (t, t, t, t))` on the six numbers. -/
def SymState.step (M : JsMath α) (x t : α) (s : SymState α) : SymState α :=
  { a := s.a + s.deltaIH M x t,
    c := s.c + s.hiddenGradient M x t,
    v := s.v + s.deltaHO M x t,
    d := s.d + s.gradient M x t,
    pa := s.deltaIH M x t,
    pv := s.deltaHO M x t }

/-- A random source for the constructor: the 128 draws of `weightsIH` and the 16 of `biasH` are
0.5 (value 0), the 64 draws of `weightsHO` are 0.9375 (value 7/16) and the 4 draws of `biasO`
are 0 (value -0.5). -/
def saturatingRng (α : Type) [LinearOrderedField α] : Rng α := fun k =>
  if k < 128 then 0.5 else if k < 192 then 0.9375 else if k < 208 then 0.5 else 0

/-- The six numbers of the network that the constructor builds from `saturatingRng`. -/
def saturatingState (α : Type) [LinearOrderedField α] : SymState α :=
  { a := 0, c := 0, v := 7 / 16, d := -(1 / 2), pa := 0, pv := 0 }


/-- The hidden layer of a symmetric network is saturated on the input
`(1000, 0, 0, 0, 0, 0, 0, 0)`, with room `b` used up: the hidden pre-activation is at most
`-1000 + b`, and the momentum, the output weight and the output bias are bounded. -/
def SymState.Saturated (b : ℝ) (s : SymState ℝ) : Prop :=
  s.a * 1000 + s.c ≤ -1000 + b ∧ s.pa * 1000 ≤ 1 / 2 ∧ |s.pv| ≤ 1 / 4 ∧
    |s.v| ≤ 1 + b / 4 ∧ s.d ≤ -(1 / 2) + 1 / 40 + b / 40

/-! # Properties -/

/-! ## Matrix lemmas -/

theorem allSome_map_some {β γ : Type} (l : List γ) (f : γ → Option β) (g : γ → β)
    (h : ∀ x ∈ l, f x = some (g x)) : allSome (l.map f) = some (l.map g) := by
  induction l with
  | nil => rfl
  | cons a l ih =>
    have ha : f a = some (g a) := h a (List.mem_cons_self _ _)
    have hl : ∀ x ∈ l, f x = some (g x) := fun x hx => h x (List.mem_cons_of_mem _ hx)
    simp [List.map_cons, ha, allSome, ih hl]

theorem hasShape_tabulate (rows cols : Nat) (f : Nat → Nat → α) :
    HasShape (tabulate rows cols f) rows cols := by
  constructor
  · simp [tabulate]
  · intro row hrow
    simp only [tabulate, List.mem_map] at hrow
    obtain ⟨i, -, rfl⟩ := hrow
    simp

theorem entry_tabulate (rows cols : Nat) (f : Nat → Nat → α) {i j : Nat} (hi : i < rows)
    (hj : j < cols) : entry (tabulate rows cols f) i j = some (f i j) := by
  simp [entry, tabulate, List.getElem?_map, List.getElem?_range hi, List.getElem?_range hj]

theorem eq_tabulate_of_hasShape {m : Mat α} {rows cols : Nat} (h : HasShape m rows cols) :
    m = tabulate rows cols (entryD m) := by
  obtain ⟨hlen, hrows⟩ := h
  apply List.ext_getElem
  · simp [tabulate, hlen]
  · intro i h1 h2
    have hrow : (m[i]).length = cols := hrows _ (List.getElem_mem _)
    apply List.ext_getElem
    · simp [tabulate, hrow]
    · intro j h3 h4
      simp [tabulate, entryD, List.getD_eq_getElem?_getD, List.getElem?_eq_getElem h1,
        List.getElem?_eq_getElem h3]

theorem entry_of_hasShape {m : Mat α} {rows cols : Nat} (h : HasShape m rows cols) {i j : Nat}
    (hi : i < rows) (hj : j < cols) : entry m i j = some (entryD m i j) := by
  conv_lhs => rw [eq_tabulate_of_hasShape h]
  exact entry_tabulate rows cols _ hi hj

theorem entryD_tabulate (rows cols : Nat) (f : Nat → Nat → α) {i j : Nat} (hi : i < rows)
    (hj : j < cols) : entryD (tabulate rows cols f) i j = f i j := by
  have h1 := entry_of_hasShape (hasShape_tabulate rows cols f) hi hj
  rw [entry_tabulate rows cols f hi hj] at h1
  exact (Option.some.inj h1).symm

theorem buildMat_eq (rows cols : Nat) (f : Nat → Nat → Option α) (g : Nat → Nat → α)
    (h : ∀ i j, i < rows → j < cols → f i j = some (g i j)) :
    buildMat rows cols f = some (tabulate rows cols g) := by
  unfold buildMat tabulate
  apply allSome_map_some
  intro i hi
  apply allSome_map_some
  intro j hj
  exact h i j (List.mem_range.mp hi) (List.mem_range.mp hj)

theorem hasShape_cons {a0 : List α} {rest : Mat α} {rows cols : Nat}
    (h : HasShape (a0 :: rest) rows cols) : a0.length = cols ∧ (a0 :: rest).length = rows :=
  ⟨h.2 a0 (List.mem_cons_self _ _), h.1⟩

theorem hasShape_ne_nil {m : Mat α} {rows cols : Nat} (h : HasShape m rows cols)
    (hr : 0 < rows) : ∃ m0 rest, m = m0 :: rest := by
  cases m with
  | nil => simp [HasShape] at h; omega
  | cons m0 rest => exact ⟨m0, rest, rfl⟩

/-- The sum that `matrixMultiply` stores at `(i, j)` when the inner dimension is `n`. -/
theorem matrixMultiply_eq {a b : Mat α} {r n c : Nat} (ha : HasShape a r n)
    (hb : HasShape b n c) (hn : 0 < n) :
    matrixMultiply a b = some (tabulate r c fun i j =>
      ((List.range n).map fun k => entryD a i k * entryD b k j).foldl (· + ·) 0) := by
  obtain ⟨b0, brest, rfl⟩ := hasShape_ne_nil hb hn
  have hb0 := hasShape_cons hb
  cases a with
  | nil =>
    have : r = 0 := by simpa [HasShape] using ha.1.symm
    subst this
    simp [matrixMultiply, tabulate]
  | cons a0 arest =>
    have ha0 := hasShape_cons ha
    simp only [matrixMultiply]
    rw [ha0.2, ha0.1, hb0.1]
    apply buildMat_eq
    intro i j hi hj
    rw [allSome_map_some _ _ (fun k => entryD (a0 :: arest) i k * entryD (b0 :: brest) k j)]
    · rfl
    · intro k hk
      have hk' := List.mem_range.mp hk
      rw [entry_of_hasShape ha hi hk', entry_of_hasShape hb hk' hj]
      rfl

theorem updateInPlace_eq {a : Mat α} {r c : Nat} (ha : HasShape a r c)
    (f : Nat → Nat → α → Option α) (g : Nat → Nat → α)
    (h : ∀ i j, i < r → j < c → f i j (entryD a i j) = some (g i j)) :
    updateInPlace a f = some (tabulate r c g) := by
  cases a with
  | nil =>
    have : r = 0 := by simpa [HasShape] using ha.1.symm
    subst this
    simp [updateInPlace, tabulate]
  | cons a0 arest =>
    have ha0 := hasShape_cons ha
    simp only [updateInPlace]
    rw [ha0.2, ha0.1]
    unfold tabulate
    apply allSome_map_some
    intro i hi
    have hi' := List.mem_range.mp hi
    have hlt : i < (a0 :: arest).length := by rw [ha.1]; exact hi'
    have hrow : ((a0 :: arest)[i]).length = c := ha.2 _ (List.getElem_mem _)
    rw [List.getElem?_eq_getElem hlt]
    simp only [Option.some_bind]
    rw [allSome_map_some _ _ (fun j => g i j)]
    · simp [hrow]
    · intro j hj
      have hj' := List.mem_range.mp hj
      have hjlt : j < ((a0 :: arest)[i]).length := by rw [hrow]; exact hj'
      rw [List.getElem?_eq_getElem hjlt]
      simp only [Option.some_bind]
      rw [← h i j hi' hj']
      congr 1
      simp [entryD, List.getD_eq_getElem?_getD, List.getElem?_eq_getElem hlt,
        List.getElem?_eq_getElem hjlt]

theorem matrixAdd_eq {a b : Mat α} {r c : Nat} (ha : HasShape a r c) (hb : HasShape b r c) :
    matrixAdd a b = some (tabulate r c fun i j => entryD a i j + entryD b i j) := by
  apply updateInPlace_eq ha
  intro i j hi hj
  rw [entry_of_hasShape hb hi hj]; rfl

theorem matrixMultiplyElement_eq {a b : Mat α} {r c : Nat} (ha : HasShape a r c)
    (hb : HasShape b r c) :
    matrixMultiplyElement a b = some (tabulate r c fun i j => entryD a i j * entryD b i j) := by
  apply updateInPlace_eq ha
  intro i j hi hj
  rw [entry_of_hasShape hb hi hj]; rfl

theorem matrixMultiplyScalar_eq {a : Mat α} {r c : Nat} (ha : HasShape a r c) (s : α) :
    matrixMultiplyScalar a s = some (tabulate r c fun i j => entryD a i j * s) := by
  apply updateInPlace_eq ha
  intro i j hi hj
  rfl

theorem hasShape_createMatrix (rows cols : Nat) (fillValue : Option α) (rng : Rng α) :
    HasShape (createMatrix rows cols fillValue rng).1 rows cols := by
  constructor
  · simp [createMatrix]
  · intro row hrow
    simp only [createMatrix, List.mem_map] at hrow
    obtain ⟨i, -, rfl⟩ := hrow
    simp [createRow]

theorem overwriteAll_eq {scratch : Mat α} {r c : Nat} (hs : HasShape scratch r c)
    (f : Nat → Nat → Option α) (g : Nat → Nat → α)
    (h : ∀ i j, i < r → j < c → f i j = some (g i j)) :
    overwriteAll scratch f = some (tabulate r c g) := by
  unfold overwriteAll tabulate
  rw [hs.1]
  apply allSome_map_some
  intro i hi
  have hi' := List.mem_range.mp hi
  have hlt : i < scratch.length := by rw [hs.1]; exact hi'
  have hrow : (scratch[i]).length = c := hs.2 _ (List.getElem_mem _)
  rw [List.getElem?_eq_getElem hlt]
  simp only [Option.some_bind, hrow]
  apply allSome_map_some
  intro j hj
  exact h i j hi' (List.mem_range.mp hj)

theorem matrixSubtract_eq {a b : Mat α} {r c : Nat} (ha : HasShape a r c) (hb : HasShape b r c)
    (hr : 0 < r) (rng : Rng α) :
    matrixSubtract a b rng =
      some (tabulate r c fun i j => entryD a i j - entryD b i j, rng.skip (r * c)) := by
  obtain ⟨a0, arest, rfl⟩ := hasShape_ne_nil ha hr
  have ha0 := hasShape_cons ha
  simp only [matrixSubtract]
  rw [ha0.1, ha0.2]
  rw [overwriteAll_eq (hasShape_createMatrix r c none rng) _
    (fun i j => entryD (a0 :: arest) i j - entryD b i j)]
  · simp [createMatrix]
  · intro i j hi hj
    rw [entry_of_hasShape ha hi hj, entry_of_hasShape hb hi hj]; rfl

theorem matrixTranspose_eq {m : Mat α} {r c : Nat} (hm : HasShape m r c) (hr : 0 < r)
    (rng : Rng α) :
    matrixTranspose m rng = some (tabulate c r fun j i => entryD m i j, rng.skip (c * r)) := by
  obtain ⟨m0, mrest, rfl⟩ := hasShape_ne_nil hm hr
  have hm0 := hasShape_cons hm
  simp only [matrixTranspose]
  rw [hm0.1, hm0.2]
  rw [overwriteAll_eq (hasShape_createMatrix c r none rng) _
    (fun j i => entryD (m0 :: mrest) i j)]
  · simp [createMatrix]
  · intro j i hj hi
    exact entry_of_hasShape hm hi hj

theorem matrixMap_eq {m : Mat α} {r c : Nat} (hm : HasShape m r c) (fn : α → α) :
    matrixMap m fn = tabulate r c fun i j => fn (entryD m i j) := by
  conv_lhs => rw [eq_tabulate_of_hasShape hm]
  simp [matrixMap, tabulate, Function.comp_def]

theorem matrixMapNew_eq {m : Mat α} {r c : Nat} (hm : HasShape m r c) (hr : 0 < r)
    (fn : α → α) (rng : Rng α) :
    matrixMapNew m fn rng =
      some (tabulate r c fun i j => fn (entryD m i j), rng.skip (r * c)) := by
  obtain ⟨m0, mrest, rfl⟩ := hasShape_ne_nil hm hr
  have hm0 := hasShape_cons hm
  simp only [matrixMapNew]
  rw [hm0.1, hm0.2]
  have hs := hasShape_createMatrix r c none rng
  congr 1
  refine Prod.ext ?_ (by simp [createMatrix])
  simp only
  rw [← matrixMap_eq hm fn]
  apply List.ext_getElem
  · have h1 := hm.1
    have h2 := hs.1
    simp only [List.length_zipWith, matrixMap, List.length_map]
    omega
  · intro i h1 h2
    have hi : i < (m0 :: mrest).length := by
      simp only [List.length_zipWith] at h1; omega
    have hi2 : i < (createMatrix r c none rng).1.length := by
      simp only [List.length_zipWith] at h1; omega
    have hrow : ((m0 :: mrest)[i]).length = c := hm.2 _ (List.getElem_mem _)
    have hsrow : ((createMatrix r c none rng).1[i]).length = c := hs.2 _ (List.getElem_mem _)
    simp only [List.getElem_zipWith, matrixMap, List.getElem_map]
    rw [List.drop_eq_nil_of_le (by omega)]
    simp

theorem hasShape_arrayToMatrix (arr : List α) : HasShape (arrayToMatrix arr) arr.length 1 := by
  constructor
  · simp [arrayToMatrix]
  · intro row hrow
    simp only [arrayToMatrix, List.mem_map] at hrow
    obtain ⟨v, -, rfl⟩ := hrow
    rfl

theorem entryD_arrayToMatrix (arr : List α) (i : Nat) :
    entryD (arrayToMatrix arr) i 0 = arr.getD i 0 := by
  simp only [entryD, arrayToMatrix, List.getD_eq_getElem?_getD, List.getElem?_map]
  cases arr[i]? <;> simp

theorem matrixToArray_eq {m : Mat α} {r : Nat} (hm : HasShape m r 1) :
    matrixToArray m = some ((List.range r).map fun i => entryD m i 0) := by
  conv_lhs => rw [eq_tabulate_of_hasShape hm]
  unfold matrixToArray tabulate
  rw [List.map_map]
  apply allSome_map_some
  intro i hi
  simp

theorem tabulate_congr {rows cols : Nat} {f g : Nat → Nat → α}
    (h : ∀ i j, i < rows → j < cols → f i j = g i j) : tabulate rows cols f = tabulate rows cols g := by
  unfold tabulate
  apply List.map_congr_left
  intro i hi
  apply List.map_congr_left
  intro j hj
  exact h i j (List.mem_range.mp hi) (List.mem_range.mp hj)

/-! ## The forward pass -/

theorem forward_eq (M : JsMath α) {nn : NeuralNetwork α} (hnn : nn.WellShaped) {inputs : Mat α}
    (hin : HasShape inputs nn.inputSize 1) :
    nn.forward M inputs = some (nn.hiddenOf M inputs, nn.outputsOf M inputs) := by
  have h1 := matrixMultiply_eq hnn.weightsIH hin hnn.inputPos
  have h2 := matrixAdd_eq (hasShape_tabulate nn.hiddenSize 1 _) hnn.biasH
    (a := tabulate nn.hiddenSize 1 fun i j =>
      ((List.range nn.inputSize).map fun k =>
        entryD nn.weightsIH i k * entryD inputs k j).foldl (· + ·) 0)
  have hh : matrixMap (tabulate nn.hiddenSize 1 fun i j =>
      entryD (tabulate nn.hiddenSize 1 fun i j =>
        ((List.range nn.inputSize).map fun k =>
          entryD nn.weightsIH i k * entryD inputs k j).foldl (· + ·) 0) i j
        + entryD nn.biasH i j) (sigmoid M) = nn.hiddenOf M inputs := by
    rw [matrixMap_eq (hasShape_tabulate _ _ _)]
    apply tabulate_congr
    intro i j hi hj
    rw [entryD_tabulate _ _ _ hi hj, entryD_tabulate _ _ _ hi hj]
    rfl
  have hhs : HasShape (nn.hiddenOf M inputs) nn.hiddenSize 1 := hasShape_tabulate _ _ _
  have h3 := matrixMultiply_eq hnn.weightsHO hhs hnn.hiddenPos
  have h4 := matrixAdd_eq (hasShape_tabulate nn.outputSize 1 _) hnn.biasO
    (a := tabulate nn.outputSize 1 fun i j =>
      ((List.range nn.hiddenSize).map fun k =>
        entryD nn.weightsHO i k * entryD (nn.hiddenOf M inputs) k j).foldl (· + ·) 0)
  have ho : matrixMap (tabulate nn.outputSize 1 fun i j =>
      entryD (tabulate nn.outputSize 1 fun i j =>
        ((List.range nn.hiddenSize).map fun k =>
          entryD nn.weightsHO i k * entryD (nn.hiddenOf M inputs) k j).foldl (· + ·) 0) i j
        + entryD nn.biasO i j) (sigmoid M) = nn.outputsOf M inputs := by
    rw [matrixMap_eq (hasShape_tabulate _ _ _)]
    apply tabulate_congr
    intro i j hi hj
    rw [entryD_tabulate _ _ _ hi hj, entryD_tabulate _ _ _ hi hj]
    rfl
  simp only [NeuralNetwork.forward, bind, Option.bind, pure, h1, h2, hh, h3, h4, ho]

theorem predict_eq (M : JsMath α) {nn : NeuralNetwork α} (hnn : nn.WellShaped)
    {inputArray : List α} (hlen : inputArray.length = nn.inputSize) :
    nn.predict M inputArray =
      some ((List.range nn.outputSize).map fun i =>
        entryD (nn.outputsOf M (arrayToMatrix inputArray)) i 0) := by
  have hin : HasShape (arrayToMatrix inputArray) nn.inputSize 1 := by
    rw [← hlen]; exact hasShape_arrayToMatrix _
  have ho : HasShape (nn.outputsOf M (arrayToMatrix inputArray)) nn.outputSize 1 :=
    hasShape_tabulate _ _ _
  simp only [NeuralNetwork.predict, bind, Option.bind, forward_eq M hnn hin, matrixToArray_eq ho]

theorem sigmoid_pos_lt_one (M : JsMath α) (hexp : ∀ x, 0 < M.exp x) (x : α) :
    0 < sigmoid M x ∧ sigmoid M x < 1 := by
  have h := hexp (-x)
  unfold sigmoid
  constructor
  · positivity
  · rw [div_lt_one (by linarith)]
    linarith

/-- The sigmoid of a `Math.exp` that is never negative lies in [0, 1]; it is 1 where the
exponential is 0. -/
theorem sigmoid_unit_closed (M : JsMath α) (hexp : ∀ x, 0 ≤ M.exp x) (x : α) :
    0 ≤ sigmoid M x ∧ sigmoid M x ≤ 1 := by
  have h := hexp (-x)
  unfold sigmoid
  constructor
  · positivity
  · rw [div_le_one (by linarith)]
    linarith

/-- C1, amended. For every network with the sizes (8, 16, 4) of the game's network, whatever its
weights and biases, and every input array of length 8, `predict` returns an array of length 4
whose entries all lie in the closed interval from 0 to 1, for every `Math.exp` that returns no
negative value (so also one that underflows to 0, where the sigmoid is exactly 1). -/
theorem predict_output_in_unit_interval (M : JsMath α) (hexp : ∀ x, 0 ≤ M.exp x)
    (nn : NeuralNetwork α) (hnn : nn.WellShaped) (h8 : nn.inputSize = 8)
    (h16 : nn.hiddenSize = 16) (h4 : nn.outputSize = 4) (inputArray : List α)
    (hlen : inputArray.length = 8) :
    ∃ out, nn.predict M inputArray = some out ∧ out.length = 4 ∧
      ∀ y ∈ out, 0 ≤ y ∧ y ≤ 1 := by
  refine ⟨_, predict_eq M hnn (hlen.trans h8.symm), by simp [h4], ?_⟩
  intro y hy
  simp only [List.mem_map, List.mem_range] at hy
  obtain ⟨i, hi, rfl⟩ := hy
  rw [NeuralNetwork.outputsOf, entryD_tabulate _ _ _ hi Nat.one_pos]
  exact sigmoid_unit_closed M hexp _

/-! ## The training step in closed form -/

theorem momentumDeltas_eq {w deltas prev : Mat α} {r c : Nat} (hw : HasShape w r c)
    (hd : HasShape deltas r c) (hp : HasShape prev r c) (momentum : α) :
    momentumDeltas w deltas prev momentum = some (momentumOf momentum deltas prev r c) := by
  unfold momentumDeltas momentumOf tabulate
  rw [hw.1]
  apply allSome_map_some
  intro i hi
  have hi' := List.mem_range.mp hi
  have hlt : i < w.length := by rw [hw.1]; exact hi'
  have hrow : (w[i]).length = c := hw.2 _ (List.getElem_mem _)
  rw [List.getElem?_eq_getElem hlt]
  simp only [Option.some_bind, hrow]
  apply allSome_map_some
  intro j hj
  have hj' := List.mem_range.mp hj
  rw [entry_of_hasShape hd hi' hj', entry_of_hasShape hp hi' hj']
  rfl

theorem applyDeltas_eq {w ds : Mat α} {r c : Nat} (hw : HasShape w r c)
    (hd : HasShape ds r c) : applyDeltas w ds = addOf w ds r c := by
  unfold applyDeltas addOf tabulate
  apply List.ext_getElem
  · simp [hw.1, hd.1]
  · intro i h1 h2
    have hi : i < w.length := by simp only [List.length_zipWith] at h1; omega
    have hi2 : i < ds.length := by simp only [List.length_zipWith] at h1; omega
    have hwrow : (w[i]).length = c := hw.2 _ (List.getElem_mem _)
    have hdrow : (ds[i]).length = c := hd.2 _ (List.getElem_mem _)
    simp only [List.getElem_zipWith, List.getElem_map, List.getElem_range]
    apply List.ext_getElem
    · simp [hwrow, hdrow]
    · intro j h3 h4
      have hj : j < (w[i]).length := by simp only [List.length_zipWith] at h3; omega
      have hj2 : j < (ds[i]).length := by simp only [List.length_zipWith] at h3; omega
      simp [entryD, List.getD_eq_getElem?_getD, List.getElem?_eq_getElem hi,
        List.getElem?_eq_getElem hi2, List.getElem?_eq_getElem hj, List.getElem?_eq_getElem hj2]

theorem storeDeltas_eq {prev ds : Mat α} {r c : Nat} (hp : HasShape prev r c)
    (hd : HasShape ds r c) : storeDeltas prev ds = ds := by
  unfold storeDeltas
  rw [List.drop_eq_nil_of_le (by rw [hp.1, hd.1]), List.append_nil]
  apply List.ext_getElem
  · simp [hp.1, hd.1]
  · intro i h1 h2
    have hi : i < prev.length := by simp only [List.length_zipWith] at h1; omega
    have hprow : (prev[i]).length = c := hp.2 _ (List.getElem_mem _)
    have hdrow : (ds[i]).length = c := hd.2 _ (List.getElem_mem _)
    simp only [List.getElem_zipWith]
    rw [List.drop_eq_nil_of_le (by omega), List.append_nil]

theorem dotD_one (a b : Mat α) (i j : Nat) :
    dotD a b 1 i j = 0 + entryD a i 0 * entryD b 0 j := by
  simp [dotD, List.range_succ]

theorem gradient_steps_eq {acts errs : Mat α} {n : Nat} (ha : HasShape acts n 1)
    (he : HasShape errs n 1) (hn : 0 < n) (lr : α) (rng : Rng α) :
    ∃ g1 g2, matrixMapNew acts sigmoidDerivative rng = some (g1, rng.skip (n * 1)) ∧
      matrixMultiplyElement g1 errs = some g2 ∧
      matrixMultiplyScalar g2 lr = some (gradientOf lr acts errs n) := by
  refine ⟨_, _, matrixMapNew_eq ha hn _ rng,
    matrixMultiplyElement_eq (hasShape_tabulate _ _ _) he, ?_⟩
  rw [matrixMultiplyScalar_eq (hasShape_tabulate _ _ _)]
  congr 1
  apply tabulate_congr
  intro i j hi hj
  rw [entryD_tabulate _ _ _ hi hj, entryD_tabulate _ _ _ hi hj]

theorem weightDeltas_steps_eq {g acts : Mat α} {r c : Nat} (hg : HasShape g r 1)
    (ha : HasShape acts c 1) (hc : 0 < c) (rng : Rng α) :
    ∃ aT, matrixTranspose acts rng = some (aT, rng.skip (1 * c)) ∧
      matrixMultiply g aT = some (weightDeltasOf g acts r c) := by
  refine ⟨_, matrixTranspose_eq ha hc rng, ?_⟩
  rw [matrixMultiply_eq hg (hasShape_tabulate 1 c _) Nat.one_pos]
  congr 1
  apply tabulate_congr
  intro i j hi hj
  have h := dotD_one g (tabulate 1 c fun j i => entryD acts i j) i j
  unfold dotD at h
  rw [h, entryD_tabulate _ _ _ Nat.one_pos hj]

theorem hasShape_gradientOf (lr : α) (acts errs : Mat α) (n : Nat) :
    HasShape (gradientOf lr acts errs n) n 1 := hasShape_tabulate _ _ _

theorem hasShape_weightDeltasOf (g acts : Mat α) (r c : Nat) :
    HasShape (weightDeltasOf g acts r c) r c := hasShape_tabulate _ _ _

theorem hasShape_momentumOf (m : α) (d p : Mat α) (r c : Nat) :
    HasShape (momentumOf m d p r c) r c := hasShape_tabulate _ _ _

theorem hasShape_addOf (a b : Mat α) (r c : Nat) : HasShape (addOf a b r c) r c :=
  hasShape_tabulate _ _ _

theorem trainOutput_eq {nn : NeuralNetwork α} (hnn : nn.WellShaped) (ho : 0 < nn.outputSize)
    {hidden outputs targets : Mat α} (hh : HasShape hidden nn.hiddenSize 1)
    (hout : HasShape outputs nn.outputSize 1) (ht : HasShape targets nn.outputSize 1)
    (rng : Rng α) :
    nn.trainOutput hidden outputs targets rng =
      some (nn.outputStageOf hidden outputs targets rng) := by
  have h1 : matrixSubtract targets outputs rng =
      some (outputErrorsOf targets outputs nn.outputSize, rng.skip (nn.outputSize * 1)) :=
    matrixSubtract_eq ht hout ho rng
  have herr : HasShape (outputErrorsOf targets outputs nn.outputSize) nn.outputSize 1 :=
    hasShape_tabulate _ _ _
  obtain ⟨g1, g2, h2, h3, h4⟩ := gradient_steps_eq hout herr ho nn.learningRate
    (rng.skip (nn.outputSize * 1))
  obtain ⟨hT, h5, h6⟩ := weightDeltas_steps_eq
    (hasShape_gradientOf nn.learningRate outputs
      (outputErrorsOf targets outputs nn.outputSize) nn.outputSize) hh hnn.hiddenPos
    ((rng.skip (nn.outputSize * 1)).skip (nn.outputSize * 1))
  have h7 := momentumDeltas_eq hnn.weightsHO
    (hasShape_weightDeltasOf (gradientOf nn.learningRate outputs
      (outputErrorsOf targets outputs nn.outputSize) nn.outputSize) hidden nn.outputSize
      nn.hiddenSize) hnn.prevWeightsHO nn.momentum
  have h8 := matrixAdd_eq hnn.biasO (hasShape_gradientOf nn.learningRate outputs
      (outputErrorsOf targets outputs nn.outputSize) nn.outputSize)
  have h9 := applyDeltas_eq hnn.weightsHO (hasShape_momentumOf nn.momentum
    (weightDeltasOf (gradientOf nn.learningRate outputs
      (outputErrorsOf targets outputs nn.outputSize) nn.outputSize) hidden nn.outputSize
      nn.hiddenSize) nn.prevWeightsHO nn.outputSize nn.hiddenSize)
  have h10 := storeDeltas_eq hnn.prevWeightsHO (hasShape_momentumOf nn.momentum
    (weightDeltasOf (gradientOf nn.learningRate outputs
      (outputErrorsOf targets outputs nn.outputSize) nn.outputSize) hidden nn.outputSize
      nn.hiddenSize) nn.prevWeightsHO nn.outputSize nn.hiddenSize)
  simp only [NeuralNetwork.trainOutput, bind, Option.bind, pure, h1, h2, h3, h4, h5, h6, h7, h8,
    h9, h10]
  rfl

theorem trainHidden_eq {nn : NeuralNetwork α} (hnn : nn.WellShaped) (ho : 0 < nn.outputSize)
    {inputs hidden weightsHO outputErrors : Mat α} (hin : HasShape inputs nn.inputSize 1)
    (hh : HasShape hidden nn.hiddenSize 1)
    (hw : HasShape weightsHO nn.outputSize nn.hiddenSize)
    (he : HasShape outputErrors nn.outputSize 1) (rng : Rng α) :
    nn.trainHidden inputs hidden weightsHO outputErrors rng =
      some (nn.hiddenStageOf inputs hidden weightsHO outputErrors rng) := by
  have h1 : matrixTranspose weightsHO rng =
      some (transposeOf weightsHO nn.outputSize nn.hiddenSize,
        rng.skip (nn.hiddenSize * nn.outputSize)) := matrixTranspose_eq hw ho rng
  have hT : HasShape (transposeOf weightsHO nn.outputSize nn.hiddenSize) nn.hiddenSize
      nn.outputSize := hasShape_tabulate _ _ _
  have h2 : matrixMultiply (transposeOf weightsHO nn.outputSize nn.hiddenSize) outputErrors =
      some (mulOf (transposeOf weightsHO nn.outputSize nn.hiddenSize) outputErrors
        nn.hiddenSize nn.outputSize 1) := matrixMultiply_eq hT he ho
  have hE : HasShape (mulOf (transposeOf weightsHO nn.outputSize nn.hiddenSize) outputErrors
        nn.hiddenSize nn.outputSize 1) nn.hiddenSize 1 := hasShape_tabulate _ _ _
  obtain ⟨g1, g2, h3, h4, h5⟩ := gradient_steps_eq hh hE hnn.hiddenPos nn.learningRate
    (rng.skip (nn.hiddenSize * nn.outputSize))
  obtain ⟨iT, h6, h7⟩ := weightDeltas_steps_eq
    (hasShape_gradientOf nn.learningRate hidden
      (mulOf (transposeOf weightsHO nn.outputSize nn.hiddenSize) outputErrors
        nn.hiddenSize nn.outputSize 1) nn.hiddenSize) hin hnn.inputPos
    ((rng.skip (nn.hiddenSize * nn.outputSize)).skip (nn.hiddenSize * 1))
  have h8 := momentumDeltas_eq hnn.weightsIH
    (hasShape_weightDeltasOf (gradientOf nn.learningRate hidden
      (mulOf (transposeOf weightsHO nn.outputSize nn.hiddenSize) outputErrors
        nn.hiddenSize nn.outputSize 1) nn.hiddenSize) inputs nn.hiddenSize nn.inputSize)
    hnn.prevWeightsIH nn.momentum
  have h9 := matrixAdd_eq hnn.biasH (hasShape_gradientOf nn.learningRate hidden
      (mulOf (transposeOf weightsHO nn.outputSize nn.hiddenSize) outputErrors
        nn.hiddenSize nn.outputSize 1) nn.hiddenSize)
  have h10 := applyDeltas_eq hnn.weightsIH (hasShape_momentumOf nn.momentum
    (weightDeltasOf (gradientOf nn.learningRate hidden
      (mulOf (transposeOf weightsHO nn.outputSize nn.hiddenSize) outputErrors
        nn.hiddenSize nn.outputSize 1) nn.hiddenSize) inputs nn.hiddenSize nn.inputSize)
    nn.prevWeightsIH nn.hiddenSize nn.inputSize)
  have h11 := storeDeltas_eq hnn.prevWeightsIH (hasShape_momentumOf nn.momentum
    (weightDeltasOf (gradientOf nn.learningRate hidden
      (mulOf (transposeOf weightsHO nn.outputSize nn.hiddenSize) outputErrors
        nn.hiddenSize nn.outputSize 1) nn.hiddenSize) inputs nn.hiddenSize nn.inputSize)
    nn.prevWeightsIH nn.hiddenSize nn.inputSize)
  simp only [NeuralNetwork.trainHidden, bind, Option.bind, pure, h1, h2, h3, h4, h5, h6, h7, h8,
    h9, h10, h11]
  rfl

theorem meanAbsError_eq {errors : Mat α} {n : Nat} (he : HasShape errors n 1) :
    meanAbsError errors = some (meanAbsOf errors n) := by
  simp only [meanAbsError, matrixToArray_eq he, Option.map_some', meanAbsOf, he.1]

theorem trainTrace_eq (M : JsMath α) {nn : NeuralNetwork α} (hnn : nn.WellShaped)
    (ho : 0 < nn.outputSize) {inputArray targetArray : List α}
    (hlen : inputArray.length = nn.inputSize) (htlen : targetArray.length = nn.outputSize)
    (rng : Rng α) :
    nn.trainTrace M inputArray targetArray rng =
      some { hidden := nn.hiddenOf M (arrayToMatrix inputArray),
             outputs := nn.outputsOf M (arrayToMatrix inputArray),
             out := nn.outOf M inputArray targetArray rng,
             hid := nn.hidOf M inputArray targetArray rng,
             nn := nn.trained M inputArray targetArray rng,
             error := nn.trainError M inputArray targetArray } := by
  have hin : HasShape (arrayToMatrix inputArray) nn.inputSize 1 := by
    rw [← hlen]; exact hasShape_arrayToMatrix _
  have ht : HasShape (arrayToMatrix targetArray) nn.outputSize 1 := by
    rw [← htlen]; exact hasShape_arrayToMatrix _
  have hh : HasShape (nn.hiddenOf M (arrayToMatrix inputArray)) nn.hiddenSize 1 :=
    hasShape_tabulate _ _ _
  have hout : HasShape (nn.outputsOf M (arrayToMatrix inputArray)) nn.outputSize 1 :=
    hasShape_tabulate _ _ _
  have h1 := forward_eq M hnn hin
  have h2 : nn.trainOutput (nn.hiddenOf M (arrayToMatrix inputArray))
      (nn.outputsOf M (arrayToMatrix inputArray)) (arrayToMatrix targetArray) rng =
      some (nn.outOf M inputArray targetArray rng) := trainOutput_eq hnn ho hh hout ht rng
  have hw : HasShape (nn.outOf M inputArray targetArray rng).weightsHO nn.outputSize
      nn.hiddenSize := hasShape_tabulate _ _ _
  have he : HasShape (nn.outOf M inputArray targetArray rng).outputErrors nn.outputSize 1 :=
    hasShape_tabulate _ _ _
  have h3 : nn.trainHidden (arrayToMatrix inputArray) (nn.hiddenOf M (arrayToMatrix inputArray))
      (nn.outOf M inputArray targetArray rng).weightsHO
      (nn.outOf M inputArray targetArray rng).outputErrors
      (nn.outOf M inputArray targetArray rng).rng =
      some (nn.hidOf M inputArray targetArray rng) := trainHidden_eq hnn ho hin hh hw he _
  have h4 : meanAbsError (nn.outOf M inputArray targetArray rng).outputErrors =
      some (nn.trainError M inputArray targetArray) := meanAbsError_eq he
  simp only [NeuralNetwork.trainTrace, bind, Option.bind, pure, h1, h2, h3, h4]
  rfl

theorem train_eq (M : JsMath α) {nn : NeuralNetwork α} (hnn : nn.WellShaped)
    (ho : 0 < nn.outputSize) {inputArray targetArray : List α}
    (hlen : inputArray.length = nn.inputSize) (htlen : targetArray.length = nn.outputSize)
    (rng : Rng α) :
    nn.train M inputArray targetArray rng =
      some (nn.trained M inputArray targetArray rng, nn.trainError M inputArray targetArray,
        (nn.hidOf M inputArray targetArray rng).rng) := by
  simp only [NeuralNetwork.train, trainTrace_eq M hnn ho hlen htlen rng, Option.map_some']

theorem wellShaped_trained (M : JsMath α) {nn : NeuralNetwork α} (hnn : nn.WellShaped)
    (inputArray targetArray : List α) (rng : Rng α) :
    (nn.trained M inputArray targetArray rng).WellShaped :=
  { inputPos := hnn.inputPos
    hiddenPos := hnn.hiddenPos
    weightsIH := hasShape_tabulate _ _ _
    weightsHO := hasShape_tabulate _ _ _
    biasH := hasShape_tabulate _ _ _
    biasO := hasShape_tabulate _ _ _
    prevWeightsIH := hasShape_tabulate _ _ _
    prevWeightsHO := hasShape_tabulate _ _ _ }

theorem wellShaped_new (inputSize hiddenSize outputSize : Nat) (hi : 0 < inputSize)
    (hh : 0 < hiddenSize) (rng : Rng α) :
    (NeuralNetwork.new inputSize hiddenSize outputSize rng).1.WellShaped :=
  { inputPos := hi
    hiddenPos := hh
    weightsIH := hasShape_createMatrix _ _ _ _
    weightsHO := hasShape_createMatrix _ _ _ _
    biasH := hasShape_createMatrix _ _ _ _
    biasO := hasShape_createMatrix _ _ _ _
    prevWeightsIH := hasShape_createMatrix _ _ _ _
    prevWeightsHO := hasShape_createMatrix _ _ _ _ }

theorem underflowMath_exp_nonneg (x : ℝ) : 0 ≤ underflowMath.exp x := by
  show 0 ≤ (if x < -746 then (0 : ℝ) else Real.exp x)
  split
  · exact le_refl 0
  · exact (Real.exp_pos x).le

/-- Witness of C1: the network that the constructor builds when every draw is one half, on the
zero input, with the exponential that underflows. -/
theorem predict_output_in_unit_interval_witness :
    ∃ out, (NeuralNetwork.new 8 16 4 (halfRng ℝ)).1.predict underflowMath
        [0, 0, 0, 0, 0, 0, 0, 0] = some out ∧ out.length = 4 ∧ ∀ y ∈ out, 0 ≤ y ∧ y ≤ 1 :=
  predict_output_in_unit_interval underflowMath underflowMath_exp_nonneg
    (NeuralNetwork.new 8 16 4 (halfRng ℝ)).1
    (wellShaped_new 8 16 4 (by decide) (by decide) (halfRng ℝ)) rfl rfl rfl
    [0, 0, 0, 0, 0, 0, 0, 0] rfl

/-! ## Entries of the constructor's matrices -/

theorem entryD_createMatrix_none (rows cols : Nat) (rng : Rng α) {i j : Nat} (hi : i < rows)
    (hj : j < cols) :
    entryD (createMatrix rows cols none rng).1 i j = (rng (i * cols + j) * 2 - 1) * 0.5 := by
  have h : (createMatrix rows cols none rng).1 =
      tabulate rows cols fun i j => (rng (i * cols + j) * 2 - 1) * 0.5 := by
    simp [createMatrix, createRow, tabulate, Rng.skip]
  rw [h, entryD_tabulate _ _ _ hi hj]

theorem entryD_createMatrix_some (rows cols : Nat) (v : α) (rng : Rng α) {i j : Nat}
    (hi : i < rows) (hj : j < cols) :
    entryD (createMatrix rows cols (some v) rng).1 i j = v := by
  have h : (createMatrix rows cols (some v) rng).1 = tabulate rows cols fun _ _ => v := by
    simp [createMatrix, createRow, tabulate]
  rw [h, entryD_tabulate _ _ _ hi hj]

theorem entryD_tabulate_ite (rows cols : Nat) (f : Nat → Nat → α) (i j : Nat) :
    entryD (tabulate rows cols f) i j = if i < rows ∧ j < cols then f i j else 0 := by
  by_cases hi : i < rows
  · by_cases hj : j < cols
    · rw [entryD_tabulate _ _ _ hi hj, if_pos ⟨hi, hj⟩]
    · rw [if_neg (fun h => hj h.2)]
      have h : (List.range cols)[j]? = none :=
        List.getElem?_eq_none (by rw [List.length_range]; omega)
      simp [entryD, tabulate, List.getD_eq_getElem?_getD, List.getElem?_map,
        List.getElem?_range hi, h]
  · rw [if_neg (fun h => hi h.1)]
    have h : (List.range rows)[i]? = none :=
      List.getElem?_eq_none (by rw [List.length_range]; omega)
    simp [entryD, tabulate, List.getD_eq_getElem?_getD, List.getElem?_map, h]

theorem halfRng_skip (n : Nat) : (halfRng α).skip n = halfRng α := rfl

theorem createMatrix_halfRng (rows cols : Nat) :
    createMatrix rows cols none (halfRng α) = (tabulate rows cols fun _ _ => 0, halfRng α) := by
  refine Prod.ext ?_ rfl
  simp only [createMatrix, createRow, tabulate, halfRng_skip]
  apply List.map_congr_left
  intro i _
  apply List.map_congr_left
  intro j _
  simp only [halfRng]
  norm_num

theorem createMatrix_fill (rows cols : Nat) (v : α) (rng : Rng α) :
    createMatrix rows cols (some v) rng = (tabulate rows cols fun _ _ => v, rng) := rfl

theorem zeroNet_eq :
    zeroNet α =
      { inputSize := 8, hiddenSize := 16, outputSize := 4,
        weightsIH := tabulate 16 8 fun _ _ => 0,
        weightsHO := tabulate 4 16 fun _ _ => 0,
        biasH := tabulate 16 1 fun _ _ => 0,
        biasO := tabulate 4 1 fun _ _ => 0,
        learningRate := 0.1, momentum := 0.9,
        prevWeightsIH := tabulate 16 8 fun _ _ => 0,
        prevWeightsHO := tabulate 4 16 fun _ _ => 0 } := by
  simp only [zeroNet, NeuralNetwork.new, createMatrix_halfRng, createMatrix_fill]

theorem wellShaped_zeroNet : (zeroNet α).WellShaped :=
  wellShaped_new 8 16 4 (by decide) (by decide) _

/-! ## C2: which weight matrix the hidden-layer error reads -/

/-- C2, amended. For every well-shaped network, input and target, `train` computes the
hidden-layer error as the transpose of the hidden-to-output weight matrix as it is AFTER this
call's momentum update (the matrix that the call leaves in `weightsHO`, which is the old one
plus the deltas stored in `prevWeightsHO`), multiplied by `outputErrors = targets - outputs`. -/
theorem train_hiddenErrors_post_update (M : JsMath α) (nn : NeuralNetwork α)
    (hnn : nn.WellShaped) (ho : 0 < nn.outputSize) (inputArray targetArray : List α)
    (hlen : inputArray.length = nn.inputSize) (htlen : targetArray.length = nn.outputSize)
    (rng : Rng α) :
    ∃ t, nn.trainTrace M inputArray targetArray rng = some t ∧
      t.out.outputErrors = outputErrorsOf (arrayToMatrix targetArray) t.outputs nn.outputSize ∧
      t.nn.weightsHO = addOf nn.weightsHO t.nn.prevWeightsHO nn.outputSize nn.hiddenSize ∧
      ∀ rng', ∃ wT r, matrixTranspose t.nn.weightsHO rng' = some (wT, r) ∧
        matrixMultiply wT t.out.outputErrors = some t.hid.hiddenErrors := by
  refine ⟨_, trainTrace_eq M hnn ho hlen htlen rng, rfl, rfl, ?_⟩
  intro rng'
  have hw : HasShape (nn.trained M inputArray targetArray rng).weightsHO nn.outputSize
      nn.hiddenSize := hasShape_tabulate _ _ _
  have he : HasShape (nn.outOf M inputArray targetArray rng).outputErrors nn.outputSize 1 :=
    hasShape_tabulate _ _ _
  exact ⟨_, _, matrixTranspose_eq hw ho rng',
    matrixMultiply_eq (hasShape_tabulate _ _ _) he ho⟩

/-- Witness of the amended C2 on the all-zero network of the game. -/
theorem train_hiddenErrors_post_update_witness :
    ∃ t, (zeroNet ℝ).trainTrace realMath [0, 0, 0, 0, 0, 0, 0, 0] [1, 1, 1, 1] (halfRng ℝ)
        = some t ∧
      t.out.outputErrors = outputErrorsOf (arrayToMatrix [1, 1, 1, 1]) t.outputs 4 ∧
      t.nn.weightsHO = addOf (zeroNet ℝ).weightsHO t.nn.prevWeightsHO 4 16 ∧
      ∀ rng', ∃ wT r, matrixTranspose t.nn.weightsHO rng' = some (wT, r) ∧
        matrixMultiply wT t.out.outputErrors = some t.hid.hiddenErrors :=
  train_hiddenErrors_post_update realMath (zeroNet ℝ) wellShaped_zeroNet (by decide)
    [0, 0, 0, 0, 0, 0, 0, 0] [1, 1, 1, 1] rfl rfl (halfRng ℝ)

/-- C2 as stated fails. On the all-zero network of the game with the zero input and the target
(1, 1, 1, 1), the hidden-layer error that `train` computes differs from the transpose of the
weight matrix on entry times `targets - outputs`: its first entry is 0.0125, not 0. -/
theorem train_hiddenErrors_pre_update_counterexample :
    ∃ t wT r old,
      (zeroNet ℝ).trainTrace realMath [0, 0, 0, 0, 0, 0, 0, 0] [1, 1, 1, 1] (halfRng ℝ)
        = some t ∧
      t.out.outputErrors = outputErrorsOf (arrayToMatrix [1, 1, 1, 1]) t.outputs 4 ∧
      matrixTranspose (zeroNet ℝ).weightsHO (halfRng ℝ) = some (wT, r) ∧
      matrixMultiply wT t.out.outputErrors = some old ∧
      entryD old 0 0 = 0 ∧ entryD t.hid.hiddenErrors 0 0 = 0.0125 ∧
      t.hid.hiddenErrors ≠ old := by
  have hw : HasShape (zeroNet ℝ).weightsHO 4 16 := wellShaped_zeroNet.weightsHO
  have he : HasShape ((zeroNet ℝ).outOf realMath [0, 0, 0, 0, 0, 0, 0, 0] [1, 1, 1, 1]
      (halfRng ℝ)).outputErrors 4 1 := hasShape_tabulate _ _ _
  have hnew : entryD ((zeroNet ℝ).hidOf realMath [0, 0, 0, 0, 0, 0, 0, 0] [1, 1, 1, 1]
      (halfRng ℝ)).hiddenErrors 0 0 = 0.0125 := by
    simp only [NeuralNetwork.hidOf, NeuralNetwork.hiddenStageOf, NeuralNetwork.outOf,
      NeuralNetwork.outputStageOf, zeroNet_eq, mulOf, transposeOf, addOf, momentumOf,
      weightDeltasOf, gradientOf, outputErrorsOf, NeuralNetwork.outputsOf,
      NeuralNetwork.hiddenOf, entryD_tabulate_ite, dotD, List.range_succ, List.range_zero,
      entryD_arrayToMatrix]
    simp [sigmoid, sigmoidDerivative, realMath]
    norm_num
  have hold : entryD (tabulate 16 1 fun i j =>
      ((List.range 4).map fun k =>
        entryD (tabulate 16 4 fun j i => entryD (zeroNet ℝ).weightsHO i j) i k *
          entryD ((zeroNet ℝ).outOf realMath [0, 0, 0, 0, 0, 0, 0, 0] [1, 1, 1, 1]
            (halfRng ℝ)).outputErrors k j).foldl (· + ·) 0) 0 0 = 0 := by
    simp only [zeroNet_eq, entryD_tabulate_ite, List.range_succ, List.range_zero]
    simp
  refine ⟨_, _, _, _,
    trainTrace_eq realMath wellShaped_zeroNet (by decide)
      (show ([0, 0, 0, 0, 0, 0, 0, 0] : List ℝ).length = (zeroNet ℝ).inputSize from rfl)
      (show ([1, 1, 1, 1] : List ℝ).length = (zeroNet ℝ).outputSize from rfl) (halfRng ℝ), rfl,
    matrixTranspose_eq hw (by decide) (halfRng ℝ),
    matrixMultiply_eq (hasShape_tabulate 16 4 _) he (by decide), hold, hnew, ?_⟩
  intro h
  have h0 := congrArg (fun m => entryD m 0 0) h
  simp only at h0
  rw [hold] at h0
  have h1 := hnew.symm.trans h0
  norm_num at h1

/-! ## C4: the training buffer -/

theorem foldl_pushSample {β : Type} (cap : Nat) (samples : List β) :
    samples.foldl (fun buf s => pushSample buf cap s) [] = samples.drop (samples.length - cap) := by
  induction samples using List.reverseRecOn with
  | nil => simp
  | append_singleton ys s ih =>
    rw [List.foldl_append, ih]
    simp only [List.foldl_cons, List.foldl_nil, pushSample, List.length_append, List.length_drop,
      List.length_singleton]
    by_cases h : ys.length < cap
    · have h0 : ys.length - cap = 0 := by omega
      have h1 : ys.length + 1 - cap = 0 := by omega
      rw [h0, h1, if_neg (by omega)]
      simp
    · have hlen : cap ≤ ys.length := by omega
      rw [if_pos (by omega)]
      rw [← List.drop_one, ← List.drop_append_of_le_length (by omega)]
      rw [List.drop_drop]
      congr 1
      omega

set_option maxRecDepth 100000 in
theorem drop_range_150 :
    (List.range' 1 150).drop ((List.range' 1 150).length - 100) = List.range' 51 100 := by
  decide

/-- C4. The training buffer is a FIFO of capacity 100: after appending the samples of any list
to the empty buffer, each append being the `push` followed by the `shift` when the length
exceeds `maxTrainingData = 100`, the buffer holds exactly the last `min(n, 100)` samples in
their order of arrival, so its length never exceeds 100; for the samples 1..150 it holds
51..150.  `updateAI` performs exactly this append, with the capacity 100 that the constructor
sets. -/
theorem trainingData_fifo :
    (∀ (β : Type) (samples : List β),
      samples.foldl (fun buf s => pushSample buf 100 s) [] = samples.drop (samples.length - 100) ∧
      (samples.foldl (fun buf s => pushSample buf 100 s) []).length = min samples.length 100 ∧
      (samples.foldl (fun buf s => pushSample buf 100 s) []).length ≤ 100) ∧
    (List.range' 1 150).foldl (fun buf s => pushSample buf 100 s) [] = List.range' 51 100 ∧
    (∀ (M : JsMath α) (g : Game α) (inputs : List α),
      (g.collectTrainingData M inputs).trainingData =
        pushSample g.trainingData g.maxTrainingData (Sample.mk inputs (g.heuristicTargets M))) ∧
    (∀ (width height : α) (rng : Rng α),
      (Game.new width height rng).maxTrainingData = 100 ∧
      (Game.new width height rng).trainingData = []) := by
  refine ⟨?_, ?_, fun _ _ _ => rfl, fun _ _ _ => ⟨rfl, rfl⟩⟩
  · intro β samples
    rw [foldl_pushSample]
    refine ⟨rfl, ?_, ?_⟩ <;> simp only [List.length_drop] <;> omega
  · rw [foldl_pushSample]
    exact drop_range_150

/-! ## C5: the initial weights -/

theorem mem_createMatrix_none {rows cols : Nat} {rng : Rng α} {row : List α} {v : α}
    (hrow : row ∈ (createMatrix rows cols none rng).1) (hv : v ∈ row) :
    ∃ n, v = (rng n * 2 - 1) * 0.5 := by
  simp only [createMatrix, List.mem_map, List.mem_range] at hrow
  obtain ⟨i, -, rfl⟩ := hrow
  simp only [createRow, List.mem_map, List.mem_range] at hv
  obtain ⟨j, -, rfl⟩ := hv
  exact ⟨i * cols + j, rfl⟩

theorem mem_createMatrix_some {rows cols : Nat} {rng : Rng α} {fill : α} {row : List α} {v : α}
    (hrow : row ∈ (createMatrix rows cols (some fill) rng).1) (hv : v ∈ row) : v = fill := by
  simp only [createMatrix, List.mem_map, List.mem_range] at hrow
  obtain ⟨i, -, rfl⟩ := hrow
  simp only [createRow, List.mem_map, List.mem_range] at hv
  obtain ⟨j, -, rfl⟩ := hv
  rfl

theorem createMatrix_none_range {rows cols : Nat} {rng : Rng α}
    (hr : ∀ n, 0 ≤ rng n ∧ rng n < 1) {row : List α} {v : α}
    (hrow : row ∈ (createMatrix rows cols none rng).1) (hv : v ∈ row) :
    -0.5 ≤ v ∧ v < 0.5 := by
  obtain ⟨n, rfl⟩ := mem_createMatrix_none hrow hv
  obtain ⟨h0, h1⟩ := hr n
  constructor <;> norm_num <;> linarith

theorem skip_range {rng : Rng α} (hr : ∀ n, 0 ≤ rng n ∧ rng n < 1) (k : Nat) :
    ∀ n, 0 ≤ rng.skip k n ∧ rng.skip k n < 1 := fun n => hr (k + n)

/-- C5, amended. After constructing a `NeuralNetwork` of any sizes, for every random source
with values in [0, 1), every entry of `weightsIH`, `weightsHO`, `biasH` and `biasO` lies in the
half-open interval [-0.5, 0.5) (the value is `(Math.random() * 2 - 1) * 0.5`), and every entry
of `prevWeightsIH` and `prevWeightsHO` is exactly 0. -/
theorem constructor_weight_range (inputSize hiddenSize outputSize : Nat) (rng : Rng α)
    (hr : ∀ n, 0 ≤ rng n ∧ rng n < 1) :
    (∀ m ∈ [(NeuralNetwork.new inputSize hiddenSize outputSize rng).1.weightsIH,
            (NeuralNetwork.new inputSize hiddenSize outputSize rng).1.weightsHO,
            (NeuralNetwork.new inputSize hiddenSize outputSize rng).1.biasH,
            (NeuralNetwork.new inputSize hiddenSize outputSize rng).1.biasO],
      ∀ row ∈ m, ∀ v ∈ row, -0.5 ≤ v ∧ v < 0.5) ∧
    (∀ m ∈ [(NeuralNetwork.new inputSize hiddenSize outputSize rng).1.prevWeightsIH,
            (NeuralNetwork.new inputSize hiddenSize outputSize rng).1.prevWeightsHO],
      ∀ row ∈ m, ∀ v ∈ row, v = 0) := by
  constructor
  · intro m hm row hrow v hv
    simp only [List.mem_cons, List.mem_singleton, List.not_mem_nil, or_false] at hm
    rcases hm with rfl | rfl | rfl | rfl
    · exact createMatrix_none_range hr hrow hv
    · exact createMatrix_none_range (skip_range hr _) hrow hv
    · exact createMatrix_none_range (skip_range (skip_range hr _) _) hrow hv
    · exact createMatrix_none_range (skip_range (skip_range (skip_range hr _) _) _) hrow hv
  · intro m hm row hrow v hv
    simp only [List.mem_cons, List.mem_singleton, List.not_mem_nil, or_false] at hm
    rcases hm with rfl | rfl
    · exact mem_createMatrix_some hrow hv
    · exact mem_createMatrix_some hrow hv

/-- Witness of the amended C5: the network of the game built from the constant source 1/2. -/
theorem constructor_weight_range_witness :
    (∀ m ∈ [(NeuralNetwork.new 8 16 4 (halfRng ℚ)).1.weightsIH,
            (NeuralNetwork.new 8 16 4 (halfRng ℚ)).1.weightsHO,
            (NeuralNetwork.new 8 16 4 (halfRng ℚ)).1.biasH,
            (NeuralNetwork.new 8 16 4 (halfRng ℚ)).1.biasO],
      ∀ row ∈ m, ∀ v ∈ row, -0.5 ≤ v ∧ v < 0.5) ∧
    (∀ m ∈ [(NeuralNetwork.new 8 16 4 (halfRng ℚ)).1.prevWeightsIH,
            (NeuralNetwork.new 8 16 4 (halfRng ℚ)).1.prevWeightsHO],
      ∀ row ∈ m, ∀ v ∈ row, v = 0) :=
  constructor_weight_range 8 16 4 (halfRng ℚ) (fun _ => by norm_num [halfRng])

/-- C5 as stated fails. With the random source that always returns 0, a value in [0, 1), the
first input-to-hidden weight of the game's network is -0.5, outside [-0.25, 0.25). -/
theorem constructor_weight_range_counterexample :
    (∀ n, 0 ≤ zeroRng ℚ n ∧ zeroRng ℚ n < 1) ∧
    ∃ row ∈ (NeuralNetwork.new 8 16 4 (zeroRng ℚ)).1.weightsIH, ∃ v ∈ row,
      v = -0.5 ∧ ¬ (-0.25 ≤ v ∧ v < 0.25) := by
  refine ⟨fun _ => by norm_num [zeroRng], ?_⟩
  refine ⟨createRow 8 none (zeroRng ℚ), ?_, (0 * 2 - 1) * 0.5, ?_, by norm_num,
    by norm_num⟩
  · simp only [NeuralNetwork.new, createMatrix, List.mem_map, List.mem_range]
    exact ⟨0, by decide, rfl⟩
  · simp only [createRow, List.mem_map, List.mem_range]
    exact ⟨0, by decide, rfl⟩

/-! ## C6: ability readiness -/

theorem readyAt_iff (now lastUsed cooldown : α) :
    readyAt now lastUsed cooldown = true ↔ now - lastUsed ≥ cooldown := by
  simp [readyAt]

theorem readyFlag_eq (now lastUsed cooldown : α) :
    (readyFlag (readyAt now lastUsed cooldown) : α) =
      if now - lastUsed ≥ cooldown then 1 else 0 := by
  unfold readyFlag
  by_cases h : now - lastUsed ≥ cooldown
  · rw [if_pos ((readyAt_iff _ _ _).mpr h), if_pos h]
  · rw [if_neg (fun h' => h ((readyAt_iff _ _ _).mp h')), if_neg h]

/-- C6. Ability readiness is exactly `now - lastUsed >= cooldown`: the test that `updateAI` and
`getNeuralNetworkInputs` make is true iff that inequality holds, for each of the four
abilities and every clock reading; entries 6 and 7 of the network input encode the projectile
and dash tests as 1 or 0; and with cooldown 3000 and `lastUsed = 0` the test is false at 2999
and true at 3000. -/
theorem ability_ready_iff :
    (∀ now lastUsed cooldown : α,
      readyAt now lastUsed cooldown = true ↔ now - lastUsed ≥ cooldown) ∧
    (∀ (g : Game α) (now o0 o1 o2 o3 : α),
      ((g.decision now o0 o1 o2 o3).projectileReady = true ↔
        now - g.abilities.projectile.lastUsed ≥ g.abilities.projectile.cooldown) ∧
      ((g.decision now o0 o1 o2 o3).dashReady = true ↔
        now - g.abilities.dash.lastUsed ≥ g.abilities.dash.cooldown) ∧
      ((g.decision now o0 o1 o2 o3).speedBoostReady = true ↔
        now - g.abilities.speedBoost.lastUsed ≥ g.abilities.speedBoost.cooldown) ∧
      ((g.decision now o0 o1 o2 o3).slowProjectileReady = true ↔
        now - g.abilities.slowProjectile.lastUsed ≥ g.abilities.slowProjectile.cooldown)) ∧
    (∀ (g : Game α) (now : α),
      (g.getNeuralNetworkInputs now)[6]? = some
        (if now - g.abilities.projectile.lastUsed ≥ g.abilities.projectile.cooldown
          then 1 else 0) ∧
      (g.getNeuralNetworkInputs now)[7]? = some
        (if now - g.abilities.dash.lastUsed ≥ g.abilities.dash.cooldown then 1 else 0)) ∧
    (Abilities.initial : Abilities α).projectile.cooldown = 3000 ∧
    (Abilities.initial : Abilities α).projectile.lastUsed = 0 ∧
    readyAt (2999 : α) 0 3000 = false ∧ readyAt (3000 : α) 0 3000 = true := by
  refine ⟨readyAt_iff, ?_, ?_, rfl, rfl, ?_, ?_⟩
  · intro g now o0 o1 o2 o3
    exact ⟨readyAt_iff _ _ _, readyAt_iff _ _ _, readyAt_iff _ _ _, readyAt_iff _ _ _⟩
  · intro g now
    constructor
    · simp only [Game.getNeuralNetworkInputs, readyFlag_eq]; rfl
    · simp only [Game.getNeuralNetworkInputs, readyFlag_eq]; rfl
  · simp only [readyAt, decide_eq_false_iff_not]; norm_num
  · simp only [readyAt, decide_eq_true_eq]; norm_num

/-! ## What `updateAI` leaves alone -/

theorem Game.SameWorld.reflWorld (g : Game α) : g.SameWorld g :=
  ⟨rfl, rfl, rfl, rfl, rfl, rfl, rfl, rfl, rfl, rfl⟩

theorem Game.SameWorld.thenWorld {g g' g'' : Game α} (h : g.SameWorld g') (h' : g'.SameWorld g'') :
    g.SameWorld g'' :=
  ⟨h'.canvasWidth.trans h.canvasWidth, h'.canvasHeight.trans h.canvasHeight,
   h'.isRunning.trans h.isRunning, h'.isPaused.trans h.isPaused, h'.score.trans h.score,
   h'.timerMaxDuration.trans h.timerMaxDuration, h'.player.trans h.player,
   h'.maxTrainingData.trans h.maxTrainingData, h'.radius.trans h.radius,
   h'.baseSpeed.trans h.baseSpeed⟩

theorem sameWorld_speedBoostCountdown (g : Game α) : g.SameWorld g.speedBoostCountdown := by
  unfold Game.speedBoostCountdown
  split
  · split <;> exact ⟨rfl, rfl, rfl, rfl, rfl, rfl, rfl, rfl, rfl, rfl⟩
  · exact Game.SameWorld.reflWorld g

theorem sameWorld_beamCharge (g : Game α) : g.SameWorld g.beamCharge :=
  ⟨rfl, rfl, rfl, rfl, rfl, rfl, rfl, rfl, rfl, rfl⟩

theorem sameWorld_beamTrack (M : JsMath α) (g : Game α) (rng : Rng α) :
    g.SameWorld (g.beamTrack M rng).1 := by
  unfold Game.beamTrack
  split
  · exact Game.SameWorld.reflWorld g
  · split <;> exact ⟨rfl, rfl, rfl, rfl, rfl, rfl, rfl, rfl, rfl, rfl⟩

theorem sameWorld_beamFire (g : Game α) (rng : Rng α) : g.SameWorld (g.beamFire rng).1 := by
  unfold Game.beamFire
  split <;> exact ⟨rfl, rfl, rfl, rfl, rfl, rfl, rfl, rfl, rfl, rfl⟩

theorem sameWorld_beamWindupStep (M : JsMath α) (g : Game α) (rng : Rng α) :
    g.SameWorld (g.beamWindupStep M rng).1 := by
  unfold Game.beamWindupStep
  split
  · exact ((sameWorld_beamCharge g).thenWorld (sameWorld_beamTrack M _ rng)).thenWorld
      (sameWorld_beamFire _ _)
  · exact Game.SameWorld.reflWorld g

theorem sameWorld_dashWindupStep (g : Game α) : g.SameWorld g.dashWindupStep := by
  unfold Game.dashWindupStep
  split <;> exact ⟨rfl, rfl, rfl, rfl, rfl, rfl, rfl, rfl, rfl, rfl⟩

theorem sameWorld_dashingStep (M : JsMath α) (g : Game α) (rng : Rng α) :
    g.SameWorld (g.dashingStep M rng).1 := by
  unfold Game.dashingStep
  split <;> exact ⟨rfl, rfl, rfl, rfl, rfl, rfl, rfl, rfl, rfl, rfl⟩

theorem sameWorld_steer (g : Game α) (d : Decision α) : g.SameWorld (g.steer d) :=
  ⟨rfl, rfl, rfl, rfl, rfl, rfl, rfl, rfl, rfl, rfl⟩

theorem sameWorld_tryProjectile (M : JsMath α) (g : Game α) (d : Decision α) (clock : Clock α)
    (rng : Rng α) : g.SameWorld (g.tryProjectile M d clock rng).1 := by
  unfold Game.tryProjectile
  split <;> exact ⟨rfl, rfl, rfl, rfl, rfl, rfl, rfl, rfl, rfl, rfl⟩

theorem sameWorld_tryDash (M : JsMath α) (g : Game α) (d : Decision α) (clock : Clock α) :
    g.SameWorld (g.tryDash M d clock) := by
  unfold Game.tryDash
  split <;> exact ⟨rfl, rfl, rfl, rfl, rfl, rfl, rfl, rfl, rfl, rfl⟩

theorem sameWorld_trySpeedBoost (g : Game α) (d : Decision α) (dist : α) (clock : Clock α)
    (rng : Rng α) : g.SameWorld (g.trySpeedBoost d dist clock rng).1 := by
  unfold Game.trySpeedBoost
  split <;> exact ⟨rfl, rfl, rfl, rfl, rfl, rfl, rfl, rfl, rfl, rfl⟩

theorem sameWorld_useSlowProjectile (M : JsMath α) (g : Game α) (now : α) (rng : Rng α) :
    g.SameWorld (g.useSlowProjectile M now rng).1 := by
  unfold Game.useSlowProjectile
  split <;> exact ⟨rfl, rfl, rfl, rfl, rfl, rfl, rfl, rfl, rfl, rfl⟩

theorem sameWorld_trySlowProjectile (M : JsMath α) (g : Game α) (d : Decision α) (dist : α)
    (clock : Clock α) (rng : Rng α) : g.SameWorld (g.trySlowProjectile M d dist clock rng).1 := by
  unfold Game.trySlowProjectile
  split
  · exact sameWorld_useSlowProjectile M g _ rng
  · exact Game.SameWorld.reflWorld g

theorem sameWorld_normalStep (M : JsMath α) (g : Game α) (d : Decision α) (clock : Clock α)
    (rng : Rng α) : g.SameWorld (g.normalStep M d clock rng).1 := by
  unfold Game.normalStep Game.normalStepBeforeBeam
  exact ((((sameWorld_steer g d).thenWorld (sameWorld_tryProjectile M _ d clock rng)).thenWorld
    (sameWorld_tryDash M _ d clock)).thenWorld (sameWorld_trySpeedBoost _ d _ clock _)).thenWorld
    (sameWorld_trySlowProjectile M _ d _ clock _)

theorem sameWorld_dashOrNormalStep (M : JsMath α) (g : Game α) (d : Decision α)
    (clock : Clock α) (rng : Rng α) : g.SameWorld (g.dashOrNormalStep M d clock rng).1 := by
  unfold Game.dashOrNormalStep
  split
  · exact sameWorld_dashWindupStep g
  · split
    · exact sameWorld_dashingStep M g rng
    · exact sameWorld_normalStep M g d clock rng

theorem sameWorld_moveAi (g : Game α) : g.SameWorld g.moveAi :=
  ⟨rfl, rfl, rfl, rfl, rfl, rfl, rfl, rfl, rfl, rfl⟩

theorem sameWorld_act (M : JsMath α) (g : Game α) (d : Decision α) (clock : Clock α)
    (rng : Rng α) : g.SameWorld (g.act M d clock rng).1 := by
  unfold Game.act
  exact ((sameWorld_beamWindupStep M g rng).thenWorld
    (sameWorld_dashOrNormalStep M _ d clock _)).thenWorld (sameWorld_moveAi _)

theorem sameWorld_collectTrainingData (M : JsMath α) (g : Game α) (inputs : List α) :
    g.SameWorld (g.collectTrainingData M inputs) :=
  ⟨rfl, rfl, rfl, rfl, rfl, rfl, rfl, rfl, rfl, rfl⟩

theorem sameWorld_trainPeriodically (M : JsMath α) {g : Game α} {rng : Rng α}
    {r : Game α × Rng α} (h : g.trainPeriodically M rng = some r) : g.SameWorld r.1 := by
  unfold Game.trainPeriodically at h
  split at h
  · split at h
    · simp only [Option.map_eq_some'] at h
      obtain ⟨t, -, rfl⟩ := h
      exact ⟨rfl, rfl, rfl, rfl, rfl, rfl, rfl, rfl, rfl, rfl⟩
    · cases h; exact Game.SameWorld.reflWorld g
  · cases h; exact Game.SameWorld.reflWorld g

/-- The result of `updateAI` when it returns: the steps applied to the network outputs. -/
theorem updateAI_some (M : JsMath α) {g : Game α} {clock : Clock α} {rng : Rng α}
    {r : Game α × Rng α} (h : g.updateAI M clock rng = some r) :
    ∃ outputs o0 o1 o2 o3,
      g.speedBoostCountdown.nn.predict M
        (g.speedBoostCountdown.getNeuralNetworkInputs clock.getNeuralNetworkInputs)
          = some outputs ∧
      outputs[0]? = some o0 ∧ outputs[1]? = some o1 ∧ outputs[2]? = some o2 ∧
      outputs[3]? = some o3 ∧
      ((g.speedBoostCountdown.act M (g.decision clock.updateAI o0 o1 o2 o3) clock
          rng).1.collectTrainingData M
        (g.speedBoostCountdown.getNeuralNetworkInputs
          clock.getNeuralNetworkInputs)).trainPeriodically M
        (g.speedBoostCountdown.act M (g.decision clock.updateAI o0 o1 o2 o3) clock rng).2
          = some r := by
  unfold Game.updateAI at h
  simp only [Option.bind_eq_some] at h
  obtain ⟨outputs, hp, o0, h0, o1, h1, o2, h2, o3, h3, hr⟩ := h
  exact ⟨outputs, o0, o1, o2, o3, hp, h0, h1, h2, h3, hr⟩

theorem sameWorld_updateAI (M : JsMath α) {g : Game α} {clock : Clock α} {rng : Rng α}
    {r : Game α × Rng α} (h : g.updateAI M clock rng = some r) : g.SameWorld r.1 := by
  obtain ⟨outputs, o0, o1, o2, o3, -, -, -, -, -, hr⟩ := updateAI_some M h
  exact (((sameWorld_speedBoostCountdown g).thenWorld (sameWorld_act M _ _ clock rng)).thenWorld
    (sameWorld_collectTrainingData M _ _)).thenWorld (sameWorld_trainPeriodically M hr)

/-! ## C7: unlocking -/

theorem isAbilityUnlocked_mono {g g' : Game α} (hT : 0 < g.timerMaxDuration)
    (hT' : g'.timerMaxDuration = g.timerMaxDuration) (hs : g.score ≤ g'.score) (key : String)
    (h : g.isAbilityUnlocked key = true) : g'.isAbilityUnlocked key = true := by
  unfold Game.isAbilityUnlocked at h ⊢
  by_cases hk : key = "projectile"
  · rw [if_pos hk]
  · rw [if_neg hk] at h ⊢
    cases hl : (unlockMap : List (String × α)).lookup key with
    | none => rw [hl] at h; exact absurd h (by simp)
    | some threshold =>
      rw [hl] at h
      simp only [decide_eq_true_eq, ge_iff_le] at h ⊢
      rw [hT']
      exact h.trans (min_le_min le_rfl (div_le_div_of_nonneg_right hs hT.le))

theorem isAbilityUnlocked_score_zero (g : Game α) (hs : g.score = 0) :
    g.isAbilityUnlocked "dash" = false ∧ g.isAbilityUnlocked "speedBoost" = false ∧
      g.isAbilityUnlocked "slowProjectile" = false := by
  refine ⟨?_, ?_, ?_⟩ <;>
  · simp only [Game.isAbilityUnlocked, unlockMap, List.lookup, hs, zero_div]
    simp

theorem tick_score (M : JsMath α) {g g' : Game α} {f : Frame α} (h : g.tick M f = some g') :
    g'.score = g.score + f.deltaTime ∧ g'.timerMaxDuration = g.timerMaxDuration := by
  unfold Game.tick at h
  simp only [Option.map_eq_some'] at h
  obtain ⟨r, hr, rfl⟩ := h
  have hw := sameWorld_updateAI M hr
  exact ⟨by rw [show ({ r.1 with score := r.1.score + f.deltaTime } : Game α).score =
    r.1.score + f.deltaTime from rfl, hw.score], hw.timerMaxDuration⟩

theorem update_score (M : JsMath α) {g g' : Game α} {f : Frame α}
    (hrun : g.isRunning = true) (hp : g.isPaused = false) (h : g.update M f = some g') :
    g'.score = g.score + f.deltaTime ∧ g'.timerMaxDuration = g.timerMaxDuration := by
  unfold Game.update at h
  simp only [hrun, hp, Bool.not_true, Bool.or_self, Bool.false_eq_true, if_false,
    Option.map_eq_some'] at h
  obtain ⟨g1, h1, rfl⟩ := h
  have ht := tick_score M h1
  split
  · exact ht
  · exact ht

/-- C7. Unlock monotonicity: `isAbilityUnlocked('projectile')` is true at every score; for
every ability key, if the ability is unlocked at score `s` it is unlocked at every score
`s' >= s` (with the same positive `timerMaxDuration`, which is 30 from the constructor on);
a frame of a running match adds `deltaTime` to the score, so with `deltaTime >= 0` an unlocked
ability stays unlocked; and right after `resetToInitialState()` or `start()` the three
non-primary abilities are locked. -/
theorem unlock_monotone :
    (∀ g : Game α, g.isAbilityUnlocked "projectile" = true) ∧
    (∀ (g g' : Game α) (key : String), 0 < g.timerMaxDuration →
      g'.timerMaxDuration = g.timerMaxDuration → g.score ≤ g'.score →
      g.isAbilityUnlocked key = true → g'.isAbilityUnlocked key = true) ∧
    (∀ (M : JsMath α) (g g' : Game α) (f : Frame α) (key : String), 0 < g.timerMaxDuration →
      g.isRunning = true → g.isPaused = false → 0 ≤ f.deltaTime → g.update M f = some g' →
      g'.score = g.score + f.deltaTime ∧
      (g.isAbilityUnlocked key = true → g'.isAbilityUnlocked key = true)) ∧
    (∀ g : Game α,
      g.resetToInitialState.score = 0 ∧ g.start.score = 0 ∧
      g.resetToInitialState.isAbilityUnlocked "dash" = false ∧
      g.resetToInitialState.isAbilityUnlocked "speedBoost" = false ∧
      g.resetToInitialState.isAbilityUnlocked "slowProjectile" = false ∧
      g.start.isAbilityUnlocked "dash" = false ∧
      g.start.isAbilityUnlocked "speedBoost" = false ∧
      g.start.isAbilityUnlocked "slowProjectile" = false) ∧
    (∀ (width height : α) (rng : Rng α), (Game.new width height rng).timerMaxDuration = 30) := by
  refine ⟨fun g => by simp [Game.isAbilityUnlocked], ?_, ?_, ?_, fun _ _ _ => rfl⟩
  · intro g g' key hT hT' hs h
    exact isAbilityUnlocked_mono hT hT' hs key h
  · intro M g g' f key hT hrun hp hdt h
    obtain ⟨hs, hT'⟩ := update_score M hrun hp h
    exact ⟨hs, isAbilityUnlocked_mono hT hT' (by rw [hs]; linarith) key⟩
  · intro g
    have h1 := isAbilityUnlocked_score_zero g.resetToInitialState rfl
    have h2 := isAbilityUnlocked_score_zero g.start rfl
    exact ⟨rfl, rfl, h1.1, h1.2.1, h1.2.2, h2.1, h2.2.1, h2.2.2⟩

theorem wellShaped_triggerNet : (triggerNet α).WellShaped :=
  { inputPos := (@wellShaped_zeroNet α _).inputPos
    hiddenPos := (@wellShaped_zeroNet α _).hiddenPos
    weightsIH := (@wellShaped_zeroNet α _).weightsIH
    weightsHO := (@wellShaped_zeroNet α _).weightsHO
    biasH := (@wellShaped_zeroNet α _).biasH
    biasO := by
      constructor
      · rfl
      · intro row hrow
        simp only [triggerNet, List.mem_cons, List.mem_singleton, List.not_mem_nil,
          or_false] at hrow
        rcases hrow with rfl | rfl | rfl | rfl <;> rfl
    prevWeightsIH := (@wellShaped_zeroNet α _).prevWeightsIH
    prevWeightsHO := (@wellShaped_zeroNet α _).prevWeightsHO }

theorem predict_triggerNet (M : JsMath α) (inputArray : List α) (hlen : inputArray.length = 8) :
    (triggerNet α).predict M inputArray =
      some [sigmoid M 0, sigmoid M 0, sigmoid M 4, sigmoid M 4] := by
  rw [predict_eq M wellShaped_triggerNet hlen]
  simp only [triggerNet, zeroNet_eq, NeuralNetwork.outputsOf, NeuralNetwork.hiddenOf,
    entryD_tabulate_ite, dotD, List.range_succ, List.range_zero]
  simp [entryD]

/-! ## The normal branch in closed form -/

theorem isAbilityUnlocked_congr {g g' : Game α} (hs : g'.score = g.score)
    (hT : g'.timerMaxDuration = g.timerMaxDuration) (key : String) :
    g'.isAbilityUnlocked key = g.isAbilityUnlocked key := by
  unfold Game.isAbilityUnlocked
  rw [hs, hT]

theorem normalStep_eq (M : JsMath α) (g : Game α) (d : Decision α) (clock : Clock α)
    (rng : Rng α) :
    g.normalStep M d clock rng =
      applySlowProjectile (g.firesSlowProjectile M d) M clock
        (applySpeedBoost (g.firesSpeedBoost M d) clock
          (applyDash (g.firesDash d) M d clock
            (applyProjectile (g.firesProjectile d) M clock (g.steer d, rng)))) := by
  have e1 : (g.steer d).tryProjectile M d clock rng =
      applyProjectile (g.firesProjectile d) M clock (g.steer d, rng) := by
    unfold Game.tryProjectile applyProjectile Game.firesProjectile
    rw [@isAbilityUnlocked_congr α _ g (g.steer d) rfl rfl]
  have h1 : ∀ b, (applyProjectile b M clock (g.steer d, rng)).1.ai = (g.steer d).ai ∧
      (applyProjectile b M clock (g.steer d, rng)).1.score = g.score ∧
      (applyProjectile b M clock (g.steer d, rng)).1.timerMaxDuration = g.timerMaxDuration ∧
      (applyProjectile b M clock (g.steer d, rng)).1.abilities.slowProjectile =
        g.abilities.slowProjectile := by
    intro b; cases b <;> exact ⟨rfl, rfl, rfl, rfl⟩
  have e2 : ((g.steer d).tryProjectile M d clock rng).1.tryDash M d clock =
      (applyDash (g.firesDash d) M d clock
        (applyProjectile (g.firesProjectile d) M clock (g.steer d, rng))).1 := by
    rw [e1]
    obtain ⟨ha, hs, hT, -⟩ := h1 (g.firesProjectile d)
    unfold Game.tryDash applyDash Game.firesDash
    rw [isAbilityUnlocked_congr hs hT, ha]
    simp only [Game.steer]
    split <;> rfl
  have e2' : ((g.steer d).tryProjectile M d clock rng).2 =
      (applyDash (g.firesDash d) M d clock
        (applyProjectile (g.firesProjectile d) M clock (g.steer d, rng))).2 := by
    rw [e1]; unfold applyDash; split <;> rfl
  have h2 : ∀ b b', (applyDash b' M d clock
        (applyProjectile b M clock (g.steer d, rng))).1.ai.isSpeedBoosted = g.ai.isSpeedBoosted ∧
      (applyDash b' M d clock (applyProjectile b M clock (g.steer d, rng))).1.score = g.score ∧
      (applyDash b' M d clock (applyProjectile b M clock (g.steer d, rng))).1.timerMaxDuration
        = g.timerMaxDuration ∧
      (applyDash b' M d clock (applyProjectile b M clock (g.steer d, rng))).1.ai.isBeamWindup
        = g.ai.isBeamWindup ∧
      (applyDash b' M d clock
        (applyProjectile b M clock (g.steer d, rng))).1.abilities.slowProjectile =
        g.abilities.slowProjectile := by
    intro b b'; cases b <;> cases b' <;> exact ⟨rfl, rfl, rfl, rfl, rfl⟩
  have e3 : g.normalStepBeforeBeam M d clock rng =
      applySpeedBoost (g.firesSpeedBoost M d) clock
        (applyDash (g.firesDash d) M d clock
          (applyProjectile (g.firesProjectile d) M clock (g.steer d, rng))) := by
    unfold Game.normalStepBeforeBeam
    rw [e2, e2']
    obtain ⟨hb, hs, hT, -, -⟩ := h2 (g.firesProjectile d) (g.firesDash d)
    unfold Game.trySpeedBoost applySpeedBoost Game.firesSpeedBoost
    rw [isAbilityUnlocked_congr hs hT, hb]
  have h3 : ∀ b b' b'', (applySpeedBoost b'' clock (applyDash b' M d clock
        (applyProjectile b M clock (g.steer d, rng)))).1.score = g.score ∧
      (applySpeedBoost b'' clock (applyDash b' M d clock
        (applyProjectile b M clock (g.steer d, rng)))).1.timerMaxDuration
        = g.timerMaxDuration ∧
      (applySpeedBoost b'' clock (applyDash b' M d clock
        (applyProjectile b M clock (g.steer d, rng)))).1.ai.isBeamWindup = g.ai.isBeamWindup ∧
      (applySpeedBoost b'' clock (applyDash b' M d clock
        (applyProjectile b M clock (g.steer d, rng)))).1.abilities.slowProjectile =
        g.abilities.slowProjectile := by
    intro b b' b''; cases b <;> cases b' <;> cases b'' <;> exact ⟨rfl, rfl, rfl, rfl⟩
  unfold Game.normalStep
  rw [e3]
  obtain ⟨hs, hT, hb, hr⟩ := h3 (g.firesProjectile d) (g.firesDash d) (g.firesSpeedBoost M d)
  unfold Game.trySlowProjectile applySlowProjectile Game.firesSlowProjectile
  rw [isAbilityUnlocked_congr hs hT, hb, hr]

theorem updateAI_of_predict (M : JsMath α) (g : Game α) (clock : Clock α) (rng : Rng α)
    (o0 o1 o2 o3 : α)
    (h : g.speedBoostCountdown.nn.predict M
      (g.speedBoostCountdown.getNeuralNetworkInputs clock.getNeuralNetworkInputs)
        = some [o0, o1, o2, o3]) :
    g.updateAI M clock rng =
      ((g.speedBoostCountdown.act M (g.decision clock.updateAI o0 o1 o2 o3) clock
          rng).1.collectTrainingData M
        (g.speedBoostCountdown.getNeuralNetworkInputs
          clock.getNeuralNetworkInputs)).trainPeriodically M
        (g.speedBoostCountdown.act M (g.decision clock.updateAI o0 o1 o2 o3) clock rng).2 := by
  simp [Game.updateAI, h]

/-! ## `updateAI` returns on well-formed games -/

theorem trainSamples_wf (M : JsMath α) (data : List (Sample α))
    (hdata : ∀ s ∈ data, s.inputs.length = 8 ∧ s.targets.length = 4) (hne : 0 < data.length)
    (idxs : List Nat) (nn : NeuralNetwork α) (hnn : nn.WellShaped) (h8 : nn.inputSize = 8)
    (h4 : nn.outputSize = 4) (rng : Rng α) :
    ∃ r, trainSamples M data idxs nn rng = some r ∧ r.1.WellShaped ∧ r.1.inputSize = 8 ∧
      r.1.outputSize = 4 ∧ r.1.hiddenSize = nn.hiddenSize ∧ r.2.1.length = idxs.length := by
  induction idxs generalizing nn rng with
  | nil => exact ⟨_, rfl, hnn, h8, h4, rfl, rfl⟩
  | cons i rest ih =>
    have hlt : data.length - 1 - i < data.length := by omega
    have hmem : data[data.length - 1 - i] ∈ data := List.getElem_mem _
    obtain ⟨hi, ht⟩ := hdata _ hmem
    have htr := train_eq M hnn (by omega) (hi.trans h8.symm) (ht.trans h4.symm) rng
    obtain ⟨r', hr', hw', h8', h4', hh', hl'⟩ :=
      ih (nn.trained M (data[data.length - 1 - i]).inputs (data[data.length - 1 - i]).targets rng)
        (wellShaped_trained M hnn _ _ rng) h8 h4
        (nn.hidOf M (data[data.length - 1 - i]).inputs (data[data.length - 1 - i]).targets
          rng).rng
    refine ⟨(r'.1, nn.trainError M (data[data.length - 1 - i]).inputs
      (data[data.length - 1 - i]).targets :: r'.2.1, r'.2.2), ?_, hw', h8', h4', hh', ?_⟩
    · simp only [trainSamples, List.getElem?_eq_getElem hlt, Option.some_bind, htr, hr',
        Option.map_some']
    · simp [hl']

theorem mem_pushSample {β : Type} {buf : List β} {cap : Nat} {s x : β}
    (h : x ∈ pushSample buf cap s) : x ∈ buf ∨ x = s := by
  unfold pushSample at h
  split at h
  · have := List.mem_of_mem_tail h
    simpa using this
  · simpa using h

theorem length_pushSample_pos {β : Type} (buf : List β) (cap : Nat) (s : β)
    (h : 15 < (pushSample buf cap s).length) : 0 < (pushSample buf cap s).length := by omega

theorem trainPeriodically_wf (M : JsMath α) {g : Game α} (hg : g.WellFormed) (rng : Rng α) :
    ∃ r, g.trainPeriodically M rng = some r ∧ r.1.WellFormed ∧ r.1.ai = g.ai ∧
      r.1.abilities = g.abilities ∧ r.1.projectiles = g.projectiles ∧
      r.1.aiBeams = g.aiBeams ∧ r.1.trainingData = g.trainingData := by
  unfold Game.trainPeriodically
  split
  · rename_i hlen
    split
    · obtain ⟨r, hr, hw, h8, h4, -, -⟩ := trainSamples_wf M g.trainingData hg.samples
        (by omega) (List.range (min 8 g.trainingData.length)) g.nn hg.nn hg.inputSize
        hg.outputSize (rng.skip 1)
      rw [hr]
      exact ⟨_, rfl, ⟨hw, h8, h4, hg.samples⟩, rfl, rfl, rfl, rfl, rfl⟩
    · exact ⟨_, rfl, hg, rfl, rfl, rfl, rfl, rfl⟩
  · exact ⟨_, rfl, hg, rfl, rfl, rfl, rfl, rfl⟩

theorem Game.SameLearning.reflLearning (g : Game α) : g.SameLearning g := ⟨rfl, rfl, rfl⟩

theorem Game.SameLearning.thenLearning {g g' g'' : Game α} (h : g.SameLearning g')
    (h' : g'.SameLearning g'') : g.SameLearning g'' :=
  ⟨h'.nn.trans h.nn, h'.trainingData.trans h.trainingData, h'.aiAccuracy.trans h.aiAccuracy⟩

theorem sameLearning_beamWindupStep (M : JsMath α) (g : Game α) (rng : Rng α) :
    g.SameLearning (g.beamWindupStep M rng).1 := by
  have h1 : g.SameLearning g.beamCharge := ⟨rfl, rfl, rfl⟩
  have h2 : ∀ g : Game α, g.SameLearning (g.beamTrack M rng).1 := by
    intro g
    unfold Game.beamTrack
    split
    · exact Game.SameLearning.reflLearning g
    · split <;> exact ⟨rfl, rfl, rfl⟩
  have h3 : ∀ (g : Game α) (rng : Rng α), g.SameLearning (g.beamFire rng).1 := by
    intro g rng
    unfold Game.beamFire
    split <;> exact ⟨rfl, rfl, rfl⟩
  unfold Game.beamWindupStep
  split
  · exact (h1.thenLearning (h2 _)).thenLearning (h3 _ _)
  · exact Game.SameLearning.reflLearning g

theorem sameLearning_normalStep (M : JsMath α) (g : Game α) (d : Decision α) (clock : Clock α)
    (rng : Rng α) : g.SameLearning (g.normalStep M d clock rng).1 := by
  have h0 : g.SameLearning (g.steer d) := ⟨rfl, rfl, rfl⟩
  have h1 : ∀ (b : Bool) (s : Game α × Rng α),
      s.1.SameLearning (applyProjectile b M clock s).1 := by
    intro b s; cases b <;> exact ⟨rfl, rfl, rfl⟩
  have h2 : ∀ (b : Bool) (s : Game α × Rng α),
      s.1.SameLearning (applyDash b M d clock s).1 := by
    intro b s; cases b <;> exact ⟨rfl, rfl, rfl⟩
  have h3 : ∀ (b : Bool) (s : Game α × Rng α),
      s.1.SameLearning (applySpeedBoost b clock s).1 := by
    intro b s; cases b <;> exact ⟨rfl, rfl, rfl⟩
  have h4 : ∀ (b : Bool) (s : Game α × Rng α),
      s.1.SameLearning (applySlowProjectile b M clock s).1 := by
    intro b s
    cases b
    · exact ⟨rfl, rfl, rfl⟩
    · simp only [applySlowProjectile, if_true, Game.useSlowProjectile]
      split <;> exact ⟨rfl, rfl, rfl⟩
  rw [normalStep_eq]
  exact (((h0.thenLearning (h1 _ (g.steer d, rng))).thenLearning (h2 _ _)).thenLearning (h3 _ _)).thenLearning (h4 _ _)

theorem sameLearning_dashOrNormalStep (M : JsMath α) (g : Game α) (d : Decision α)
    (clock : Clock α) (rng : Rng α) : g.SameLearning (g.dashOrNormalStep M d clock rng).1 := by
  unfold Game.dashOrNormalStep
  split
  · unfold Game.dashWindupStep; split <;> exact ⟨rfl, rfl, rfl⟩
  · split
    · unfold Game.dashingStep; split <;> exact ⟨rfl, rfl, rfl⟩
    · exact sameLearning_normalStep M g d clock rng

/-- The fields `nn`, `trainingData` and `aiAccuracy` are not assigned by `act`. -/
theorem learning_act (M : JsMath α) (g : Game α) (d : Decision α) (clock : Clock α)
    (rng : Rng α) :
    (g.act M d clock rng).1.nn = g.nn ∧ (g.act M d clock rng).1.trainingData = g.trainingData ∧
      (g.act M d clock rng).1.aiAccuracy = g.aiAccuracy := by
  have h := (sameLearning_beamWindupStep M g rng).thenLearning
    (sameLearning_dashOrNormalStep M _ d clock (g.beamWindupStep M rng).2)
  exact ⟨h.nn, h.trainingData, h.aiAccuracy⟩

theorem learning_speedBoostCountdown (g : Game α) :
    g.speedBoostCountdown.nn = g.nn ∧ g.speedBoostCountdown.trainingData = g.trainingData ∧
      g.speedBoostCountdown.aiAccuracy = g.aiAccuracy ∧
      g.speedBoostCountdown.abilities = g.abilities ∧
      g.speedBoostCountdown.maxTrainingData = g.maxTrainingData := by
  unfold Game.speedBoostCountdown
  split
  · split <;> exact ⟨rfl, rfl, rfl, rfl, rfl⟩
  · exact ⟨rfl, rfl, rfl, rfl, rfl⟩

theorem length_heuristicTargets (M : JsMath α) (g : Game α) :
    (g.heuristicTargets M).length = 4 := rfl

theorem length_getNeuralNetworkInputs (g : Game α) (now : α) :
    (g.getNeuralNetworkInputs now).length = 8 := rfl

/-- On a well-formed game `updateAI` returns, the game it leaves is well-formed, and its AI,
abilities, projectiles and beams are those left by `act` on the decoded network outputs. -/
theorem updateAI_wf (M : JsMath α) {g : Game α} (hg : g.WellFormed) (clock : Clock α)
    (rng : Rng α) :
    ∃ r o0 o1 o2 o3, g.updateAI M clock rng = some r ∧ r.1.WellFormed ∧
      g.nn.predict M (g.speedBoostCountdown.getNeuralNetworkInputs
        clock.getNeuralNetworkInputs) = some [o0, o1, o2, o3] ∧
      r.1.ai = (g.speedBoostCountdown.act M (g.decision clock.updateAI o0 o1 o2 o3) clock
        rng).1.ai ∧
      r.1.abilities = (g.speedBoostCountdown.act M (g.decision clock.updateAI o0 o1 o2 o3) clock
        rng).1.abilities ∧
      r.1.projectiles = (g.speedBoostCountdown.act M (g.decision clock.updateAI o0 o1 o2 o3)
        clock rng).1.projectiles ∧
      r.1.aiBeams = (g.speedBoostCountdown.act M (g.decision clock.updateAI o0 o1 o2 o3) clock
        rng).1.aiBeams := by
  obtain ⟨hn, ht, -, -, -⟩ := learning_speedBoostCountdown g
  have hp := predict_eq M hg.nn
    ((length_getNeuralNetworkInputs g.speedBoostCountdown clock.getNeuralNetworkInputs).trans
      hg.inputSize.symm)
  rw [hg.outputSize] at hp
  obtain ⟨o0, o1, o2, o3, hp'⟩ : ∃ o0 o1 o2 o3, g.nn.predict M
      (g.speedBoostCountdown.getNeuralNetworkInputs clock.getNeuralNetworkInputs) =
        some [o0, o1, o2, o3] := ⟨_, _, _, _, hp⟩
  have hpc : g.speedBoostCountdown.nn.predict M
      (g.speedBoostCountdown.getNeuralNetworkInputs clock.getNeuralNetworkInputs) =
        some [o0, o1, o2, o3] := by rw [hn]; exact hp'
  have hu := updateAI_of_predict M g clock rng o0 o1 o2 o3 hpc
  obtain ⟨ha1, ha2, -⟩ := learning_act M g.speedBoostCountdown
    (g.decision clock.updateAI o0 o1 o2 o3) clock rng
  have hwf : ((g.speedBoostCountdown.act M (g.decision clock.updateAI o0 o1 o2 o3) clock
      rng).1.collectTrainingData M (g.speedBoostCountdown.getNeuralNetworkInputs
        clock.getNeuralNetworkInputs)).WellFormed := by
    refine ⟨?_, ?_, ?_, ?_⟩
    · show (g.speedBoostCountdown.act M _ clock rng).1.nn.WellShaped
      rw [ha1, hn]; exact hg.nn
    · show (g.speedBoostCountdown.act M _ clock rng).1.nn.inputSize = 8
      rw [ha1, hn]; exact hg.inputSize
    · show (g.speedBoostCountdown.act M _ clock rng).1.nn.outputSize = 4
      rw [ha1, hn]; exact hg.outputSize
    · intro s hs
      rcases mem_pushSample hs with h | rfl
      · rw [ha2, ht] at h; exact hg.samples s h
      · exact ⟨rfl, rfl⟩
  obtain ⟨r, hr, hrw, hai, hab, hpr, hbe, -⟩ := trainPeriodically_wf M hwf
    (g.speedBoostCountdown.act M (g.decision clock.updateAI o0 o1 o2 o3) clock rng).2
  exact ⟨r, o0, o1, o2, o3, hu.trans hr, hrw, hp', hai, hab, hpr, hbe⟩

/-! ## C8: dash kinematics -/

theorem hypot_axis {M : JsMath α} (hM : M.HypotIsNorm) {x : α} (hx : 0 ≤ x) :
    M.hypot x 0 = x := by
  obtain ⟨h0, h2⟩ := hM x 0
  have h : M.hypot x 0 ^ 2 = x ^ 2 := by rw [h2]; ring
  exact (pow_left_inj₀ h0 hx (by norm_num)).mp h

theorem speedBoostCountdown_eq (g : Game α) :
    ∃ (t : α) (b : Bool) (s : α),
      g.speedBoostCountdown = g.withBoost t b s := by
  unfold Game.speedBoostCountdown
  split
  · split
    · exact ⟨_, _, _, rfl⟩
    · exact ⟨_, g.ai.isSpeedBoosted, g.ai.speed, rfl⟩
  · exact ⟨g.ai.speedBoostTime, g.ai.isSpeedBoosted, g.ai.speed, rfl⟩

theorem act_dashWindup (M : JsMath α) (g : Game α) (d : Decision α) (clock : Clock α)
    (rng : Rng α) (hb : g.ai.isBeamWindup = false) (hw : g.ai.isDashWindup = true) :
    (g.act M d clock rng).1 = g.dashWindupStep.moveAi := by
  simp only [Game.act, Game.beamWindupStep, hb, Bool.false_eq_true, if_false,
    Game.dashOrNormalStep, hw, if_true]

theorem act_dashing (M : JsMath α) (g : Game α) (d : Decision α) (clock : Clock α)
    (rng : Rng α) (hb : g.ai.isBeamWindup = false) (hw : g.ai.isDashWindup = false)
    (hd : g.ai.isDashing = true) :
    (g.act M d clock rng).1 = (g.dashingStep M rng).1.moveAi := by
  simp only [Game.act, Game.beamWindupStep, hb, Bool.false_eq_true, if_false,
    Game.dashOrNormalStep, hw, hd, if_true]

theorem wellFormed_withPlayer {g : Game α} (hg : g.WellFormed) (p : Player α) :
    ({ g with player := p } : Game α).WellFormed :=
  ⟨hg.nn, hg.inputSize, hg.outputSize, hg.samples⟩

/-- A tick of a well-formed game returns; the AI it leaves is the one left by `act`. -/
theorem tick_wf (M : JsMath α) {g : Game α} (hg : g.WellFormed) (f : Frame α) :
    ∃ g' d, g.tick M f = some g' ∧ g'.WellFormed ∧
      g'.ai = ((g.withPlayer f.player).speedBoostCountdown.act M d f.clock f.rng).1.ai ∧
      g'.abilities = ((g.withPlayer f.player).speedBoostCountdown.act M d f.clock
        f.rng).1.abilities ∧
      g'.canvasWidth = g.canvasWidth ∧ g'.canvasHeight = g.canvasHeight := by
  obtain ⟨r, o0, o1, o2, o3, hr, hw, -, hai, hab, -, -⟩ :=
    updateAI_wf M (wellFormed_withPlayer hg f.player) f.clock f.rng
  have hs := sameWorld_updateAI M hr
  refine ⟨{ r.1 with score := r.1.score + f.deltaTime }, _, ?_,
    ⟨hw.nn, hw.inputSize, hw.outputSize, hw.samples⟩, hai, hab, hs.canvasWidth, hs.canvasHeight⟩
  simp only [Game.tick, hr, Option.map_some']

theorem clamp_inside {lo hi x : α} (h0 : lo ≤ x) (h1 : x ≤ hi) : max lo (min hi x) = x := by
  rw [min_eq_right h1, max_eq_right h0]

theorem dash_expiry_tick (M : JsMath α) {g : Game α} (hg : g.WellFormed)
    (hdist : g.abilities.dash.dashDistance = 200) (hspeed : g.abilities.dash.dashSpeed = 8)
    (hdx : g.ai.dashDirection.x = 1) (hdy : g.ai.dashDirection.y = 0)
    (hw : g.ai.isDashWindup = true) (hexp : g.ai.dashWindupTime - 16 ≤ 0)
    (hb : g.ai.isBeamWindup = false)
    (hx0 : g.ai.radius ≤ g.ai.x) (hx1 : g.ai.x + 200 ≤ g.canvasWidth - g.ai.radius)
    (hy0 : g.ai.radius ≤ g.ai.y) (hy1 : g.ai.y ≤ g.canvasHeight - g.ai.radius) (f : Frame α) :
    ∃ g1, g.tick M f = some g1 ∧ g1.WellFormed ∧ g1.DashingAt g.ai.x g.ai.y 0 ∧
      g1.ai.radius = g.ai.radius ∧ g1.canvasWidth = g.canvasWidth ∧
      g1.canvasHeight = g.canvasHeight := by
  obtain ⟨g1, d, ht, hwf, hai, -, hcw, hch⟩ := tick_wf M hg f
  obtain ⟨t, b, s, hc⟩ := speedBoostCountdown_eq (g.withPlayer f.player)
  rw [hc, act_dashWindup M ((g.withPlayer f.player).withBoost t b s) d f.clock f.rng hb hw]
    at hai
  have hai' : g1.ai =
      { g.ai with
        speedBoostTime := t, isSpeedBoosted := b, speed := s,
        dashWindupTime := g.ai.dashWindupTime - 16,
        isDashWindup := false, isDashing := true,
        dashStartX := g.ai.x, dashStartY := g.ai.y,
        dashDistanceRemaining := 200,
        dashTargetX := g.ai.x + 200, dashTargetY := g.ai.y,
        vx := 8, vy := 0,
        x := g.ai.x + 8, y := g.ai.y } := by
    rw [hai]
    simp only [Game.dashWindupStep, Game.withBoost, Game.withPlayer, if_pos hexp, Game.moveAi, hdist, hspeed, hdx, hdy, one_mul,
      zero_mul, add_zero]
    rw [clamp_inside (by linarith) (by linarith), clamp_inside hy0 hy1]
  refine ⟨g1, ht, hwf, ⟨?_, ?_, ?_, ?_, ?_, ?_, ?_, ?_, ?_, ?_⟩, ?_, hcw, hch⟩ <;>
    rw [hai'] <;> first | rfl | exact hb | norm_num

theorem dash_continue_tick (M : JsMath α) (hM : M.HypotIsNorm) {g : Game α} (hg : g.WellFormed)
    {x0 y0 : α} {k : Nat} (hk : k < 24) (hd : g.DashingAt x0 y0 k)
    (hx0 : g.ai.radius ≤ x0) (hx1 : x0 + 200 ≤ g.canvasWidth - g.ai.radius)
    (hy0 : g.ai.radius ≤ y0) (hy1 : y0 ≤ g.canvasHeight - g.ai.radius) (f : Frame α) :
    ∃ g1, g.tick M f = some g1 ∧ g1.WellFormed ∧ g1.DashingAt x0 y0 (k + 1) ∧
      g1.ai.radius = g.ai.radius ∧ g1.canvasWidth = g.canvasWidth ∧
      g1.canvasHeight = g.canvasHeight := by
  obtain ⟨g1, d, ht, hwf, hai, -, hcw, hch⟩ := tick_wf M hg f
  obtain ⟨t, b, s, hc⟩ := speedBoostCountdown_eq (g.withPlayer f.player)
  rw [hc, act_dashing M ((g.withPlayer f.player).withBoost t b s) d f.clock f.rng
    hd.isBeamWindup hd.isDashWindup hd.isDashing] at hai
  have hkα : (k : α) + 1 ≤ 24 := by exact_mod_cast hk
  have hk0 : (0 : α) ≤ (k : α) := Nat.cast_nonneg k
  have hdistance : M.hypot (g.ai.dashTargetX - g.ai.x) (g.ai.dashTargetY - g.ai.y) =
      200 - 8 * ((k : α) + 1) := by
    rw [hd.dashTargetX, hd.dashTargetY, hd.x, hd.y, sub_self,
      show x0 + 200 - (x0 + 8 * ((k : α) + 1)) = 200 - 8 * ((k : α) + 1) by ring]
    exact hypot_axis hM (by linarith)
  have hstep : M.hypot g.ai.vx g.ai.vy = 8 := by
    rw [hd.vx, hd.vy]; exact hypot_axis hM (by norm_num)
  have hcond : ¬ (M.hypot (g.ai.dashTargetX - g.ai.x) (g.ai.dashTargetY - g.ai.y) < 5 ∨
      g.ai.dashDistanceRemaining ≤ 0) := by
    rw [hdistance, hd.dashDistanceRemaining]
    intro h
    rcases h with h | h <;> linarith
  have hai' : g1.ai =
      { g.ai with
        speedBoostTime := t, isSpeedBoosted := b, speed := s,
        dashDistanceRemaining := g.ai.dashDistanceRemaining - 8,
        x := g.ai.x + 8, y := g.ai.y } := by
    rw [hai]
    simp only [Game.dashingStep, Game.withBoost, Game.withPlayer, if_neg hcond, Game.moveAi,
      hstep]
    rw [hd.vx, hd.vy, add_zero, clamp_inside (by rw [hd.x]; linarith) (by rw [hd.x]; linarith),
      clamp_inside (by rw [hd.y]; exact hy0) (by rw [hd.y]; exact hy1)]
  refine ⟨g1, ht, hwf, ⟨?_, ?_, ?_, ?_, ?_, ?_, ?_, ?_, ?_, ?_⟩, ?_, hcw, hch⟩ <;>
    rw [hai']
  · exact hd.isDashing
  · exact hd.isDashWindup
  · exact hd.isBeamWindup
  · exact hd.vx
  · exact hd.vy
  · show g.ai.x + 8 = x0 + 8 * (((k + 1 : ℕ) : α) + 1)
    rw [hd.x]; push_cast; ring
  · exact hd.y
  · exact hd.dashTargetX
  · exact hd.dashTargetY
  · show g.ai.dashDistanceRemaining - 8 = 200 - 8 * ((k + 1 : ℕ) : α)
    rw [hd.dashDistanceRemaining]; push_cast; ring

theorem dash_snap_tick (M : JsMath α) (hM : M.HypotIsNorm) {g : Game α} (hg : g.WellFormed)
    {x0 y0 : α} (hd : g.DashingAt x0 y0 24)
    (hx0 : g.ai.radius ≤ x0) (hx1 : x0 + 200 ≤ g.canvasWidth - g.ai.radius)
    (hy0 : g.ai.radius ≤ y0) (hy1 : y0 ≤ g.canvasHeight - g.ai.radius) (f : Frame α) :
    ∃ g1, g.tick M f = some g1 ∧ g1.WellFormed ∧ g1.ai.x = x0 + 200 ∧ g1.ai.y = y0 ∧
      g1.ai.vx = 0 ∧ g1.ai.vy = 0 ∧ g1.ai.isDashing = false ∧ g1.ai.isDashWindup = false ∧
      g1.ai.isBeamWindup = false := by
  obtain ⟨g1, d, ht, hwf, hai, -, hcw, hch⟩ := tick_wf M hg f
  obtain ⟨t, b, s, hc⟩ := speedBoostCountdown_eq (g.withPlayer f.player)
  rw [hc, act_dashing M ((g.withPlayer f.player).withBoost t b s) d f.clock f.rng
    hd.isBeamWindup hd.isDashWindup hd.isDashing] at hai
  have hdistance : M.hypot (g.ai.dashTargetX - g.ai.x) (g.ai.dashTargetY - g.ai.y) = 0 := by
    rw [hd.dashTargetX, hd.dashTargetY, hd.x, hd.y, sub_self,
      show x0 + 200 - (x0 + 8 * (((24 : ℕ) : α) + 1)) = 0 by push_cast; ring]
    exact hypot_axis hM le_rfl
  have hcond : M.hypot (g.ai.dashTargetX - g.ai.x) (g.ai.dashTargetY - g.ai.y) < 5 ∨
      g.ai.dashDistanceRemaining ≤ 0 := Or.inl (by rw [hdistance]; norm_num)
  have hai' : g1.ai =
      { g.ai with
        speedBoostTime := t, isSpeedBoosted := b, speed := s,
        isDashing := false, vx := 0, vy := 0,
        x := x0 + 200, y := y0 } := by
    rw [hai]
    simp only [Game.dashingStep, Game.withBoost, Game.withPlayer, if_pos hcond, Game.moveAi,
      add_zero]
    rw [hd.dashTargetX, hd.dashTargetY, clamp_inside (by linarith) (by linarith),
      clamp_inside hy0 hy1]
  refine ⟨g1, ht, hwf, ?_, ?_, ?_, ?_, ?_, ?_, ?_⟩ <;> rw [hai']
  · exact hd.isDashWindup
  · exact hd.isBeamWindup

theorem ticks_append (M : JsMath α) (g : Game α) (a b : List (Frame α)) :
    g.ticks M (a ++ b) = (g.ticks M a).bind fun g' => g'.ticks M b := by
  induction a generalizing g with
  | nil => rfl
  | cons f rest ih =>
    simp only [List.cons_append, Game.ticks]
    cases g.tick M f with
    | none => rfl
    | some g' => exact ih g'

theorem dash_run (M : JsMath α) (hM : M.HypotIsNorm) (x0 y0 : α) (frames : List (Frame α)) :
    ∀ (k : Nat) (g : Game α), k + frames.length = 24 → g.WellFormed → g.DashingAt x0 y0 k →
      g.ai.radius ≤ x0 → x0 + 200 ≤ g.canvasWidth - g.ai.radius → g.ai.radius ≤ y0 →
      y0 ≤ g.canvasHeight - g.ai.radius →
      ∃ g', g.ticks M frames = some g' ∧ g'.WellFormed ∧ g'.DashingAt x0 y0 24 ∧
        g'.ai.radius = g.ai.radius ∧ g'.canvasWidth = g.canvasWidth ∧
        g'.canvasHeight = g.canvasHeight := by
  induction frames with
  | nil =>
    intro k g hk hg hd _ _ _ _
    have : k = 24 := by simpa using hk
    subst this
    exact ⟨g, rfl, hg, hd, rfl, rfl, rfl⟩
  | cons f rest ih =>
    intro k g hk hg hd hx0 hx1 hy0 hy1
    have hk' : k < 24 := by simp only [List.length_cons] at hk; omega
    obtain ⟨g1, ht, hwf, hd1, hr, hcw, hch⟩ :=
      dash_continue_tick M hM hg hk' hd hx0 hx1 hy0 hy1 f
    obtain ⟨g', ht', hwf', hd', hr', hcw', hch'⟩ :=
      ih (k + 1) g1 (by simp only [List.length_cons] at hk; omega) hwf hd1
        (by rw [hr]; exact hx0) (by rw [hr, hcw]; exact hx1) (by rw [hr]; exact hy0)
        (by rw [hr, hch]; exact hy1)
    refine ⟨g', ?_, hwf', hd', hr'.trans hr, hcw'.trans hcw, hch'.trans hch⟩
    simp only [Game.ticks, ht, Option.some_bind, ht']

/-- C8. Dash kinematics (`Math.hypot` being the Euclidean norm). With `dashDistance = 200`,
`dashSpeed = 8` and `dashDirection = (1, 0)`, no beam windup active and the dash path inside
the canvas bounds: on the tick where the dash windup expires the AI velocity becomes (8, 0);
after the 25 ticks that follow, whatever the player, clock, random draws and network outputs,
the AI's x-coordinate is the x it had when the windup expired plus 200 (exactly, hence within
5 units), its velocity is (0, 0), and `isDashing`, `isDashWindup` and `isBeamWindup` are all
false. -/
theorem dash_kinematics (M : JsMath α) (hM : M.HypotIsNorm) (g : Game α) (hg : g.WellFormed)
    (hdist : g.abilities.dash.dashDistance = 200) (hspeed : g.abilities.dash.dashSpeed = 8)
    (hdx : g.ai.dashDirection.x = 1) (hdy : g.ai.dashDirection.y = 0)
    (hw : g.ai.isDashWindup = true) (hexp : g.ai.dashWindupTime - 16 ≤ 0)
    (hb : g.ai.isBeamWindup = false)
    (hx0 : g.ai.radius ≤ g.ai.x) (hx1 : g.ai.x + 200 ≤ g.canvasWidth - g.ai.radius)
    (hy0 : g.ai.radius ≤ g.ai.y) (hy1 : g.ai.y ≤ g.canvasHeight - g.ai.radius)
    (f0 : Frame α) (frames : List (Frame α)) (hlen : frames.length = 25) :
    ∃ g1 g26, g.tick M f0 = some g1 ∧ g1.ai.vx = 8 ∧ g1.ai.vy = 0 ∧
      g1.ticks M frames = some g26 ∧
      g26.ai.x = g.ai.x + 200 ∧ |g26.ai.x - (g.ai.x + 200)| < 5 ∧
      g26.ai.vx = 0 ∧ g26.ai.vy = 0 ∧
      g26.ai.isDashing = false ∧ g26.ai.isDashWindup = false ∧ g26.ai.isBeamWindup = false := by
  obtain ⟨g1, ht, hwf, hd, hr, hcw, hch⟩ :=
    dash_expiry_tick M hg hdist hspeed hdx hdy hw hexp hb hx0 hx1 hy0 hy1 f0
  have hsplit : frames = frames.take 24 ++ frames.drop 24 := (List.take_append_drop 24 frames).symm
  have hl1 : (frames.take 24).length = 24 := by rw [List.length_take, hlen]; rfl
  have hl2 : (frames.drop 24).length = 1 := by rw [List.length_drop, hlen]
  obtain ⟨last, hlast⟩ := List.length_eq_one.mp hl2
  obtain ⟨g25, ht25, hwf25, hd25, hr25, hcw25, hch25⟩ :=
    dash_run M hM g.ai.x g.ai.y (frames.take 24) 0 g1 (by rw [hl1]) hwf hd
      (by rw [hr]; exact hx0) (by rw [hr, hcw]; exact hx1) (by rw [hr]; exact hy0)
      (by rw [hr, hch]; exact hy1)
  obtain ⟨g26, ht26, -, hx, -, hvx, hvy, h1, h2, h3⟩ :=
    dash_snap_tick M hM hwf25 hd25 (by rw [hr25, hr]; exact hx0)
      (by rw [hr25, hr, hcw25, hcw]; exact hx1) (by rw [hr25, hr]; exact hy0)
      (by rw [hr25, hr, hch25, hch]; exact hy1) last
  refine ⟨g1, g26, ht, hd.vx, hd.vy, ?_, hx, ?_, hvx, hvy, h1, h2, h3⟩
  · rw [hsplit, ticks_append, ht25, hlast]
    simp only [Option.some_bind, Game.ticks, ht26]
  · rw [hx, sub_self, abs_zero]; norm_num

theorem hypotIsNorm_realMath : realMath.HypotIsNorm := by
  intro x y
  refine ⟨Real.sqrt_nonneg _, ?_⟩
  simp only [realMath]
  exact Real.sq_sqrt (by positivity)

theorem wellFormed_arena {nn : NeuralNetwork α} (hnn : nn.WellShaped) (h8 : nn.inputSize = 8)
    (h4 : nn.outputSize = 4) : (arena nn).WellFormed :=
  ⟨hnn, h8, h4, fun _ h => absurd h (List.not_mem_nil _)⟩

/-- Witness of C8: the AI at (100, 100) on an 800 x 600 canvas, in the last tick of a dash
windup towards (1, 0), followed by 25 quiet frames. -/
theorem dash_kinematics_witness :
    ∃ g1 g26, (dashWindupGame ℝ).tick realMath (Frame.quiet 400 300 1000000 0.016) = some g1 ∧
      g1.ai.vx = 8 ∧ g1.ai.vy = 0 ∧
      g1.ticks realMath (List.replicate 25 (Frame.quiet 400 300 1000000 0.016)) = some g26 ∧
      g26.ai.x = (dashWindupGame ℝ).ai.x + 200 ∧
      |g26.ai.x - ((dashWindupGame ℝ).ai.x + 200)| < 5 ∧
      g26.ai.vx = 0 ∧ g26.ai.vy = 0 ∧
      g26.ai.isDashing = false ∧ g26.ai.isDashWindup = false ∧ g26.ai.isBeamWindup = false :=
  dash_kinematics realMath hypotIsNorm_realMath (dashWindupGame ℝ)
    ⟨wellShaped_zeroNet, rfl, rfl, fun _ h => absurd h (List.not_mem_nil _)⟩
    rfl rfl rfl rfl rfl
    (by norm_num [dashWindupGame]) rfl
    (by norm_num [dashWindupGame, arena, Game.new])
    (by norm_num [dashWindupGame, arena, Game.new])
    (by norm_num [dashWindupGame, arena, Game.new])
    (by norm_num [dashWindupGame, arena, Game.new])
    (Frame.quiet 400 300 1000000 0.016)
    (List.replicate 25 (Frame.quiet 400 300 1000000 0.016)) rfl

/-- Witness of C7: on the game's canvas with `timerMaxDuration = 30`, the dash unlocked at
score 5 is unlocked at score 6. -/
theorem unlock_monotone_witness :
    ({ arena (zeroNet ℚ) with score := 6 } : Game ℚ).isAbilityUnlocked "dash" = true :=
  unlock_monotone.2.1 { arena (zeroNet ℚ) with score := 5 } { arena (zeroNet ℚ) with score := 6 }
    "dash" (by norm_num [arena, Game.new]) rfl (by norm_num)
    (by simp [Game.isAbilityUnlocked, unlockMap, List.lookup, arena, Game.new]; norm_num)

/-! ## What the learning part of `updateAI` leaves alone -/

theorem sameBody_trainPeriodically (M : JsMath α) {g : Game α} {rng : Rng α}
    {r : Game α × Rng α} (h : g.trainPeriodically M rng = some r) : g.SameBody r.1 := by
  unfold Game.trainPeriodically at h
  split at h
  · split at h
    · simp only [Option.map_eq_some'] at h
      obtain ⟨t, -, rfl⟩ := h
      exact ⟨rfl, rfl, rfl, rfl⟩
    · cases h; exact ⟨rfl, rfl, rfl, rfl⟩
  · cases h; exact ⟨rfl, rfl, rfl, rfl⟩

/-- When `updateAI` returns, the AI, abilities, projectiles and beams it leaves are those left
by `act` on the decoded network outputs. -/
theorem updateAI_body (M : JsMath α) {g : Game α} {clock : Clock α} {rng : Rng α}
    {r : Game α × Rng α} (h : g.updateAI M clock rng = some r) :
    ∃ d : Decision α, (g.speedBoostCountdown.act M d clock rng).1.SameBody r.1 := by
  obtain ⟨outputs, o0, o1, o2, o3, -, -, -, -, -, hr⟩ := updateAI_some M h
  have h1 := sameBody_trainPeriodically M hr
  exact ⟨g.decision clock.updateAI o0 o1 o2 o3, ⟨h1.ai, h1.abilities, h1.projectiles, h1.aiBeams⟩⟩

/-! ## C9: the beam direction -/

theorem beamWindupStep_locked (M : JsMath α) (g : Game α) (rng : Rng α)
    (hb : g.ai.isBeamWindup = true)
    (hp : 1 - (g.ai.beamWindupTime - 16) / g.abilities.slowProjectile.windupDuration ≥ 0.5) :
    (g.beamWindupStep M rng).1.ai.beamDirection = g.ai.beamDirection ∧
      (0 < g.ai.beamWindupTime - 16 → (g.beamWindupStep M rng).1.ai.isBeamWindup = true) ∧
      (g.beamWindupStep M rng).1.ai.isDashWindup = g.ai.isDashWindup ∧
      (g.beamWindupStep M rng).1.ai.isDashing = g.ai.isDashing := by
  have ht : g.beamCharge.beamTrack M rng = (g.beamCharge, rng) := by
    unfold Game.beamTrack
    exact if_pos hp
  simp only [Game.beamWindupStep, hb, if_true, ht, Game.beamFire]
  by_cases he : g.beamCharge.ai.beamWindupTime ≤ 0
  · rw [if_pos he]
    refine ⟨rfl, ?_, rfl, rfl⟩
    intro h
    exact absurd he (not_le.mpr h)
  · rw [if_neg he]
    exact ⟨rfl, fun _ => hb, rfl, rfl⟩

theorem applyChain_beamDirection (M : JsMath α) (d : Decision α) (clock : Clock α)
    (s : Game α × Rng α) (b1 b2 b3 : Bool) :
    (applySpeedBoost b3 clock (applyDash b2 M d clock
      (applyProjectile b1 M clock s))).1.ai.beamDirection = s.1.ai.beamDirection ∧
    (applySpeedBoost b3 clock (applyDash b2 M d clock
      (applyProjectile b1 M clock s))).1.ai.isBeamWindup = s.1.ai.isBeamWindup := by
  cases b1 <;> cases b2 <;> cases b3 <;> exact ⟨rfl, rfl⟩

theorem useSlowProjectile_isBeamWindup (M : JsMath α) (g : Game α) (now : α) (rng : Rng α) :
    (g.useSlowProjectile M now rng).1.ai.isBeamWindup = true := by
  unfold Game.useSlowProjectile
  split <;> rfl

theorem dashOrNormalStep_windup (M : JsMath α) (g : Game α) (d : Decision α) (clock : Clock α)
    (rng : Rng α) (hw : g.ai.isDashWindup = true) :
    g.dashOrNormalStep M d clock rng = (g.dashWindupStep, rng) := by
  simp only [Game.dashOrNormalStep, hw, if_true]

theorem dashOrNormalStep_dashing (M : JsMath α) (g : Game α) (d : Decision α) (clock : Clock α)
    (rng : Rng α) (hw : g.ai.isDashWindup = false) (hd : g.ai.isDashing = true) :
    g.dashOrNormalStep M d clock rng = g.dashingStep M rng := by
  simp only [Game.dashOrNormalStep, hw, hd, Bool.false_eq_true, if_false, if_true]

theorem dashOrNormalStep_normal (M : JsMath α) (g : Game α) (d : Decision α) (clock : Clock α)
    (rng : Rng α) (hw : g.ai.isDashWindup = false) (hd : g.ai.isDashing = false) :
    g.dashOrNormalStep M d clock rng = g.normalStep M d clock rng := by
  simp only [Game.dashOrNormalStep, hw, hd, Bool.false_eq_true, if_false]

/-- The dash chain changes the beam direction only by starting a beam windup. -/
theorem dashOrNormalStep_beamDirection (M : JsMath α) (g : Game α) (d : Decision α)
    (clock : Clock α) (rng : Rng α)
    (h : g.ai.isBeamWindup = true ∨ (g.dashOrNormalStep M d clock rng).1.ai.isBeamWindup = false) :
    (g.dashOrNormalStep M d clock rng).1.ai.beamDirection = g.ai.beamDirection := by
  cases hw : g.ai.isDashWindup with
  | true =>
    rw [dashOrNormalStep_windup M g d clock rng hw]
    unfold Game.dashWindupStep; split <;> rfl
  | false =>
    cases hd : g.ai.isDashing with
    | true =>
      rw [dashOrNormalStep_dashing M g d clock rng hw hd]
      unfold Game.dashingStep; split <;> rfl
    | false =>
      rw [dashOrNormalStep_normal M g d clock rng hw hd, normalStep_eq] at h ⊢
      obtain ⟨h1, h2⟩ := applyChain_beamDirection M d clock (g.steer d, rng)
        (g.firesProjectile d) (g.firesDash d) (g.firesSpeedBoost M d)
      cases hf : g.firesSlowProjectile M d with
      | false =>
        simp only [applySlowProjectile, Bool.false_eq_true, if_false]
        exact h1
      | true =>
        exfalso
        rw [hf] at h
        simp only [applySlowProjectile, if_true, useSlowProjectile_isBeamWindup] at h
        rcases h with h | h
        · simp only [Game.firesSlowProjectile, h, Bool.not_true, Bool.and_false,
            Bool.false_and] at hf
          exact absurd hf (by decide)
        · exact absurd h (by decide)

theorem act_beamDirection_locked (M : JsMath α) (g : Game α) (d : Decision α)
    (clock : Clock α) (rng : Rng α) (hb : g.ai.isBeamWindup = true)
    (hp : 1 - (g.ai.beamWindupTime - 16) / g.abilities.slowProjectile.windupDuration ≥ 0.5)
    (h : 0 < g.ai.beamWindupTime - 16 ∨ (g.act M d clock rng).1.ai.isBeamWindup = false) :
    (g.act M d clock rng).1.ai.beamDirection = g.ai.beamDirection := by
  obtain ⟨h1, h2, -, -⟩ := beamWindupStep_locked M g rng hb hp
  have h3 := dashOrNormalStep_beamDirection M (g.beamWindupStep M rng).1 d clock
    (g.beamWindupStep M rng).2
    (by
      rcases h with h | h
      · exact Or.inl (h2 h)
      · exact Or.inr h)
  exact h3.trans h1

/-- C9, amended. For every `updateAI` tick that begins with `isBeamWindup` true and whose
windup progress `1 - beamWindupTime / windupDuration`, evaluated after the tick's 16 ms
decrement, is at least 0.5, `ai.beamDirection` after the tick equals `ai.beamDirection` before
the tick, for every player state, clock and random stream, unless the windup expires on this
tick and a new beam windup starts in the same tick: it is enough that the timer stays
positive after the decrement, or that `isBeamWindup` is false at the end of the tick. -/
theorem beam_direction_frozen (M : JsMath α) (g : Game α) (clock : Clock α) (rng : Rng α)
    (r : Game α × Rng α) (h : g.updateAI M clock rng = some r)
    (hb : g.ai.isBeamWindup = true)
    (hp : 1 - (g.ai.beamWindupTime - 16) / g.abilities.slowProjectile.windupDuration ≥ 0.5)
    (hn : 0 < g.ai.beamWindupTime - 16 ∨ r.1.ai.isBeamWindup = false) :
    r.1.ai.beamDirection = g.ai.beamDirection := by
  obtain ⟨d, hs⟩ := updateAI_body M h
  obtain ⟨t, b, s, hc⟩ := speedBoostCountdown_eq g
  rw [hc] at hs
  rw [hs.ai] at hn ⊢
  exact act_beamDirection_locked M (g.withBoost t b s) d clock rng hb hp hn

/-! ## Evaluating single ticks -/

theorem length_pushSample_le {β : Type} (buf : List β) (cap : Nat) (s : β) :
    (pushSample buf cap s).length ≤ buf.length + 1 := by
  unfold pushSample
  split
  · simp
  · simp

theorem speedBoostCountdown_off {g : Game α} (h : g.ai.isSpeedBoosted = false) :
    g.speedBoostCountdown = g := by
  simp only [Game.speedBoostCountdown, h, Bool.false_eq_true, if_false]

theorem beamWindupStep_off (M : JsMath α) {g : Game α} (rng : Rng α)
    (h : g.ai.isBeamWindup = false) : g.beamWindupStep M rng = (g, rng) := by
  simp only [Game.beamWindupStep, h, Bool.false_eq_true, if_false]

theorem act_normal (M : JsMath α) (g : Game α) (d : Decision α) (clock : Clock α) (rng : Rng α)
    (hb : g.ai.isBeamWindup = false) (hw : g.ai.isDashWindup = false)
    (hd : g.ai.isDashing = false) :
    (g.act M d clock rng).1 = (g.normalStep M d clock rng).1.moveAi := by
  simp only [Game.act, beamWindupStep_off M rng hb, dashOrNormalStep_normal M g d clock rng hw hd]

theorem trainPeriodically_short (M : JsMath α) {g : Game α} {rng : Rng α}
    {r : Game α × Rng α} (h : g.trainPeriodically M rng = some r)
    (hlen : g.trainingData.length ≤ 15) : r.1 = g := by
  unfold Game.trainPeriodically at h
  rw [if_neg (by omega)] at h
  cases h
  rfl

theorem updateAI_no_training (M : JsMath α) {g : Game α} {clock : Clock α} {rng : Rng α}
    {r : Game α × Rng α} (h : g.updateAI M clock rng = some r)
    (hlen : g.trainingData.length < 15) :
    r.1.nn = g.nn ∧ r.1.trainingData.length ≤ g.trainingData.length + 1 := by
  obtain ⟨outputs, o0, o1, o2, o3, -, -, -, -, -, htr⟩ := updateAI_some M h
  obtain ⟨hn, ht, -, -, -⟩ := learning_speedBoostCountdown g
  obtain ⟨ha1, ha2, -⟩ := learning_act M g.speedBoostCountdown
    (g.decision clock.updateAI o0 o1 o2 o3) clock rng
  generalize (g.speedBoostCountdown.act M (g.decision clock.updateAI o0 o1 o2 o3) clock rng).1
    = A at htr ha1 ha2
  generalize (g.speedBoostCountdown.act M (g.decision clock.updateAI o0 o1 o2 o3) clock rng).2
    = rng' at htr
  have hl : (A.collectTrainingData M (g.speedBoostCountdown.getNeuralNetworkInputs
      clock.getNeuralNetworkInputs)).trainingData.length ≤ g.trainingData.length + 1 := by
    have := length_pushSample_le A.trainingData A.maxTrainingData
      (Sample.mk (g.speedBoostCountdown.getNeuralNetworkInputs clock.getNeuralNetworkInputs)
        (A.heuristicTargets M))
    show (pushSample A.trainingData A.maxTrainingData _).length ≤ _
    rw [ha2, ht] at this ⊢
    exact this
  have hr := trainPeriodically_short M htr (by omega)
  rw [hr]
  exact ⟨ha1.trans hn, hl⟩

/-- A tick of a well-formed game in full: it returns, and what it leaves is described by `act`
on the decoded outputs of the network; while fewer than 15 samples are stored no training
takes place. -/
theorem tick_full (M : JsMath α) {g : Game α} (hg : g.WellFormed) (f : Frame α) :
    ∃ g' o0 o1 o2 o3, g.tick M f = some g' ∧ g'.WellFormed ∧
      g.nn.predict M ((g.withPlayer f.player).speedBoostCountdown.getNeuralNetworkInputs
        f.clock.getNeuralNetworkInputs) = some [o0, o1, o2, o3] ∧
      ((g.withPlayer f.player).speedBoostCountdown.act M
        ((g.withPlayer f.player).decision f.clock.updateAI o0 o1 o2 o3) f.clock
          f.rng).1.SameBody g' ∧
      g'.score = g.score + f.deltaTime ∧ g'.timerMaxDuration = g.timerMaxDuration ∧
      g'.canvasWidth = g.canvasWidth ∧ g'.canvasHeight = g.canvasHeight ∧
      (g.trainingData.length < 15 →
        g'.nn = g.nn ∧ g'.trainingData.length ≤ g.trainingData.length + 1) := by
  obtain ⟨r, o0, o1, o2, o3, hr, hw, hp, hai, hab, hpr, hbe⟩ :=
    updateAI_wf M (wellFormed_withPlayer hg f.player) f.clock f.rng
  have hs := sameWorld_updateAI M hr
  refine ⟨{ r.1 with score := r.1.score + f.deltaTime }, o0, o1, o2, o3, ?_,
    ⟨hw.nn, hw.inputSize, hw.outputSize, hw.samples⟩, hp, ⟨hai, hab, hpr, hbe⟩, ?_,
    hs.timerMaxDuration, hs.canvasWidth, hs.canvasHeight, ?_⟩
  · simp only [Game.tick, hr, Option.map_some']
  · show r.1.score + f.deltaTime = g.score + f.deltaTime
    rw [hs.score]
  · intro hlen
    exact @updateAI_no_training α _ M (g.withPlayer f.player) f.clock f.rng r hr hlen

/-! ## C3: the three mode flags -/

theorem hypot_lt {M : JsMath α} (hM : M.HypotIsNorm) {x y c : α} (hc : 0 ≤ c)
    (h : x ^ 2 + y ^ 2 < c ^ 2) : M.hypot x y < c := by
  obtain ⟨h0, h2⟩ := hM x y
  by_contra hn
  have hle : c ≤ M.hypot x y := not_lt.mp hn
  have : c ^ 2 ≤ M.hypot x y ^ 2 := pow_le_pow_left₀ hc hle 2
  linarith

theorem trace_tick1 (M : JsMath α) (h0 : sigmoid M 0 = 1 / 2) (h4 : 0.8 < sigmoid M 4) :
    ∃ g1, (arena (triggerNet α)).start.tick M (Frame.quiet 550 100 1000000 13) = some g1 ∧
      g1.WellFormed ∧ g1.nn = triggerNet α ∧ g1.trainingData.length ≤ 1 ∧
      g1.score = 13 ∧ g1.timerMaxDuration = 30 ∧
      g1.ai.isSpeedBoosted = false ∧ g1.ai.isBeamWindup = false ∧
      g1.ai.isDashWindup = false ∧ g1.ai.isDashing = false ∧
      g1.ai.x = 700 ∧ g1.ai.y = 100 ∧
      g1.abilities.projectile.lastUsed = 1000000 ∧ g1.abilities.projectile.cooldown = 3000 ∧
      g1.abilities.dash.lastUsed = 0 ∧ g1.abilities.dash.cooldown = 6000 ∧
      g1.abilities.slowProjectile.lastUsed = 0 ∧ g1.abilities.slowProjectile.cooldown = 4000 ∧
      g1.abilities.slowProjectile.range = 300 := by
  have hwf0 : (arena (triggerNet α)).start.WellFormed :=
    ⟨wellShaped_triggerNet, rfl, rfl, fun _ h => absurd h (List.not_mem_nil _)⟩
  obtain ⟨g1, o0, o1, o2, o3, ht, hwf, hp, hbody, hscore, hT, -, -, hnn⟩ :=
    tick_full M hwf0 (Frame.quiet 550 100 1000000 13)
  rw [show (arena (triggerNet α)).start.nn = triggerNet α from rfl,
    predict_triggerNet M _ (by rfl), h0] at hp
  simp only [Option.some.injEq, List.cons.injEq, and_true] at hp
  obtain ⟨rfl, rfl, rfl, rfl⟩ := hp
  obtain ⟨hn1, hl1⟩ := hnn (by show (0 : ℕ) < 15; decide)
  rw [speedBoostCountdown_off (by rfl), act_normal M _ _ _ _ (by rfl) (by rfl) (by rfl),
    normalStep_eq] at hbody
  have h47 : (0.7 : α) < sigmoid M 4 := lt_trans (by norm_num) h4
  have f1 : (((arena (triggerNet α)).start.withPlayer (Frame.quiet 550 100 1000000 13).player)
      ).firesProjectile (((arena (triggerNet α)).start.withPlayer
        (Frame.quiet 550 100 1000000 13).player).decision
          (Frame.quiet (550 : α) 100 1000000 13).clock.updateAI (1 / 2) (1 / 2) (sigmoid M 4)
          (sigmoid M 4)) = true := by
    simp only [Game.firesProjectile, Game.decision, Game.isAbilityUnlocked, readyAt,
      Frame.quiet, Clock.at, Game.withPlayer, Game.start, arena, Game.new, Abilities.initial,
      Abilities.resetLastUsed, if_true, Bool.and_true, Bool.and_eq_true, decide_eq_true_eq]
    exact ⟨h47, by norm_num⟩
  have f2 : (((arena (triggerNet α)).start.withPlayer (Frame.quiet 550 100 1000000 13).player)
      ).firesDash (((arena (triggerNet α)).start.withPlayer
        (Frame.quiet 550 100 1000000 13).player).decision
          (Frame.quiet (550 : α) 100 1000000 13).clock.updateAI (1 / 2) (1 / 2) (sigmoid M 4)
          (sigmoid M 4)) = false := by
    have hu := (isAbilityUnlocked_score_zero ((arena (triggerNet α)).start.withPlayer
      (Frame.quiet 550 100 1000000 13).player) rfl).1
    simp only [Game.firesDash, hu, Bool.and_false]
  have f3 : (((arena (triggerNet α)).start.withPlayer (Frame.quiet 550 100 1000000 13).player)
      ).firesSpeedBoost M (((arena (triggerNet α)).start.withPlayer
        (Frame.quiet 550 100 1000000 13).player).decision
          (Frame.quiet (550 : α) 100 1000000 13).clock.updateAI (1 / 2) (1 / 2) (sigmoid M 4)
          (sigmoid M 4)) = false := by
    have hu := (isAbilityUnlocked_score_zero ((arena (triggerNet α)).start.withPlayer
      (Frame.quiet 550 100 1000000 13).player) rfl).2.1
    simp only [Game.firesSpeedBoost, hu, Bool.and_false]
  have f4 : (((arena (triggerNet α)).start.withPlayer (Frame.quiet 550 100 1000000 13).player)
      ).firesSlowProjectile M (((arena (triggerNet α)).start.withPlayer
        (Frame.quiet 550 100 1000000 13).player).decision
          (Frame.quiet (550 : α) 100 1000000 13).clock.updateAI (1 / 2) (1 / 2) (sigmoid M 4)
          (sigmoid M 4)) = false := by
    have hu := (isAbilityUnlocked_score_zero ((arena (triggerNet α)).start.withPlayer
      (Frame.quiet 550 100 1000000 13).player) rfl).2.2
    simp only [Game.firesSlowProjectile, hu, Bool.and_false]
  rw [f1, f2, f3, f4] at hbody
  simp only [applySlowProjectile, applySpeedBoost, applyDash, applyProjectile, if_true,
    Bool.false_eq_true, if_false] at hbody
  refine ⟨g1, ht, hwf, hn1, hl1, ?_, hT, ?_, ?_, ?_, ?_, ?_, ?_, ?_, ?_, ?_, ?_, ?_, ?_, ?_⟩
  · rw [hscore]; show (0 : α) + 13 = 13; norm_num
  · rw [hbody.ai]; rfl
  · rw [hbody.ai]; rfl
  · rw [hbody.ai]; rfl
  · rw [hbody.ai]; rfl
  · rw [hbody.ai]
    simp only [Game.moveAi, Game.useProjectile, Game.steer, Game.decision, Game.withPlayer,
      Game.start, arena, Game.new, Game.resetAi]
    norm_num
  · rw [hbody.ai]
    simp only [Game.moveAi, Game.useProjectile, Game.steer, Game.decision, Game.withPlayer,
      Game.start, arena, Game.new, Game.resetAi]
    norm_num
  · rw [hbody.abilities]; rfl
  · rw [hbody.abilities]; rfl
  · rw [hbody.abilities]; rfl
  · rw [hbody.abilities]; rfl
  · rw [hbody.abilities]; rfl
  · rw [hbody.abilities]; rfl
  · rw [hbody.abilities]; rfl

theorem trace_tick2 (M : JsMath α) (hM : M.HypotIsNorm) (h0 : sigmoid M 0 = 1 / 2)
    (h4 : 0.8 < sigmoid M 4) (g1 : Game α) (hwf : g1.WellFormed) (hnn : g1.nn = triggerNet α)
    (hscore : g1.score = 13) (hT : g1.timerMaxDuration = 30)
    (hsb : g1.ai.isSpeedBoosted = false) (hb : g1.ai.isBeamWindup = false)
    (hw : g1.ai.isDashWindup = false) (hd : g1.ai.isDashing = false)
    (hx : g1.ai.x = 700) (hy : g1.ai.y = 100)
    (hpl : g1.abilities.projectile.lastUsed = 1000000)
    (hpc : g1.abilities.projectile.cooldown = 3000)
    (hdl : g1.abilities.dash.lastUsed = 0) (hdc : g1.abilities.dash.cooldown = 6000)
    (hsl : g1.abilities.slowProjectile.lastUsed = 0)
    (hsc : g1.abilities.slowProjectile.cooldown = 4000)
    (hsr : g1.abilities.slowProjectile.range = 300) :
    ∃ g2, g1.tick M (Frame.quiet 550 100 1000016 0.016) = some g2 ∧
      g2.ai.isDashWindup = true ∧ g2.ai.isBeamWindup = true := by
  obtain ⟨g2, o0, o1, o2, o3, ht, -, hp, hbody, -, -, -, -, -⟩ :=
    tick_full M hwf (Frame.quiet 550 100 1000016 0.016)
  rw [hnn, predict_triggerNet M _ (by rfl), h0] at hp
  simp only [Option.some.injEq, List.cons.injEq, and_true] at hp
  obtain ⟨rfl, rfl, rfl, rfl⟩ := hp
  rw [speedBoostCountdown_off (by exact hsb), act_normal M _ _ _ _ (by exact hb) (by exact hw)
    (by exact hd), normalStep_eq] at hbody
  have ha : ∀ p : Player α, (g1.withPlayer p).ai = g1.ai := fun _ => rfl
  have hab : ∀ p : Player α, (g1.withPlayer p).abilities = g1.abilities := fun _ => rfl
  have hdash : ∀ (p : Player α) (k : String), k = "dash" ∨ k = "slowProjectile" →
      (g1.withPlayer p).isAbilityUnlocked k = true := by
    intro p k hk
    rcases hk with rfl | rfl <;>
    · simp only [Game.isAbilityUnlocked, Game.withPlayer, unlockMap, List.lookup, hscore, hT]
      simp
      norm_num
  have h4' : (4 / 5 : α) < sigmoid M 4 := by norm_num at h4; exact h4
  have f2 : (g1.withPlayer (Frame.quiet 550 100 1000016 0.016).player).firesDash
      ((g1.withPlayer (Frame.quiet 550 100 1000016 0.016).player).decision
        (Frame.quiet (550 : α) 100 1000016 0.016).clock.updateAI (1 / 2) (1 / 2) (sigmoid M 4)
        (sigmoid M 4)) = true := by
    simp only [Game.firesDash, hdash _ "dash" (Or.inl rfl), Game.decision, readyAt, Frame.quiet,
      Clock.at, ha, hab, hd, hw, hdl, hdc, Bool.not_false, Bool.and_true,
      Bool.and_eq_true, decide_eq_true_eq]
    norm_num [h4']
  have hdist : (g1.withPlayer (Player.standingAt 550 100)).distToPlayer M < 300 := by
    simp only [Game.distToPlayer, Game.withPlayer, Player.standingAt, hx, hy]
    exact hypot_lt hM (by norm_num) (by norm_num)
  have f4 : (g1.withPlayer (Frame.quiet 550 100 1000016 0.016).player).firesSlowProjectile M
      ((g1.withPlayer (Frame.quiet 550 100 1000016 0.016).player).decision
        (Frame.quiet (550 : α) 100 1000016 0.016).clock.updateAI (1 / 2) (1 / 2) (sigmoid M 4)
        (sigmoid M 4)) = true := by
    simp only [Game.firesSlowProjectile, hdash _ "slowProjectile" (Or.inr rfl),
      Game.decision, readyAt, Frame.quiet, Clock.at, ha, hab, hb, hpl, hpc, hsr, hdist,
      hsl, hsc, Bool.not_false, Bool.and_true, Bool.and_eq_true, decide_eq_true_eq,
      Bool.not_eq_true', decide_eq_false_iff_not]
    norm_num
  rw [f2, f4] at hbody
  have hflags : ∀ (b1 b3 : Bool) (s : Game α × Rng α) (d : Decision α) (clock : Clock α),
      (applySlowProjectile true M clock (applySpeedBoost b3 clock (applyDash true M d clock
        (applyProjectile b1 M clock s)))).1.moveAi.ai.isDashWindup = true ∧
      (applySlowProjectile true M clock (applySpeedBoost b3 clock (applyDash true M d clock
        (applyProjectile b1 M clock s)))).1.moveAi.ai.isBeamWindup = true := by
    intro b1 b3 s d clock
    simp only [applySlowProjectile, if_true, Game.useSlowProjectile]
    cases b1 <;> cases b3 <;> split <;> exact ⟨rfl, rfl⟩
  obtain ⟨hf1, hf2⟩ := hflags _ _ _ _ _
  exact ⟨g2, ht, by rw [hbody.ai]; exact hf1, by rw [hbody.ai]; exact hf2⟩

/-- The two frames of the trace that breaks mode exclusion: the first comes 13 seconds after
the start, the second 16 ms later; the player stands at (550, 100), 150 units from the AI. -/
theorem mode_flags_trace (M : JsMath α) (hM : M.HypotIsNorm) (h0 : sigmoid M 0 = 1 / 2)
    (h4 : 0.8 < sigmoid M 4) :
    ∃ g2, (arena (triggerNet α)).start.ticks M
        [Frame.quiet 550 100 1000000 13, Frame.quiet 550 100 1000016 0.016] = some g2 ∧
      g2.ai.isDashWindup = true ∧ g2.ai.isBeamWindup = true := by
  obtain ⟨g1, ht1, hwf, hnn, -, hscore, hT, hsb, hb, hw, hd, hx, hy, hpl, hpc, hdl, hdc, hsl,
    hsc, hsr⟩ := trace_tick1 M h0 h4
  obtain ⟨g2, ht2, h1, h2⟩ := trace_tick2 M hM h0 h4 g1 hwf hnn hscore hT hsb hb hw hd hx hy hpl
    hpc hdl hdc hsl hsc hsr
  exact ⟨g2, by simp only [Game.ticks, ht1, ht2, Option.some_bind], h1, h2⟩
theorem sigmoid_zero_real : sigmoid realMath 0 = 1 / 2 := by
  simp [sigmoid, realMath]; norm_num

theorem sigmoid_four_real : (0.8 : ℝ) < sigmoid realMath 4 := by
  have h : Real.exp (-4) ≤ 1 / 5 := by
    rw [Real.exp_neg, inv_eq_one_div]
    apply div_le_div_of_nonneg_left (by norm_num) (by norm_num)
    have := Real.add_one_le_exp (4 : ℝ)
    linarith
  have hpos := Real.exp_pos (-4)
  simp only [sigmoid, realMath]
  rw [lt_div_iff₀ (by linarith)]
  nlinarith

/-- Claim C3 fails in the code. From the state that `start` leaves, with the network whose
outputs are (0.5, 0.5, sigmoid 4, sigmoid 4) on every input and the player standing at
(550, 100), a tick 13 seconds into the match (the projectile fires) followed by a tick 16 ms
later runs `useDash` and `useSlowProjectile` in the same normal branch: afterwards
`isDashWindup` and `isBeamWindup` are both true. -/
theorem mode_exclusion_violated :
    ∃ g2, (arena (triggerNet ℝ)).start.ticks realMath
        [Frame.quiet 550 100 1000000 13, Frame.quiet 550 100 1000016 0.016] = some g2 ∧
      g2.ai.isDashWindup = true ∧ g2.ai.isBeamWindup = true :=
  mode_flags_trace realMath hypotIsNorm_realMath sigmoid_zero_real sigmoid_four_real

theorem aimAtPlayer_congr (M : JsMath α) {g g' : Game α} {rng rng' : Rng α}
    (hp : g'.player = g.player) (hx : g'.ai.x = g.ai.x) (hy : g'.ai.y = g.ai.y)
    (hs : g'.abilities.slowProjectile = g.abilities.slowProjectile) (hr : rng' 0 = rng 0) :
    g'.aimAtPlayer M rng' = g.aimAtPlayer M rng := by
  unfold Game.aimAtPlayer
  rw [hp, hx, hy, hs, hr]

theorem applyChain_aim (M : JsMath α) (d : Decision α) (clock : Clock α)
    (s : Game α × Rng α) (b1 b2 b3 : Bool) (c : α) (hr : ∀ k, s.2 k = c) :
    (applySpeedBoost b3 clock (applyDash b2 M d clock
      (applyProjectile b1 M clock s))).1.player = s.1.player ∧
    (applySpeedBoost b3 clock (applyDash b2 M d clock
      (applyProjectile b1 M clock s))).1.ai.x = s.1.ai.x ∧
    (applySpeedBoost b3 clock (applyDash b2 M d clock
      (applyProjectile b1 M clock s))).1.ai.y = s.1.ai.y ∧
    (applySpeedBoost b3 clock (applyDash b2 M d clock
      (applyProjectile b1 M clock s))).1.abilities.slowProjectile
        = s.1.abilities.slowProjectile ∧
    (applySpeedBoost b3 clock (applyDash b2 M d clock
      (applyProjectile b1 M clock s))).2 0 = c := by
  cases b1 <;> cases b2 <;> cases b3 <;>
    exact ⟨rfl, rfl, rfl, rfl, hr _⟩

theorem useSlowProjectile_beamDirection (M : JsMath α) (g : Game α) (now : α) (rng : Rng α)
    (dir : Vec2 α) (h : g.aimAtPlayer M rng = some dir) :
    (g.useSlowProjectile M now rng).1.ai.beamDirection = dir := by
  unfold Game.useSlowProjectile
  rw [h]

/-- The tick on which a beam windup expires while the beam is ready again and the projectile
is on cooldown: the beam is fired and `useSlowProjectile` aims a new windup at the player. -/
theorem act_beam_retrigger (M : JsMath α) (hM : M.HypotIsNorm) (o0 o1 o2 o3 : α) :
    ((beamWindupGame α 16).act M ((beamWindupGame α 16).decision 1000000 o0 o1 o2 o3)
      (Clock.at 1000000) (halfRng α)).1.ai.beamDirection
      = { x := M.cos (M.atan2 0 (-150)), y := M.sin (M.atan2 0 (-150)) } := by
  have hp : (1 : α) - ((beamWindupGame α 16).ai.beamWindupTime - 16)
      / (beamWindupGame α 16).abilities.slowProjectile.windupDuration ≥ 0.5 := by
    norm_num [beamWindupGame, arena, Game.new, Abilities.initial]
  have ht : (beamWindupGame α 16).beamCharge.beamTrack M (halfRng α)
      = ((beamWindupGame α 16).beamCharge, halfRng α) := by
    unfold Game.beamTrack
    exact if_pos hp
  have he : (beamWindupGame α 16).beamCharge.ai.beamWindupTime ≤ 0 := by
    norm_num [beamWindupGame, Game.beamCharge]
  have hs : (beamWindupGame α 16).beamWindupStep M (halfRng α)
      = ((beamWindupGame α 16).beamCharge.beamFire (halfRng α)) := by
    simp only [Game.beamWindupStep, ht]
    exact if_pos rfl
  have hf : (beamWindupGame α 16).beamCharge.beamFire (halfRng α)
      = ({ (beamWindupGame α 16).beamCharge with
            ai := { (beamWindupGame α 16).beamCharge.ai with isBeamWindup := false },
            aiBeams := (beamWindupGame α 16).beamCharge.aiBeams ++
              [{ startX := (beamWindupGame α 16).beamCharge.ai.x,
                 startY := (beamWindupGame α 16).beamCharge.ai.y,
                 directionX := (beamWindupGame α 16).beamCharge.ai.beamDirection.x,
                 directionY := (beamWindupGame α 16).beamCharge.ai.beamDirection.y,
                 width := (beamWindupGame α 16).beamCharge.abilities.slowProjectile.beamWidth,
                 canvasWidth := (beamWindupGame α 16).beamCharge.canvasWidth,
                 canvasHeight := (beamWindupGame α 16).beamCharge.canvasHeight }] },
          (halfRng α).skip 60) := by
    unfold Game.beamFire
    exact if_pos he
  rw [hf] at hs
  generalize hG : ({ (beamWindupGame α 16).beamCharge with
            ai := { (beamWindupGame α 16).beamCharge.ai with isBeamWindup := false },
            aiBeams := (beamWindupGame α 16).beamCharge.aiBeams ++
              [{ startX := (beamWindupGame α 16).beamCharge.ai.x,
                 startY := (beamWindupGame α 16).beamCharge.ai.y,
                 directionX := (beamWindupGame α 16).beamCharge.ai.beamDirection.x,
                 directionY := (beamWindupGame α 16).beamCharge.ai.beamDirection.y,
                 width := (beamWindupGame α 16).beamCharge.abilities.slowProjectile.beamWidth,
                 canvasWidth := (beamWindupGame α 16).beamCharge.canvasWidth,
                 canvasHeight := (beamWindupGame α 16).beamCharge.canvasHeight }] } : Game α)
    = G at hs
  have gw : G.ai.isDashWindup = false := by subst hG; rfl
  have gd : G.ai.isDashing = false := by subst hG; rfl
  have gb : G.ai.isBeamWindup = false := by subst hG; rfl
  have gx : G.ai.x = 700 := by
    subst hG; norm_num [beamWindupGame, Game.beamCharge, arena, Game.new]
  have gy : G.ai.y = 100 := by
    subst hG; norm_num [beamWindupGame, Game.beamCharge, arena, Game.new]
  have gp : G.player = Player.standingAt 550 100 := by subst hG; rfl
  have gs : G.score = 13 := by subst hG; rfl
  have gT : G.timerMaxDuration = 30 := by subst hG; rfl
  have ga : G.abilities = (beamWindupGame α 16).abilities := by subst hG; rfl
  simp only [Game.act, hs, dashOrNormalStep_normal M G _ _ _ gw gd, normalStep_eq]
  have hdist : G.distToPlayer M = 150 := by
    have h1 : M.hypot (150 : α) 0 = 150 := hypot_axis hM (by norm_num)
    obtain ⟨h0, h2⟩ := hM (-150) 0
    have h3 : M.hypot (-150 : α) 0 ^ 2 = 150 ^ 2 := by rw [h2]; norm_num
    have h4 := (pow_left_inj₀ h0 (by norm_num : (0 : α) ≤ 150) (by norm_num)).mp h3
    simp only [Game.distToPlayer, gp, gx, gy, Player.standingAt]
    norm_num
    exact h4
  have f4 : G.firesSlowProjectile M ((beamWindupGame α 16).decision 1000000 o0 o1 o2 o3)
      = true := by
    have hu : G.isAbilityUnlocked "slowProjectile" = true := by
      simp only [Game.isAbilityUnlocked, unlockMap, List.lookup, gs, gT]
      simp
      norm_num
    have hrange : G.abilities.slowProjectile.range = 300 := by rw [ga]; rfl
    simp only [Game.firesSlowProjectile, hu, hdist, hrange, gb, Game.decision, readyAt,
      Bool.not_false, Bool.and_true, Bool.and_eq_true, decide_eq_true_eq,
      Bool.not_eq_true', decide_eq_false_iff_not]
    norm_num [beamWindupGame, arena, Game.new, Abilities.initial]
  rw [f4]
  obtain ⟨c1, c2, c3, c4, c5⟩ := applyChain_aim M
    ((beamWindupGame α 16).decision 1000000 o0 o1 o2 o3) (Clock.at 1000000)
    (G.steer ((beamWindupGame α 16).decision 1000000 o0 o1 o2 o3), (halfRng α).skip 60)
    (G.firesProjectile ((beamWindupGame α 16).decision 1000000 o0 o1 o2 o3))
    (G.firesDash ((beamWindupGame α 16).decision 1000000 o0 o1 o2 o3))
    (G.firesSpeedBoost M ((beamWindupGame α 16).decision 1000000 o0 o1 o2 o3))
    0.5 (fun _ => rfl)
  simp only [applySlowProjectile, if_true]
  show (Game.useSlowProjectile M _ _ _).1.ai.beamDirection = _
  apply useSlowProjectile_beamDirection
  have hpos : (0 : α) < M.hypot (-150) 0 := by
    obtain ⟨h0, h2⟩ := hM (-150) 0
    rcases h0.lt_or_eq with h | h
    · exact h
    · rw [← h] at h2; norm_num at h2
  unfold Game.aimAtPlayer
  rw [c1, c2, c3, c4, c5]
  simp only [Game.steer, gp, gx, gy, ga, Player.standingAt]
  norm_num [hpos]
theorem wellFormed_beamWindupGame (t : α) : (beamWindupGame α t).WellFormed :=
  ⟨wellShaped_zeroNet, rfl, rfl, fun _ h => absurd h (List.not_mem_nil _)⟩

theorem atan2_left_real : realMath.atan2 0 (-150) = Real.pi := by
  show Complex.arg ((-150 : ℝ) : ℂ) = Real.pi
  exact Complex.arg_ofReal_of_neg (by norm_num)

/-- Witness of C9: a beam windup with 112 ms left (progress 0.952 after the decrement) keeps
its direction (1, 0) over an `updateAI` tick. -/
theorem beam_direction_frozen_witness :
    (beamWindupGame ℝ 112).ai.isBeamWindup = true ∧
    1 - ((beamWindupGame ℝ 112).ai.beamWindupTime - 16)
      / (beamWindupGame ℝ 112).abilities.slowProjectile.windupDuration ≥ 0.5 ∧
    ∃ r, (beamWindupGame ℝ 112).updateAI realMath (Clock.at 1000000) (halfRng ℝ) = some r ∧
      r.1.ai.beamDirection = (beamWindupGame ℝ 112).ai.beamDirection := by
  have hp : (1 : ℝ) - ((beamWindupGame ℝ 112).ai.beamWindupTime - 16)
      / (beamWindupGame ℝ 112).abilities.slowProjectile.windupDuration ≥ 0.5 := by
    norm_num [beamWindupGame, arena, Game.new, Abilities.initial]
  obtain ⟨r, -, -, -, -, hr, -⟩ := updateAI_wf realMath (wellFormed_beamWindupGame (112 : ℝ))
    (Clock.at 1000000) (halfRng ℝ)
  exact ⟨rfl, hp, r, hr, beam_direction_frozen realMath (beamWindupGame ℝ 112)
    (Clock.at 1000000) (halfRng ℝ) r hr rfl hp
    (Or.inl (by norm_num [beamWindupGame]))⟩

/-- Counterexample to C9 as stated: the beam windup with 16 ms left expires on this tick
(progress 1 after the decrement); the beam is ready again and the projectile is on
cooldown, so the normal branch of the same tick calls `useSlowProjectile`, which aims the next
windup at the player: the direction (1, 0) before the tick is (-1, 0) after it. -/
theorem beam_direction_frozen_counterexample :
    (beamWindupGame ℝ 16).ai.isBeamWindup = true ∧
    1 - ((beamWindupGame ℝ 16).ai.beamWindupTime - 16)
      / (beamWindupGame ℝ 16).abilities.slowProjectile.windupDuration ≥ 0.5 ∧
    ∃ r, (beamWindupGame ℝ 16).updateAI realMath (Clock.at 1000000) (halfRng ℝ) = some r ∧
      r.1.ai.beamDirection = { x := -1, y := 0 } ∧
      r.1.ai.beamDirection ≠ (beamWindupGame ℝ 16).ai.beamDirection := by
  have hp : (1 : ℝ) - ((beamWindupGame ℝ 16).ai.beamWindupTime - 16)
      / (beamWindupGame ℝ 16).abilities.slowProjectile.windupDuration ≥ 0.5 := by
    norm_num [beamWindupGame, arena, Game.new, Abilities.initial]
  obtain ⟨r, o0, o1, o2, o3, hr, -, -, hai, -⟩ := updateAI_wf realMath
    (wellFormed_beamWindupGame (16 : ℝ)) (Clock.at 1000000) (halfRng ℝ)
  rw [speedBoostCountdown_off (by rfl)] at hai
  have hd : r.1.ai.beamDirection = { x := -1, y := 0 } := by
    rw [hai]
    have h := act_beam_retrigger realMath hypotIsNorm_realMath o0 o1 o2 o3
    rw [atan2_left_real] at h
    simp only [realMath, Real.cos_pi, Real.sin_pi] at h
    exact h
  refine ⟨rfl, hp, r, hr, hd, ?_⟩
  rw [hd]
  intro h
  have hx := congrArg Vec2.x h
  have hx' : (-1 : ℝ) = 1 := hx
  norm_num at hx'

/-! ## C11: `predict` leaves the network untouched -/

theorem matrixAt_lt {s : Store α} {a : Nat} {m : Mat α} (h : s.matrixAt a = some m) :
    a < s.length := by
  unfold Store.matrixAt at h
  by_contra hn
  rw [List.getElem?_eq_none (not_lt.mp hn)] at h
  exact absurd h (by simp)

theorem arrayAt_lt {s : Store α} {a : Nat} {xs : List α} (h : s.arrayAt a = some xs) :
    a < s.length := by
  unfold Store.arrayAt at h
  by_contra hn
  rw [List.getElem?_eq_none (not_lt.mp hn)] at h
  exact absurd h (by simp)

theorem matrixAt_alloc_new (s : Store α) (m : Mat α) :
    (s.alloc (Obj.matrix m)).1.matrixAt s.length = some m := by
  show (match (s ++ [Obj.matrix m])[s.length]? with
    | some (Obj.matrix m) => some m | _ => none) = some m
  rw [List.getElem?_append_right (le_refl _)]
  simp

theorem arrayAt_alloc_new (s : Store α) (xs : List α) :
    (s.alloc (Obj.array xs)).1.arrayAt s.length = some xs := by
  show (match (s ++ [Obj.array xs])[s.length]? with
    | some (Obj.array m) => some m | _ => none) = some xs
  rw [List.getElem?_append_right (le_refl _)]
  simp

theorem matrixAt_set_eq (s : Store α) (m : Mat α) {a : Nat} (h : a < s.length) :
    Store.matrixAt (s.set a (Obj.matrix m)) a = some m := by
  unfold Store.matrixAt
  rw [List.getElem?_set_self h]

theorem extends_refl (s : Store α) : s.Extends s := ⟨le_refl _, fun _ _ => rfl⟩

theorem extends_alloc {s t : Store α} (h : s.Extends t) (o : Obj α) :
    s.Extends (t.alloc o).1 := by
  refine ⟨?_, ?_⟩
  · show s.length ≤ (t ++ [o]).length
    rw [List.length_append]
    exact le_trans h.length (Nat.le_add_right _ _)
  · intro b hb
    show (t ++ [o])[b]? = s[b]?
    rw [List.getElem?_append_left (lt_of_lt_of_le hb h.length)]
    exact h.same b hb

theorem extends_set {s t : Store α} (h : s.Extends t) (o : Obj α) {a : Nat}
    (ha : s.length ≤ a) : s.Extends (t.set a o) := by
  refine ⟨?_, ?_⟩
  · rw [List.length_set]
    exact h.length
  · intro b hb
    rw [List.getElem?_set_ne (by omega)]
    exact h.same b hb

theorem matrixAt_of_extends {s t : Store α} (h : s.Extends t) {a : Nat} {m : Mat α}
    (hm : s.matrixAt a = some m) : t.matrixAt a = some m := by
  have ha := matrixAt_lt hm
  unfold Store.matrixAt at hm ⊢
  rw [h.same a ha]
  exact hm

theorem arrayAt_of_extends {s t : Store α} (h : s.Extends t) {a : Nat} {xs : List α}
    (hm : s.arrayAt a = some xs) : t.arrayAt a = some xs := by
  have ha := arrayAt_lt hm
  unfold Store.arrayAt at hm ⊢
  rw [h.same a ha]
  exact hm

theorem holds_of_extends {r : NetworkRefs} {s t : Store α} {nn : NeuralNetwork α}
    (h : s.Extends t) (hr : r.Holds s nn) : r.Holds t nn :=
  ⟨matrixAt_of_extends h hr.weightsIH, matrixAt_of_extends h hr.weightsHO,
   matrixAt_of_extends h hr.biasH, matrixAt_of_extends h hr.biasO,
   matrixAt_of_extends h hr.prevWeightsIH, matrixAt_of_extends h hr.prevWeightsHO⟩

theorem store_matrixMultiply_eq {s t : Store α} (h : s.Extends t) {a b : Nat} {ma mb mc : Mat α}
    (ha : t.matrixAt a = some ma) (hb : t.matrixAt b = some mb)
    (hc : matrixMultiply ma mb = some mc) :
    t.matrixMultiply a b = some ((t.alloc (Obj.matrix mc)).1, t.length) ∧
      s.Extends (t.alloc (Obj.matrix mc)).1 ∧
      (t.alloc (Obj.matrix mc)).1.matrixAt t.length = some mc := by
  refine ⟨?_, extends_alloc h _, matrixAt_alloc_new t mc⟩
  simp only [Store.matrixMultiply, ha, hb, hc, Option.some_bind, Option.map_some']
  rfl

theorem store_matrixAdd_eq {s t : Store α} (h : s.Extends t) {a b : Nat} {ma mb mc : Mat α}
    (hs : s.length ≤ a) (ha : t.matrixAt a = some ma) (hb : t.matrixAt b = some mb)
    (hc : matrixAdd ma mb = some mc) :
    t.matrixAdd a b = some (t.set a (Obj.matrix mc)) ∧
      s.Extends (t.set a (Obj.matrix mc)) ∧
      Store.matrixAt (t.set a (Obj.matrix mc)) a = some mc := by
  refine ⟨?_, extends_set h _ hs, matrixAt_set_eq t mc (matrixAt_lt ha)⟩
  simp only [Store.matrixAdd, ha, hb, hc, Option.some_bind, Option.map_some']

theorem store_matrixMap_eq {s t : Store α} (h : s.Extends t) {a : Nat} {ma : Mat α}
    (fn : α → α) (hs : s.length ≤ a) (ha : t.matrixAt a = some ma) :
    t.matrixMap a fn = some (t.set a (Obj.matrix (matrixMap ma fn))) ∧
      s.Extends (t.set a (Obj.matrix (matrixMap ma fn))) ∧
      Store.matrixAt (t.set a (Obj.matrix (matrixMap ma fn))) a = some (matrixMap ma fn) := by
  refine ⟨?_, extends_set h _ hs, matrixAt_set_eq t _ (matrixAt_lt ha)⟩
  simp only [Store.matrixMap, ha, Option.map_some']

/-- The steps of `predict` on the store: when the store holds the matrices of `nn` and the
input array, and the computation on values returns `out`, `predict` on the store returns a
fresh array holding `out` and changes no object that existed before the call. -/
theorem predict_on_store (M : JsMath α) (r : NetworkRefs) (s : Store α) (nn : NeuralNetwork α)
    (inputArray : Nat) (xs out : List α) (hr : r.Holds s nn)
    (hx : s.arrayAt inputArray = some xs) (hp : nn.predict M xs = some out) :
    ∃ s' a, r.predict M s inputArray = some (s', a) ∧ s'.arrayAt a = some out ∧
      s.length ≤ a ∧ s.Extends s' := by
  simp only [NeuralNetwork.predict, NeuralNetwork.forward, bind, Option.bind_eq_some,
    pure, Option.some.injEq] at hp
  obtain ⟨fwd, ⟨h1, hm1, h2, ha1, o1, hm2, o2, ha2, rfl⟩, hout⟩ := hp
  -- const inputs = this.arrayToMatrix(inputArray)
  have e0 : s.arrayToMatrix inputArray
      = some ((s.alloc (Obj.matrix (arrayToMatrix xs))).1, s.length) := by
    simp only [Store.arrayToMatrix, hx, Option.map_some']
    rfl
  have x0 : s.Extends (s.alloc (Obj.matrix (arrayToMatrix xs))).1 :=
    extends_alloc (extends_refl s) _
  have i0 := matrixAt_alloc_new s (arrayToMatrix xs)
  generalize (s.alloc (Obj.matrix (arrayToMatrix xs))).1 = t0 at e0 x0 i0
  -- const hidden = this.matrixMultiply(this.weightsIH, inputs)
  obtain ⟨e1, x1, i1⟩ := store_matrixMultiply_eq x0 (holds_of_extends x0 hr).weightsIH i0 hm1
  generalize (Store.alloc t0 (Obj.matrix h1)).1 = t1 at e1 x1 i1
  -- this.matrixAdd(hidden, this.biasH)
  obtain ⟨e2, x2, i2⟩ := store_matrixAdd_eq x1 x0.length i1 (holds_of_extends x1 hr).biasH ha1
  generalize List.set t1 t0.length (Obj.matrix h2) = t2 at e2 x2 i2
  -- this.matrixMap(hidden, this.sigmoid)
  obtain ⟨e3, x3, i3⟩ := store_matrixMap_eq x2 (sigmoid M) x0.length i2
  generalize List.set t2 t0.length (Obj.matrix (matrixMap h2 (sigmoid M))) = t3 at e3 x3 i3
  -- const outputs = this.matrixMultiply(this.weightsHO, hidden)
  obtain ⟨e4, x4, i4⟩ := store_matrixMultiply_eq x3 (holds_of_extends x3 hr).weightsHO i3 hm2
  generalize (Store.alloc t3 (Obj.matrix o1)).1 = t4 at e4 x4 i4
  -- this.matrixAdd(outputs, this.biasO)
  obtain ⟨e5, x5, i5⟩ := store_matrixAdd_eq x4 x3.length i4 (holds_of_extends x4 hr).biasO ha2
  generalize List.set t4 t3.length (Obj.matrix o2) = t5 at e5 x5 i5
  -- this.matrixMap(outputs, this.sigmoid)
  obtain ⟨e6, x6, i6⟩ := store_matrixMap_eq x5 (sigmoid M) x3.length i5
  generalize List.set t5 t3.length (Obj.matrix (matrixMap o2 (sigmoid M))) = t6 at e6 x6 i6
  -- return this.matrixToArray(outputs)
  refine ⟨(Store.alloc t6 (Obj.array out)).1, t6.length, ?_, arrayAt_alloc_new t6 out, x6.length,
    extends_alloc x6 _⟩
  simp only [NetworkRefs.predict, e0, e1, e2, e3, e4, e5, e6, Option.some_bind,
    Store.matrixToArray, i6, hout, Option.map_some']
  rfl

/-- C11. `predict` is pure with respect to the network state. Let the store hold the six
matrices of a well-shaped network at the addresses `r` and an array of `inputSize` numbers at
`inputArray`. Then `predict` returns a fresh array, every object that existed before the call
(the six matrices and the input array among them) has the value it had before, and a second
`predict` on the store left by the first returns an array with the same values. -/
theorem predict_pure (M : JsMath α) (r : NetworkRefs) (s : Store α) (nn : NeuralNetwork α)
    (inputArray : Nat) (xs : List α) (hnn : nn.WellShaped) (hr : r.Holds s nn)
    (hx : s.arrayAt inputArray = some xs) (hlen : xs.length = nn.inputSize) :
    ∃ s' a out, r.predict M s inputArray = some (s', a) ∧ s'.arrayAt a = some out ∧
      out.length = nn.outputSize ∧
      (∀ b, b < s.length → s'[b]? = s[b]?) ∧
      r.Holds s' nn ∧ s'.arrayAt inputArray = some xs ∧
      ∃ s'' a', r.predict M s' inputArray = some (s'', a') ∧ s''.arrayAt a' = some out := by
  have hp := predict_eq M hnn hlen
  obtain ⟨s', a, h1, h2, -, h4⟩ := predict_on_store M r s nn inputArray xs _ hr hx hp
  obtain ⟨s'', a', k1, k2, -, -⟩ := predict_on_store M r s' nn inputArray xs _
    (holds_of_extends h4 hr) (arrayAt_of_extends h4 hx) hp
  exact ⟨s', a, _, h1, h2, by simp, h4.same, holds_of_extends h4 hr, arrayAt_of_extends h4 hx,
    s'', a', k1, k2⟩

/-- Witness of C11: the store that holds the network with output biases (0, 0, 4, 4) at the
addresses 0 to 5 and the input (1, ..., 8) at address 6. -/
theorem predict_pure_witness :
    ∃ s' a out, refsOf.predict realMath
        (storeOf (triggerNet ℝ) [1, 2, 3, 4, 5, 6, 7, 8]) 6 = some (s', a) ∧
      s'.arrayAt a = some out ∧ out.length = (triggerNet ℝ).outputSize ∧
      (∀ b, b < (storeOf (triggerNet ℝ) [1, 2, 3, 4, 5, 6, 7, 8]).length →
        s'[b]? = (storeOf (triggerNet ℝ) [1, 2, 3, 4, 5, 6, 7, 8])[b]?) ∧
      refsOf.Holds s' (triggerNet ℝ) ∧ s'.arrayAt 6 = some [1, 2, 3, 4, 5, 6, 7, 8] ∧
      ∃ s'' a', refsOf.predict realMath s' 6 = some (s'', a') ∧ s''.arrayAt a' = some out :=
  predict_pure realMath refsOf (storeOf (triggerNet ℝ) [1, 2, 3, 4, 5, 6, 7, 8]) (triggerNet ℝ) 6
    [1, 2, 3, 4, 5, 6, 7, 8] wellShaped_triggerNet ⟨rfl, rfl, rfl, rfl, rfl, rfl⟩ rfl rfl

/-! ## C12: inputs of the wrong length -/

theorem allSome_none_of_mem {β : Type} (l : List (Option β)) (h : none ∈ l) :
    allSome l = none := by
  induction l with
  | nil => exact absurd h (List.not_mem_nil _)
  | cons x l ih =>
    cases x with
    | none => rfl
    | some v =>
      have hl : none ∈ l := by
        rcases List.mem_cons.mp h with h | h
        · exact absurd h (by simp)
        · exact h
      simp only [allSome, ih hl, Option.map_none']

theorem buildMat_none (rows cols : Nat) (f : Nat → Nat → Option α) {i j : Nat} (hi : i < rows)
    (hj : j < cols) (h : f i j = none) : buildMat rows cols f = none := by
  unfold buildMat
  apply allSome_none_of_mem
  refine List.mem_map.mpr ⟨i, List.mem_range.mpr hi, ?_⟩
  apply allSome_none_of_mem
  exact List.mem_map.mpr ⟨j, List.mem_range.mpr hj, h⟩

/-- The product reads a missing row `b[k]` when `b` has fewer rows than `a` has columns. -/
theorem matrixMultiply_short {a b : Mat α} {r n p c : Nat} (ha : HasShape a r n) (hr : 0 < r)
    (hb : HasShape b p c) (hc : 0 < c) (hp : p < n) : matrixMultiply a b = none := by
  cases b with
  | nil => rfl
  | cons b0 brest =>
    obtain ⟨a0, arest, rfl⟩ := hasShape_ne_nil ha hr
    have ha0 := hasShape_cons ha
    have hb0 := hasShape_cons hb
    simp only [matrixMultiply]
    apply buildMat_none _ _ _ (i := 0) (j := 0) (by simp) (by rw [hb0.1]; exact hc)
    apply Option.map_eq_none'.mpr
    apply allSome_none_of_mem
    refine List.mem_map.mpr ⟨(b0 :: brest).length,
      List.mem_range.mpr (by rw [ha0.1, hb.1]; exact hp), ?_⟩
    have : entry (b0 :: brest) (b0 :: brest).length 0 = none := by
      simp [entry]
    rw [this]
    cases entry (a0 :: arest) 0 (b0 :: brest).length <;> rfl

/-- The product reads only the first `n` rows of `b` when `a` has `n` columns. -/
theorem matrixMultiply_long {a b : Mat α} {r n p c : Nat} (ha : HasShape a r n)
    (hb : HasShape b p c) (hn : 0 < n) (hp : n ≤ p) :
    matrixMultiply a b = some (tabulate r c fun i j =>
      ((List.range n).map fun k => entryD a i k * entryD b k j).foldl (· + ·) 0) := by
  obtain ⟨b0, brest, rfl⟩ := hasShape_ne_nil hb (lt_of_lt_of_le hn hp)
  have hb0 := hasShape_cons hb
  cases a with
  | nil =>
    have : r = 0 := by simpa [HasShape] using ha.1.symm
    subst this
    simp [matrixMultiply, tabulate]
  | cons a0 arest =>
    have ha0 := hasShape_cons ha
    simp only [matrixMultiply]
    rw [ha0.2, ha0.1, hb0.1]
    apply buildMat_eq
    intro i j hi hj
    rw [allSome_map_some _ _ (fun k => entryD (a0 :: arest) i k * entryD (b0 :: brest) k j)]
    · rfl
    · intro k hk
      have hk' := List.mem_range.mp hk
      rw [entry_of_hasShape ha hi hk', entry_of_hasShape hb (lt_of_lt_of_le hk' hp) hj]
      rfl

theorem entryD_arrayToMatrix_take (xs : List α) {n k : Nat} (hk : k < n) (j : Nat) :
    entryD (arrayToMatrix (xs.take n)) k j = entryD (arrayToMatrix xs) k j := by
  simp only [entryD, arrayToMatrix, List.getD_eq_getElem?_getD, List.getElem?_map,
    List.getElem?_take_of_lt hk]

theorem predict_short (M : JsMath α) {nn : NeuralNetwork α} (hnn : nn.WellShaped)
    (xs : List α) (h : xs.length < nn.inputSize) : nn.predict M xs = none := by
  have hm : matrixMultiply nn.weightsIH (arrayToMatrix xs) = none :=
    matrixMultiply_short hnn.weightsIH hnn.hiddenPos (hasShape_arrayToMatrix xs) (by norm_num) h
  simp only [NeuralNetwork.predict, NeuralNetwork.forward, bind, Option.bind, hm]

theorem predict_long (M : JsMath α) {nn : NeuralNetwork α} (hnn : nn.WellShaped)
    (xs : List α) (h : nn.inputSize ≤ xs.length) :
    nn.predict M xs = nn.predict M (xs.take nn.inputSize) := by
  have hl : (xs.take nn.inputSize).length = nn.inputSize := by
    rw [List.length_take]; exact min_eq_left h
  have h1 := matrixMultiply_long hnn.weightsIH (hasShape_arrayToMatrix xs) hnn.inputPos h
  have h2 := matrixMultiply_long hnn.weightsIH (hasShape_arrayToMatrix (xs.take nn.inputSize))
    hnn.inputPos (le_of_eq hl.symm)
  have hm : matrixMultiply nn.weightsIH (arrayToMatrix xs)
      = matrixMultiply nn.weightsIH (arrayToMatrix (xs.take nn.inputSize)) := by
    rw [h1, h2]
    congr 1
    apply tabulate_congr
    intro i j hi hj
    congr 1
    apply List.map_congr_left
    intro k hk
    rw [entryD_arrayToMatrix_take xs (List.mem_range.mp hk)]
  simp only [NeuralNetwork.predict, NeuralNetwork.forward, bind, Option.bind, hm]

/-- C12, amended. `predict` makes no dimension check. On a well-shaped network an input array
shorter than `inputSize` (the empty array included) makes `predict` fail (a `TypeError` on the
read `b[k][j]` of a missing row in `matrixMultiply`) and return nothing; an input array longer
than `inputSize` is accepted: `predict` returns the `outputSize` outputs of its first
`inputSize` entries and ignores the rest. -/
theorem predict_wrong_length (M : JsMath α) {nn : NeuralNetwork α} (hnn : nn.WellShaped)
    (xs : List α) :
    (xs.length < nn.inputSize → nn.predict M xs = none) ∧
    (nn.inputSize < xs.length →
      nn.predict M xs = nn.predict M (xs.take nn.inputSize) ∧
      ∃ out, nn.predict M xs = some out ∧ out.length = nn.outputSize) := by
  refine ⟨predict_short M hnn xs, fun h => ?_⟩
  have hl : (xs.take nn.inputSize).length = nn.inputSize := by
    rw [List.length_take]; exact min_eq_left (le_of_lt h)
  have hp := predict_long M hnn xs (le_of_lt h)
  refine ⟨hp, _, hp.trans (predict_eq M hnn hl), by simp⟩

/-- Witness of C12: on the network with output biases (0, 0, 4, 4) the empty input fails, and
the input of nine entries gives four outputs, those of its first eight entries. -/
theorem predict_wrong_length_witness :
    (triggerNet ℝ).predict realMath [] = none ∧
    ((triggerNet ℝ).predict realMath [1, 2, 3, 4, 5, 6, 7, 8, 9]
        = (triggerNet ℝ).predict realMath
            (([1, 2, 3, 4, 5, 6, 7, 8, 9] : List ℝ).take (triggerNet ℝ).inputSize) ∧
      ∃ out, (triggerNet ℝ).predict realMath [1, 2, 3, 4, 5, 6, 7, 8, 9] = some out ∧
        out.length = (triggerNet ℝ).outputSize) :=
  ⟨(predict_wrong_length realMath wellShaped_triggerNet []).1 (by decide),
   (predict_wrong_length realMath wellShaped_triggerNet [1, 2, 3, 4, 5, 6, 7, 8, 9]).2
     (by decide)⟩

/-- Counterexample to C12 as stated: an input of nine entries, one more than `inputSize`, is
not rejected; `predict` returns four outputs. -/
theorem predict_rejects_counterexample :
    ([1, 2, 3, 4, 5, 6, 7, 8, 9] : List ℝ).length ≠ (triggerNet ℝ).inputSize ∧
    (triggerNet ℝ).predict realMath [1, 2, 3, 4, 5, 6, 7, 8, 9]
      = some [1 / 2, 1 / 2, sigmoid realMath 4, sigmoid realMath 4] := by
  refine ⟨by decide, ?_⟩
  rw [predict_long realMath wellShaped_triggerNet _ (by decide)]
  rw [predict_triggerNet realMath _ (by rfl), sigmoid_zero_real]

/-! ## C13: the value that `train` returns -/

theorem foldl_abs_eq_sum (l : List α) (a : α) :
    l.foldl (fun sum e => sum + |e|) a = a + (l.map fun e => |e|).sum := by
  induction l generalizing a with
  | nil => simp
  | cons x l ih =>
    simp only [List.foldl_cons, List.map_cons, List.sum_cons, ih]
    ring

theorem meanAbsOf_eq_sum (errors : Mat α) (n : Nat) :
    meanAbsOf errors n = ((List.range n).map fun i => |entryD errors i 0|).sum / (n : α) := by
  unfold meanAbsOf
  rw [foldl_abs_eq_sum, zero_add, List.map_map]
  rfl

/-- C13. On a well-shaped network with at least one output, for an input of `inputSize`
entries and a target of `outputSize` entries, `train` returns, and the value it returns is the
mean absolute output error `(|t[0] - y[0]| + ... + |t[n-1] - y[n-1]|) / n`, `n = outputSize`,
where `y` is what `predict` returns on the same input with the weights on entry. -/
theorem train_returns_mean_abs_error (M : JsMath α) {nn : NeuralNetwork α} (hnn : nn.WellShaped)
    (ho : 0 < nn.outputSize) {inputArray targetArray : List α}
    (hlen : inputArray.length = nn.inputSize) (htlen : targetArray.length = nn.outputSize)
    (rng : Rng α) :
    ∃ nn' error rng' y, nn.train M inputArray targetArray rng = some (nn', error, rng') ∧
      nn.predict M inputArray = some y ∧ y.length = nn.outputSize ∧
      error = ((List.range nn.outputSize).map fun i =>
        |targetArray.getD i 0 - y.getD i 0|).sum / (nn.outputSize : α) := by
  refine ⟨_, _, _, _, train_eq M hnn ho hlen htlen rng, predict_eq M hnn hlen, by simp, ?_⟩
  unfold NeuralNetwork.trainError
  rw [meanAbsOf_eq_sum]
  congr 2
  apply List.map_congr_left
  intro i hi
  have hi' := List.mem_range.mp hi
  unfold outputErrorsOf
  rw [entryD_tabulate _ _ _ hi' (by norm_num), entryD_arrayToMatrix]
  congr 2
  rw [List.getD_eq_getElem?_getD, List.getElem?_map, List.getElem?_range hi']
  rfl

/-- Witness of C13: one training call on the network with output biases (0, 0, 4, 4). -/
theorem train_returns_mean_abs_error_witness :
    ∃ nn' error rng' y,
      (triggerNet ℝ).train realMath [1, 2, 3, 4, 5, 6, 7, 8] [1, 0, 1, 0] (halfRng ℝ)
        = some (nn', error, rng') ∧
      (triggerNet ℝ).predict realMath [1, 2, 3, 4, 5, 6, 7, 8] = some y ∧
      y.length = (triggerNet ℝ).outputSize ∧
      error = ((List.range (triggerNet ℝ).outputSize).map fun i =>
        |([1, 0, 1, 0] : List ℝ).getD i 0 - y.getD i 0|).sum
          / ((triggerNet ℝ).outputSize : ℝ) :=
  @train_returns_mean_abs_error ℝ _ realMath (triggerNet ℝ) wellShaped_triggerNet (by decide)
    [1, 2, 3, 4, 5, 6, 7, 8] [1, 0, 1, 0] (by rfl) (by rfl) (halfRng ℝ)

/-! ## C14: restarting a match -/

/-- C14. `resetToInitialState()` and `start()` restore the match state and leave the network
alone: after either call `trainingData` is empty, the four `lastUsed` are 0, `isDashing`,
`isDashWindup`, `isBeamWindup` and `isSpeedBoosted` are false, `ai.speed` equals
`ai.baseSpeed`, `score` is 0, and the network (weights, biases, previous deltas) is the one
before the call. -/
theorem reset_keeps_network (g : Game α) :
    ∀ g', g' = g.resetToInitialState ∨ g' = g.start →
      g'.trainingData = [] ∧
      g'.abilities.projectile.lastUsed = 0 ∧ g'.abilities.dash.lastUsed = 0 ∧
      g'.abilities.speedBoost.lastUsed = 0 ∧ g'.abilities.slowProjectile.lastUsed = 0 ∧
      g'.ai.isDashing = false ∧ g'.ai.isDashWindup = false ∧ g'.ai.isBeamWindup = false ∧
      g'.ai.isSpeedBoosted = false ∧ g'.ai.speed = g'.ai.baseSpeed ∧ g'.score = 0 ∧
      g'.nn.weightsIH = g.nn.weightsIH ∧ g'.nn.weightsHO = g.nn.weightsHO ∧
      g'.nn.biasH = g.nn.biasH ∧ g'.nn.biasO = g.nn.biasO ∧
      g'.nn.prevWeightsIH = g.nn.prevWeightsIH ∧ g'.nn.prevWeightsHO = g.nn.prevWeightsHO ∧
      g'.nn = g.nn := by
  intro g' h
  rcases h with rfl | rfl <;>
    exact ⟨rfl, rfl, rfl, rfl, rfl, rfl, rfl, rfl, rfl, rfl, rfl, rfl, rfl, rfl, rfl, rfl, rfl,
      rfl⟩

/-- Witness of C14: a restart in the middle of a beam windup. -/
theorem reset_keeps_network_witness :
    (beamWindupGame ℚ 16).start.ai.isBeamWindup = false ∧
    (beamWindupGame ℚ 16).start.abilities.slowProjectile.lastUsed = 0 ∧
    (beamWindupGame ℚ 16).start.score = 0 ∧
    (beamWindupGame ℚ 16).start.nn = (beamWindupGame ℚ 16).nn :=
  have h := reset_keeps_network (beamWindupGame ℚ 16) _ (Or.inr rfl)
  ⟨h.2.2.2.2.2.2.2.1, h.2.2.2.2.1, h.2.2.2.2.2.2.2.2.2.2.1, h.2.2.2.2.2.2.2.2.2.2.2.2.2.2.2.2.2⟩

/-! ## C15: where the ability gates are -/

/-- C15, amended. The gates are tests of the caller. Let `d` be the decision that `updateAI`
computes at time `now` on the state `g` on entry, and let `g'` be the state on which a trigger
statement of the normal branch runs. If the ability is not ready
(`now - lastUsed < cooldown` on entry) or not unlocked, the statement does not call the
`use...` operation and leaves the whole state and the random stream as they are. The
operations themselves make no test. -/
theorem ability_gate_at_call_site (M : JsMath α) (g g' : Game α) (now o0 o1 o2 o3 dist : α)
    (clock : Clock α) (rng : Rng α) :
    ((now - g.abilities.projectile.lastUsed < g.abilities.projectile.cooldown
        ∨ g'.isAbilityUnlocked "projectile" = false) →
      g'.tryProjectile M (g.decision now o0 o1 o2 o3) clock rng = (g', rng)) ∧
    ((now - g.abilities.dash.lastUsed < g.abilities.dash.cooldown
        ∨ g'.isAbilityUnlocked "dash" = false) →
      g'.tryDash M (g.decision now o0 o1 o2 o3) clock = g') ∧
    ((now - g.abilities.speedBoost.lastUsed < g.abilities.speedBoost.cooldown
        ∨ g'.isAbilityUnlocked "speedBoost" = false) →
      g'.trySpeedBoost (g.decision now o0 o1 o2 o3) dist clock rng = (g', rng)) ∧
    ((now - g.abilities.slowProjectile.lastUsed < g.abilities.slowProjectile.cooldown
        ∨ g'.isAbilityUnlocked "slowProjectile" = false) →
      g'.trySlowProjectile M (g.decision now o0 o1 o2 o3) dist clock rng = (g', rng)) := by
  have hr : ∀ l c : α, now - l < c → readyAt now l c = false := by
    intro l c h
    simp only [readyAt, decide_eq_false_iff_not, ge_iff_le, not_le]
    exact h
  refine ⟨fun h => ?_, fun h => ?_, fun h => ?_, fun h => ?_⟩
  · unfold Game.tryProjectile
    rcases h with h | h
    · simp [Game.decision, hr _ _ h]
    · simp [h]
  · unfold Game.tryDash
    rcases h with h | h
    · simp [Game.decision, hr _ _ h]
    · simp [h]
  · unfold Game.trySpeedBoost
    rcases h with h | h
    · simp [Game.decision, hr _ _ h]
    · simp [h]
  · unfold Game.trySlowProjectile
    rcases h with h | h
    · simp [Game.decision, hr _ _ h]
    · simp [h]

/-- Witness of C15: with the projectile used 1000 ms ago the projectile trigger does nothing,
and at score 0 the dash trigger does nothing. -/
theorem ability_gate_at_call_site_witness :
    (beamWindupGame ℝ 16).tryProjectile realMath
        ((beamWindupGame ℝ 16).decision 1000000 1 1 1 1) (Clock.at 1000000) (halfRng ℝ)
      = (beamWindupGame ℝ 16, halfRng ℝ) ∧
    (arena (zeroNet ℝ)).tryDash realMath ((arena (zeroNet ℝ)).decision 1000000 1 1 1 1)
        (Clock.at 1000000)
      = arena (zeroNet ℝ) :=
  ⟨(ability_gate_at_call_site realMath (beamWindupGame ℝ 16) (beamWindupGame ℝ 16) 1000000
      1 1 1 1 0 (Clock.at 1000000) (halfRng ℝ)).1
      (Or.inl (by norm_num [beamWindupGame, arena, Game.new, Abilities.initial])),
   (ability_gate_at_call_site realMath (arena (zeroNet ℝ)) (arena (zeroNet ℝ)) 1000000
      1 1 1 1 0 (Clock.at 1000000) (halfRng ℝ)).2.1
      (Or.inr (by
        simp only [Game.isAbilityUnlocked, unlockMap, List.lookup, arena, Game.new]
        simp))⟩

/-- Counterexample to C15 as stated: `useProjectile()` invoked 1000 ms after the last use
(cooldown 3000 ms, so not ready) stores the new time in `lastUsed` and pushes a projectile;
`useDash(1, 0)` invoked at score 0 (dash locked) starts a dash windup. -/
theorem use_is_ungated_counterexample :
    readyAt 1000000 (beamWindupGame ℝ 16).abilities.projectile.lastUsed
      (beamWindupGame ℝ 16).abilities.projectile.cooldown = false ∧
    ((beamWindupGame ℝ 16).useProjectile realMath 1000000
      (halfRng ℝ)).1.abilities.projectile.lastUsed = 1000000 ∧
    (beamWindupGame ℝ 16).abilities.projectile.lastUsed = 999000 ∧
    ((beamWindupGame ℝ 16).useProjectile realMath 1000000 (halfRng ℝ)).1.projectiles.length
      = (beamWindupGame ℝ 16).projectiles.length + 1 ∧
    (arena (zeroNet ℝ)).isAbilityUnlocked "dash" = false ∧
    (arena (zeroNet ℝ)).ai.isDashWindup = false ∧
    ((arena (zeroNet ℝ)).useDash realMath 1 0 1000000).ai.isDashWindup = true := by
  refine ⟨?_, rfl, rfl, ?_, ?_, rfl, rfl⟩
  · simp only [readyAt, decide_eq_false_iff_not]
    norm_num [beamWindupGame, arena, Game.new, Abilities.initial]
  · simp [Game.useProjectile]
  · simp only [Game.isAbilityUnlocked, unlockMap, List.lookup, arena, Game.new]
    simp

/-! ## C16: the heuristic targets -/

theorem heuristicTargets_range (M : JsMath α) (g : Game α) :
    ∀ t ∈ g.heuristicTargets M, 0 ≤ t ∧ t ≤ 1 := by
  have hc : ∀ x : α, 0 ≤ (min 1 (max (-1) x) + 1) / 2 ∧ (min 1 (max (-1) x) + 1) / 2 ≤ 1 := by
    intro x
    have h1 : min 1 (max (-1) x) ≤ 1 := min_le_left _ _
    have h2 : (-1 : α) ≤ min 1 (max (-1) x) := le_min (by norm_num) (le_max_left _ _)
    constructor
    · apply div_nonneg _ (by norm_num)
      linarith
    · rw [div_le_one (by norm_num)]
      linarith
  have hi : ∀ p : Prop, ∀ [Decidable p], (0 : α) ≤ (if p then 0.9 else 0.1) ∧
      (if p then (0.9 : α) else 0.1) ≤ 1 := by
    intro p _
    split <;> constructor <;> norm_num
  intro t ht
  simp only [Game.heuristicTargets, List.mem_cons, List.mem_singleton, List.not_mem_nil,
    or_false] at ht
  rcases ht with rfl | rfl | rfl | rfl
  · exact hc _
  · exact hc _
  · exact hi _
  · exact hi _

theorem getLast_pushSample {β : Type} (buf : List β) {cap : Nat} (s : β) (hc : 0 < cap) :
    (pushSample buf cap s).getLast? = some s := by
  unfold pushSample
  split
  · rename_i h
    cases buf with
    | nil =>
      simp only [List.nil_append, List.length_singleton] at h
      omega
    | cons b bs => simp
  · simp

theorem trainPeriodically_trainingData (M : JsMath α) {g : Game α} {rng : Rng α}
    {r : Game α × Rng α} (h : g.trainPeriodically M rng = some r) :
    r.1.trainingData = g.trainingData := by
  unfold Game.trainPeriodically at h
  split at h
  · split at h
    · simp only [Option.map_eq_some'] at h
      obtain ⟨t, -, rfl⟩ := h
      rfl
    · cases h; rfl
  · cases h; rfl

/-- C16. When `updateAI` returns on a game whose buffer has room for at least one sample, the
sample it pushed is the last of `trainingData`, and each of the four entries of its `targets`
is at least 0 and at most 1, for every player state and AI position. -/
theorem training_targets_in_unit_interval (M : JsMath α) {g : Game α} {clock : Clock α}
    {rng : Rng α} {r : Game α × Rng α} (hmax : 0 < g.maxTrainingData)
    (h : g.updateAI M clock rng = some r) :
    ∃ s, r.1.trainingData.getLast? = some s ∧ s.targets.length = 4 ∧
      ∀ t ∈ s.targets, 0 ≤ t ∧ t ≤ 1 := by
  obtain ⟨outputs, o0, o1, o2, o3, -, -, -, -, -, hr⟩ := updateAI_some M h
  have hm := ((sameWorld_speedBoostCountdown g).thenWorld
    (sameWorld_act M g.speedBoostCountdown (g.decision clock.updateAI o0 o1 o2 o3) clock
      rng)).maxTrainingData
  rw [trainPeriodically_trainingData M hr]
  refine ⟨_, getLast_pushSample _ _ (by rw [hm]; exact hmax), rfl, ?_⟩
  exact heuristicTargets_range M _

/-- Witness of C16: one `updateAI` tick of the game in a beam windup. -/
theorem training_targets_in_unit_interval_witness :
    ∃ r, (beamWindupGame ℝ 112).updateAI realMath (Clock.at 1000000) (halfRng ℝ) = some r ∧
      ∃ s, r.1.trainingData.getLast? = some s ∧ s.targets.length = 4 ∧
        ∀ t ∈ s.targets, 0 ≤ t ∧ t ≤ 1 := by
  obtain ⟨r, -, -, -, -, hr, -⟩ := updateAI_wf realMath (wellFormed_beamWindupGame (112 : ℝ))
    (Clock.at 1000000) (halfRng ℝ)
  exact ⟨r, hr, training_targets_in_unit_interval realMath (by decide) hr⟩

/-! ## C17: the accuracy metric -/

theorem foldl_add_eq_sum (l : List α) (a : α) :
    l.foldl (fun sum err => sum + err) a = a + l.sum := by
  induction l generalizing a with
  | nil => simp
  | cons x l ih =>
    simp only [List.foldl_cons, List.sum_cons, ih]
    ring

theorem trainSamples_length (M : JsMath α) (trainingData : List (Sample α)) (idx : List Nat) :
    ∀ (nn : NeuralNetwork α) (rng : Rng α) (r : NeuralNetwork α × List α × Rng α),
      trainSamples M trainingData idx nn rng = some r → r.2.1.length = idx.length := by
  induction idx with
  | nil =>
    intro nn rng r h
    simp only [trainSamples, Option.some.injEq] at h
    subst h
    rfl
  | cons i rest ih =>
    intro nn rng r h
    simp only [trainSamples, Option.bind_eq_some, Option.map_eq_some'] at h
    obtain ⟨data, -, t, -, r', hr', rfl⟩ := h
    simp only [List.length_cons, ih _ _ _ hr']

theorem accuracyOf_range (totalError : α) (sampleSize : Nat) :
    0 ≤ accuracyOf totalError sampleSize ∧ accuracyOf totalError sampleSize ≤ 100 := by
  unfold accuracyOf
  exact ⟨le_max_left _ _, max_le (by norm_num) (min_le_left _ _)⟩

theorem trainPeriodically_accuracy (M : JsMath α) {g : Game α} {rng : Rng α}
    {r : Game α × Rng α} (h : g.trainPeriodically M rng = some r) :
    (15 < g.trainingData.length ∧ rng 0 < 0.08 →
      ∃ nn' errors rng',
        trainSamples M g.trainingData (List.range (min 8 g.trainingData.length)) g.nn
          (rng.skip 1) = some (nn', errors, rng') ∧
        errors.length = min 8 g.trainingData.length ∧
        r.1.aiAccuracy = max 0 (min 100 (100 - errors.sum / (errors.length : α) * 150))) ∧
    (¬ (15 < g.trainingData.length ∧ rng 0 < 0.08) → r.1.aiAccuracy = g.aiAccuracy) ∧
    (0 ≤ g.aiAccuracy ∧ g.aiAccuracy ≤ 100 → 0 ≤ r.1.aiAccuracy ∧ r.1.aiAccuracy ≤ 100) := by
  unfold Game.trainPeriodically at h
  by_cases h1 : 15 < g.trainingData.length
  · by_cases h2 : rng 0 < 0.08
    · rw [if_pos h1, if_pos h2, Option.map_eq_some'] at h
      obtain ⟨⟨nn', errors, rng'⟩, ht, rfl⟩ := h
      have hl := trainSamples_length M _ _ _ _ _ ht
      rw [List.length_range] at hl
      refine ⟨fun _ => ⟨nn', errors, rng', ht, hl, ?_⟩, fun hn => absurd ⟨h1, h2⟩ hn,
        fun _ => accuracyOf_range _ _⟩
      show accuracyOf _ _ = _
      rw [foldl_add_eq_sum, zero_add, hl]
      rfl
    · rw [if_pos h1, if_neg h2] at h
      cases h
      exact ⟨fun hp => absurd hp.2 h2, fun _ => rfl, fun hr => hr⟩
  · rw [if_neg h1] at h
    cases h
    exact ⟨fun hp => absurd hp.1 h1, fun _ => rfl, fun hr => hr⟩

theorem leftOf_refl (rng : Rng α) : rng.LeftOf rng := ⟨0, fun k => by rw [Nat.zero_add]⟩

theorem leftOf_skip (rng : Rng α) (m : Nat) : (rng.skip m).LeftOf rng := ⟨m, fun _ => rfl⟩

theorem leftOf_trans {a b c : Rng α} (h1 : a.LeftOf b) (h2 : b.LeftOf c) : a.LeftOf c := by
  obtain ⟨n, hn⟩ := h1
  obtain ⟨m, hm⟩ := h2
  exact ⟨m + n, fun k => by rw [hn, hm, Nat.add_assoc]⟩

theorem leftOf_beamWindupStep (M : JsMath α) (g : Game α) (rng : Rng α) :
    (g.beamWindupStep M rng).2.LeftOf rng := by
  have h1 : (g.beamCharge.beamTrack M rng).2.LeftOf rng := by
    unfold Game.beamTrack
    split
    · exact leftOf_refl rng
    · split
      · exact leftOf_skip rng 1
      · exact leftOf_refl rng
  have h2 : ∀ (g' : Game α) (rng' : Rng α), (g'.beamFire rng').2.LeftOf rng' := by
    intro g' rng'
    unfold Game.beamFire
    split
    · exact leftOf_skip rng' 60
    · exact leftOf_refl rng'
  unfold Game.beamWindupStep
  split
  · exact leftOf_trans (h2 _ _) h1
  · exact leftOf_refl rng

theorem leftOf_normalStep (M : JsMath α) (g : Game α) (d : Decision α) (clock : Clock α)
    (rng : Rng α) : (g.normalStep M d clock rng).2.LeftOf rng := by
  rw [normalStep_eq]
  have h1 : ∀ (b : Bool) (s : Game α × Rng α), (applyProjectile b M clock s).2.LeftOf s.2 := by
    intro b s
    cases b
    · exact leftOf_refl _
    · exact leftOf_skip _ 24
  have h2 : ∀ (b : Bool) (s : Game α × Rng α), (applyDash b M d clock s).2.LeftOf s.2 := by
    intro b s
    cases b <;> exact leftOf_refl _
  have h3 : ∀ (b : Bool) (s : Game α × Rng α), (applySpeedBoost b clock s).2.LeftOf s.2 := by
    intro b s
    cases b
    · exact leftOf_refl _
    · exact leftOf_skip _ 50
  have h4 : ∀ (b : Bool) (s : Game α × Rng α),
      (applySlowProjectile b M clock s).2.LeftOf s.2 := by
    intro b s
    cases b
    · exact leftOf_refl _
    · simp only [applySlowProjectile, if_true, Game.useSlowProjectile]
      split
      · exact leftOf_skip _ 1
      · exact leftOf_refl _
  exact leftOf_trans (h4 _ _) (leftOf_trans (h3 _ _) (leftOf_trans (h2 _ _) (h1 _ _)))

theorem leftOf_act (M : JsMath α) (g : Game α) (d : Decision α) (clock : Clock α)
    (rng : Rng α) : (g.act M d clock rng).2.LeftOf rng := by
  have h1 := leftOf_beamWindupStep M g rng
  have h2 : ∀ (g' : Game α) (rng' : Rng α),
      (g'.dashOrNormalStep M d clock rng').2.LeftOf rng' := by
    intro g' rng'
    unfold Game.dashOrNormalStep
    split
    · exact leftOf_refl _
    · split
      · unfold Game.dashingStep
        split
        · exact leftOf_refl _
        · exact leftOf_skip _ 25
      · exact leftOf_normalStep M g' d clock rng'
  have h3 : ∀ rng' : Rng α, (aiParticleDraws rng').LeftOf rng' := by
    intro rng'
    unfold aiParticleDraws
    split
    · exact leftOf_skip _ 4
    · exact leftOf_skip _ 1
  unfold Game.act
  exact leftOf_trans (h3 _) (leftOf_trans (h2 _ _) h1)

/-- C17. When `updateAI` returns, let `buffer` be `trainingData` after the push of this tick
and `rngT 0` the value that `Math.random()` returns in the training test. If
`buffer.length > 15` and `rngT 0 < 0.08`, the `min(8, buffer.length)` most recent samples are
trained and `aiAccuracy` becomes
`max(0, min(100, 100 - (sum of the returned errors / number of trained samples) * 150))`;
otherwise `aiAccuracy` is unchanged. In both cases `aiAccuracy` stays within [0, 100] if it was
there before. -/
theorem accuracy_metric (M : JsMath α) {g : Game α} {clock : Clock α} {rng : Rng α}
    {r : Game α × Rng α} (h : g.updateAI M clock rng = some r) :
    ∃ (sample : Sample α) (rngT : Rng α),
      r.1.trainingData = pushSample g.trainingData g.maxTrainingData sample ∧
      rngT.LeftOf rng ∧
      (15 < r.1.trainingData.length ∧ rngT 0 < 0.08 →
        ∃ nn' errors rng',
          trainSamples M r.1.trainingData (List.range (min 8 r.1.trainingData.length)) g.nn
            (rngT.skip 1) = some (nn', errors, rng') ∧
          errors.length = min 8 r.1.trainingData.length ∧
          r.1.aiAccuracy = max 0 (min 100 (100 - errors.sum / (errors.length : α) * 150))) ∧
      (¬ (15 < r.1.trainingData.length ∧ rngT 0 < 0.08) → r.1.aiAccuracy = g.aiAccuracy) ∧
      (0 ≤ g.aiAccuracy ∧ g.aiAccuracy ≤ 100 → 0 ≤ r.1.aiAccuracy ∧ r.1.aiAccuracy ≤ 100) := by
  obtain ⟨outputs, o0, o1, o2, o3, -, -, -, -, -, hr⟩ := updateAI_some M h
  obtain ⟨hn, ht, ha, -, hm⟩ := learning_speedBoostCountdown g
  obtain ⟨an, at', aa⟩ := learning_act M g.speedBoostCountdown
    (g.decision clock.updateAI o0 o1 o2 o3) clock rng
  have am := (sameWorld_act M g.speedBoostCountdown (g.decision clock.updateAI o0 o1 o2 o3)
    clock rng).maxTrainingData
  have htd := trainPeriodically_trainingData M hr
  obtain ⟨p1, p2, p3⟩ := trainPeriodically_accuracy M hr
  rw [← htd] at p1 p2
  refine ⟨Sample.mk (g.speedBoostCountdown.getNeuralNetworkInputs clock.getNeuralNetworkInputs)
      ((g.speedBoostCountdown.act M (g.decision clock.updateAI o0 o1 o2 o3) clock
        rng).1.heuristicTargets M),
    (g.speedBoostCountdown.act M (g.decision clock.updateAI o0 o1 o2 o3) clock rng).2,
    ?_, leftOf_act M _ _ clock rng, ?_, ?_, ?_⟩
  · rw [htd]
    show pushSample _ _ _ = _
    rw [at', ht, am, hm]
  · intro hc
    obtain ⟨nn', errors, rng', e1, e2, e3⟩ := p1 hc
    refine ⟨nn', errors, rng', ?_, e2, e3⟩
    rw [← e1]
    show _ = trainSamples M _ _ (g.speedBoostCountdown.act M _ clock rng).1.nn _
    rw [an, hn]
  · intro hc
    rw [p2 hc]
    show (g.speedBoostCountdown.act M _ clock rng).1.aiAccuracy = _
    rw [aa, ha]
  · intro hc
    apply p3
    show 0 ≤ (g.speedBoostCountdown.act M _ clock rng).1.aiAccuracy ∧
      (g.speedBoostCountdown.act M _ clock rng).1.aiAccuracy ≤ 100
    rw [aa, ha]
    exact hc

theorem wellFormed_trainingGame : (trainingGame α).WellFormed := by
  refine ⟨wellShaped_zeroNet, rfl, rfl, ?_⟩
  intro s hs
  have := List.eq_of_mem_replicate hs
  subst this
  exact ⟨rfl, rfl⟩

/-- Witness of C17: a tick of the game whose buffer holds 16 samples, with every random draw
equal to 0.05: training runs on 8 samples and the accuracy is the clamped formula. -/
theorem accuracy_metric_witness :
    ∃ r, (trainingGame ℝ).updateAI realMath (Clock.at 1000000) (lowRng ℝ) = some r ∧
      r.1.trainingData.length = 17 ∧
      ∃ errors : List ℝ, errors.length = 8 ∧
        r.1.aiAccuracy = max 0 (min 100 (100 - errors.sum / (errors.length : ℝ) * 150)) ∧
        0 ≤ r.1.aiAccuracy ∧ r.1.aiAccuracy ≤ 100 := by
  obtain ⟨r, -, -, -, -, hr, -⟩ := updateAI_wf realMath (@wellFormed_trainingGame ℝ _)
    (Clock.at 1000000) (lowRng ℝ)
  obtain ⟨sample, rngT, h1, ⟨n, h2⟩, h3, -, h5⟩ := accuracy_metric realMath hr
  have hlen : r.1.trainingData.length = 17 := by
    rw [h1]
    simp [pushSample, trainingGame, arena, Game.new]
  have hdraw : rngT 0 < 0.08 := by
    rw [h2]
    show (0.05 : ℝ) < 0.08
    norm_num
  obtain ⟨nn', errors, rng', -, e2, e3⟩ := h3 ⟨by rw [hlen]; norm_num, hdraw⟩
  rw [hlen] at e2
  exact ⟨r, hr, hlen, errors, e2, e3,
    h5 ⟨by norm_num [trainingGame, arena, Game.new], by norm_num [trainingGame, arena, Game.new]⟩⟩

/-! ## C18: the shape of the network -/

/-- C18. On a well-shaped network with at least one output, `train` on an input of
`inputSize` entries and a target of `outputSize` entries returns, and in the network it leaves
the three sizes are unchanged, `weightsIH` is `hiddenSize x inputSize`, `weightsHO` is
`outputSize x hiddenSize`, `biasH` is `hiddenSize x 1`, `biasO` is `outputSize x 1`, and
`prevWeightsIH`, `prevWeightsHO` have the shapes of their weight matrices. -/
theorem train_preserves_shape (M : JsMath α) {nn : NeuralNetwork α} (hnn : nn.WellShaped)
    (ho : 0 < nn.outputSize) {inputArray targetArray : List α}
    (hlen : inputArray.length = nn.inputSize) (htlen : targetArray.length = nn.outputSize)
    (rng : Rng α) :
    ∃ nn' error rng', nn.train M inputArray targetArray rng = some (nn', error, rng') ∧
      nn'.inputSize = nn.inputSize ∧ nn'.hiddenSize = nn.hiddenSize ∧
      nn'.outputSize = nn.outputSize ∧
      HasShape nn'.weightsIH nn.hiddenSize nn.inputSize ∧
      HasShape nn'.weightsHO nn.outputSize nn.hiddenSize ∧
      HasShape nn'.biasH nn.hiddenSize 1 ∧
      HasShape nn'.biasO nn.outputSize 1 ∧
      HasShape nn'.prevWeightsIH nn.hiddenSize nn.inputSize ∧
      HasShape nn'.prevWeightsHO nn.outputSize nn.hiddenSize := by
  have hw := wellShaped_trained M hnn inputArray targetArray rng
  exact ⟨_, _, _, train_eq M hnn ho hlen htlen rng, rfl, rfl, rfl, hw.weightsIH, hw.weightsHO,
    hw.biasH, hw.biasO, hw.prevWeightsIH, hw.prevWeightsHO⟩

/-- Witness of C18: one training call on the 8-16-4 network with output biases (0, 0, 4, 4). -/
theorem train_preserves_shape_witness :
    ∃ nn' error rng',
      (triggerNet ℝ).train realMath [1, 2, 3, 4, 5, 6, 7, 8] [1, 0, 1, 0] (halfRng ℝ)
        = some (nn', error, rng') ∧
      nn'.inputSize = 8 ∧ nn'.hiddenSize = 16 ∧ nn'.outputSize = 4 ∧
      HasShape nn'.weightsIH 16 8 ∧ HasShape nn'.weightsHO 4 16 ∧
      HasShape nn'.biasH 16 1 ∧ HasShape nn'.biasO 4 1 ∧
      HasShape nn'.prevWeightsIH 16 8 ∧ HasShape nn'.prevWeightsHO 4 16 :=
  @train_preserves_shape ℝ _ realMath (triggerNet ℝ) wellShaped_triggerNet (by decide)
    [1, 2, 3, 4, 5, 6, 7, 8] [1, 0, 1, 0] (by rfl) (by rfl) (halfRng ℝ)

/-! ## C19 and C20: what the normal branch does to a windup -/

theorem wellShaped_biasNet (b0 b1 b2 b3 : α) : (biasNet α b0 b1 b2 b3).WellShaped :=
  { inputPos := (@wellShaped_zeroNet α _).inputPos
    hiddenPos := (@wellShaped_zeroNet α _).hiddenPos
    weightsIH := (@wellShaped_zeroNet α _).weightsIH
    weightsHO := (@wellShaped_zeroNet α _).weightsHO
    biasH := (@wellShaped_zeroNet α _).biasH
    biasO := by
      constructor
      · rfl
      · intro row hrow
        simp only [biasNet, List.mem_cons, List.mem_singleton, List.not_mem_nil,
          or_false] at hrow
        rcases hrow with rfl | rfl | rfl | rfl <;> rfl
    prevWeightsIH := (@wellShaped_zeroNet α _).prevWeightsIH
    prevWeightsHO := (@wellShaped_zeroNet α _).prevWeightsHO }

theorem predict_biasNet (M : JsMath α) (b0 b1 b2 b3 : α) (inputArray : List α)
    (hlen : inputArray.length = 8) :
    (biasNet α b0 b1 b2 b3).predict M inputArray =
      some [sigmoid M b0, sigmoid M b1, sigmoid M b2, sigmoid M b3] := by
  rw [predict_eq M (wellShaped_biasNet b0 b1 b2 b3) hlen]
  simp only [biasNet, zeroNet_eq, NeuralNetwork.outputsOf, NeuralNetwork.hiddenOf,
    entryD_tabulate_ite, dotD, List.range_succ, List.range_zero]
  simp [entryD]

/-- The beam block leaves the position, the speed and the dash flags of the AI alone. -/
theorem beamWindupStep_motion (M : JsMath α) (g : Game α) (rng : Rng α) :
    (g.beamWindupStep M rng).1.ai.isDashWindup = g.ai.isDashWindup ∧
    (g.beamWindupStep M rng).1.ai.isDashing = g.ai.isDashing ∧
    (g.beamWindupStep M rng).1.ai.x = g.ai.x ∧ (g.beamWindupStep M rng).1.ai.y = g.ai.y ∧
    (g.beamWindupStep M rng).1.ai.speed = g.ai.speed ∧
    (g.beamWindupStep M rng).1.ai.radius = g.ai.radius ∧
    (g.beamWindupStep M rng).1.canvasWidth = g.canvasWidth ∧
    (g.beamWindupStep M rng).1.canvasHeight = g.canvasHeight ∧
    (g.beamWindupStep M rng).1.score = g.score ∧
    (g.beamWindupStep M rng).1.timerMaxDuration = g.timerMaxDuration := by
  unfold Game.beamWindupStep
  split
  · unfold Game.beamFire Game.beamTrack
    split <;> split <;> first
      | exact ⟨rfl, rfl, rfl, rfl, rfl, rfl, rfl, rfl, rfl, rfl⟩
      | (split <;> exact ⟨rfl, rfl, rfl, rfl, rfl, rfl, rfl, rfl, rfl, rfl⟩)
  · exact ⟨rfl, rfl, rfl, rfl, rfl, rfl, rfl, rfl, rfl, rfl⟩

/-- The four triggers leave the velocity and the position set by the normal movement; the dash
trigger stores the position as the windup start. -/
theorem applyChain_motion (M : JsMath α) (d : Decision α) (clock : Clock α)
    (s : Game α × Rng α) (b1 b2 b3 b4 : Bool) :
    (applySlowProjectile b4 M clock (applySpeedBoost b3 clock (applyDash b2 M d clock
      (applyProjectile b1 M clock s)))).1.ai.vx = s.1.ai.vx ∧
    (applySlowProjectile b4 M clock (applySpeedBoost b3 clock (applyDash b2 M d clock
      (applyProjectile b1 M clock s)))).1.ai.vy = s.1.ai.vy ∧
    (applySlowProjectile b4 M clock (applySpeedBoost b3 clock (applyDash b2 M d clock
      (applyProjectile b1 M clock s)))).1.ai.x = s.1.ai.x ∧
    (applySlowProjectile b4 M clock (applySpeedBoost b3 clock (applyDash b2 M d clock
      (applyProjectile b1 M clock s)))).1.ai.y = s.1.ai.y ∧
    (applySlowProjectile b4 M clock (applySpeedBoost b3 clock (applyDash b2 M d clock
      (applyProjectile b1 M clock s)))).1.ai.radius = s.1.ai.radius ∧
    (applySlowProjectile b4 M clock (applySpeedBoost b3 clock (applyDash b2 M d clock
      (applyProjectile b1 M clock s)))).1.canvasWidth = s.1.canvasWidth ∧
    (applySlowProjectile b4 M clock (applySpeedBoost b3 clock (applyDash b2 M d clock
      (applyProjectile b1 M clock s)))).1.canvasHeight = s.1.canvasHeight ∧
    (b2 = true →
      (applySlowProjectile b4 M clock (applySpeedBoost b3 clock (applyDash b2 M d clock
        (applyProjectile b1 M clock s)))).1.ai.isDashWindup = true ∧
      (applySlowProjectile b4 M clock (applySpeedBoost b3 clock (applyDash b2 M d clock
        (applyProjectile b1 M clock s)))).1.ai.dashStartX = s.1.ai.x ∧
      (applySlowProjectile b4 M clock (applySpeedBoost b3 clock (applyDash b2 M d clock
        (applyProjectile b1 M clock s)))).1.ai.dashStartY = s.1.ai.y) ∧
    (b4 = true →
      (applySlowProjectile b4 M clock (applySpeedBoost b3 clock (applyDash b2 M d clock
        (applyProjectile b1 M clock s)))).1.ai.isBeamWindup = true) ∧
    (b4 = false →
      (applySlowProjectile b4 M clock (applySpeedBoost b3 clock (applyDash b2 M d clock
        (applyProjectile b1 M clock s)))).1.ai.isBeamWindup = s.1.ai.isBeamWindup) := by
  cases b4
  · cases b1 <;> cases b2 <;> cases b3 <;>
      exact ⟨rfl, rfl, rfl, rfl, rfl, rfl, rfl,
        (fun h => by first | exact Bool.noConfusion h | exact ⟨rfl, rfl, rfl⟩),
        (fun h => Bool.noConfusion h), (fun _ => rfl)⟩
  · simp only [applySlowProjectile, if_true, Game.useSlowProjectile]
    cases b1 <;> cases b2 <;> cases b3 <;> split <;>
      exact ⟨rfl, rfl, rfl, rfl, rfl, rfl, rfl,
        (fun h => by first | exact Bool.noConfusion h | exact ⟨rfl, rfl, rfl⟩),
        (fun _ => rfl), (fun h => Bool.noConfusion h)⟩

/-- A tick that runs the normal branch (no dash windup, not dashing), a beam windup or not:
the velocity that the tick leaves is the one decoded from the network outputs, the position
has moved by it (within the bounds), and if the dash trigger fires the windup start is the
position before the move. -/
theorem act_normal_motion (M : JsMath α) (g : Game α) (d : Decision α) (clock : Clock α)
    (rng : Rng α) (hw : g.ai.isDashWindup = false) (hd : g.ai.isDashing = false) :
    (g.act M d clock rng).1.ai.vx = d.moveX * g.ai.speed ∧
    (g.act M d clock rng).1.ai.vy = d.moveY * g.ai.speed ∧
    (g.act M d clock rng).1.ai.x
      = max g.ai.radius (min (g.canvasWidth - g.ai.radius) (g.ai.x + d.moveX * g.ai.speed)) ∧
    (g.act M d clock rng).1.ai.y
      = max g.ai.radius (min (g.canvasHeight - g.ai.radius) (g.ai.y + d.moveY * g.ai.speed)) ∧
    (g.firesDash d = true →
      (g.act M d clock rng).1.ai.isDashWindup = true ∧
      (g.act M d clock rng).1.ai.dashStartX = g.ai.x ∧
      (g.act M d clock rng).1.ai.dashStartY = g.ai.y) := by
  obtain ⟨m1, m2, m3, m4, m5, m6, m7, m8, m9, m10⟩ := beamWindupStep_motion M g rng
  have hf : (g.beamWindupStep M rng).1.firesDash d = g.firesDash d := by
    unfold Game.firesDash
    rw [m1, m2, @isAbilityUnlocked_congr α _ g (g.beamWindupStep M rng).1 m9 m10]
  unfold Game.act
  rw [dashOrNormalStep_normal M _ d clock _ (m1.trans hw) (m2.trans hd), normalStep_eq]
  obtain ⟨c1, c2, c3, c4, c5, c6, c7, c8, -, -⟩ := applyChain_motion M d clock
    ((g.beamWindupStep M rng).1.steer d, (g.beamWindupStep M rng).2)
    ((g.beamWindupStep M rng).1.firesProjectile d) ((g.beamWindupStep M rng).1.firesDash d)
    ((g.beamWindupStep M rng).1.firesSpeedBoost M d)
    ((g.beamWindupStep M rng).1.firesSlowProjectile M d)
  refine ⟨?_, ?_, ?_, ?_, ?_⟩
  · show (applySlowProjectile _ M clock _).1.ai.vx = _
    rw [c1]; show d.moveX * (g.beamWindupStep M rng).1.ai.speed = _; rw [m5]
  · show (applySlowProjectile _ M clock _).1.ai.vy = _
    rw [c2]; show d.moveY * (g.beamWindupStep M rng).1.ai.speed = _; rw [m5]
  · show max (applySlowProjectile _ M clock _).1.ai.radius
      (min ((applySlowProjectile _ M clock _).1.canvasWidth
          - (applySlowProjectile _ M clock _).1.ai.radius)
        ((applySlowProjectile _ M clock _).1.ai.x + (applySlowProjectile _ M clock _).1.ai.vx))
      = _
    rw [c1, c3, c5, c6]
    show max (g.beamWindupStep M rng).1.ai.radius
      (min ((g.beamWindupStep M rng).1.canvasWidth - (g.beamWindupStep M rng).1.ai.radius)
        ((g.beamWindupStep M rng).1.ai.x + d.moveX * (g.beamWindupStep M rng).1.ai.speed)) = _
    rw [m3, m5, m6, m7]
  · show max (applySlowProjectile _ M clock _).1.ai.radius
      (min ((applySlowProjectile _ M clock _).1.canvasHeight
          - (applySlowProjectile _ M clock _).1.ai.radius)
        ((applySlowProjectile _ M clock _).1.ai.y + (applySlowProjectile _ M clock _).1.ai.vy))
      = _
    rw [c2, c4, c5, c7]
    show max (g.beamWindupStep M rng).1.ai.radius
      (min ((g.beamWindupStep M rng).1.canvasHeight - (g.beamWindupStep M rng).1.ai.radius)
        ((g.beamWindupStep M rng).1.ai.y + d.moveY * (g.beamWindupStep M rng).1.ai.speed)) = _
    rw [m4, m5, m6, m8]
  · intro hfire
    obtain ⟨e1, e2, e3⟩ := c8 (hf.trans hfire)
    exact ⟨e1, e2.trans m3, e3.trans m4⟩
theorem sigmoid_lt_one_real (x : ℝ) : sigmoid realMath x < 1 :=
  (sigmoid_pos_lt_one realMath (fun y => Real.exp_pos y) x).2

/-- The tick that triggers a dash, for any `Math` whose sigmoid maps 0 to 1/2 and 4 into
(0.8, 1): the windup starts at (700, 100) but the tick leaves the velocity of the normal
movement and has already moved the AI by it. -/
theorem dash_trigger_tick (M : JsMath α) (h0 : sigmoid M 0 = 1 / 2) (h4 : 0.8 < sigmoid M 4)
    (h1 : sigmoid M 4 < 1) :
    ∃ r, (dashReadyGame α).updateAI M (Clock.at 1000000) (halfRng α) = some r ∧
      r.1.ai.isDashWindup = true ∧ r.1.ai.dashStartX = 700 ∧ r.1.ai.dashStartY = 100 ∧
      r.1.ai.vx = (sigmoid M 4 - 0.5) * 2 * 1.125 ∧ r.1.ai.vy = 0 ∧
      r.1.ai.x = 700 + (sigmoid M 4 - 0.5) * 2 * 1.125 ∧ r.1.ai.y = 100 := by
  have hwf : (dashReadyGame α).WellFormed :=
    ⟨wellShaped_biasNet 4 0 0 4, rfl, rfl, fun _ h => absurd h (List.not_mem_nil _)⟩
  obtain ⟨r, o0, o1, o2, o3, hr, -, hp, hai, -⟩ := updateAI_wf M hwf (Clock.at 1000000)
    (halfRng α)
  rw [show (dashReadyGame α).nn = biasNet α 4 0 0 4 from rfl,
    predict_biasNet M 4 0 0 4 _ (by rfl), h0] at hp
  simp only [Option.some.injEq, List.cons.injEq, and_true] at hp
  obtain ⟨rfl, rfl, rfl, rfl⟩ := hp
  rw [speedBoostCountdown_off (by rfl)] at hai
  obtain ⟨a1, a2, a3, a4, a5⟩ := act_normal_motion M (dashReadyGame α)
    ((dashReadyGame α).decision (Clock.at (1000000 : α)).updateAI (sigmoid M 4) (1 / 2) (1 / 2)
      (sigmoid M 4)) (Clock.at 1000000) (halfRng α) rfl rfl
  have hfire : (dashReadyGame α).firesDash
      ((dashReadyGame α).decision (Clock.at (1000000 : α)).updateAI (sigmoid M 4) (1 / 2)
        (1 / 2) (sigmoid M 4)) = true := by
    have hu : (dashReadyGame α).isAbilityUnlocked "dash" = true := by
      simp only [Game.isAbilityUnlocked, unlockMap, List.lookup, dashReadyGame, arena, Game.new]
      simp
      norm_num
    have h4' : (4 / 5 : α) < sigmoid M 4 := by norm_num at h4; exact h4
    have hd1 : (dashReadyGame α).ai.isDashing = false := rfl
    have hd2 : (dashReadyGame α).ai.isDashWindup = false := rfl
    have hl : (dashReadyGame α).abilities.dash.lastUsed = 0 := rfl
    have hc : (dashReadyGame α).abilities.dash.cooldown = 6000 := rfl
    simp only [Game.firesDash, hu, hd1, hd2, hl, hc, Game.decision, readyAt, Clock.at,
      Bool.not_false, Bool.and_true, Bool.and_eq_true, decide_eq_true_eq]
    norm_num [h4']
  obtain ⟨e1, e2, e3⟩ := a5 hfire
  have hvx : (dashReadyGame α).ai.x + ((dashReadyGame α).decision
      (Clock.at (1000000 : α)).updateAI (sigmoid M 4) (1 / 2) (1 / 2) (sigmoid M 4)).moveX
        * (dashReadyGame α).ai.speed = 700 + (sigmoid M 4 - 0.5) * 2 * 1.125 := by
    simp only [Game.decision, dashReadyGame, arena, Game.new]
    norm_num
  have hvy : (dashReadyGame α).ai.y + ((dashReadyGame α).decision
      (Clock.at (1000000 : α)).updateAI (sigmoid M 4) (1 / 2) (1 / 2) (sigmoid M 4)).moveY
        * (dashReadyGame α).ai.speed = 100 := by
    simp only [Game.decision, dashReadyGame, arena, Game.new]
    norm_num
  refine ⟨r, hr, ?_, ?_, ?_, ?_, ?_, ?_, ?_⟩
  · rw [hai]; exact e1
  · rw [hai, e2]; simp only [dashReadyGame, arena, Game.new]; norm_num
  · rw [hai, e3]; rfl
  · rw [hai, a1]; simp only [Game.decision, dashReadyGame, arena, Game.new]
  · rw [hai, a2]; simp only [Game.decision, dashReadyGame, arena, Game.new]; norm_num
  · rw [hai, a3, hvx]
    have hr1 : (dashReadyGame α).ai.radius = 15 := rfl
    have hr2 : (dashReadyGame α).canvasWidth = 800 := rfl
    rw [hr1, hr2, min_eq_right (by nlinarith), max_eq_right (by nlinarith)]
  · rw [hai, a4, hvy]
    have hr1 : (dashReadyGame α).ai.radius = 15 := rfl
    have hr2 : (dashReadyGame α).canvasHeight = 600 := rfl
    rw [hr1, hr2, min_eq_right (by norm_num), max_eq_right (by norm_num)]

/-- Claim C19 fails in the code. In the tick that triggers a dash, the normal branch first
sets the velocity from the network outputs, `useDash` then stores the position (700, 100) as
the windup start without touching the velocity, and the position update moves the AI: at the
end of the tick the AI is in dash windup with velocity above 0.675 and its x-coordinate is
above 700.675, not at `dashStartX = 700`. -/
theorem dash_windup_drifts :
    ∃ r, (dashReadyGame ℝ).updateAI realMath (Clock.at 1000000) (halfRng ℝ) = some r ∧
      (dashReadyGame ℝ).ai.isDashWindup = false ∧ r.1.ai.isDashWindup = true ∧
      r.1.ai.dashStartX = 700 ∧ r.1.ai.dashStartY = 100 ∧
      0.675 < r.1.ai.vx ∧ r.1.ai.dashStartX + 0.675 < r.1.ai.x := by
  obtain ⟨r, hr, h1, h2, h3, h4, -, h6, -⟩ := dash_trigger_tick realMath sigmoid_zero_real
    sigmoid_four_real (sigmoid_lt_one_real 4)
  have hs := sigmoid_four_real
  refine ⟨r, hr, rfl, h1, h2, h3, ?_, ?_⟩
  · rw [h4]; nlinarith
  · rw [h2, h6]; nlinarith
/-- A tick in the middle of a beam windup, for any `Math` whose sigmoid maps 0 to 1/2 and 4
below 1: the beam block zeroes the velocity, the normal branch then sets it again from the
network outputs, and the position update moves the AI. -/
theorem beam_windup_tick (M : JsMath α) (h0 : sigmoid M 0 = 1 / 2) (h4 : 0.8 < sigmoid M 4)
    (h1 : sigmoid M 4 < 1) :
    ∃ r, (beamDriftGame α).updateAI M (Clock.at 1000000) (halfRng α) = some r ∧
      r.1.ai.vx = (sigmoid M 4 - 0.5) * 2 * 1.125 ∧ r.1.ai.vy = 0 ∧
      r.1.ai.x = 700 + (sigmoid M 4 - 0.5) * 2 * 1.125 ∧ r.1.ai.y = 100 := by
  have hwf : (beamDriftGame α).WellFormed :=
    ⟨wellShaped_biasNet 4 0 0 0, rfl, rfl, fun _ h => absurd h (List.not_mem_nil _)⟩
  obtain ⟨r, o0, o1, o2, o3, hr, -, hp, hai, -⟩ := updateAI_wf M hwf (Clock.at 1000000)
    (halfRng α)
  rw [show (beamDriftGame α).nn = biasNet α 4 0 0 0 from rfl,
    predict_biasNet M 4 0 0 0 _ (by rfl), h0] at hp
  simp only [Option.some.injEq, List.cons.injEq, and_true] at hp
  obtain ⟨rfl, rfl, rfl, rfl⟩ := hp
  rw [speedBoostCountdown_off (by rfl)] at hai
  obtain ⟨a1, a2, a3, a4, -⟩ := act_normal_motion M (beamDriftGame α)
    ((beamDriftGame α).decision (Clock.at (1000000 : α)).updateAI (sigmoid M 4) (1 / 2) (1 / 2)
      (1 / 2)) (Clock.at 1000000) (halfRng α) rfl rfl
  have hvx : (beamDriftGame α).ai.x + ((beamDriftGame α).decision
      (Clock.at (1000000 : α)).updateAI (sigmoid M 4) (1 / 2) (1 / 2) (1 / 2)).moveX
        * (beamDriftGame α).ai.speed = 700 + (sigmoid M 4 - 0.5) * 2 * 1.125 := by
    simp only [Game.decision, beamDriftGame, beamWindupGame, arena, Game.new]
    norm_num
  have hvy : (beamDriftGame α).ai.y + ((beamDriftGame α).decision
      (Clock.at (1000000 : α)).updateAI (sigmoid M 4) (1 / 2) (1 / 2) (1 / 2)).moveY
        * (beamDriftGame α).ai.speed = 100 := by
    simp only [Game.decision, beamDriftGame, beamWindupGame, arena, Game.new]
    norm_num
  refine ⟨r, hr, ?_, ?_, ?_, ?_⟩
  · rw [hai, a1]; simp only [Game.decision, beamDriftGame, beamWindupGame, arena, Game.new]
  · rw [hai, a2]
    simp only [Game.decision, beamDriftGame, beamWindupGame, arena, Game.new]
    norm_num
  · rw [hai, a3, hvx]
    have hr1 : (beamDriftGame α).ai.radius = 15 := rfl
    have hr2 : (beamDriftGame α).canvasWidth = 800 := rfl
    rw [hr1, hr2, min_eq_right (by nlinarith), max_eq_right (by nlinarith)]
  · rw [hai, a4, hvy]
    have hr1 : (beamDriftGame α).ai.radius = 15 := rfl
    have hr2 : (beamDriftGame α).canvasHeight = 600 := rfl
    rw [hr1, hr2, min_eq_right (by norm_num), max_eq_right (by norm_num)]

/-- Claim C20 fails in the code. A tick that begins with `isBeamWindup` true (112 ms left,
AI at (700, 100), not dashing) zeroes the velocity in the beam block, but the dash chain that
follows runs its normal branch, which sets the velocity from the network outputs, and the
position update moves the AI: at the end of the tick the velocity is above 0.675 and the
x-coordinate is above 700.675. -/
theorem beam_windup_drifts :
    ∃ r, (beamDriftGame ℝ).updateAI realMath (Clock.at 1000000) (halfRng ℝ) = some r ∧
      (beamDriftGame ℝ).ai.isBeamWindup = true ∧ (beamDriftGame ℝ).ai.x = 700 ∧
      0.675 < r.1.ai.vx ∧ (beamDriftGame ℝ).ai.x + 0.675 < r.1.ai.x := by
  obtain ⟨r, hr, h1, -, h3, -⟩ := beam_windup_tick realMath sigmoid_zero_real
    sigmoid_four_real (sigmoid_lt_one_real 4)
  have hs := sigmoid_four_real
  have hx : (beamDriftGame ℝ).ai.x = 700 := by
    simp only [beamDriftGame, beamWindupGame, arena, Game.new]
    norm_num
  refine ⟨r, hr, rfl, hx, ?_, ?_⟩
  · rw [h1]; nlinarith
  · rw [hx, h3]; nlinarith

/-! ## C21: the output-layer update -/

/-- C21. On a well-shaped network with at least one output, for an input of `inputSize`
entries and a target of `outputSize` entries, let `hidden` and `outputs` be the activations of
the forward pass under the weights on entry. After `train`, for `i < outputSize` and
`j < hiddenSize`, `weightsHO[i][j]` is its old value plus `delta` and `prevWeightsHO[i][j]` is
`delta`, where `delta = learningRate * (t[i] - y[i]) * (y[i] * (1 - y[i])) * hidden[j]
+ momentum * (old prevWeightsHO[i][j])`, and `biasO[i]` has grown by
`learningRate * (t[i] - y[i]) * (y[i] * (1 - y[i]))`. -/
theorem train_output_layer_update (M : JsMath α) {nn : NeuralNetwork α} (hnn : nn.WellShaped)
    (ho : 0 < nn.outputSize) {inputArray targetArray : List α}
    (hlen : inputArray.length = nn.inputSize) (htlen : targetArray.length = nn.outputSize)
    (rng : Rng α) :
    ∃ nn' error rng' hidden outputs,
      nn.train M inputArray targetArray rng = some (nn', error, rng') ∧
      nn.forward M (arrayToMatrix inputArray) = some (hidden, outputs) ∧
      ∀ i, i < nn.outputSize →
        entryD nn'.biasO i 0 = entryD nn.biasO i 0
          + nn.learningRate * (targetArray.getD i 0 - entryD outputs i 0)
            * (entryD outputs i 0 * (1 - entryD outputs i 0)) ∧
        ∀ j, j < nn.hiddenSize →
          entryD nn'.weightsHO i j = entryD nn.weightsHO i j
            + (nn.learningRate * (targetArray.getD i 0 - entryD outputs i 0)
                * (entryD outputs i 0 * (1 - entryD outputs i 0)) * entryD hidden j 0
              + nn.momentum * entryD nn.prevWeightsHO i j) ∧
          entryD nn'.prevWeightsHO i j =
            nn.learningRate * (targetArray.getD i 0 - entryD outputs i 0)
                * (entryD outputs i 0 * (1 - entryD outputs i 0)) * entryD hidden j 0
              + nn.momentum * entryD nn.prevWeightsHO i j := by
  have hin : HasShape (arrayToMatrix inputArray) nn.inputSize 1 := by
    rw [← hlen]; exact hasShape_arrayToMatrix _
  refine ⟨_, _, _, _, _, train_eq M hnn ho hlen htlen rng, forward_eq M hnn hin, ?_⟩
  intro i hi
  have h01 : (0 : Nat) < 1 := Nat.zero_lt_one
  have hg : entryD (gradientOf nn.learningRate (nn.outputsOf M (arrayToMatrix inputArray))
      (outputErrorsOf (arrayToMatrix targetArray) (nn.outputsOf M (arrayToMatrix inputArray))
        nn.outputSize) nn.outputSize) i 0
      = nn.learningRate * (targetArray.getD i 0
          - entryD (nn.outputsOf M (arrayToMatrix inputArray)) i 0)
        * (entryD (nn.outputsOf M (arrayToMatrix inputArray)) i 0
          * (1 - entryD (nn.outputsOf M (arrayToMatrix inputArray)) i 0)) := by
    unfold gradientOf outputErrorsOf
    rw [entryD_tabulate _ _ _ hi h01, entryD_tabulate _ _ _ hi h01, entryD_arrayToMatrix]
    unfold sigmoidDerivative
    ring
  constructor
  · show entryD (addOf _ _ _ _) i 0 = _
    unfold addOf
    rw [entryD_tabulate _ _ _ hi h01, hg]
  · intro j hj
    have hm : entryD (momentumOf nn.momentum
        (weightDeltasOf
          (gradientOf nn.learningRate (nn.outputsOf M (arrayToMatrix inputArray))
            (outputErrorsOf (arrayToMatrix targetArray)
              (nn.outputsOf M (arrayToMatrix inputArray)) nn.outputSize) nn.outputSize)
          (nn.hiddenOf M (arrayToMatrix inputArray)) nn.outputSize nn.hiddenSize)
        nn.prevWeightsHO nn.outputSize nn.hiddenSize) i j
        = nn.learningRate * (targetArray.getD i 0
              - entryD (nn.outputsOf M (arrayToMatrix inputArray)) i 0)
            * (entryD (nn.outputsOf M (arrayToMatrix inputArray)) i 0
              * (1 - entryD (nn.outputsOf M (arrayToMatrix inputArray)) i 0))
            * entryD (nn.hiddenOf M (arrayToMatrix inputArray)) j 0
          + nn.momentum * entryD nn.prevWeightsHO i j := by
      unfold momentumOf weightDeltasOf
      rw [entryD_tabulate _ _ _ hi hj, entryD_tabulate _ _ _ hi hj, hg, zero_add]
    constructor
    · show entryD (addOf _ _ _ _) i j = _
      unfold addOf
      rw [entryD_tabulate _ _ _ hi hj, hm]
    · exact hm

/-- Witness of C21: one training call on the network with output biases (0, 0, 4, 4). -/
theorem train_output_layer_update_witness :
    ∃ nn' error rng' hidden outputs,
      (triggerNet ℝ).train realMath [1, 2, 3, 4, 5, 6, 7, 8] [1, 0, 1, 0] (halfRng ℝ)
        = some (nn', error, rng') ∧
      (triggerNet ℝ).forward realMath (arrayToMatrix [1, 2, 3, 4, 5, 6, 7, 8])
        = some (hidden, outputs) ∧
      ∀ i, i < (triggerNet ℝ).outputSize →
        entryD nn'.biasO i 0 = entryD (triggerNet ℝ).biasO i 0
          + (triggerNet ℝ).learningRate
            * (([1, 0, 1, 0] : List ℝ).getD i 0 - entryD outputs i 0)
            * (entryD outputs i 0 * (1 - entryD outputs i 0)) ∧
        ∀ j, j < (triggerNet ℝ).hiddenSize →
          entryD nn'.weightsHO i j = entryD (triggerNet ℝ).weightsHO i j
            + ((triggerNet ℝ).learningRate
                * (([1, 0, 1, 0] : List ℝ).getD i 0 - entryD outputs i 0)
                * (entryD outputs i 0 * (1 - entryD outputs i 0)) * entryD hidden j 0
              + (triggerNet ℝ).momentum * entryD (triggerNet ℝ).prevWeightsHO i j) ∧
          entryD nn'.prevWeightsHO i j =
            (triggerNet ℝ).learningRate
                * (([1, 0, 1, 0] : List ℝ).getD i 0 - entryD outputs i 0)
                * (entryD outputs i 0 * (1 - entryD outputs i 0)) * entryD hidden j 0
              + (triggerNet ℝ).momentum * entryD (triggerNet ℝ).prevWeightsHO i j :=
  @train_output_layer_update ℝ _ realMath (triggerNet ℝ) wellShaped_triggerNet (by decide)
    [1, 2, 3, 4, 5, 6, 7, 8] [1, 0, 1, 0] (by rfl) (by rfl) (halfRng ℝ)

/-! ## The sample that a tick pushes -/

theorem speedBoostCountdown_inputs (g : Game α) (now : α) :
    g.speedBoostCountdown.getNeuralNetworkInputs now = g.getNeuralNetworkInputs now := by
  unfold Game.speedBoostCountdown
  split
  · split <;> rfl
  · rfl

/-- The ability constants (everything but the four `lastUsed`) are never assigned by `act`. -/
theorem act_constants (M : JsMath α) (g : Game α) (d : Decision α) (clock : Clock α)
    (rng : Rng α) :
    (g.act M d clock rng).1.abilities.resetLastUsed = g.abilities.resetLastUsed := by
  have h1 : (g.beamWindupStep M rng).1.abilities = g.abilities := by
    unfold Game.beamWindupStep
    split
    · unfold Game.beamFire Game.beamTrack
      split <;> split <;> first
        | rfl
        | (split <;> rfl)
    · rfl
  have h2 : ∀ (g' : Game α) (rng' : Rng α),
      (g'.dashOrNormalStep M d clock rng').1.abilities.resetLastUsed
        = g'.abilities.resetLastUsed := by
    intro g' rng'
    unfold Game.dashOrNormalStep
    split
    · unfold Game.dashWindupStep; split <;> rfl
    · split
      · unfold Game.dashingStep; split <;> rfl
      · rw [normalStep_eq]
        have hc : ∀ (b1 b2 b3 b4 : Bool) (s : Game α × Rng α),
            (applySlowProjectile b4 M clock (applySpeedBoost b3 clock (applyDash b2 M d clock
              (applyProjectile b1 M clock s)))).1.abilities.resetLastUsed
              = s.1.abilities.resetLastUsed := by
          intro b1 b2 b3 b4 s
          cases b4
          · cases b1 <;> cases b2 <;> cases b3 <;> rfl
          · simp only [applySlowProjectile, if_true, Game.useSlowProjectile]
            cases b1 <;> cases b2 <;> cases b3 <;> split <;> rfl
        exact hc _ _ _ _ _
  unfold Game.act
  show ((g.beamWindupStep M rng).1.dashOrNormalStep M d clock
    (g.beamWindupStep M rng).2).1.abilities.resetLastUsed = _
  rw [h2, h1]

theorem heuristicTargets_congr (M : JsMath α) {g g' : Game α} (hp : g'.player = g.player)
    (ha : g'.ai = g.ai) (hr : g'.abilities.projectile.range = g.abilities.projectile.range) :
    g'.heuristicTargets M = g.heuristicTargets M := by
  unfold Game.heuristicTargets Game.distToPlayer
  rw [hp, ha, hr]

/-- The sample that `updateAI` pushes: the inputs are those of the state on entry, the targets
are the heuristic label of the state that the tick leaves. -/
theorem updateAI_pushed_sample (M : JsMath α) {g : Game α} {clock : Clock α} {rng : Rng α}
    {r : Game α × Rng α} (hmax : 0 < g.maxTrainingData) (h : g.updateAI M clock rng = some r) :
    r.1.trainingData.getLast? = some (Sample.mk
      (g.getNeuralNetworkInputs clock.getNeuralNetworkInputs) (r.1.heuristicTargets M)) ∧
    r.1.player = g.player ∧
    r.1.abilities.resetLastUsed = g.abilities.resetLastUsed := by
  obtain ⟨outputs, o0, o1, o2, o3, -, -, -, -, -, hr⟩ := updateAI_some M h
  have hw := (sameWorld_speedBoostCountdown g).thenWorld
    (sameWorld_act M g.speedBoostCountdown (g.decision clock.updateAI o0 o1 o2 o3) clock rng)
  have hb := sameBody_trainPeriodically M hr
  have hs := sameWorld_trainPeriodically M hr
  have hc := act_constants M g.speedBoostCountdown (g.decision clock.updateAI o0 o1 o2 o3)
    clock rng
  rw [(learning_speedBoostCountdown g).2.2.2.1] at hc
  have hab : r.1.abilities = (g.speedBoostCountdown.act M
      (g.decision clock.updateAI o0 o1 o2 o3) clock rng).1.abilities := hb.abilities
  have hai : r.1.ai = (g.speedBoostCountdown.act M
      (g.decision clock.updateAI o0 o1 o2 o3) clock rng).1.ai := hb.ai
  have hpl : r.1.player = (g.speedBoostCountdown.act M
      (g.decision clock.updateAI o0 o1 o2 o3) clock rng).1.player := hs.player
  refine ⟨?_, hpl.trans hw.player, by rw [hab]; exact hc⟩
  rw [trainPeriodically_trainingData M hr,
    heuristicTargets_congr M hpl hai (by rw [hab]), speedBoostCountdown_inputs]
  have hcap : 0 < (g.speedBoostCountdown.act M (g.decision clock.updateAI o0 o1 o2 o3) clock
      rng).1.maxTrainingData := by rw [hw.maxTrainingData]; exact hmax
  exact getLast_pushSample _ _ hcap

/-! ## C22: the heuristic label against its reference definition -/

theorem hypot_unique {M : JsMath α} (hM : M.HypotIsNorm) {x y d : α} (hd : 0 ≤ d)
    (h : d ^ 2 = x ^ 2 + y ^ 2) : M.hypot x y = d := by
  obtain ⟨h0, h2⟩ := hM x y
  exact (pow_left_inj₀ h0 hd (by norm_num)).mp (h2.trans h.symm)

theorem heuristicTargets_eq_reference (M : JsMath α) (hM : M.HypotIsNorm) (g : Game α)
    (hrange : g.abilities.projectile.range = 300) (d : α) (hd : 0 ≤ d)
    (h : d ^ 2 = (g.player.x - g.ai.x) ^ 2 + (g.player.y - g.ai.y) ^ 2) :
    g.heuristicTargets M
      = referenceTargets g.player.x g.player.y g.player.vx g.player.vy g.ai.x g.ai.y d := by
  have hc : ∀ v : α, min 1 (max (-1) v) = clamp (-1) 1 v := by
    intro v
    unfold clamp
    rcases le_total v (-1) with h1 | h1
    · rw [max_eq_left h1, min_eq_right (show (-1 : α) ≤ 1 by norm_num),
        min_eq_right (show v ≤ 1 by linarith), max_eq_left h1]
    · rw [max_eq_right h1]
      rcases le_total v 1 with h2 | h2
      · rw [min_eq_right h2, max_eq_right h1]
      · rw [min_eq_left h2, max_eq_right (show (-1 : α) ≤ 1 by norm_num)]
  unfold Game.heuristicTargets referenceTargets Game.distToPlayer
  rw [hypot_unique hM hd h, hrange, hc, hc, mul_comm g.player.vx 15, mul_comm g.player.vy 15]
  have e1 : (d < 300 ∧ d > 50) = (50 < d ∧ d < 300) := propext ⟨fun p => ⟨p.2, p.1⟩,
    fun p => ⟨p.2, p.1⟩⟩
  have e2 : (d > 150 ∧ d < 250) = (150 < d ∧ d < 250) := rfl
  simp only [e1, e2]

/-- C22. With `Math.hypot` the Euclidean norm and the projectile range 300, the targets of the
sample that `updateAI` pushes equal the reference definition
`[(clamp(-1,1,(px+15*pvx-ax)/100)+1)/2, (clamp(-1,1,(py+15*pvy-ay)/100)+1)/2, L_proj, L_dash]`
for the player state of the tick, the AI position `(ax, ay)` that the tick leaves and the
Euclidean distance `d` between the player and that position, with `L_proj = 0.9` iff
`50 < d < 300` and `L_dash = 0.9` iff `150 < d < 250`. -/
theorem heuristic_targets_reference (M : JsMath α) (hM : M.HypotIsNorm) {g : Game α}
    {clock : Clock α} {rng : Rng α} {r : Game α × Rng α} (hmax : 0 < g.maxTrainingData)
    (hrange : g.abilities.projectile.range = 300) (h : g.updateAI M clock rng = some r)
    (d : α) (hd : 0 ≤ d)
    (hdist : d ^ 2 = (g.player.x - r.1.ai.x) ^ 2 + (g.player.y - r.1.ai.y) ^ 2) :
    ∃ s, r.1.trainingData.getLast? = some s ∧
      s.targets = referenceTargets g.player.x g.player.y g.player.vx g.player.vy
        r.1.ai.x r.1.ai.y d := by
  obtain ⟨h1, h2, h3⟩ := updateAI_pushed_sample M hmax h
  refine ⟨_, h1, ?_⟩
  have hr : r.1.abilities.projectile.range = 300 := by
    have := congrArg (fun a : Abilities α => a.projectile.range) h3
    exact this.trans hrange
  show r.1.heuristicTargets M = _
  rw [heuristicTargets_eq_reference M hM r.1 hr d hd (by rw [h2]; exact hdist), h2]
theorem predict_zeroNet (M : JsMath α) (inputArray : List α) (hlen : inputArray.length = 8) :
    (zeroNet α).predict M inputArray =
      some [sigmoid M 0, sigmoid M 0, sigmoid M 0, sigmoid M 0] := by
  rw [predict_eq M wellShaped_zeroNet hlen]
  simp only [zeroNet_eq, NeuralNetwork.outputsOf, NeuralNetwork.hiddenOf,
    entryD_tabulate_ite, dotD, List.range_succ, List.range_zero]
  simp

/-- A tick of the game in a beam windup whose network outputs are all 1/2: the AI stays at
(700, 100). -/
theorem beamWindupGame_tick (M : JsMath α) (h0 : sigmoid M 0 = 1 / 2) (t : α) :
    ∃ r, (beamWindupGame α t).updateAI M (Clock.at 1000000) (halfRng α) = some r ∧
      r.1.ai.vx = 0 ∧ r.1.ai.vy = 0 ∧ r.1.ai.x = 700 ∧ r.1.ai.y = 100 := by
  obtain ⟨r, o0, o1, o2, o3, hr, -, hp, hai, -⟩ := updateAI_wf M
    (wellFormed_beamWindupGame t) (Clock.at 1000000) (halfRng α)
  rw [show (beamWindupGame α t).nn = zeroNet α from rfl, predict_zeroNet M _ (by rfl), h0] at hp
  simp only [Option.some.injEq, List.cons.injEq, and_true] at hp
  obtain ⟨rfl, rfl, rfl, rfl⟩ := hp
  rw [speedBoostCountdown_off (by rfl)] at hai
  obtain ⟨a1, a2, a3, a4, -⟩ := act_normal_motion M (beamWindupGame α t)
    ((beamWindupGame α t).decision (Clock.at (1000000 : α)).updateAI (1 / 2) (1 / 2) (1 / 2)
      (1 / 2)) (Clock.at 1000000) (halfRng α) rfl rfl
  have hmx : ((beamWindupGame α t).decision (Clock.at (1000000 : α)).updateAI (1 / 2) (1 / 2)
      (1 / 2) (1 / 2)).moveX = 0 := by
    simp only [Game.decision]; norm_num
  have hmy : ((beamWindupGame α t).decision (Clock.at (1000000 : α)).updateAI (1 / 2) (1 / 2)
      (1 / 2) (1 / 2)).moveY = 0 := by
    simp only [Game.decision]; norm_num
  rw [hmx, zero_mul] at a1 a3
  rw [hmy, zero_mul] at a2 a4
  have hr1 : (beamWindupGame α t).ai.radius = 15 := rfl
  have hr2 : (beamWindupGame α t).canvasWidth = 800 := rfl
  have hr3 : (beamWindupGame α t).canvasHeight = 600 := rfl
  have hx : (beamWindupGame α t).ai.x = 700 := by
    simp only [beamWindupGame, arena, Game.new]; norm_num
  have hy : (beamWindupGame α t).ai.y = 100 := rfl
  refine ⟨r, hr, by rw [hai, a1], by rw [hai, a2], ?_, ?_⟩
  · rw [hai, a3, hr1, hr2, hx, add_zero, min_eq_right (by norm_num),
      max_eq_right (by norm_num)]
  · rw [hai, a4, hr1, hr3, hy, add_zero, min_eq_right (by norm_num),
      max_eq_right (by norm_num)]

/-- Witness of C22: the player stands at (550, 100), exactly 150 from the AI at (700, 100):
the targets are (0, 0.5, 0.9, 0.1), the dash label being 0.1 because `150 < d` is strict. -/
theorem heuristic_targets_reference_witness :
    ∃ r s, (beamWindupGame ℝ 112).updateAI realMath (Clock.at 1000000) (halfRng ℝ) = some r ∧
      r.1.trainingData.getLast? = some s ∧
      s.targets = referenceTargets 550 100 0 0 700 100 150 ∧
      s.targets = [0, 0.5, 0.9, 0.1] := by
  obtain ⟨r, hr, -, -, hx, hy⟩ := beamWindupGame_tick realMath sigmoid_zero_real (112 : ℝ)
  obtain ⟨s, h1, h2⟩ := heuristic_targets_reference realMath hypotIsNorm_realMath
    (by decide) rfl hr 150 (by norm_num)
    (by rw [hx, hy]; simp only [beamWindupGame, Player.standingAt]; norm_num)
  rw [hx, hy] at h2
  have h3 : s.targets = referenceTargets 550 100 0 0 700 100 150 := h2
  refine ⟨r, s, hr, h1, h3, ?_⟩
  rw [h3]
  simp only [referenceTargets, clamp]
  norm_num

/-! ## C23: which samples are trained -/

theorem trainSamples_eq_sequence (M : JsMath α) (trainingData : List (Sample α))
    (idx : List Nat) (hidx : ∀ i ∈ idx, i < trainingData.length) :
    ∀ (nn : NeuralNetwork α) (rng : Rng α),
      trainSamples M trainingData idx nn rng
        = trainSequence M (idx.filterMap fun i => trainingData.reverse[i]?) nn rng := by
  induction idx with
  | nil => intro nn rng; rfl
  | cons i rest ih =>
    intro nn rng
    have hi : i < trainingData.length := hidx i (List.mem_cons_self _ _)
    have hrest : ∀ j ∈ rest, j < trainingData.length :=
      fun j hj => hidx j (List.mem_cons_of_mem _ hj)
    have hrev : trainingData.reverse[i]? = trainingData[trainingData.length - 1 - i]? :=
      List.getElem?_reverse hi
    have hget : trainingData[trainingData.length - 1 - i]?
        = some (trainingData[trainingData.length - 1 - i]) :=
      List.getElem?_eq_getElem (by omega)
    simp only [trainSamples, List.filterMap_cons, hrev, hget, Option.some_bind, trainSequence]
    congr 1
    funext r
    rw [ih hrest]

theorem filterMap_range_getElem {β : Type} (l : List β) (n : Nat) (hn : n ≤ l.length) :
    (List.range n).filterMap (fun i => l[i]?) = l.take n := by
  induction n with
  | zero => simp
  | succ k ih =>
    have hk : k < l.length := hn
    rw [List.range_succ, List.filterMap_append, ih (le_of_lt hk)]
    simp only [List.filterMap_cons, List.filterMap_nil, List.getElem?_eq_getElem hk]
    rw [List.take_succ, List.getElem?_eq_getElem hk]
    rfl

theorem trainPeriodically_batch (M : JsMath α) {g : Game α} {rng : Rng α}
    {r : Game α × Rng α} (h : g.trainPeriodically M rng = some r) :
    (g.trainingData.length ≤ 15 → r = (g, rng)) ∧
    (15 < g.trainingData.length ∧ ¬ rng 0 < 0.08 → r = (g, rng.skip 1)) ∧
    (15 < g.trainingData.length ∧ rng 0 < 0.08 →
      ∃ nn' errors rng',
        trainSequence M (g.trainingData.reverse.take 8) g.nn (rng.skip 1)
          = some (nn', errors, rng') ∧
        r.1.nn = nn' ∧ r.2 = rng' ∧ errors.length = 8 ∧
        (g.trainingData.reverse.take 8).length = 8) := by
  unfold Game.trainPeriodically at h
  by_cases h1 : 15 < g.trainingData.length
  · have hmin : min 8 g.trainingData.length = 8 := min_eq_left (by omega)
    by_cases h2 : rng 0 < 0.08
    · rw [if_pos h1, if_pos h2, Option.map_eq_some'] at h
      obtain ⟨⟨nn', errors, rng'⟩, ht, rfl⟩ := h
      have hl := trainSamples_length M _ _ _ _ _ ht
      rw [List.length_range, hmin] at hl
      rw [hmin, trainSamples_eq_sequence M _ _ (by
          intro i hi
          have := List.mem_range.mp hi
          omega),
        filterMap_range_getElem _ _ (by rw [List.length_reverse]; omega)] at ht
      refine ⟨fun hc => absurd h1 (by omega), fun hc => absurd h2 hc.2,
        fun _ => ⟨nn', errors, rng', ht, rfl, rfl, hl, ?_⟩⟩
      rw [List.length_take, List.length_reverse]
      exact min_eq_left (by omega)
    · rw [if_pos h1, if_neg h2] at h
      cases h
      exact ⟨fun hc => absurd h1 (by omega), fun _ => rfl, fun hc => absurd hc.2 h2⟩
  · rw [if_neg h1] at h
    cases h
    exact ⟨fun _ => rfl, fun hc => absurd hc.1 h1, fun hc => absurd hc.1 h1⟩
theorem updateAI_trainingData (M : JsMath α) {g : Game α} {clock : Clock α} {rng : Rng α}
    {r : Game α × Rng α} (h : g.updateAI M clock rng = some r) :
    ∃ sample, r.1.trainingData = pushSample g.trainingData g.maxTrainingData sample := by
  obtain ⟨outputs, o0, o1, o2, o3, -, -, -, -, -, hr⟩ := updateAI_some M h
  obtain ⟨-, ht, -, -, hm⟩ := learning_speedBoostCountdown g
  obtain ⟨-, at', -⟩ := learning_act M g.speedBoostCountdown
    (g.decision clock.updateAI o0 o1 o2 o3) clock rng
  have am := (sameWorld_act M g.speedBoostCountdown (g.decision clock.updateAI o0 o1 o2 o3)
    clock rng).maxTrainingData
  refine ⟨Sample.mk (g.speedBoostCountdown.getNeuralNetworkInputs clock.getNeuralNetworkInputs)
      ((g.speedBoostCountdown.act M (g.decision clock.updateAI o0 o1 o2 o3) clock
        rng).1.heuristicTargets M), ?_⟩
  rw [trainPeriodically_trainingData M hr]
  show pushSample _ _ _ = _
  rw [at', ht, am, hm]

/-- C23. When `updateAI` returns, let `L` be the length of `trainingData` after the push and
eviction of this tick and `rngT` the random stream at the training test. If `L <= 15` no
`train` call is made (the network and the stream are left as they are); if `L > 15` and the
draw is not below 0.08 no `train` call is made either (one draw is consumed); if `L > 15` and
the draw is below 0.08, `train` is called exactly 8 times, sequentially, on the samples at
indices `L-1, L-2, ..., L-8` in this order, each call on the network left by the previous
one. -/
theorem training_batch (M : JsMath α) {g : Game α} {clock : Clock α} {rng : Rng α}
    {r : Game α × Rng α} (h : g.updateAI M clock rng = some r) :
    ∃ rngT : Rng α, rngT.LeftOf rng ∧
      (r.1.trainingData.length ≤ 15 → r.1.nn = g.nn ∧ r.2 = rngT) ∧
      (15 < r.1.trainingData.length ∧ ¬ rngT 0 < 0.08 →
        r.1.nn = g.nn ∧ r.2 = rngT.skip 1) ∧
      (15 < r.1.trainingData.length ∧ rngT 0 < 0.08 →
        ∃ nn' errors rng',
          trainSequence M (r.1.trainingData.reverse.take 8) g.nn (rngT.skip 1)
            = some (nn', errors, rng') ∧
          r.1.nn = nn' ∧ r.2 = rng' ∧ errors.length = 8 ∧
          (r.1.trainingData.reverse.take 8).length = 8 ∧
          ∀ k, k < 8 → (r.1.trainingData.reverse.take 8)[k]?
            = r.1.trainingData[r.1.trainingData.length - 1 - k]?) := by
  obtain ⟨outputs, o0, o1, o2, o3, -, -, -, -, -, hr⟩ := updateAI_some M h
  obtain ⟨hn, -, -, -, -⟩ := learning_speedBoostCountdown g
  obtain ⟨an, -, -⟩ := learning_act M g.speedBoostCountdown
    (g.decision clock.updateAI o0 o1 o2 o3) clock rng
  have hnn : ((g.speedBoostCountdown.act M (g.decision clock.updateAI o0 o1 o2 o3) clock
      rng).1.collectTrainingData M
        (g.speedBoostCountdown.getNeuralNetworkInputs clock.getNeuralNetworkInputs)).nn
      = g.nn := an.trans hn
  have htd := trainPeriodically_trainingData M hr
  obtain ⟨p1, p2, p3⟩ := trainPeriodically_batch M hr
  rw [← htd] at p1 p2 p3
  refine ⟨(g.speedBoostCountdown.act M (g.decision clock.updateAI o0 o1 o2 o3) clock rng).2,
    leftOf_act M _ _ clock rng, ?_, ?_, ?_⟩
  · intro hc
    rw [p1 hc]
    exact ⟨hnn, rfl⟩
  · intro hc
    rw [p2 hc]
    exact ⟨hnn, rfl⟩
  · intro hc
    obtain ⟨nn', errors, rng', e1, e2, e3, e4, e5⟩ := p3 hc
    rw [hnn] at e1
    refine ⟨nn', errors, rng', e1, e2, e3, e4, e5, ?_⟩
    intro k hk
    rw [List.getElem?_take_of_lt hk, List.getElem?_reverse (by omega)]

/-- Witness of C23: a tick of the game whose buffer holds 16 samples, every random draw being
0.05: the buffer then holds 17 samples and `train` runs on the 8 most recent ones. -/
theorem training_batch_witness :
    ∃ r, (trainingGame ℝ).updateAI realMath (Clock.at 1000000) (lowRng ℝ) = some r ∧
      r.1.trainingData.length = 17 ∧
      ∃ nn' errors rng' rngT,
        trainSequence realMath (r.1.trainingData.reverse.take 8) (trainingGame ℝ).nn rngT
          = some (nn', errors, rng') ∧
        r.1.nn = nn' ∧ errors.length = 8 ∧ (r.1.trainingData.reverse.take 8).length = 8 := by
  obtain ⟨r, -, -, -, -, hr, -⟩ := updateAI_wf realMath (@wellFormed_trainingGame ℝ _)
    (Clock.at 1000000) (lowRng ℝ)
  obtain ⟨sample, h1⟩ := updateAI_trainingData realMath hr
  have hlen : r.1.trainingData.length = 17 := by
    rw [h1]
    simp [pushSample, trainingGame, arena, Game.new]
  obtain ⟨rngT, ⟨n, h2⟩, -, -, h3⟩ := training_batch realMath hr
  have hdraw : rngT 0 < 0.08 := by
    rw [h2]
    show (0.05 : ℝ) < 0.08
    norm_num
  obtain ⟨nn', errors, rng', e1, e2, -, e4, e5, -⟩ := h3 ⟨by rw [hlen]; norm_num, hdraw⟩
  exact ⟨r, hr, hlen, nn', errors, rng', _, e1, e2, e4, e5⟩

/-! ## C24: which snapshot a sample holds -/

/-- C24, amended. The sample that `updateAI` pushes pairs the inputs of the state on entry
with the label of the state that the tick leaves: entries 4 and 5 of `inputs` are
`ai.x / width` and `ai.y / height` for the AI position before the tick moves it, while the
targets are computed from the AI position after the position update (and the player state of
the tick). The two positions are the same exactly when the tick did not move the AI. -/
theorem sample_inputs_before_label_after (M : JsMath α) {g : Game α} {clock : Clock α}
    {rng : Rng α} {r : Game α × Rng α} (hmax : 0 < g.maxTrainingData)
    (h : g.updateAI M clock rng = some r) :
    ∃ s, r.1.trainingData.getLast? = some s ∧
      s.inputs[4]? = some (g.ai.x / g.canvasWidth) ∧
      s.inputs[5]? = some (g.ai.y / g.canvasHeight) ∧
      s.targets = Game.heuristicTargets M { g with ai := r.1.ai } ∧
      (r.1.ai.x = g.ai.x ∧ r.1.ai.y = g.ai.y → s.targets = g.heuristicTargets M) := by
  obtain ⟨h1, h2, h3⟩ := updateAI_pushed_sample M hmax h
  have hr : r.1.abilities.projectile.range = g.abilities.projectile.range := by
    have := congrArg (fun a : Abilities α => a.projectile.range) h3
    exact this
  have ht : r.1.heuristicTargets M = Game.heuristicTargets M { g with ai := r.1.ai } :=
    (@heuristicTargets_congr α _ M r.1 { g with ai := r.1.ai } h2.symm rfl
      hr.symm).symm
  refine ⟨_, h1, rfl, rfl, ht, ?_⟩
  intro hxy
  show r.1.heuristicTargets M = _
  unfold Game.heuristicTargets Game.distToPlayer
  rw [h2, hr, hxy.1, hxy.2]

/-- Witness of C24: a tick in which the AI stays at (700, 100). -/
theorem sample_inputs_before_label_after_witness :
    ∃ r s, (beamWindupGame ℝ 112).updateAI realMath (Clock.at 1000000) (halfRng ℝ) = some r ∧
      r.1.trainingData.getLast? = some s ∧
      s.inputs[4]? = some ((beamWindupGame ℝ 112).ai.x / (beamWindupGame ℝ 112).canvasWidth) ∧
      s.inputs[5]? = some ((beamWindupGame ℝ 112).ai.y / (beamWindupGame ℝ 112).canvasHeight) ∧
      s.targets = (beamWindupGame ℝ 112).heuristicTargets realMath := by
  obtain ⟨r, hr, -, -, hx, hy⟩ := beamWindupGame_tick realMath sigmoid_zero_real (112 : ℝ)
  obtain ⟨s, h1, h2, h3, -, h5⟩ := sample_inputs_before_label_after realMath (by decide) hr
  refine ⟨r, s, hr, h1, h2, h3, h5 ⟨?_, ?_⟩⟩
  · rw [hx]; simp only [beamWindupGame, arena, Game.new]; norm_num
  · rw [hy]; rfl

/-- Counterexample to C24 as stated: in a tick that moves the AI from (700, 100) to about
(701.08, 100) while the player stands at (550, 100), the pushed inputs encode x = 700 (entry 4
is 700 / 800), where the distance to the player is exactly 150 and the dash label would be
0.1, but the pushed dash label is 0.9, computed from the position after the move. -/
theorem sample_snapshot_counterexample :
    ∃ r s, (beamDriftGame ℝ).updateAI realMath (Clock.at 1000000) (halfRng ℝ) = some r ∧
      r.1.trainingData.getLast? = some s ∧
      s.inputs[4]? = some (700 / 800) ∧ s.inputs[5]? = some (100 / 600) ∧
      s.targets[3]? = some (0.9 : ℝ) ∧
      ((beamDriftGame ℝ).heuristicTargets realMath)[3]? = some (0.1 : ℝ) := by
  obtain ⟨r, hr, -, -, hx, hy⟩ := beam_windup_tick realMath sigmoid_zero_real
    sigmoid_four_real (sigmoid_lt_one_real 4)
  obtain ⟨h1, h2, h3⟩ := updateAI_pushed_sample realMath (by decide) hr
  have hs := sigmoid_four_real
  have hl := sigmoid_lt_one_real 4
  have hd : realMath.hypot (550 - r.1.ai.x) (100 - r.1.ai.y) = r.1.ai.x - 550 := by
    apply hypot_unique hypotIsNorm_realMath
    · rw [hx]; nlinarith
    · rw [hy]; ring
  have hd0 : realMath.hypot (550 - 700) (100 - 100) = (150 : ℝ) :=
    hypot_unique hypotIsNorm_realMath (by norm_num) (by norm_num)
  refine ⟨r, _, hr, h1, ?_, ?_, ?_, ?_⟩
  · show some ((beamDriftGame ℝ).ai.x / (beamDriftGame ℝ).canvasWidth) = _
    simp only [beamDriftGame, beamWindupGame, arena, Game.new]
    norm_num
  · rfl
  · show some (if r.1.distToPlayer realMath > 150 ∧ r.1.distToPlayer realMath < 250
      then (0.9 : ℝ) else 0.1) = some 0.9
    have hdist : r.1.distToPlayer realMath = r.1.ai.x - 550 := by
      unfold Game.distToPlayer
      rw [h2]
      exact hd
    rw [hdist, hx, if_pos ⟨by nlinarith, by nlinarith⟩]
  · show some (if (beamDriftGame ℝ).distToPlayer realMath > 150
      ∧ (beamDriftGame ℝ).distToPlayer realMath < 250 then (0.9 : ℝ) else 0.1) = some 0.1
    have hdist : (beamDriftGame ℝ).distToPlayer realMath = 150 := by
      unfold Game.distToPlayer
      have e1 : (beamDriftGame ℝ).player.x - (beamDriftGame ℝ).ai.x = 550 - 700 := by
        simp only [beamDriftGame, beamWindupGame, arena, Game.new, Player.standingAt]
        norm_num
      have e2 : (beamDriftGame ℝ).player.y - (beamDriftGame ℝ).ai.y = 100 - 100 := rfl
      rw [e1, e2]
      exact hd0
    rw [hdist, if_neg (by norm_num)]

/-! ## C25: normalisation of directions -/

theorem hypot_zero {M : JsMath α} (hM : M.HypotIsNorm) : M.hypot 0 0 = 0 :=
  hypot_axis hM (le_refl 0)

/-- The fallback of `useDash` divides by the distance to the player: when the candidate move
vector is (0, 0) and the player is at the AI position, the divisor `dist` is 0 and the
direction stored is not a unit vector. -/
theorem useDash_zero_distance (M : JsMath α) (hM : M.HypotIsNorm) (g : Game α) (now : α)
    (hx : g.player.x = g.ai.x) (hy : g.player.y = g.ai.y) :
    ¬ M.hypot 0 0 > 0 ∧
    M.hypot (g.player.x - g.ai.x) (g.player.y - g.ai.y) = 0 ∧
    (g.useDash M 0 0 now).ai.dashDirection
      = { x := (g.player.x - g.ai.x) / 0, y := (g.player.y - g.ai.y) / 0 } ∧
    (g.useDash M 0 0 now).ai.dashDirection.x ^ 2
      + (g.useDash M 0 0 now).ai.dashDirection.y ^ 2 ≠ 1 := by
  have h0 := hypot_zero hM
  have hd : M.hypot (g.player.x - g.ai.x) (g.player.y - g.ai.y) = 0 := by
    rw [hx, hy, sub_self, sub_self]; exact h0
  have hdir : (g.useDash M 0 0 now).ai.dashDirection
      = { x := (g.player.x - g.ai.x) / 0, y := (g.player.y - g.ai.y) / 0 } := by
    show g.dashDirectionFor M 0 0 = _
    unfold Game.dashDirectionFor
    rw [if_neg (by rw [h0]; exact lt_irrefl 0), hd]
  refine ⟨by rw [h0]; exact lt_irrefl 0, hd, hdir, ?_⟩
  rw [hdir]
  simp

/-- Claim C25 fails in the code. With the player on the AI at (700, 100), `useDash(0, 0)`
fails the test `length > 0` and takes the fallback, whose divisor
`dist = Math.hypot(0, 0)` is 0: the stored direction is `(0 / 0, 0 / 0)`, not a vector of
length 1. The `Projectile` constructor divides by `Math.hypot(targetX - x, targetY - y)` with
no test at all, and this divisor is 0 when the target equals the origin. -/
theorem direction_normalisation_divides_by_zero :
    (coincideGame ℝ).player.x = (coincideGame ℝ).ai.x ∧
    (coincideGame ℝ).player.y = (coincideGame ℝ).ai.y ∧
    ¬ realMath.hypot 0 0 > 0 ∧
    realMath.hypot ((coincideGame ℝ).player.x - (coincideGame ℝ).ai.x)
      ((coincideGame ℝ).player.y - (coincideGame ℝ).ai.y) = 0 ∧
    ((coincideGame ℝ).useDash realMath 0 0 1000000).ai.dashDirection.x ^ 2
      + ((coincideGame ℝ).useDash realMath 0 0 1000000).ai.dashDirection.y ^ 2 ≠ 1 ∧
    (Projectile.new realMath 700 100 700 100).vx
      = (700 - 700) / realMath.hypot (700 - 700) (100 - 100) * 8 ∧
    realMath.hypot (700 - 700) (100 - 100) = 0 := by
  have hx : (coincideGame ℝ).player.x = (coincideGame ℝ).ai.x := by
    simp only [coincideGame, arena, Game.new, Player.standingAt]; norm_num
  have hy : (coincideGame ℝ).player.y = (coincideGame ℝ).ai.y := rfl
  obtain ⟨h1, h2, -, h4⟩ := useDash_zero_distance realMath hypotIsNorm_realMath
    (coincideGame ℝ) 1000000 hx hy
  refine ⟨hx, hy, h1, h2, h4, rfl, ?_⟩
  rw [sub_self, sub_self]
  exact hypot_zero hypotIsNorm_realMath

/-! ## C26: the gates of the projectile and dash triggers -/

/-- Triggers that do not fire leave what their operation would write. -/
theorem applyChain_unfired (M : JsMath α) (d : Decision α) (clock : Clock α)
    (s : Game α × Rng α) (b1 b2 b3 b4 : Bool) :
    (b1 = false →
      (applySlowProjectile b4 M clock (applySpeedBoost b3 clock (applyDash b2 M d clock
        (applyProjectile b1 M clock s)))).1.projectiles = s.1.projectiles ∧
      (applySlowProjectile b4 M clock (applySpeedBoost b3 clock (applyDash b2 M d clock
        (applyProjectile b1 M clock s)))).1.abilities.projectile = s.1.abilities.projectile) ∧
    (b2 = false →
      (applySlowProjectile b4 M clock (applySpeedBoost b3 clock (applyDash b2 M d clock
        (applyProjectile b1 M clock s)))).1.abilities.dash = s.1.abilities.dash ∧
      (applySlowProjectile b4 M clock (applySpeedBoost b3 clock (applyDash b2 M d clock
        (applyProjectile b1 M clock s)))).1.ai.isDashWindup = s.1.ai.isDashWindup) := by
  cases b4
  · cases b1 <;> cases b2 <;> cases b3 <;>
      exact ⟨(fun h => by first | exact Bool.noConfusion h | exact ⟨rfl, rfl⟩),
        (fun h => by first | exact Bool.noConfusion h | exact ⟨rfl, rfl⟩)⟩
  · simp only [applySlowProjectile, if_true, Game.useSlowProjectile]
    cases b1 <;> cases b2 <;> cases b3 <;> split <;>
      exact ⟨(fun h => by first | exact Bool.noConfusion h | exact ⟨rfl, rfl⟩),
        (fun h => by first | exact Bool.noConfusion h | exact ⟨rfl, rfl⟩)⟩

theorem beamWindupStep_registry (M : JsMath α) (g : Game α) (rng : Rng α) :
    (g.beamWindupStep M rng).1.abilities = g.abilities ∧
    (g.beamWindupStep M rng).1.projectiles = g.projectiles := by
  unfold Game.beamWindupStep
  split
  · unfold Game.beamFire Game.beamTrack
    split <;> split <;> first
      | exact ⟨rfl, rfl⟩
      | (split <;> exact ⟨rfl, rfl⟩)
  · exact ⟨rfl, rfl⟩

/-- What `act` changes only through `useProjectile` and `useDash`, and when. -/
theorem act_gating (M : JsMath α) (g : Game α) (d : Decision α) (clock : Clock α)
    (rng : Rng α) :
    ((g.act M d clock rng).1.projectiles ≠ g.projectiles
        ∨ (g.act M d clock rng).1.abilities.projectile ≠ g.abilities.projectile →
      d.useProjectile = true ∧ d.projectileReady = true) ∧
    ((g.act M d clock rng).1.abilities.dash ≠ g.abilities.dash
        ∨ ((g.act M d clock rng).1.ai.isDashWindup = true ∧ g.ai.isDashWindup = false) →
      d.useDash = true ∧ d.dashReady = true ∧ g.isAbilityUnlocked "dash" = true) := by
  obtain ⟨m1, m2, -, -, -, -, -, -, m9, m10⟩ := beamWindupStep_motion M g rng
  obtain ⟨r1, r2⟩ := beamWindupStep_registry M g rng
  have hact : (g.act M d clock rng).1
      = ((g.beamWindupStep M rng).1.dashOrNormalStep M d clock
          (g.beamWindupStep M rng).2).1.moveAi := rfl
  have key : ∀ G : Game α, G.abilities = g.abilities → G.projectiles = g.projectiles →
      G.ai.isDashWindup = g.ai.isDashWindup → G.score = g.score →
      G.timerMaxDuration = g.timerMaxDuration → ∀ rng' : Rng α,
      (((G.dashOrNormalStep M d clock rng').1.projectiles ≠ g.projectiles
          ∨ (G.dashOrNormalStep M d clock rng').1.abilities.projectile ≠ g.abilities.projectile →
        d.useProjectile = true ∧ d.projectileReady = true) ∧
      ((G.dashOrNormalStep M d clock rng').1.abilities.dash ≠ g.abilities.dash
          ∨ ((G.dashOrNormalStep M d clock rng').1.ai.isDashWindup = true
            ∧ g.ai.isDashWindup = false) →
        d.useDash = true ∧ d.dashReady = true ∧ g.isAbilityUnlocked "dash" = true)) := by
    intro G ha hp hw hs hT rng'
    cases hdw : G.ai.isDashWindup with
    | true =>
      rw [dashOrNormalStep_windup M G d clock rng' hdw]
      have e1 : G.dashWindupStep.projectiles = g.projectiles := by
        unfold Game.dashWindupStep; split <;> exact hp
      have e2 : G.dashWindupStep.abilities = g.abilities := by
        unfold Game.dashWindupStep; split <;> exact ha
      refine ⟨fun h => ?_, fun h => ?_⟩
      · rcases h with h | h
        · exact absurd e1 h
        · exact absurd (by rw [e2]) h
      · rcases h with h | h
        · exact absurd (by rw [e2]) h
        · rw [← hw, hdw] at h
          exact absurd h.2 (by decide)
    | false =>
      cases hdd : G.ai.isDashing with
      | true =>
        rw [dashOrNormalStep_dashing M G d clock rng' hdw hdd]
        have e : (G.dashingStep M rng').1.projectiles = g.projectiles ∧
            (G.dashingStep M rng').1.abilities = g.abilities ∧
            (G.dashingStep M rng').1.ai.isDashWindup = false := by
          unfold Game.dashingStep; split <;> exact ⟨hp, ha, hdw⟩
        refine ⟨fun h => ?_, fun h => ?_⟩
        · rcases h with h | h
          · exact absurd e.1 h
          · exact absurd (by rw [e.2.1]) h
        · rcases h with h | h
          · exact absurd (by rw [e.2.1]) h
          · rw [e.2.2] at h
            exact absurd h.1 (by decide)
      | false =>
        rw [dashOrNormalStep_normal M G d clock rng' hdw hdd, normalStep_eq]
        obtain ⟨u1, u2⟩ := applyChain_unfired M d clock (G.steer d, rng')
          (G.firesProjectile d) (G.firesDash d) (G.firesSpeedBoost M d)
          (G.firesSlowProjectile M d)
        refine ⟨fun h => ?_, fun h => ?_⟩
        · cases hf : G.firesProjectile d with
          | false =>
            obtain ⟨e1, e2⟩ := u1 hf
            rcases h with h | h
            · exact absurd (e1.trans hp) h
            · exact absurd (e2.trans (by rw [← ha]; rfl)) h
          | true =>
            simp only [Game.firesProjectile, Bool.and_eq_true] at hf
            exact ⟨hf.1.1, hf.1.2⟩
        · cases hf : G.firesDash d with
          | false =>
            obtain ⟨e1, e2⟩ := u2 hf
            rcases h with h | h
            · exact absurd (e1.trans (by rw [← ha]; rfl)) h
            · have e3 : (G.steer d).ai.isDashWindup = g.ai.isDashWindup := hw
              rw [e2, e3, h.2] at h
              exact absurd h.1 (by decide)
          | true =>
            simp only [Game.firesDash, Bool.and_eq_true] at hf
            refine ⟨hf.1.1.1.1, hf.1.1.1.2, ?_⟩
            rw [← @isAbilityUnlocked_congr α _ g G hs hT]
            exact hf.2
  rw [hact]
  exact key _ r1 r2 m1 m9 m10 _
/-- The outputs of `predict` lie in [0, 1] for every `Math.exp` that is never negative. -/
theorem predict_range_closed (M : JsMath α) (hexp : ∀ x, 0 ≤ M.exp x) {nn : NeuralNetwork α}
    (hnn : nn.WellShaped) {inputArray out : List α} (hlen : inputArray.length = nn.inputSize)
    (h : nn.predict M inputArray = some out) : ∀ y ∈ out, 0 ≤ y ∧ y ≤ 1 := by
  rw [predict_eq M hnn hlen] at h
  cases h
  intro y hy
  simp only [List.mem_map, List.mem_range] at hy
  obtain ⟨i, hi, rfl⟩ := hy
  rw [NeuralNetwork.outputsOf, entryD_tabulate _ _ _ hi Nat.one_pos]
  exact sigmoid_unit_closed M hexp _

/-- C26, amended. On a well-formed game (`Math.exp` never negative) `updateAI` returns; let
`(o0, o1, o2, o3)` be the network outputs of the tick and `now` its clock reading. If the tick
pushed a projectile or changed the projectile record (`useProjectile` was invoked), then
`o2 > 0.7` and `now - lastUsed >= cooldown` for the projectile (cooldown 3000). If the tick
changed the dash record or started a dash windup (`useDash` was invoked), then `o3 > 0.8`,
`now - lastUsed >= cooldown` for the dash (cooldown 6000) and `isAbilityUnlocked('dash')`
holds. The move vector is `((o0 - 0.5) * 2, (o1 - 0.5) * 2)`, each component in the closed
interval from -1 to 1 (an end is reached when an output saturates); in the normal branch it
gives the velocity `move * speed`. -/
theorem trigger_gating (M : JsMath α) (hexp : ∀ x, 0 ≤ M.exp x) {g : Game α}
    (hg : g.WellFormed) (clock : Clock α) (rng : Rng α) :
    ∃ r o0 o1 o2 o3, g.updateAI M clock rng = some r ∧
      g.nn.predict M (g.getNeuralNetworkInputs clock.getNeuralNetworkInputs)
        = some [o0, o1, o2, o3] ∧
      (r.1.projectiles ≠ g.projectiles ∨ r.1.abilities.projectile ≠ g.abilities.projectile →
        o2 > 0.7 ∧
        clock.updateAI - g.abilities.projectile.lastUsed ≥ g.abilities.projectile.cooldown) ∧
      (r.1.abilities.dash ≠ g.abilities.dash
          ∨ (r.1.ai.isDashWindup = true ∧ g.ai.isDashWindup = false) →
        o3 > 0.8 ∧ clock.updateAI - g.abilities.dash.lastUsed ≥ g.abilities.dash.cooldown ∧
        g.isAbilityUnlocked "dash" = true) ∧
      (-1 ≤ (o0 - 0.5) * 2 ∧ (o0 - 0.5) * 2 ≤ 1) ∧
      (-1 ≤ (o1 - 0.5) * 2 ∧ (o1 - 0.5) * 2 ≤ 1) ∧
      (g.ai.isDashWindup = false → g.ai.isDashing = false →
        r.1.ai.vx = (o0 - 0.5) * 2 * g.speedBoostCountdown.ai.speed ∧
        r.1.ai.vy = (o1 - 0.5) * 2 * g.speedBoostCountdown.ai.speed) := by
  obtain ⟨r, o0, o1, o2, o3, hr, -, hp, hai, hab, hpr, -⟩ := updateAI_wf M hg clock rng
  rw [speedBoostCountdown_inputs] at hp
  have hrange := predict_range_closed M hexp hg.nn
    ((length_getNeuralNetworkInputs g _).trans hg.inputSize.symm) hp
  obtain ⟨t, b, s, hc⟩ := speedBoostCountdown_eq g
  obtain ⟨g1, g2⟩ := act_gating M g.speedBoostCountdown (g.decision clock.updateAI o0 o1 o2 o3)
    clock rng
  have c1 : g.speedBoostCountdown.projectiles = g.projectiles := by rw [hc]; rfl
  have c2 : g.speedBoostCountdown.abilities = g.abilities := by rw [hc]; rfl
  have c3 : g.speedBoostCountdown.ai.isDashWindup = g.ai.isDashWindup := by rw [hc]; rfl
  have c4 : g.speedBoostCountdown.ai.isDashing = g.ai.isDashing := by rw [hc]; rfl
  have c5 : g.speedBoostCountdown.isAbilityUnlocked "dash" = g.isAbilityUnlocked "dash" := by
    rw [hc]; rfl
  rw [← hpr, ← hab, c1, c2] at g1
  rw [← hab, ← hai, c2, c3, c5] at g2
  have hready : ∀ l c : α, readyAt clock.updateAI l c = true → clock.updateAI - l ≥ c := by
    intro l c h
    simpa [readyAt] using h
  have h0 := hrange o0 (by simp)
  have h1 := hrange o1 (by simp)
  refine ⟨r, o0, o1, o2, o3, hr, hp, ?_, ?_, ⟨by linarith, by linarith⟩,
    ⟨by linarith, by linarith⟩, ?_⟩
  · intro h
    obtain ⟨e1, e2⟩ := g1 h
    exact ⟨by simpa [Game.decision] using e1, hready _ _ e2⟩
  · intro h
    obtain ⟨e1, e2, e3⟩ := g2 h
    exact ⟨by simpa [Game.decision] using e1, hready _ _ e2, e3⟩
  · intro hw hd
    obtain ⟨a1, a2, -⟩ := act_normal_motion M g.speedBoostCountdown
      (g.decision clock.updateAI o0 o1 o2 o3) clock rng (c3.trans hw) (c4.trans hd)
    rw [hai]
    exact ⟨a1, a2⟩

/-- Witness of C26: the tick of the game whose network signals a dash and steers right. -/
theorem trigger_gating_witness :
    ∃ r o0 o1 o2 o3,
      (dashReadyGame ℝ).updateAI realMath (Clock.at 1000000) (halfRng ℝ) = some r ∧
      (dashReadyGame ℝ).nn.predict realMath
        ((dashReadyGame ℝ).getNeuralNetworkInputs (Clock.at (1000000 : ℝ)).getNeuralNetworkInputs)
        = some [o0, o1, o2, o3] ∧
      (r.1.projectiles ≠ (dashReadyGame ℝ).projectiles
          ∨ r.1.abilities.projectile ≠ (dashReadyGame ℝ).abilities.projectile →
        o2 > 0.7 ∧
        (Clock.at (1000000 : ℝ)).updateAI - (dashReadyGame ℝ).abilities.projectile.lastUsed
          ≥ (dashReadyGame ℝ).abilities.projectile.cooldown) ∧
      (r.1.abilities.dash ≠ (dashReadyGame ℝ).abilities.dash
          ∨ (r.1.ai.isDashWindup = true ∧ (dashReadyGame ℝ).ai.isDashWindup = false) →
        o3 > 0.8 ∧
        (Clock.at (1000000 : ℝ)).updateAI - (dashReadyGame ℝ).abilities.dash.lastUsed
          ≥ (dashReadyGame ℝ).abilities.dash.cooldown ∧
        (dashReadyGame ℝ).isAbilityUnlocked "dash" = true) ∧
      (-1 ≤ (o0 - 0.5) * 2 ∧ (o0 - 0.5) * 2 ≤ 1) ∧
      (-1 ≤ (o1 - 0.5) * 2 ∧ (o1 - 0.5) * 2 ≤ 1) ∧
      ((dashReadyGame ℝ).ai.isDashWindup = false → (dashReadyGame ℝ).ai.isDashing = false →
        r.1.ai.vx = (o0 - 0.5) * 2 * (dashReadyGame ℝ).speedBoostCountdown.ai.speed ∧
        r.1.ai.vy = (o1 - 0.5) * 2 * (dashReadyGame ℝ).speedBoostCountdown.ai.speed) :=
  trigger_gating realMath (fun x => (Real.exp_pos x).le)
    ⟨wellShaped_biasNet 4 0 0 4, rfl, rfl, fun _ h => absurd h (List.not_mem_nil _)⟩
    (Clock.at 1000000) (halfRng ℝ)

/-! ## C27: the tick on which the beam fires -/

/-- What the four triggers do to the beam state. -/
theorem applyChain_beam (M : JsMath α) (d : Decision α) (clock : Clock α)
    (s : Game α × Rng α) (b1 b2 b3 b4 : Bool) :
    (applySlowProjectile b4 M clock (applySpeedBoost b3 clock (applyDash b2 M d clock
      (applyProjectile b1 M clock s)))).1.aiBeams = s.1.aiBeams ∧
    (b4 = false →
      (applySlowProjectile b4 M clock (applySpeedBoost b3 clock (applyDash b2 M d clock
        (applyProjectile b1 M clock s)))).1.abilities.slowProjectile
          = s.1.abilities.slowProjectile ∧
      (applySlowProjectile b4 M clock (applySpeedBoost b3 clock (applyDash b2 M d clock
        (applyProjectile b1 M clock s)))).1.ai.isBeamWindup = s.1.ai.isBeamWindup) ∧
    (b4 = true →
      (applySlowProjectile b4 M clock (applySpeedBoost b3 clock (applyDash b2 M d clock
        (applyProjectile b1 M clock s)))).1.ai.isBeamWindup = true ∧
      (applySlowProjectile b4 M clock (applySpeedBoost b3 clock (applyDash b2 M d clock
        (applyProjectile b1 M clock s)))).1.abilities.slowProjectile.lastUsed
          = clock.useSlowProjectile ∧
      (applySlowProjectile b4 M clock (applySpeedBoost b3 clock (applyDash b2 M d clock
        (applyProjectile b1 M clock s)))).1.ai.beamWindupTime
          = s.1.abilities.slowProjectile.windupDuration) := by
  cases b4
  · cases b1 <;> cases b2 <;> cases b3 <;>
      exact ⟨rfl, (fun _ => ⟨rfl, rfl⟩), (fun h => Bool.noConfusion h)⟩
  · simp only [applySlowProjectile, if_true, Game.useSlowProjectile]
    cases b1 <;> cases b2 <;> cases b3 <;> split <;>
      exact ⟨rfl, (fun h => Bool.noConfusion h), (fun _ => ⟨rfl, rfl, rfl⟩)⟩

/-- The dash chain after a beam block that left `isBeamWindup` false. -/
theorem dashOrNormalStep_beam (M : JsMath α) (G : Game α) (d : Decision α) (clock : Clock α)
    (rng : Rng α) (hb : G.ai.isBeamWindup = false) :
    (G.dashOrNormalStep M d clock rng).1.aiBeams = G.aiBeams ∧
    ((G.dashOrNormalStep M d clock rng).1.ai.isBeamWindup = false →
      (G.dashOrNormalStep M d clock rng).1.abilities.slowProjectile
        = G.abilities.slowProjectile) ∧
    ((G.dashOrNormalStep M d clock rng).1.ai.isBeamWindup = true →
      (G.dashOrNormalStep M d clock rng).1.abilities.slowProjectile.lastUsed
        = clock.useSlowProjectile ∧
      (G.dashOrNormalStep M d clock rng).1.ai.beamWindupTime
        = G.abilities.slowProjectile.windupDuration) ∧
    (d.slowProjectileReady = false →
      (G.dashOrNormalStep M d clock rng).1.ai.isBeamWindup = false) := by
  have hstill : ∀ X : Game α, X.aiBeams = G.aiBeams → X.ai.isBeamWindup = false →
      X.abilities.slowProjectile = G.abilities.slowProjectile →
      X.aiBeams = G.aiBeams ∧
      (X.ai.isBeamWindup = false → X.abilities.slowProjectile = G.abilities.slowProjectile) ∧
      (X.ai.isBeamWindup = true →
        X.abilities.slowProjectile.lastUsed = clock.useSlowProjectile ∧
        X.ai.beamWindupTime = G.abilities.slowProjectile.windupDuration) ∧
      (d.slowProjectileReady = false → X.ai.isBeamWindup = false) := by
    intro X h1 h2 h3
    exact ⟨h1, fun _ => h3, fun h => absurd (h2.symm.trans h) (by decide), fun _ => h2⟩
  cases hdw : G.ai.isDashWindup with
  | true =>
    rw [dashOrNormalStep_windup M G d clock rng hdw]
    apply hstill
    · unfold Game.dashWindupStep; split <;> rfl
    · unfold Game.dashWindupStep; split <;> exact hb
    · unfold Game.dashWindupStep; split <;> rfl
  | false =>
    cases hdd : G.ai.isDashing with
    | true =>
      rw [dashOrNormalStep_dashing M G d clock rng hdw hdd]
      apply hstill
      · unfold Game.dashingStep; split <;> rfl
      · unfold Game.dashingStep; split <;> exact hb
      · unfold Game.dashingStep; split <;> rfl
    | false =>
      rw [dashOrNormalStep_normal M G d clock rng hdw hdd, normalStep_eq]
      obtain ⟨c1, c2, c3⟩ := applyChain_beam M d clock (G.steer d, rng)
        (G.firesProjectile d) (G.firesDash d) (G.firesSpeedBoost M d)
        (G.firesSlowProjectile M d)
      cases hf : G.firesSlowProjectile M d with
      | false =>
        rw [hf] at c1 c2
        obtain ⟨e1, e2⟩ := c2 rfl
        have e3 : (G.steer d).ai.isBeamWindup = false := hb
        exact ⟨c1, fun _ => e1, fun h => absurd ((e2.trans e3).symm.trans h) (by decide),
          fun _ => e2.trans e3⟩
      | true =>
        rw [hf] at c1 c3
        obtain ⟨e1, e2, e3⟩ := c3 rfl
        refine ⟨c1, fun h => absurd (e1.symm.trans h) (by decide), fun _ => ⟨e2, e3⟩, ?_⟩
        intro hr
        simp only [Game.firesSlowProjectile, hr, Bool.false_and] at hf
        exact absurd hf (by decide)

/-- The expiry tick at the level of `act`. -/
theorem act_beam_expiry (M : JsMath α) (g : Game α) (d : Decision α) (clock : Clock α)
    (rng : Rng α) (hb : g.ai.isBeamWindup = true)
    (hp : 1 - (g.ai.beamWindupTime - 16) / g.abilities.slowProjectile.windupDuration ≥ 0.5)
    (he : g.ai.beamWindupTime - 16 ≤ 0) :
    (g.act M d clock rng).1.aiBeams = g.aiBeams ++
      [{ startX := g.ai.x, startY := g.ai.y,
         directionX := g.ai.beamDirection.x, directionY := g.ai.beamDirection.y,
         width := g.abilities.slowProjectile.beamWidth,
         canvasWidth := g.canvasWidth, canvasHeight := g.canvasHeight }] ∧
    ((g.act M d clock rng).1.ai.isBeamWindup = false →
      (g.act M d clock rng).1.abilities.slowProjectile = g.abilities.slowProjectile) ∧
    ((g.act M d clock rng).1.ai.isBeamWindup = true →
      (g.act M d clock rng).1.abilities.slowProjectile.lastUsed = clock.useSlowProjectile ∧
      (g.act M d clock rng).1.ai.beamWindupTime = g.abilities.slowProjectile.windupDuration) ∧
    (d.slowProjectileReady = false → (g.act M d clock rng).1.ai.isBeamWindup = false) := by
  have ht : g.beamCharge.beamTrack M rng = (g.beamCharge, rng) := by
    unfold Game.beamTrack
    exact if_pos hp
  have hs : g.beamWindupStep M rng
      = ({ g.beamCharge with
            ai := { g.beamCharge.ai with isBeamWindup := false },
            aiBeams := g.beamCharge.aiBeams ++
              [{ startX := g.beamCharge.ai.x, startY := g.beamCharge.ai.y,
                 directionX := g.beamCharge.ai.beamDirection.x,
                 directionY := g.beamCharge.ai.beamDirection.y,
                 width := g.beamCharge.abilities.slowProjectile.beamWidth,
                 canvasWidth := g.beamCharge.canvasWidth,
                 canvasHeight := g.beamCharge.canvasHeight }] },
          rng.skip 60) := by
    simp only [Game.beamWindupStep, hb, if_true, ht]
    unfold Game.beamFire
    exact if_pos he
  obtain ⟨k1, k2, k3, k4⟩ := dashOrNormalStep_beam M (g.beamWindupStep M rng).1 d clock
    (g.beamWindupStep M rng).2 (by rw [hs])
  have hA : (g.act M d clock rng).1
      = ((g.beamWindupStep M rng).1.dashOrNormalStep M d clock
          (g.beamWindupStep M rng).2).1.moveAi := rfl
  have hG1 : (g.beamWindupStep M rng).1.abilities.slowProjectile
      = g.abilities.slowProjectile := by rw [hs]; rfl
  have hG2 : (g.beamWindupStep M rng).1.aiBeams = g.aiBeams ++
      [{ startX := g.ai.x, startY := g.ai.y,
         directionX := g.ai.beamDirection.x, directionY := g.ai.beamDirection.y,
         width := g.abilities.slowProjectile.beamWidth,
         canvasWidth := g.canvasWidth, canvasHeight := g.canvasHeight }] := by rw [hs]; rfl
  rw [hA]
  refine ⟨k1.trans hG2, fun h => (k2 h).trans hG1, fun h => ?_, k4⟩
  obtain ⟨e1, e2⟩ := k3 h
  exact ⟨e1, e2.trans (congrArg SlowProjectileAbility.windupDuration hG1)⟩
/-- The expiry tick at the level of `updateAI`. -/
theorem updateAI_beam_expiry (M : JsMath α) {g : Game α} {clock : Clock α} {rng : Rng α}
    {r : Game α × Rng α} (h : g.updateAI M clock rng = some r)
    (hb : g.ai.isBeamWindup = true)
    (hp : 1 - (g.ai.beamWindupTime - 16) / g.abilities.slowProjectile.windupDuration ≥ 0.5)
    (he : g.ai.beamWindupTime - 16 ≤ 0) :
    r.1.aiBeams = g.aiBeams ++
      [{ startX := g.ai.x, startY := g.ai.y,
         directionX := g.ai.beamDirection.x, directionY := g.ai.beamDirection.y,
         width := g.abilities.slowProjectile.beamWidth,
         canvasWidth := g.canvasWidth, canvasHeight := g.canvasHeight }] ∧
    (r.1.ai.isBeamWindup = false →
      r.1.abilities.slowProjectile = g.abilities.slowProjectile) ∧
    (r.1.ai.isBeamWindup = true →
      r.1.abilities.slowProjectile.lastUsed = clock.useSlowProjectile ∧
      r.1.ai.beamWindupTime = g.abilities.slowProjectile.windupDuration) ∧
    (clock.updateAI - g.abilities.slowProjectile.lastUsed < g.abilities.slowProjectile.cooldown →
      r.1.ai.isBeamWindup = false) := by
  obtain ⟨outputs, o0, o1, o2, o3, -, -, -, -, -, hr⟩ := updateAI_some M h
  have hbody := sameBody_trainPeriodically M hr
  have hai : r.1.ai = (g.speedBoostCountdown.act M (g.decision clock.updateAI o0 o1 o2 o3)
      clock rng).1.ai := hbody.ai
  have hab : r.1.abilities = (g.speedBoostCountdown.act M
      (g.decision clock.updateAI o0 o1 o2 o3) clock rng).1.abilities := hbody.abilities
  have hbe : r.1.aiBeams = (g.speedBoostCountdown.act M
      (g.decision clock.updateAI o0 o1 o2 o3) clock rng).1.aiBeams := hbody.aiBeams
  obtain ⟨t, b, s, hc⟩ := speedBoostCountdown_eq g
  obtain ⟨k1, k2, k3, k4⟩ := act_beam_expiry M (g.withBoost t b s)
    (g.decision clock.updateAI o0 o1 o2 o3) clock rng hb hp he
  rw [hc] at hai hab hbe
  refine ⟨hbe.trans k1, fun hf => ?_, fun hf => ?_, fun hlt => ?_⟩
  · rw [hab]
    exact k2 (by rw [← hai]; exact hf)
  · rw [hab, hai]
    exact k3 (by rw [← hai]; exact hf)
  · rw [hai]
    apply k4
    simp only [Game.decision, readyAt, decide_eq_false_iff_not, ge_iff_le, not_le]
    exact hlt

/-- C27, amended. On the tick where the timer of a beam windup reaches `<= 0` (direction
locked: progress at least 0.5), exactly one beam is appended to `aiBeams`, starting at the AI
position, with the direction `ai.beamDirection` of the start of the tick and the width
`slowProjectile.beamWidth`. Firing does not write `slowProjectile.lastUsed`: if the tick ends
with `isBeamWindup` false the record `slowProjectile` is unchanged; `lastUsed` is written only
when a windup starts, which happens on this tick only if the normal branch re-triggers the beam
(then `isBeamWindup` ends true and the timer is `windupDuration` again). If the beam is still
on cooldown the tick ends with `isBeamWindup` false. -/
theorem beam_fires_on_expiry (M : JsMath α) {g : Game α} {clock : Clock α} {rng : Rng α}
    {r : Game α × Rng α} (h : g.updateAI M clock rng = some r)
    (hb : g.ai.isBeamWindup = true)
    (hp : 1 - (g.ai.beamWindupTime - 16) / g.abilities.slowProjectile.windupDuration ≥ 0.5)
    (he : g.ai.beamWindupTime - 16 ≤ 0) :
    (∃ beam, r.1.aiBeams = g.aiBeams ++ [beam] ∧
      beam.directionX = g.ai.beamDirection.x ∧ beam.directionY = g.ai.beamDirection.y ∧
      beam.width = g.abilities.slowProjectile.beamWidth ∧
      beam.startX = g.ai.x ∧ beam.startY = g.ai.y) ∧
    (r.1.ai.isBeamWindup = false →
      r.1.abilities.slowProjectile.lastUsed = g.abilities.slowProjectile.lastUsed) ∧
    (r.1.ai.isBeamWindup = true →
      r.1.abilities.slowProjectile.lastUsed = clock.useSlowProjectile ∧
      r.1.ai.beamWindupTime = g.abilities.slowProjectile.windupDuration) ∧
    (clock.updateAI - g.abilities.slowProjectile.lastUsed < g.abilities.slowProjectile.cooldown →
      r.1.ai.isBeamWindup = false) := by
  obtain ⟨k1, k2, k3, k4⟩ := updateAI_beam_expiry M h hb hp he
  exact ⟨⟨_, k1, rfl, rfl, rfl, rfl, rfl⟩, fun hf => by rw [k2 hf], k3, k4⟩

theorem wellFormed_beamExpiryGame : (beamExpiryGame α).WellFormed :=
  ⟨wellShaped_zeroNet, rfl, rfl, fun _ h => absurd h (List.not_mem_nil _)⟩

theorem beamExpiryGame_facts :
    (beamExpiryGame α).ai.isBeamWindup = true ∧
    1 - ((beamExpiryGame α).ai.beamWindupTime - 16)
      / (beamExpiryGame α).abilities.slowProjectile.windupDuration ≥ 0.5 ∧
    (beamExpiryGame α).ai.beamWindupTime - 16 ≤ 0 ∧
    (Clock.at (1000000 : α)).updateAI - (beamExpiryGame α).abilities.slowProjectile.lastUsed
      < (beamExpiryGame α).abilities.slowProjectile.cooldown := by
  refine ⟨rfl, ?_, ?_, ?_⟩
  · norm_num [beamExpiryGame, beamWindupGame, arena, Game.new, Abilities.initial]
  · norm_num [beamExpiryGame, beamWindupGame]
  · norm_num [beamExpiryGame, beamWindupGame, arena, Game.new, Abilities.initial, Clock.at]

/-- Witness of C27: the last tick of a windup that started 2000 ms earlier fires one beam along
(1, 0) with width 6 and leaves `lastUsed` as it was. -/
theorem beam_fires_on_expiry_witness :
    ∃ r, (beamExpiryGame ℝ).updateAI realMath (Clock.at 1000000) (halfRng ℝ) = some r ∧
      (∃ beam, r.1.aiBeams = (beamExpiryGame ℝ).aiBeams ++ [beam] ∧
        beam.directionX = (beamExpiryGame ℝ).ai.beamDirection.x ∧
        beam.directionY = (beamExpiryGame ℝ).ai.beamDirection.y ∧
        beam.width = (beamExpiryGame ℝ).abilities.slowProjectile.beamWidth ∧
        beam.startX = (beamExpiryGame ℝ).ai.x ∧ beam.startY = (beamExpiryGame ℝ).ai.y) ∧
      r.1.ai.isBeamWindup = false := by
  obtain ⟨r, -, -, -, -, hr, -⟩ := updateAI_wf realMath (@wellFormed_beamExpiryGame ℝ _)
    (Clock.at 1000000) (halfRng ℝ)
  obtain ⟨f1, f2, f3, f4⟩ := @beamExpiryGame_facts ℝ _
  obtain ⟨k1, -, -, k4⟩ := beam_fires_on_expiry realMath hr f1 f2 f3
  exact ⟨r, hr, k1, k4 f4⟩

/-- Counterexample to C27 as stated: on the last tick of a windup that started at time 998000,
run at time 1000000, the beam fires (`isBeamWindup` becomes false, `aiBeams` gains one beam)
but `slowProjectile.lastUsed` is still 998000, not the current time. -/
theorem beam_fire_marks_used_counterexample :
    ∃ r, (beamExpiryGame ℝ).updateAI realMath (Clock.at 1000000) (halfRng ℝ) = some r ∧
      (beamExpiryGame ℝ).ai.isBeamWindup = true ∧
      (beamExpiryGame ℝ).ai.beamWindupTime - 16 ≤ 0 ∧
      r.1.ai.isBeamWindup = false ∧
      r.1.aiBeams.length = (beamExpiryGame ℝ).aiBeams.length + 1 ∧
      r.1.abilities.slowProjectile.lastUsed = 998000 ∧
      r.1.abilities.slowProjectile.lastUsed ≠ (Clock.at (1000000 : ℝ)).useSlowProjectile := by
  obtain ⟨r, -, -, -, -, hr, -⟩ := updateAI_wf realMath (@wellFormed_beamExpiryGame ℝ _)
    (Clock.at 1000000) (halfRng ℝ)
  obtain ⟨f1, f2, f3, f4⟩ := @beamExpiryGame_facts ℝ _
  obtain ⟨k1, k2, -, k4⟩ := updateAI_beam_expiry realMath hr f1 f2 f3
  have hl : r.1.abilities.slowProjectile.lastUsed = 998000 := by
    rw [k2 (k4 f4)]; rfl
  refine ⟨r, hr, f1, f3, k4 f4, by rw [k1]; simp, hl, ?_⟩
  rw [hl]
  show (998000 : ℝ) ≠ 1000000
  norm_num

/-! ## C28: the speed boost and the modes -/

theorem hypot_gt {M : JsMath α} (hM : M.HypotIsNorm) {x y c : α} (hc : 0 ≤ c)
    (h : c ^ 2 < x ^ 2 + y ^ 2) : c < M.hypot x y := by
  obtain ⟨h0, h2⟩ := hM x y
  by_contra hn
  have hle : M.hypot x y ≤ c := not_lt.mp hn
  have : M.hypot x y ^ 2 ≤ c ^ 2 := pow_le_pow_left₀ h0 hle 2
  linarith

theorem beamWindupStep_boost (M : JsMath α) (g : Game α) (rng : Rng α) :
    (g.beamWindupStep M rng).1.ai.isSpeedBoosted = g.ai.isSpeedBoosted ∧
    (g.beamWindupStep M rng).1.ai.speedBoostTime = g.ai.speedBoostTime ∧
    (g.beamWindupStep M rng).1.ai.speed = g.ai.speed ∧
    (g.beamWindupStep M rng).1.ai.baseSpeed = g.ai.baseSpeed ∧
    (g.beamWindupStep M rng).1.abilities = g.abilities ∧
    (g.beamWindupStep M rng).1.player = g.player := by
  unfold Game.beamWindupStep
  split
  · unfold Game.beamFire Game.beamTrack
    split <;> split <;> first
      | exact ⟨rfl, rfl, rfl, rfl, rfl, rfl⟩
      | (split <;> exact ⟨rfl, rfl, rfl, rfl, rfl, rfl⟩)
  · exact ⟨rfl, rfl, rfl, rfl, rfl, rfl⟩

/-- What the four triggers do to the speed boost. -/
theorem applyChain_boost (M : JsMath α) (d : Decision α) (clock : Clock α)
    (s : Game α × Rng α) (b1 b2 b3 b4 : Bool) :
    (b3 = true →
      (applySlowProjectile b4 M clock (applySpeedBoost b3 clock (applyDash b2 M d clock
        (applyProjectile b1 M clock s)))).1.ai.isSpeedBoosted = true ∧
      (applySlowProjectile b4 M clock (applySpeedBoost b3 clock (applyDash b2 M d clock
        (applyProjectile b1 M clock s)))).1.ai.speedBoostTime
          = s.1.abilities.speedBoost.duration ∧
      (applySlowProjectile b4 M clock (applySpeedBoost b3 clock (applyDash b2 M d clock
        (applyProjectile b1 M clock s)))).1.ai.speed
          = s.1.ai.baseSpeed * s.1.abilities.speedBoost.multiplier) ∧
    (b3 = false →
      (applySlowProjectile b4 M clock (applySpeedBoost b3 clock (applyDash b2 M d clock
        (applyProjectile b1 M clock s)))).1.ai.isSpeedBoosted = s.1.ai.isSpeedBoosted ∧
      (applySlowProjectile b4 M clock (applySpeedBoost b3 clock (applyDash b2 M d clock
        (applyProjectile b1 M clock s)))).1.ai.speedBoostTime = s.1.ai.speedBoostTime ∧
      (applySlowProjectile b4 M clock (applySpeedBoost b3 clock (applyDash b2 M d clock
        (applyProjectile b1 M clock s)))).1.ai.speed = s.1.ai.speed) := by
  cases b4
  · cases b1 <;> cases b2 <;> cases b3 <;>
      exact ⟨(fun h => by first | exact Bool.noConfusion h | exact ⟨rfl, rfl, rfl⟩),
        (fun h => by first | exact Bool.noConfusion h | exact ⟨rfl, rfl, rfl⟩)⟩
  · simp only [applySlowProjectile, if_true, Game.useSlowProjectile]
    cases b1 <;> cases b2 <;> cases b3 <;> split <;>
      exact ⟨(fun h => by first | exact Bool.noConfusion h | exact ⟨rfl, rfl, rfl⟩),
        (fun h => by first | exact Bool.noConfusion h | exact ⟨rfl, rfl, rfl⟩)⟩

/-- The speed boost at the level of `act`: during a dash windup or a dash the boost fields
are left alone; in the normal branch the boost starts exactly when its trigger fires. -/
theorem act_speedBoost (M : JsMath α) (g : Game α) (d : Decision α) (clock : Clock α)
    (rng : Rng α) :
    (g.ai.isDashWindup = true ∨ g.ai.isDashing = true →
      (g.act M d clock rng).1.ai.isSpeedBoosted = g.ai.isSpeedBoosted ∧
      (g.act M d clock rng).1.ai.speedBoostTime = g.ai.speedBoostTime ∧
      (g.act M d clock rng).1.ai.speed = g.ai.speed) ∧
    (g.ai.isDashWindup = false → g.ai.isDashing = false →
      (g.firesSpeedBoost M d = true →
        (g.act M d clock rng).1.ai.isSpeedBoosted = true ∧
        (g.act M d clock rng).1.ai.speedBoostTime = g.abilities.speedBoost.duration ∧
        (g.act M d clock rng).1.ai.speed
          = g.ai.baseSpeed * g.abilities.speedBoost.multiplier) ∧
      (g.firesSpeedBoost M d = false →
        (g.act M d clock rng).1.ai.isSpeedBoosted = g.ai.isSpeedBoosted ∧
        (g.act M d clock rng).1.ai.speedBoostTime = g.ai.speedBoostTime ∧
        (g.act M d clock rng).1.ai.speed = g.ai.speed)) := by
  obtain ⟨m1, m2, m3, m4, -, -, -, -, m9, m10⟩ := beamWindupStep_motion M g rng
  obtain ⟨n1, n2, n3, n4, n5, n6⟩ := beamWindupStep_boost M g rng
  have hA : (g.act M d clock rng).1
      = ((g.beamWindupStep M rng).1.dashOrNormalStep M d clock
          (g.beamWindupStep M rng).2).1.moveAi := rfl
  have hfires : (g.beamWindupStep M rng).1.firesSpeedBoost M d = g.firesSpeedBoost M d := by
    unfold Game.firesSpeedBoost Game.distToPlayer
    rw [n1, n6, m3, m4, @isAbilityUnlocked_congr α _ g (g.beamWindupStep M rng).1 m9 m10]
  rw [hA]
  refine ⟨fun h => ?_, fun hw hd => ?_⟩
  · cases hdw : g.ai.isDashWindup with
    | true =>
      rw [dashOrNormalStep_windup M _ d clock _ (m1.trans hdw)]
      have e : ∀ G : Game α, G.dashWindupStep.ai.isSpeedBoosted = G.ai.isSpeedBoosted ∧
          G.dashWindupStep.ai.speedBoostTime = G.ai.speedBoostTime ∧
          G.dashWindupStep.ai.speed = G.ai.speed := by
        intro G; unfold Game.dashWindupStep; split <;> exact ⟨rfl, rfl, rfl⟩
      obtain ⟨e1, e2, e3⟩ := e (g.beamWindupStep M rng).1
      exact ⟨e1.trans n1, e2.trans n2, e3.trans n3⟩
    | false =>
      have hdd : g.ai.isDashing = true := by
        rcases h with h | h
        · rw [hdw] at h; exact absurd h (by decide)
        · exact h
      rw [dashOrNormalStep_dashing M _ d clock _ (m1.trans hdw) (m2.trans hdd)]
      have e : ∀ (G : Game α) (rng' : Rng α),
          (G.dashingStep M rng').1.ai.isSpeedBoosted = G.ai.isSpeedBoosted ∧
          (G.dashingStep M rng').1.ai.speedBoostTime = G.ai.speedBoostTime ∧
          (G.dashingStep M rng').1.ai.speed = G.ai.speed := by
        intro G rng'; unfold Game.dashingStep; split <;> exact ⟨rfl, rfl, rfl⟩
      obtain ⟨e1, e2, e3⟩ := e (g.beamWindupStep M rng).1 (g.beamWindupStep M rng).2
      exact ⟨e1.trans n1, e2.trans n2, e3.trans n3⟩
  · rw [dashOrNormalStep_normal M _ d clock _ (m1.trans hw) (m2.trans hd), normalStep_eq, hfires]
    obtain ⟨c1, c2⟩ := applyChain_boost M d clock
      ((g.beamWindupStep M rng).1.steer d, (g.beamWindupStep M rng).2)
      ((g.beamWindupStep M rng).1.firesProjectile d) ((g.beamWindupStep M rng).1.firesDash d)
      (g.firesSpeedBoost M d) ((g.beamWindupStep M rng).1.firesSlowProjectile M d)
    refine ⟨fun hf => ?_, fun hf => ?_⟩
    · obtain ⟨e1, e2, e3⟩ := c1 hf
      refine ⟨e1, e2.trans ?_, e3.trans ?_⟩
      · show (g.beamWindupStep M rng).1.abilities.speedBoost.duration = _
        rw [n5]
      · show (g.beamWindupStep M rng).1.ai.baseSpeed
          * (g.beamWindupStep M rng).1.abilities.speedBoost.multiplier = _
        rw [n4, n5]
    · obtain ⟨e1, e2, e3⟩ := c2 hf
      exact ⟨e1.trans n1, e2.trans n2, e3.trans n3⟩
/-- The speed boost at the level of `updateAI`, relative to the state left by the countdown
block. -/
theorem updateAI_speedBoost (M : JsMath α) {g : Game α} {clock : Clock α} {rng : Rng α}
    {r : Game α × Rng α} (h : g.updateAI M clock rng = some r) :
    (g.ai.isDashWindup = true ∨ g.ai.isDashing = true →
      r.1.ai.isSpeedBoosted = g.speedBoostCountdown.ai.isSpeedBoosted ∧
      r.1.ai.speedBoostTime = g.speedBoostCountdown.ai.speedBoostTime ∧
      r.1.ai.speed = g.speedBoostCountdown.ai.speed) ∧
    (g.ai.isDashWindup = false → g.ai.isDashing = false →
      (clock.updateAI - g.abilities.speedBoost.lastUsed ≥ g.abilities.speedBoost.cooldown
          ∧ g.speedBoostCountdown.ai.isSpeedBoosted = false ∧ g.distToPlayer M > 200
          ∧ g.isAbilityUnlocked "speedBoost" = true →
        r.1.ai.isSpeedBoosted = true ∧
        r.1.ai.speedBoostTime = g.abilities.speedBoost.duration ∧
        r.1.ai.speed = g.ai.baseSpeed * g.abilities.speedBoost.multiplier) ∧
      (¬ (clock.updateAI - g.abilities.speedBoost.lastUsed ≥ g.abilities.speedBoost.cooldown
          ∧ g.speedBoostCountdown.ai.isSpeedBoosted = false ∧ g.distToPlayer M > 200
          ∧ g.isAbilityUnlocked "speedBoost" = true) →
        r.1.ai.isSpeedBoosted = g.speedBoostCountdown.ai.isSpeedBoosted ∧
        r.1.ai.speedBoostTime = g.speedBoostCountdown.ai.speedBoostTime ∧
        r.1.ai.speed = g.speedBoostCountdown.ai.speed)) := by
  obtain ⟨outputs, o0, o1, o2, o3, -, -, -, -, -, hr⟩ := updateAI_some M h
  have hbody := sameBody_trainPeriodically M hr
  have hai : r.1.ai = (g.speedBoostCountdown.act M (g.decision clock.updateAI o0 o1 o2 o3)
      clock rng).1.ai := hbody.ai
  obtain ⟨k1, k2⟩ := act_speedBoost M g.speedBoostCountdown
    (g.decision clock.updateAI o0 o1 o2 o3) clock rng
  obtain ⟨t, b, s, hc⟩ := speedBoostCountdown_eq g
  have c1 : g.speedBoostCountdown.ai.isDashWindup = g.ai.isDashWindup := by rw [hc]; rfl
  have c2 : g.speedBoostCountdown.ai.isDashing = g.ai.isDashing := by rw [hc]; rfl
  have c3 : g.speedBoostCountdown.abilities = g.abilities := by rw [hc]; rfl
  have c4 : g.speedBoostCountdown.ai.baseSpeed = g.ai.baseSpeed := by rw [hc]; rfl
  have c5 : g.speedBoostCountdown.distToPlayer M = g.distToPlayer M := by rw [hc]; rfl
  have c6 : g.speedBoostCountdown.isAbilityUnlocked "speedBoost"
      = g.isAbilityUnlocked "speedBoost" := by rw [hc]; rfl
  have hf : g.speedBoostCountdown.firesSpeedBoost M (g.decision clock.updateAI o0 o1 o2 o3)
      = true ↔
      (clock.updateAI - g.abilities.speedBoost.lastUsed ≥ g.abilities.speedBoost.cooldown
        ∧ g.speedBoostCountdown.ai.isSpeedBoosted = false ∧ g.distToPlayer M > 200
        ∧ g.isAbilityUnlocked "speedBoost" = true) := by
    unfold Game.firesSpeedBoost
    rw [c5, c6]
    simp only [Game.decision, readyAt, Bool.and_eq_true, decide_eq_true_eq,
      Bool.not_eq_true', and_assoc]
  rw [hai]
  refine ⟨fun hm => k1 (by rw [c1, c2]; exact hm), fun hw hd => ?_⟩
  obtain ⟨p1, p2⟩ := k2 (c1.trans hw) (c2.trans hd)
  refine ⟨fun ht => ?_, fun hn => ?_⟩
  · have := p1 (hf.mpr ht)
    rw [c3, c4] at this
    exact this
  · apply p2
    cases hv : g.speedBoostCountdown.firesSpeedBoost M
      (g.decision clock.updateAI o0 o1 o2 o3) with
    | false => rfl
    | true => exact absurd (hf.mp hv) hn

/-- C28, amended. The speed-boost countdown runs on every tick in every mode: while the boost
is active its timer loses 16, and when the timer reaches `<= 0` the boost ends and the speed is
`baseSpeed` again. The boost trigger, however, is a statement of the normal branch: on a tick
that begins in dash windup or dashing the boost is never started, whatever the readiness, the
unlock and the distance; on a tick that runs the normal branch (a beam windup included) the
boost starts exactly when it is ready, unlocked, not active after the countdown and the
distance to the player exceeds 200, and then `isSpeedBoosted` is true, the timer is `duration`
(3000) and the speed is `baseSpeed * multiplier` (multiplier 2). -/
theorem speed_boost_by_mode (M : JsMath α) {g : Game α} {clock : Clock α} {rng : Rng α}
    {r : Game α × Rng α} (h : g.updateAI M clock rng = some r) :
    (g.ai.isSpeedBoosted = true →
      g.speedBoostCountdown.ai.speedBoostTime = g.ai.speedBoostTime - 16 ∧
      (g.ai.speedBoostTime - 16 ≤ 0 →
        g.speedBoostCountdown.ai.isSpeedBoosted = false ∧
        g.speedBoostCountdown.ai.speed = g.ai.baseSpeed) ∧
      (0 < g.ai.speedBoostTime - 16 →
        g.speedBoostCountdown.ai.isSpeedBoosted = true ∧
        g.speedBoostCountdown.ai.speed = g.ai.speed)) ∧
    (g.ai.isSpeedBoosted = false → g.speedBoostCountdown = g) ∧
    (g.ai.isDashWindup = true ∨ g.ai.isDashing = true →
      r.1.ai.isSpeedBoosted = g.speedBoostCountdown.ai.isSpeedBoosted ∧
      r.1.ai.speedBoostTime = g.speedBoostCountdown.ai.speedBoostTime ∧
      r.1.ai.speed = g.speedBoostCountdown.ai.speed) ∧
    (g.ai.isDashWindup = false → g.ai.isDashing = false →
      (clock.updateAI - g.abilities.speedBoost.lastUsed ≥ g.abilities.speedBoost.cooldown
          ∧ g.speedBoostCountdown.ai.isSpeedBoosted = false ∧ g.distToPlayer M > 200
          ∧ g.isAbilityUnlocked "speedBoost" = true →
        r.1.ai.isSpeedBoosted = true ∧
        r.1.ai.speedBoostTime = g.abilities.speedBoost.duration ∧
        r.1.ai.speed = g.ai.baseSpeed * g.abilities.speedBoost.multiplier) ∧
      (¬ (clock.updateAI - g.abilities.speedBoost.lastUsed ≥ g.abilities.speedBoost.cooldown
          ∧ g.speedBoostCountdown.ai.isSpeedBoosted = false ∧ g.distToPlayer M > 200
          ∧ g.isAbilityUnlocked "speedBoost" = true) →
        r.1.ai.isSpeedBoosted = g.speedBoostCountdown.ai.isSpeedBoosted ∧
        r.1.ai.speedBoostTime = g.speedBoostCountdown.ai.speedBoostTime ∧
        r.1.ai.speed = g.speedBoostCountdown.ai.speed)) := by
  obtain ⟨k1, k2⟩ := updateAI_speedBoost M h
  refine ⟨fun hb => ?_, fun hb => speedBoostCountdown_off hb, k1, k2⟩
  unfold Game.speedBoostCountdown
  rw [if_pos hb]
  refine ⟨by split <;> rfl, fun he => ?_, fun hp => ?_⟩
  · rw [if_pos he]; exact ⟨rfl, rfl⟩
  · rw [if_neg (not_le.mpr hp)]; exact ⟨hb, rfl⟩

theorem boost_conditions (M : JsMath α) (hM : M.HypotIsNorm) (g : Game α)
    (hab : g.abilities = Abilities.initial) (hs : g.score = 13) (hT : g.timerMaxDuration = 30)
    (hb : g.ai.isSpeedBoosted = false) (hpx : g.player.x = 100) (hpy : g.player.y = 500)
    (hax : g.ai.x = 700) (hay : g.ai.y = 100) :
    (Clock.at (1000000 : α)).updateAI - g.abilities.speedBoost.lastUsed
        ≥ g.abilities.speedBoost.cooldown
      ∧ g.speedBoostCountdown.ai.isSpeedBoosted = false ∧ g.distToPlayer M > 200
      ∧ g.isAbilityUnlocked "speedBoost" = true := by
  refine ⟨?_, ?_, ?_, ?_⟩
  · rw [hab]; norm_num [Abilities.initial, Clock.at]
  · rw [speedBoostCountdown_off hb]; exact hb
  · unfold Game.distToPlayer
    rw [hpx, hpy, hax, hay]
    exact hypot_gt hM (by norm_num) (by norm_num)
  · simp only [Game.isAbilityUnlocked, unlockMap, List.lookup, hs, hT]
    simp
    norm_num
/-- Witness of C28: in normal mode, with the boost ready and unlocked and the player more than
200 away, the tick starts the boost: speed 2.25 for 3000 ms. -/
theorem speed_boost_by_mode_witness :
    ∃ r, (boostReadyGame ℝ).updateAI realMath (Clock.at 1000000) (halfRng ℝ) = some r ∧
      r.1.ai.isSpeedBoosted = true ∧ r.1.ai.speedBoostTime = 3000 ∧ r.1.ai.speed = 2.25 := by
  obtain ⟨r, -, -, -, -, hr, -⟩ := updateAI_wf realMath
    (g := boostReadyGame ℝ)
    ⟨wellShaped_zeroNet, rfl, rfl, fun _ h => absurd h (List.not_mem_nil _)⟩
    (Clock.at 1000000) (halfRng ℝ)
  have hc := boost_conditions realMath hypotIsNorm_realMath (boostReadyGame ℝ) rfl rfl rfl rfl
    rfl (by simp only [boostReadyGame, arena, Game.new]; norm_num)
    (by simp only [boostReadyGame, arena, Game.new]; norm_num) rfl
  obtain ⟨e1, e2, e3⟩ := ((speed_boost_by_mode realMath hr).2.2.2 rfl rfl).1 hc
  refine ⟨r, hr, e1, e2, ?_⟩
  rw [e3]
  simp only [boostReadyGame, arena, Game.new, Abilities.initial]
  norm_num

/-- Counterexample to C28 as stated: in the middle of a dash windup the boost is ready,
unlocked, not active and the player is more than 200 away, yet the tick does not start it. -/
theorem speed_boost_blocked_counterexample :
    ∃ r, (dashMidWindupGame ℝ).updateAI realMath (Clock.at 1000000) (halfRng ℝ) = some r ∧
      (dashMidWindupGame ℝ).ai.isDashWindup = true ∧
      (Clock.at (1000000 : ℝ)).updateAI - (dashMidWindupGame ℝ).abilities.speedBoost.lastUsed
        ≥ (dashMidWindupGame ℝ).abilities.speedBoost.cooldown ∧
      (dashMidWindupGame ℝ).ai.isSpeedBoosted = false ∧
      (dashMidWindupGame ℝ).distToPlayer realMath > 200 ∧
      (dashMidWindupGame ℝ).isAbilityUnlocked "speedBoost" = true ∧
      r.1.ai.isSpeedBoosted = false ∧ r.1.ai.speed = (dashMidWindupGame ℝ).ai.baseSpeed := by
  obtain ⟨r, -, -, -, -, hr, -⟩ := updateAI_wf realMath
    (g := dashMidWindupGame ℝ)
    ⟨wellShaped_zeroNet, rfl, rfl, fun _ h => absurd h (List.not_mem_nil _)⟩
    (Clock.at 1000000) (halfRng ℝ)
  obtain ⟨c1, -, c3, c4⟩ := boost_conditions realMath hypotIsNorm_realMath
    (dashMidWindupGame ℝ) rfl rfl rfl rfl
    rfl (by simp only [dashMidWindupGame, arena, Game.new]; norm_num)
    (by simp only [dashMidWindupGame, arena, Game.new]; norm_num) rfl
  obtain ⟨e1, -, e3⟩ := (updateAI_speedBoost realMath hr).1 (Or.inl rfl)
  rw [speedBoostCountdown_off (by rfl)] at e1 e3
  exact ⟨r, hr, rfl, c1, rfl, c3, c4, e1, e3⟩

/-! ## The random stream does not reach the results of train -/

theorem allSome_some {β : Type} {l : List (Option β)} {m : List β} (h : allSome l = some m) :
    m.length = l.length ∧ ∀ x ∈ m, some x ∈ l := by
  induction l generalizing m with
  | nil =>
    simp only [allSome, Option.some.injEq] at h
    subst h
    simp
  | cons a l ih =>
    cases a with
    | none => simp [allSome] at h
    | some v =>
      simp only [allSome, Option.map_eq_some'] at h
      obtain ⟨m', hm', rfl⟩ := h
      obtain ⟨h1, h2⟩ := ih hm'
      refine ⟨by simp [h1], ?_⟩
      intro x hx
      rcases List.mem_cons.mp hx with rfl | hx
      · exact List.mem_cons_self _ _
      · exact List.mem_cons_of_mem _ (h2 x hx)

theorem hasShape_buildMat {rows cols : Nat} {f : Nat → Nat → Option α} {m : Mat α}
    (h : buildMat rows cols f = some m) : HasShape m rows cols := by
  unfold buildMat at h
  obtain ⟨h1, h2⟩ := allSome_some h
  refine ⟨by simpa using h1, ?_⟩
  intro row hrow
  obtain ⟨i, -, hi⟩ := List.mem_map.mp (h2 row hrow)
  simpa using (allSome_some hi).1

theorem hasShape_matrixMultiply {a b m : Mat α} (h : matrixMultiply a b = some m) :
    ∃ c, HasShape m a.length c := by
  cases b with
  | nil => simp [matrixMultiply] at h
  | cons b0 brest =>
    cases a with
    | nil =>
      simp only [matrixMultiply, Option.some.injEq] at h
      subst h
      exact ⟨0, rfl, fun row hrow => absurd hrow (List.not_mem_nil _)⟩
    | cons a0 arest => exact ⟨b0.length, hasShape_buildMat h⟩

theorem hasShape_updateInPlace {a m : Mat α} {r c : Nat} (ha : HasShape a r c)
    {f : Nat → Nat → α → Option α} (h : updateInPlace a f = some m) : HasShape m r c := by
  cases a with
  | nil =>
    simp only [updateInPlace, Option.some.injEq] at h
    subst h
    exact ha
  | cons a0 arest =>
    have ha0 := hasShape_cons ha
    simp only [updateInPlace] at h
    obtain ⟨h1, h2⟩ := allSome_some h
    refine ⟨by rw [h1, List.length_map, List.length_range]; exact ha.1, ?_⟩
    intro row hrow
    obtain ⟨i, -, hi⟩ := List.mem_map.mp (h2 row hrow)
    obtain ⟨arow, harow, hi⟩ := Option.bind_eq_some.mp hi
    obtain ⟨upd, hupd, hrow'⟩ := Option.map_eq_some'.mp hi
    have hlen : arow.length = c := ha.2 _ (List.mem_iff_getElem?.mpr ⟨i, harow⟩)
    have hul := (allSome_some hupd).1
    rw [List.length_map, List.length_range, ha0.1] at hul
    rw [← hrow', List.length_append, List.length_drop, hul, hlen, ha0.1]
    omega

theorem hasShape_matrixMap {m : Mat α} {r c : Nat} (hm : HasShape m r c) (fn : α → α) :
    HasShape (matrixMap m fn) r c := by
  refine ⟨by simp [matrixMap, hm.1], ?_⟩
  intro row hrow
  obtain ⟨row', hrow', rfl⟩ := List.mem_map.mp hrow
  simp [hm.2 _ hrow']

/-- Whatever the network, the two columns that forward propagation returns are rectangular. -/
theorem hasShape_forward {M : JsMath α} {nn : NeuralNetwork α} {inputs hidden outputs : Mat α}
    (h : nn.forward M inputs = some (hidden, outputs)) :
    (∃ c, HasShape hidden nn.weightsIH.length c) ∧ ∃ c, HasShape outputs nn.weightsHO.length c := by
  simp only [NeuralNetwork.forward, bind, pure, Option.bind_eq_some, Option.some.injEq,
    Prod.mk.injEq] at h
  obtain ⟨h1, hm1, h2, ha1, o1, hm2, o2, ha2, rfl, rfl⟩ := h
  obtain ⟨c1, hc1⟩ := hasShape_matrixMultiply hm1
  obtain ⟨c2, hc2⟩ := hasShape_matrixMultiply hm2
  exact ⟨⟨c1, hasShape_matrixMap (hasShape_updateInPlace hc1 ha1) _⟩,
    ⟨c2, hasShape_matrixMap (hasShape_updateInPlace hc2 ha2) _⟩⟩

/-- Assigning every entry of a scratch matrix from `createMatrix` leaves nothing of its
random fill. -/
theorem overwriteAll_createMatrix (rows cols : Nat) (rng : Rng α) (f : Nat → Nat → Option α) :
    overwriteAll (createMatrix rows cols none rng).1 f = buildMat rows cols f := by
  have hs := hasShape_createMatrix rows cols none rng
  unfold overwriteAll buildMat
  rw [hs.1]
  congr 1
  apply List.map_congr_left
  intro i hi
  have hlt : i < (createMatrix rows cols none rng).1.length := by
    rw [hs.1]; exact List.mem_range.mp hi
  rw [List.getElem?_eq_getElem hlt]
  simp only [Option.some_bind, hs.2 _ (List.getElem_mem _)]

theorem matrixSubtract_stream (a b : Mat α) :
    ∃ (core : Option (Mat α)) (σ : Rng α → Rng α),
      ∀ rng, matrixSubtract a b rng = core.map fun m => (m, σ rng) := by
  cases a with
  | nil => exact ⟨none, id, fun _ => rfl⟩
  | cons a0 rest =>
    refine ⟨buildMat (a0 :: rest).length a0.length fun i j =>
      (entry (a0 :: rest) i j).bind fun x => (entry b i j).map fun y => x - y,
      fun rng => rng.skip ((a0 :: rest).length * a0.length), fun rng => ?_⟩
    simp only [matrixSubtract, overwriteAll_createMatrix]
    rfl

theorem matrixTranspose_stream (m : Mat α) :
    ∃ (core : Option (Mat α)) (σ : Rng α → Rng α),
      ∀ rng, matrixTranspose m rng = core.map fun t => (t, σ rng) := by
  cases m with
  | nil => exact ⟨none, id, fun _ => rfl⟩
  | cons m0 rest =>
    refine ⟨buildMat m0.length (m0 :: rest).length fun j i => entry (m0 :: rest) i j,
      fun rng => rng.skip (m0.length * (m0 :: rest).length), fun rng => ?_⟩
    simp only [matrixTranspose, overwriteAll_createMatrix]
    rfl

theorem matrixMapNew_stream {m : Mat α} {r c : Nat} (hm : HasShape m r c) (fn : α → α) :
    ∃ (core : Option (Mat α)) (σ : Rng α → Rng α),
      ∀ rng, matrixMapNew m fn rng = core.map fun t => (t, σ rng) := by
  cases m with
  | nil => exact ⟨none, id, fun _ => rfl⟩
  | cons m0 rest =>
    have hr : 0 < r := by rw [← hm.1]; exact Nat.succ_pos _
    exact ⟨some (tabulate r c fun i j => fn (entryD (m0 :: rest) i j)),
      fun rng => rng.skip (r * c), fun rng => matrixMapNew_eq hm hr fn rng⟩

/-- The output-layer half of `train` reads the random stream only to pass it on. -/
theorem trainOutput_stream (nn : NeuralNetwork α) (hidden targets : Mat α) {outputs : Mat α}
    {r c : Nat} (ho : HasShape outputs r c) :
    ∃ (core : Option (OutputStage α)) (σ : Rng α → Rng α),
      ∀ rng, nn.trainOutput hidden outputs targets rng =
        core.map fun s => { s with rng := σ rng } := by
  obtain ⟨c1, σ1, h1⟩ := matrixSubtract_stream targets outputs
  obtain ⟨c2, σ2, h2⟩ := matrixMapNew_stream ho sigmoidDerivative
  obtain ⟨c3, σ3, h3⟩ := matrixTranspose_stream hidden
  refine ⟨c1.bind fun outputErrors => c2.bind fun gradients =>
      (matrixMultiplyElement gradients outputErrors).bind fun gradients1 =>
      (matrixMultiplyScalar gradients1 nn.learningRate).bind fun gradients2 =>
      c3.bind fun hiddenT =>
      (matrixMultiply gradients2 hiddenT).bind fun weightsHODeltas =>
      (momentumDeltas nn.weightsHO weightsHODeltas nn.prevWeightsHO nn.momentum).bind
        fun deltasHO =>
      (matrixAdd nn.biasO gradients2).map fun biasO =>
        { outputErrors := outputErrors, gradients := gradients2,
          weightsHODeltas := weightsHODeltas,
          weightsHO := applyDeltas nn.weightsHO deltasHO,
          prevWeightsHO := storeDeltas nn.prevWeightsHO deltasHO,
          biasO := biasO, rng := fun _ => 0 },
    fun rng => σ3 (σ2 (σ1 rng)), fun rng => ?_⟩
  simp only [NeuralNetwork.trainOutput, h1, h2, h3, bind, pure]
  cases c1 with
  | none => rfl
  | some outputErrors =>
  cases c2 with
  | none => rfl
  | some gradients =>
  simp only [Option.map_some', Option.some_bind]
  cases matrixMultiplyElement gradients outputErrors with
  | none => rfl
  | some gradients1 =>
  simp only [Option.some_bind]
  cases matrixMultiplyScalar gradients1 nn.learningRate with
  | none => rfl
  | some gradients2 =>
  simp only [Option.some_bind]
  cases c3 with
  | none => rfl
  | some hiddenT =>
  simp only [Option.map_some', Option.some_bind]
  cases matrixMultiply gradients2 hiddenT with
  | none => rfl
  | some weightsHODeltas =>
  simp only [Option.some_bind]
  cases momentumDeltas nn.weightsHO weightsHODeltas nn.prevWeightsHO nn.momentum with
  | none => rfl
  | some deltasHO =>
  simp only [Option.some_bind]
  cases matrixAdd nn.biasO gradients2 with
  | none => rfl
  | some biasO => rfl

/-- The hidden-layer half of `train` reads the random stream only to pass it on. -/
theorem trainHidden_stream (nn : NeuralNetwork α) (inputs weightsHO outputErrors : Mat α)
    {hidden : Mat α} {r c : Nat} (hh : HasShape hidden r c) :
    ∃ (core : Option (HiddenStage α)) (σ : Rng α → Rng α),
      ∀ rng, nn.trainHidden inputs hidden weightsHO outputErrors rng =
        core.map fun s => { s with rng := σ rng } := by
  obtain ⟨c1, σ1, h1⟩ := matrixTranspose_stream weightsHO
  obtain ⟨c2, σ2, h2⟩ := matrixMapNew_stream hh sigmoidDerivative
  obtain ⟨c3, σ3, h3⟩ := matrixTranspose_stream inputs
  refine ⟨c1.bind fun weightsHOT =>
      (matrixMultiply weightsHOT outputErrors).bind fun hiddenErrors =>
      c2.bind fun hiddenGradient =>
      (matrixMultiplyElement hiddenGradient hiddenErrors).bind fun hiddenGradient1 =>
      (matrixMultiplyScalar hiddenGradient1 nn.learningRate).bind fun hiddenGradient2 =>
      c3.bind fun inputsT =>
      (matrixMultiply hiddenGradient2 inputsT).bind fun weightsIHDeltas =>
      (momentumDeltas nn.weightsIH weightsIHDeltas nn.prevWeightsIH nn.momentum).bind
        fun deltasIH =>
      (matrixAdd nn.biasH hiddenGradient2).map fun biasH =>
        { weightsHOT := weightsHOT, hiddenErrors := hiddenErrors,
          hiddenGradient := hiddenGradient2, weightsIHDeltas := weightsIHDeltas,
          weightsIH := applyDeltas nn.weightsIH deltasIH,
          prevWeightsIH := storeDeltas nn.prevWeightsIH deltasIH,
          biasH := biasH, rng := fun _ => 0 },
    fun rng => σ3 (σ2 (σ1 rng)), fun rng => ?_⟩
  simp only [NeuralNetwork.trainHidden, h1, h2, h3, bind, pure]
  cases c1 with
  | none => rfl
  | some weightsHOT =>
  simp only [Option.map_some', Option.some_bind]
  cases matrixMultiply weightsHOT outputErrors with
  | none => rfl
  | some hiddenErrors =>
  simp only [Option.some_bind]
  cases c2 with
  | none => rfl
  | some hiddenGradient =>
  simp only [Option.map_some', Option.some_bind]
  cases matrixMultiplyElement hiddenGradient hiddenErrors with
  | none => rfl
  | some hiddenGradient1 =>
  simp only [Option.some_bind]
  cases matrixMultiplyScalar hiddenGradient1 nn.learningRate with
  | none => rfl
  | some hiddenGradient2 =>
  simp only [Option.some_bind]
  cases c3 with
  | none => rfl
  | some inputsT =>
  simp only [Option.map_some', Option.some_bind]
  cases matrixMultiply hiddenGradient2 inputsT with
  | none => rfl
  | some weightsIHDeltas =>
  simp only [Option.some_bind]
  cases momentumDeltas nn.weightsIH weightsIHDeltas nn.prevWeightsIH nn.momentum with
  | none => rfl
  | some deltasIH =>
  simp only [Option.some_bind]
  cases matrixAdd nn.biasH hiddenGradient2 with
  | none => rfl
  | some biasH => rfl

/-- The network that `train` leaves and the error it returns are the same for every random
stream, and so is whether it returns at all. -/
theorem trainTrace_stream (M : JsMath α) (nn : NeuralNetwork α)
    (inputArray targetArray : List α) :
    ∃ core : Option (NeuralNetwork α × α),
      ∀ rng, (nn.trainTrace M inputArray targetArray rng).map (fun t => (t.nn, t.error)) =
        core := by
  cases hf : nn.forward M (arrayToMatrix inputArray) with
  | none =>
    refine ⟨none, fun rng => ?_⟩
    simp only [NeuralNetwork.trainTrace, hf, bind, Option.none_bind, Option.map_none']
  | some fwd =>
    obtain ⟨hidden, outputs⟩ := fwd
    obtain ⟨⟨ch, hh⟩, ⟨co, ho⟩⟩ := hasShape_forward hf
    obtain ⟨cO, σO, hO⟩ := trainOutput_stream nn hidden (arrayToMatrix targetArray) ho
    cases cO with
    | none =>
      refine ⟨none, fun rng => ?_⟩
      simp only [NeuralNetwork.trainTrace, hf, hO, bind, Option.some_bind, Option.map_none',
        Option.none_bind]
    | some out =>
      obtain ⟨cH, σH, hH⟩ := trainHidden_stream nn (arrayToMatrix inputArray) out.weightsHO
        out.outputErrors hh
      cases cH with
      | none =>
        refine ⟨none, fun rng => ?_⟩
        simp only [NeuralNetwork.trainTrace, hf, hO, hH, bind, Option.some_bind,
          Option.map_some', Option.map_none', Option.none_bind]
      | some hid =>
        cases he : meanAbsError out.outputErrors with
        | none =>
          refine ⟨none, fun rng => ?_⟩
          simp only [NeuralNetwork.trainTrace, hf, hO, hH, he, bind, Option.some_bind,
            Option.map_some', Option.map_none', Option.none_bind]
        | some error =>
          refine ⟨some ({ nn with
              weightsIH := hid.weightsIH, weightsHO := out.weightsHO,
              biasH := hid.biasH, biasO := out.biasO,
              prevWeightsIH := hid.prevWeightsIH,
              prevWeightsHO := out.prevWeightsHO }, error), fun rng => ?_⟩
          simp only [NeuralNetwork.trainTrace, hf, hO, hH, he, bind, pure, Option.some_bind,
            Option.map_some']
/-! ## C29: train does not depend on the random stream -/

/-- C29. `train` is deterministic given the weights: for every network state, input and target
and any two random streams, `train` returns under one stream exactly when it returns under the
other, and then the network it leaves (weights, biases, previous-delta matrices) and the error
it returns are equal, so the random fill of the scratch matrices of `matrixSubtract`,
`matrixTranspose` and `matrixMap` never reaches a result.  On a well-shaped network with an
input and a target of the right lengths the call does return. -/
theorem train_ignores_random_stream (M : JsMath α) (nn : NeuralNetwork α)
    (inputArray targetArray : List α) (rng rng' : Rng α) :
    (nn.train M inputArray targetArray rng).map (fun r => (r.1, r.2.1)) =
        (nn.train M inputArray targetArray rng').map (fun r => (r.1, r.2.1)) ∧
      (nn.WellShaped → 0 < nn.outputSize → inputArray.length = nn.inputSize →
        targetArray.length = nn.outputSize →
        (nn.train M inputArray targetArray rng).isSome = true) := by
  obtain ⟨core, h⟩ := trainTrace_stream M nn inputArray targetArray
  constructor
  · simp only [NeuralNetwork.train, Option.map_map, Function.comp_def]
    exact (h rng).trans (h rng').symm
  · intro hnn ho hlen htlen
    rw [train_eq M hnn ho hlen htlen rng]
    rfl

/-- Training the trigger network on one sample under the stream of halves and under the stream
of 0.05 returns, and gives the same network and the same error. -/
theorem train_ignores_random_stream_witness :
    ((triggerNet ℝ).train realMath [1, 2, 3, 4, 5, 6, 7, 8] [1, 0, 1, 0] (halfRng ℝ)).map
        (fun r => (r.1, r.2.1)) =
      ((triggerNet ℝ).train realMath [1, 2, 3, 4, 5, 6, 7, 8] [1, 0, 1, 0] (lowRng ℝ)).map
        (fun r => (r.1, r.2.1)) ∧
    ((triggerNet ℝ).train realMath [1, 2, 3, 4, 5, 6, 7, 8] [1, 0, 1, 0]
      (halfRng ℝ)).isSome = true :=
  ⟨(train_ignores_random_stream realMath (triggerNet ℝ) [1, 2, 3, 4, 5, 6, 7, 8] [1, 0, 1, 0]
      (halfRng ℝ) (lowRng ℝ)).1,
   (train_ignores_random_stream realMath (triggerNet ℝ) [1, 2, 3, 4, 5, 6, 7, 8] [1, 0, 1, 0]
      (halfRng ℝ) (lowRng ℝ)).2 wellShaped_triggerNet (by decide) (by rfl) (by rfl)⟩

/-! ## C30: the AI stays inside the arena -/

theorem moveAi_bounds (g : Game α) (hw : 2 * g.ai.radius ≤ g.canvasWidth)
    (hh : 2 * g.ai.radius ≤ g.canvasHeight) :
    g.ai.radius ≤ g.moveAi.ai.x ∧ g.moveAi.ai.x ≤ g.canvasWidth - g.ai.radius ∧
      g.ai.radius ≤ g.moveAi.ai.y ∧ g.moveAi.ai.y ≤ g.canvasHeight - g.ai.radius := by
  have h1 : g.ai.radius ≤ g.canvasWidth - g.ai.radius := by linarith
  have h2 : g.ai.radius ≤ g.canvasHeight - g.ai.radius := by linarith
  refine ⟨le_max_left _ _, max_le h1 (min_le_left _ _), le_max_left _ _,
    max_le h2 (min_le_left _ _)⟩

theorem act_bounds (M : JsMath α) (g : Game α) (d : Decision α) (clock : Clock α) (rng : Rng α)
    (hw : 2 * g.ai.radius ≤ g.canvasWidth) (hh : 2 * g.ai.radius ≤ g.canvasHeight) :
    g.ai.radius ≤ (g.act M d clock rng).1.ai.x ∧
      (g.act M d clock rng).1.ai.x ≤ g.canvasWidth - g.ai.radius ∧
      g.ai.radius ≤ (g.act M d clock rng).1.ai.y ∧
      (g.act M d clock rng).1.ai.y ≤ g.canvasHeight - g.ai.radius := by
  have hs := (sameWorld_beamWindupStep M g rng).thenWorld
    (sameWorld_dashOrNormalStep M (g.beamWindupStep M rng).1 d clock (g.beamWindupStep M rng).2)
  have hb := moveAi_bounds
    ((g.beamWindupStep M rng).1.dashOrNormalStep M d clock (g.beamWindupStep M rng).2).1
    (by rw [hs.radius, hs.canvasWidth]; exact hw) (by rw [hs.radius, hs.canvasHeight]; exact hh)
  rw [hs.radius, hs.canvasWidth, hs.canvasHeight] at hb
  exact hb

/-- C30. The AI stays inside the arena: from every state whose canvas is at least `2 * ai.radius`
wide and high, whatever the network outputs, the mode and the dash target, every result of
`updateAI` has `radius <= ai.x <= width - radius` and `radius <= ai.y <= height - radius`
(radius and canvas are unchanged by the tick), also when a dash has just snapped the AI to a
target outside the canvas; and on a well-formed game `updateAI` does return. -/
theorem ai_stays_in_arena (M : JsMath α) (g : Game α) (clock : Clock α) (rng : Rng α)
    (hw : 2 * g.ai.radius ≤ g.canvasWidth) (hh : 2 * g.ai.radius ≤ g.canvasHeight) :
    (∀ r, g.updateAI M clock rng = some r →
      r.1.ai.radius = g.ai.radius ∧ r.1.canvasWidth = g.canvasWidth ∧
      r.1.canvasHeight = g.canvasHeight ∧
      r.1.ai.radius ≤ r.1.ai.x ∧ r.1.ai.x ≤ r.1.canvasWidth - r.1.ai.radius ∧
      r.1.ai.radius ≤ r.1.ai.y ∧ r.1.ai.y ≤ r.1.canvasHeight - r.1.ai.radius) ∧
    (g.WellFormed → (g.updateAI M clock rng).isSome = true) := by
  constructor
  · intro r h
    have hs := sameWorld_updateAI M h
    obtain ⟨d, hd⟩ := updateAI_body M h
    have h0 := sameWorld_speedBoostCountdown g
    have hb := act_bounds M g.speedBoostCountdown d clock rng
      (by rw [h0.radius, h0.canvasWidth]; exact hw)
      (by rw [h0.radius, h0.canvasHeight]; exact hh)
    rw [h0.radius, h0.canvasWidth, h0.canvasHeight, ← hd.ai] at hb
    rw [hs.radius, hs.canvasWidth, hs.canvasHeight]
    exact ⟨rfl, rfl, rfl, hb⟩
  · intro hg
    obtain ⟨r, -, -, -, -, hr, -⟩ := updateAI_wf M hg clock rng
    rw [hr]
    rfl

theorem wellFormed_dashSnapGame : (dashSnapGame α).WellFormed :=
  ⟨wellShaped_zeroNet, rfl, rfl, fun _ h => absurd h (List.not_mem_nil _)⟩

/-- The tick of `dashSnapGame` snaps the AI to (900, -50) and the bounds step brings it back to
the corner (785, 15). -/
theorem dashSnapGame_clamped (M : JsMath α) (clock : Clock α) (rng : Rng α)
    (r : Game α × Rng α) (h : (dashSnapGame α).updateAI M clock rng = some r) :
    r.1.ai.x = 785 ∧ r.1.ai.y = 15 ∧ r.1.ai.isDashing = false := by
  obtain ⟨d, hd⟩ := updateAI_body M h
  rw [hd.ai]
  have h0 : (dashSnapGame α).speedBoostCountdown = dashSnapGame α := by
    simp [Game.speedBoostCountdown, dashSnapGame, arena, Game.new]
  rw [h0]
  have h1 : ∀ rng0 : Rng α, (dashSnapGame α).beamWindupStep M rng0 = (dashSnapGame α, rng0) := by
    intro rng0
    simp [Game.beamWindupStep, dashSnapGame, arena, Game.new]
  have h2 : ∀ rng0 : Rng α, ((dashSnapGame α).dashOrNormalStep M d clock rng0).1.ai =
      { (dashSnapGame α).ai with x := 900, y := -50, isDashing := false, vx := 0, vy := 0 } := by
    intro rng0
    simp [Game.dashOrNormalStep, Game.dashingStep, dashSnapGame, arena, Game.new]
  have h3 : ∀ rng0 : Rng α, ((dashSnapGame α).dashOrNormalStep M d clock rng0).1.canvasWidth = 800
      ∧ ((dashSnapGame α).dashOrNormalStep M d clock rng0).1.canvasHeight = 600 := by
    intro rng0
    have := sameWorld_dashOrNormalStep M (dashSnapGame α) d clock rng0
    exact ⟨this.canvasWidth, this.canvasHeight⟩
  simp only [Game.act, h1, Game.moveAi, h2, (h3 _).1, (h3 _).2]
  refine ⟨?_, ?_, trivial⟩
  · show max (15 : α) (min (800 - 15) (900 + 0)) = 785
    rw [min_eq_left (by norm_num), max_eq_right (by norm_num)]
    norm_num
  · show max (15 : α) (min (600 - 15) (-50 + 0)) = 15
    rw [min_eq_right (by norm_num), max_eq_left (by norm_num)]

/-- The dash-snap tick: `updateAI` returns and leaves the AI inside the 800 x 600 arena. -/
theorem ai_stays_in_arena_witness :
    2 * (dashSnapGame ℝ).ai.radius ≤ (dashSnapGame ℝ).canvasWidth ∧
    2 * (dashSnapGame ℝ).ai.radius ≤ (dashSnapGame ℝ).canvasHeight ∧
    ∃ r, (dashSnapGame ℝ).updateAI realMath (Clock.at 1000000) (halfRng ℝ) = some r ∧
      r.1.ai.radius ≤ r.1.ai.x ∧ r.1.ai.x ≤ r.1.canvasWidth - r.1.ai.radius ∧
      r.1.ai.radius ≤ r.1.ai.y ∧ r.1.ai.y ≤ r.1.canvasHeight - r.1.ai.radius := by
  have hw : 2 * (dashSnapGame ℝ).ai.radius ≤ (dashSnapGame ℝ).canvasWidth := by
    show (2 : ℝ) * 15 ≤ 800
    norm_num
  have hh : 2 * (dashSnapGame ℝ).ai.radius ≤ (dashSnapGame ℝ).canvasHeight := by
    show (2 : ℝ) * 15 ≤ 600
    norm_num
  have T := ai_stays_in_arena realMath (dashSnapGame ℝ) (Clock.at 1000000) (halfRng ℝ) hw hh
  obtain ⟨r, hr⟩ := Option.isSome_iff_exists.mp (T.2 wellFormed_dashSnapGame)
  exact ⟨hw, hh, r, hr, (T.1 r hr).2.2.2⟩

/-! ## C10: repeated training on one sample -/

theorem wellShaped_symNet (s : SymState α) : (symNet s).WellShaped :=
  { inputPos := Nat.succ_pos _
    hiddenPos := Nat.succ_pos _
    weightsIH := hasShape_tabulate _ _ _
    weightsHO := hasShape_tabulate _ _ _
    biasH := hasShape_tabulate _ _ _
    biasO := hasShape_tabulate _ _ _
    prevWeightsIH := hasShape_tabulate _ _ _
    prevWeightsHO := hasShape_tabulate _ _ _ }

theorem hiddenOf_symNet (M : JsMath α) (x : α) (s : SymState α) :
    (symNet s).hiddenOf M (arrayToMatrix [x, 0, 0, 0, 0, 0, 0, 0]) =
      tabulate 16 1 fun _ _ => s.hidden M x := by
  unfold NeuralNetwork.hiddenOf
  apply tabulate_congr
  intro i j hi hj
  have hi' : i < 16 := hi
  have hj0 : j = 0 := by omega
  subst hj0
  unfold SymState.hidden
  congr 1
  simp [symNet, dotD, entryD_tabulate_ite, hi', entryD_arrayToMatrix, List.range_succ]

theorem dotD_const {a b : Mat α} {n i j : Nat} {c : α}
    (h : ∀ k, k < n → entryD a i k * entryD b k j = c) : dotD a b n i j = n * c := by
  unfold dotD
  rw [List.map_congr_left (g := fun _ => c) (fun k hk => h k (List.mem_range.mp hk))]
  rw [foldl_add_eq_sum]
  simp [List.map_const', List.sum_replicate]

theorem outputsOf_symNet (M : JsMath α) (x : α) (s : SymState α) :
    (symNet s).outputsOf M (arrayToMatrix [x, 0, 0, 0, 0, 0, 0, 0]) =
      tabulate 4 1 fun _ _ => s.output M x := by
  unfold NeuralNetwork.outputsOf
  rw [hiddenOf_symNet]
  apply tabulate_congr
  intro i j hi hj
  have hi' : i < 4 := hi
  have hj0 : j = 0 := by omega
  subst hj0
  unfold SymState.output
  congr 1
  rw [dotD_const (c := s.v * s.hidden M x)]
  · simp [symNet, entryD_tabulate_ite, hi']
  · intro k hk
    have hk' : k < 16 := hk
    simp [symNet, entryD_tabulate_ite, hi', hk']

theorem outOf_symNet (M : JsMath α) (x t : α) (s : SymState α) (rng : Rng α) :
    ((symNet s).outOf M [x, 0, 0, 0, 0, 0, 0, 0] [t, t, t, t] rng).outputErrors =
        (tabulate 4 1 fun _ _ => t - s.output M x) ∧
      ((symNet s).outOf M [x, 0, 0, 0, 0, 0, 0, 0] [t, t, t, t] rng).weightsHO =
        (tabulate 4 16 fun _ _ => s.v + s.deltaHO M x t) ∧
      ((symNet s).outOf M [x, 0, 0, 0, 0, 0, 0, 0] [t, t, t, t] rng).prevWeightsHO =
        (tabulate 4 16 fun _ _ => s.deltaHO M x t) ∧
      ((symNet s).outOf M [x, 0, 0, 0, 0, 0, 0, 0] [t, t, t, t] rng).biasO =
        (tabulate 4 1 fun _ _ => s.d + s.gradient M x t) := by
  have he : outputErrorsOf (arrayToMatrix [t, t, t, t]) (tabulate 4 1 fun _ _ => s.output M x) 4
      = tabulate 4 1 fun _ _ => t - s.output M x := by
    apply tabulate_congr
    intro i j hi hj
    have hj0 : j = 0 := by omega
    subst hj0
    rw [entryD_tabulate _ _ _ hi hj, entryD_arrayToMatrix]
    have : i = 0 ∨ i = 1 ∨ i = 2 ∨ i = 3 := by omega
    rcases this with rfl | rfl | rfl | rfl <;> rfl
  have hg : gradientOf (0.1 : α) (tabulate 4 1 fun _ _ => s.output M x)
      (tabulate 4 1 fun _ _ => t - s.output M x) 4 = tabulate 4 1 fun _ _ => s.gradient M x t := by
    apply tabulate_congr
    intro i j hi hj
    rw [entryD_tabulate _ _ _ hi hj, entryD_tabulate _ _ _ hi hj]
    rfl
  have hm : momentumOf (0.9 : α)
      (weightDeltasOf (tabulate 4 1 fun _ _ => s.gradient M x t)
        (tabulate 16 1 fun _ _ => s.hidden M x) 4 16)
      (tabulate 4 16 fun _ _ => s.pv) 4 16 = tabulate 4 16 fun _ _ => s.deltaHO M x t := by
    apply tabulate_congr
    intro i j hi hj
    unfold weightDeltasOf SymState.deltaHO
    rw [entryD_tabulate _ _ _ hi hj, entryD_tabulate _ _ _ hi hj,
      entryD_tabulate _ _ _ hi Nat.zero_lt_one, entryD_tabulate _ _ _ hj Nat.zero_lt_one]
    ring
  simp only [NeuralNetwork.outOf, NeuralNetwork.outputStageOf, hiddenOf_symNet,
    outputsOf_symNet]
  simp only [symNet, he, hg, hm]
  refine ⟨trivial, ?_, trivial, ?_⟩
  · apply tabulate_congr
    intro i j hi hj
    rw [entryD_tabulate _ _ _ hi hj, entryD_tabulate _ _ _ hi hj]
  · apply tabulate_congr
    intro i j hi hj
    rw [entryD_tabulate _ _ _ hi hj, entryD_tabulate _ _ _ hi hj]

theorem hidOf_symNet (M : JsMath α) (x t : α) (s : SymState α) (rng : Rng α) :
    ((symNet s).hidOf M [x, 0, 0, 0, 0, 0, 0, 0] [t, t, t, t] rng).weightsIH =
        (tabulate 16 8 fun _ j => if j = 0 then s.a + s.deltaIH M x t else 0) ∧
      ((symNet s).hidOf M [x, 0, 0, 0, 0, 0, 0, 0] [t, t, t, t] rng).prevWeightsIH =
        (tabulate 16 8 fun _ j => if j = 0 then s.deltaIH M x t else 0) ∧
      ((symNet s).hidOf M [x, 0, 0, 0, 0, 0, 0, 0] [t, t, t, t] rng).biasH =
        (tabulate 16 1 fun _ _ => s.c + s.hiddenGradient M x t) := by
  obtain ⟨h1, h2, -, -⟩ := outOf_symNet M x t s rng
  have he : mulOf (transposeOf (tabulate 4 16 fun _ _ => s.v + s.deltaHO M x t) 4 16)
      (tabulate 4 1 fun _ _ => t - s.output M x) 16 4 1
      = tabulate 16 1 fun _ _ => 4 * ((s.v + s.deltaHO M x t) * (t - s.output M x)) := by
    apply tabulate_congr
    intro i j hi hj
    have hj0 : j = 0 := by omega
    subst hj0
    rw [dotD_const (c := (s.v + s.deltaHO M x t) * (t - s.output M x))]
    · norm_num
    · intro k hk
      unfold transposeOf
      rw [entryD_tabulate _ _ _ hi hk, entryD_tabulate _ _ _ hk hi,
        entryD_tabulate _ _ _ hk hj]
  have hg : gradientOf (0.1 : α) (tabulate 16 1 fun _ _ => s.hidden M x)
      (tabulate 16 1 fun _ _ => 4 * ((s.v + s.deltaHO M x t) * (t - s.output M x))) 16
      = tabulate 16 1 fun _ _ => s.hiddenGradient M x t := by
    apply tabulate_congr
    intro i j hi hj
    rw [entryD_tabulate _ _ _ hi hj, entryD_tabulate _ _ _ hi hj]
    rfl
  have hm : momentumOf (0.9 : α)
      (weightDeltasOf (tabulate 16 1 fun _ _ => s.hiddenGradient M x t)
        (arrayToMatrix [x, 0, 0, 0, 0, 0, 0, 0]) 16 8)
      (tabulate 16 8 fun _ j => if j = 0 then s.pa else 0) 16 8
      = tabulate 16 8 fun _ j => if j = 0 then s.deltaIH M x t else 0 := by
    apply tabulate_congr
    intro i j hi hj
    unfold weightDeltasOf SymState.deltaIH
    rw [entryD_tabulate _ _ _ hi hj, entryD_tabulate _ _ _ hi hj,
      entryD_tabulate _ _ _ hi Nat.zero_lt_one, entryD_arrayToMatrix]
    have : j = 0 ∨ j = 1 ∨ j = 2 ∨ j = 3 ∨ j = 4 ∨ j = 5 ∨ j = 6 ∨ j = 7 := by omega
    rcases this with rfl | rfl | rfl | rfl | rfl | rfl | rfl | rfl <;> simp
  simp only [NeuralNetwork.hidOf, NeuralNetwork.hiddenStageOf, h1, h2, hiddenOf_symNet]
  simp only [symNet, he, hg, hm]
  refine ⟨?_, trivial, ?_⟩
  · apply tabulate_congr
    intro i j hi hj
    rw [entryD_tabulate _ _ _ hi hj, entryD_tabulate _ _ _ hi hj]
    split <;> simp
  · apply tabulate_congr
    intro i j hi hj
    rw [entryD_tabulate _ _ _ hi hj, entryD_tabulate _ _ _ hi hj]

/-- One call of `train` on a symmetric network: the network left is the symmetric network of
the stepped numbers, and the error returned is `|t - output|`. -/
theorem train_symNet (M : JsMath α) (x t : α) (s : SymState α) (rng : Rng α) :
    ∃ rng', (symNet s).train M [x, 0, 0, 0, 0, 0, 0, 0] [t, t, t, t] rng =
      some (symNet (s.step M x t), |t - s.output M x|, rng') := by
  refine ⟨((symNet s).hidOf M [x, 0, 0, 0, 0, 0, 0, 0] [t, t, t, t] rng).rng, ?_⟩
  have hlen : ([x, 0, 0, 0, 0, 0, 0, 0] : List α).length = (symNet s).inputSize := rfl
  have htlen : ([t, t, t, t] : List α).length = (symNet s).outputSize := rfl
  rw [train_eq M (wellShaped_symNet s) (Nat.succ_pos _) hlen htlen rng]
  obtain ⟨h1, h2, h3, h4⟩ := outOf_symNet M x t s rng
  obtain ⟨h5, h6, h7⟩ := hidOf_symNet M x t s rng
  have hn : (symNet s).trained M [x, 0, 0, 0, 0, 0, 0, 0] [t, t, t, t] rng =
      symNet (s.step M x t) := by
    simp only [NeuralNetwork.trained, h2, h3, h4, h5, h6, h7]
    rfl
  have he : (symNet s).trainError M [x, 0, 0, 0, 0, 0, 0, 0] [t, t, t, t] =
      |t - s.output M x| := by
    have h1' : outputErrorsOf (arrayToMatrix [t, t, t, t])
        ((symNet s).outputsOf M (arrayToMatrix [x, 0, 0, 0, 0, 0, 0, 0])) 4 =
        tabulate 4 1 fun _ _ => t - s.output M x := h1
    show meanAbsOf (outputErrorsOf (arrayToMatrix [t, t, t, t])
        ((symNet s).outputsOf M (arrayToMatrix [x, 0, 0, 0, 0, 0, 0, 0])) 4) 4 = _
    rw [h1', meanAbsOf_eq_sum]
    simp [entryD_tabulate_ite, List.range_succ]
    ring
  rw [hn, he]


theorem createMatrix_tabulate (rows cols : Nat) (rng : Rng α) :
    createMatrix rows cols none rng =
      (tabulate rows cols fun i j => (rng (i * cols + j) * 2 - 1) * 0.5,
        rng.skip (rows * cols)) := by
  simp [createMatrix, createRow, tabulate, Rng.skip]

/-- The constructor builds the symmetric network of `saturatingState` from `saturatingRng`. -/
theorem new_saturatingRng :
    (NeuralNetwork.new 8 16 4 (saturatingRng α)).1 = symNet (saturatingState α) := by
  have h1 : (tabulate 16 8 fun i j => (saturatingRng α (i * 8 + j) * 2 - 1) * 0.5)
      = tabulate 16 8 fun _ j => if j = 0 then (0 : α) else 0 := by
    apply tabulate_congr
    intro i j hi hj
    have : i * 8 + j < 128 := by omega
    simp only [saturatingRng, this, if_true, ite_self]
    norm_num
  have h2 : (tabulate 4 16 fun i j =>
      (((saturatingRng α).skip (16 * 8)) (i * 16 + j) * 2 - 1) * 0.5)
      = tabulate 4 16 fun _ _ => (7 / 16 : α) := by
    apply tabulate_congr
    intro i j hi hj
    have ha : ¬ (16 * 8 + (i * 16 + j) < 128) := by omega
    have hb : 16 * 8 + (i * 16 + j) < 192 := by omega
    simp only [Rng.skip, saturatingRng, ha, hb, if_true, if_false]
    norm_num
  have h3 : (tabulate 16 1 fun i j =>
      ((((saturatingRng α).skip (16 * 8)).skip (4 * 16)) (i * 1 + j) * 2 - 1) * 0.5)
      = tabulate 16 1 fun _ _ => (0 : α) := by
    apply tabulate_congr
    intro i j hi hj
    have ha : ¬ (16 * 8 + (4 * 16 + (i * 1 + j)) < 128) := by omega
    have hb : ¬ (16 * 8 + (4 * 16 + (i * 1 + j)) < 192) := by omega
    have hc : 16 * 8 + (4 * 16 + (i * 1 + j)) < 208 := by omega
    simp only [Rng.skip, saturatingRng, ha, hb, hc, if_true, if_false]
    norm_num
  have h4 : (tabulate 4 1 fun i j =>
      (((((saturatingRng α).skip (16 * 8)).skip (4 * 16)).skip (16 * 1)) (i * 1 + j) * 2 - 1)
        * 0.5)
      = tabulate 4 1 fun _ _ => (-(1 / 2) : α) := by
    apply tabulate_congr
    intro i j hi hj
    have ha : ¬ (16 * 8 + (4 * 16 + (16 * 1 + (i * 1 + j))) < 128) := by omega
    have hb : ¬ (16 * 8 + (4 * 16 + (16 * 1 + (i * 1 + j))) < 192) := by omega
    have hc : ¬ (16 * 8 + (4 * 16 + (16 * 1 + (i * 1 + j))) < 208) := by omega
    simp only [Rng.skip, saturatingRng, ha, hb, hc, if_false]
    norm_num
  simp only [NeuralNetwork.new, createMatrix_tabulate, createMatrix_fill, h1, h2, h3, h4]
  simp only [symNet, saturatingState, ite_self]

theorem saturatingRng_range (k : Nat) : 0 ≤ saturatingRng α k ∧ saturatingRng α k < 1 := by
  unfold saturatingRng
  split_ifs <;> constructor <;> norm_num

/-- Repeated training of a symmetric network follows the iterated step of its six numbers; the
`k`-th error returned is `|t - output|` of the numbers after `k` steps. -/
theorem trainRepeatedly_symNet (M : JsMath α) (x t : α) (n : Nat) :
    ∀ (s : SymState α) (rng : Rng α), ∃ rng',
      trainRepeatedly M [x, 0, 0, 0, 0, 0, 0, 0] [t, t, t, t] n (symNet s) rng =
        some (symNet (Nat.iterate (SymState.step M x t) n s),
          (List.range n).map (fun k => |t - (Nat.iterate (SymState.step M x t) k s).output M x|),
          rng') := by
  induction n with
  | zero => exact fun s rng => ⟨rng, rfl⟩
  | succ n ih =>
    intro s rng
    obtain ⟨r1, h1⟩ := train_symNet M x t s rng
    obtain ⟨r2, h2⟩ := ih (s.step M x t) r1
    refine ⟨r2, ?_⟩
    simp only [trainRepeatedly, h1, Option.some_bind, h2, Option.map_some']
    rw [List.range_succ_eq_map, List.map_cons, List.map_map]
    rfl


/-! ### The trajectory of the six numbers -/

theorem sigmoid_real_bounds (y : ℝ) : 0 < sigmoid realMath y ∧ sigmoid realMath y < 1 :=
  sigmoid_pos_lt_one realMath (fun u => Real.exp_pos u) y

theorem sigmoid_real_le_exp (y : ℝ) : sigmoid realMath y ≤ Real.exp y := by
  have h := Real.exp_pos (-y)
  show 1 / (1 + Real.exp (-y)) ≤ Real.exp y
  rw [div_le_iff₀ (by linarith)]
  have : Real.exp y * Real.exp (-y) = 1 := by rw [← Real.exp_add]; simp
  nlinarith [Real.exp_pos y]

theorem sigmoid_real_mono {y w : ℝ} (h : y ≤ w) : sigmoid realMath y ≤ sigmoid realMath w := by
  show 1 / (1 + Real.exp (-y)) ≤ 1 / (1 + Real.exp (-w))
  have h1 : Real.exp (-w) ≤ Real.exp (-y) := Real.exp_le_exp.mpr (by linarith)
  have h2 := Real.exp_pos (-w)
  exact div_le_div_of_nonneg_left (by norm_num) (by linarith) (by linarith)

theorem exp_neg_hundred : Real.exp (-100) ≤ 1 / 2 ^ 100 := by
  have h1 : (2 : ℝ) ≤ Real.exp 1 := by
    have := Real.add_one_le_exp (1 : ℝ)
    linarith
  have h2 : (2 : ℝ) ^ 100 ≤ Real.exp 100 := by
    have h3 : Real.exp 100 = Real.exp 1 ^ 100 := by
      rw [← Real.exp_nat_mul]
      norm_num
    rw [h3]
    exact pow_le_pow_left₀ (by norm_num) h1 100
  rw [Real.exp_neg, inv_eq_one_div]
  exact div_le_div_of_nonneg_left (by norm_num) (by positivity) h2

theorem sigmoid_three_real : (0.94 : ℝ) ≤ sigmoid realMath 3 := by
  have h1 : (2.7 : ℝ) ≤ Real.exp 1 := by
    have := Real.exp_one_gt_d9
    linarith
  have h2 : (19 : ℝ) ≤ Real.exp 3 := by
    have h3 : Real.exp 3 = Real.exp 1 ^ 3 := by
      rw [← Real.exp_nat_mul]
      norm_num
    rw [h3]
    calc (19 : ℝ) ≤ 2.7 ^ 3 := by norm_num
      _ ≤ Real.exp 1 ^ 3 := pow_le_pow_left₀ (by norm_num) h1 3
  have h4 : Real.exp (-3) ≤ 1 / 19 := by
    rw [Real.exp_neg, inv_eq_one_div]
    exact div_le_div_of_nonneg_left (by norm_num) (by norm_num) h2
  have hpos := Real.exp_pos (-3)
  show (0.94 : ℝ) ≤ 1 / (1 + Real.exp (-3))
  rw [le_div_iff₀ (by linarith)]
  nlinarith

theorem sigmoid_one_real : sigmoid realMath 1 < (0.8 : ℝ) := by
  have h1 : Real.exp 1 < 4 := by
    have := Real.exp_one_lt_d9
    linarith
  have h2 : 1 / 4 < Real.exp (-1) := by
    rw [Real.exp_neg, inv_eq_one_div]
    exact div_lt_div_of_pos_left (by norm_num) (Real.exp_pos 1) h1
  show 1 / (1 + Real.exp (-1)) < (0.8 : ℝ)
  rw [div_lt_iff₀ (by linarith)]
  nlinarith

theorem sigmoidDerivative_bounds {u : ℝ} (h0 : 0 < u) (h1 : u < 1) :
    0 < sigmoidDerivative u ∧ sigmoidDerivative u ≤ 1 / 4 ∧ sigmoidDerivative u ≤ u := by
  unfold sigmoidDerivative
  refine ⟨by nlinarith, by nlinarith [sq_nonneg (u - 1 / 2)], by nlinarith⟩

theorem gradient_abs_le (x : ℝ) (s : SymState ℝ) :
    |s.gradient realMath x 0.9| ≤ 1 / 40 := by
  obtain ⟨ho0, ho1⟩ := sigmoid_real_bounds (16 * (s.v * s.hidden realMath x) + s.d)
  obtain ⟨hd0, hd1, -⟩ := sigmoidDerivative_bounds ho0 ho1
  unfold SymState.gradient SymState.output
  rw [abs_le]
  constructor <;> nlinarith

/-- One call of `train` keeps a saturated hidden layer saturated. -/
theorem saturated_step {b : ℝ} {s : SymState ℝ} (hb0 : 0 ≤ b) (hb : b ≤ 48)
    (hs : s.Saturated b) : (s.step realMath 1000 0.9).Saturated (b + 1) := by
  obtain ⟨hz, hpa, hpv, hv, hd⟩ := hs
  have hg := gradient_abs_le 1000 s
  obtain ⟨hh0, hh1⟩ := sigmoid_real_bounds (s.a * 1000 + s.c)
  have hhe : s.hidden realMath 1000 ≤ 1 / 2 ^ 100 := by
    refine le_trans (sigmoid_real_le_exp _) (le_trans ?_ exp_neg_hundred)
    exact Real.exp_le_exp.mpr (by linarith)
  obtain ⟨ho0, ho1⟩ := sigmoid_real_bounds (16 * (s.v * s.hidden realMath 1000) + s.d)
  obtain ⟨hsd0, -, hsd1⟩ := sigmoidDerivative_bounds hh0 hh1
  have hgh : |s.gradient realMath 1000 0.9 * s.hidden realMath 1000|
      ≤ 1 / 40 := by
    rw [abs_mul, abs_of_pos (show 0 < s.hidden realMath 1000 from hh0)]
    have h1 : s.hidden realMath 1000 < 1 := hh1
    nlinarith [abs_nonneg (s.gradient realMath 1000 0.9)]
  have hdHO : |s.deltaHO realMath 1000 0.9| ≤ 1 / 4 := by
    unfold SymState.deltaHO
    rw [abs_le] at hgh hpv ⊢
    constructor <;> linarith [hgh.1, hgh.2, hpv.1, hpv.2]
  have hv' : |s.v + s.deltaHO realMath 1000 0.9| ≤ 14 := by
    rw [abs_le] at hv hdHO ⊢
    constructor <;> linarith [hv.1, hv.2, hdHO.1, hdHO.2]
  have he : |0.9 - s.output realMath 1000| ≤ 1 := by
    have h0 : 0 < s.output realMath 1000 := ho0
    have h1 : s.output realMath 1000 < 1 := ho1
    rw [abs_le]
    constructor <;> linarith
  have hve : |(s.v + s.deltaHO realMath 1000 0.9) * (0.9 - s.output realMath 1000)| ≤ 14 := by
    rw [abs_mul]
    calc |s.v + s.deltaHO realMath 1000 0.9| * |0.9 - s.output realMath 1000|
        ≤ 14 * 1 := mul_le_mul hv' he (abs_nonneg _) (by norm_num)
      _ = 14 := by norm_num
  have hG : |s.hiddenGradient realMath 1000 0.9| ≤ 56 / 10 * (1 / 2 ^ 100) := by
    have heq : s.hiddenGradient realMath 1000 0.9 =
        sigmoidDerivative (s.hidden realMath 1000) *
          (0.4 * ((s.v + s.deltaHO realMath 1000 0.9) * (0.9 - s.output realMath 1000))) := by
      unfold SymState.hiddenGradient
      ring
    rw [heq, abs_mul, abs_of_pos (show 0 < sigmoidDerivative (s.hidden realMath 1000) from hsd0),
      abs_mul, abs_of_pos (show (0 : ℝ) < 0.4 by norm_num)]
    have hsd : sigmoidDerivative (s.hidden realMath 1000) ≤ 1 / 2 ^ 100 := le_trans hsd1 hhe
    calc sigmoidDerivative (s.hidden realMath 1000) *
          (0.4 * |(s.v + s.deltaHO realMath 1000 0.9) * (0.9 - s.output realMath 1000)|)
        ≤ 1 / 2 ^ 100 * (0.4 * 14) :=
          mul_le_mul hsd (by linarith) (by positivity) (by positivity)
      _ = 56 / 10 * (1 / 2 ^ 100) := by norm_num
  rw [abs_le] at hG hdHO hv hg
  have hq : s.deltaIH realMath 1000 0.9 * 1000 ≤ 1 / 2 := by
    unfold SymState.deltaIH
    have : s.hiddenGradient realMath 1000 0.9 * 1000 * 1000 ≤ 1 / 20 := by
      have := hG.2
      norm_num at this ⊢
      linarith
    linarith
  refine ⟨?_, hq, abs_le.mpr hdHO, ?_, ?_⟩
  · show (s.a + s.deltaIH realMath 1000 0.9) * 1000 + (s.c + s.hiddenGradient realMath 1000 0.9)
      ≤ -1000 + (b + 1)
    have : s.hiddenGradient realMath 1000 0.9 ≤ 1 / 2 := by
      have := hG.2
      norm_num at this ⊢
      linarith
    linarith
  · show |s.v + s.deltaHO realMath 1000 0.9| ≤ 1 + (b + 1) / 4
    rw [abs_le]
    constructor <;> linarith [hv.1, hv.2, hdHO.1, hdHO.2]
  · show s.d + s.gradient realMath 1000 0.9 ≤ -(1 / 2) + 1 / 40 + (b + 1) / 40
    linarith [hg.2]

theorem saturatingState_output :
    (saturatingState ℝ).hidden realMath 1000 = 1 / 2 ∧
      (saturatingState ℝ).output realMath 1000 = sigmoid realMath 3 := by
  have h1 : (saturatingState ℝ).hidden realMath 1000 = 1 / 2 := by
    show sigmoid realMath ((0 : ℝ) * 1000 + 0) = 1 / 2
    rw [show ((0 : ℝ) * 1000 + 0) = 0 by norm_num]
    exact sigmoid_zero_real
  refine ⟨h1, ?_⟩
  unfold SymState.output
  rw [h1]
  congr 1
  show 16 * (7 / 16 * (1 / 2 : ℝ)) + -(1 / 2) = 3
  norm_num

/-- The first call of `train`: the returned error is below 0.1. -/
theorem first_error_lt :
    |0.9 - (saturatingState ℝ).output realMath 1000| < 0.1 := by
  rw [saturatingState_output.2]
  have h1 := sigmoid_three_real
  have h2 := (sigmoid_real_bounds 3).2
  rw [abs_lt]
  constructor <;> linarith

/-- The first call of `train` saturates the hidden layer. -/
theorem saturated_first : ((saturatingState ℝ).step realMath 1000 0.9).Saturated 0 := by
  obtain ⟨hh, ho⟩ := saturatingState_output
  have h1 := sigmoid_three_real
  obtain ⟨h2, h3⟩ := sigmoid_real_bounds 3
  obtain ⟨hd0, hd1, -⟩ := sigmoidDerivative_bounds h2 h3
  have hg := gradient_abs_le 1000 (saturatingState ℝ)
  rw [abs_le] at hg
  have hg0 : (saturatingState ℝ).gradient realMath 1000 0.9 ≤ 0 := by
    unfold SymState.gradient
    rw [ho]
    nlinarith
  have hdHO : (saturatingState ℝ).deltaHO realMath 1000 0.9 =
      (saturatingState ℝ).gradient realMath 1000 0.9 / 2 := by
    unfold SymState.deltaHO
    rw [hh]
    show _ + 0.9 * (0 : ℝ) = _
    ring
  have hG : (saturatingState ℝ).hiddenGradient realMath 1000 0.9 =
      0.1 * ((7 / 16 + (saturatingState ℝ).gradient realMath 1000 0.9 / 2) *
        (0.9 - sigmoid realMath 3)) := by
    unfold SymState.hiddenGradient
    rw [hh, ho, hdHO]
    show sigmoidDerivative (1 / 2) * (4 * ((7 / 16 + _) * _)) * 0.1 = _
    unfold sigmoidDerivative
    ring
  have hGle : (saturatingState ℝ).hiddenGradient realMath 1000 0.9 ≤ -(16 / 10000) := by
    rw [hG]
    nlinarith [hg.1]
  have hIH : (saturatingState ℝ).deltaIH realMath 1000 0.9 =
      (saturatingState ℝ).hiddenGradient realMath 1000 0.9 * 1000 := by
    unfold SymState.deltaIH
    show _ + 0.9 * (0 : ℝ) = _
    ring
  refine ⟨?_, ?_, ?_, ?_, ?_⟩
  · show (0 + (saturatingState ℝ).deltaIH realMath 1000 0.9) * 1000 +
      (0 + (saturatingState ℝ).hiddenGradient realMath 1000 0.9) ≤ -1000 + 0
    rw [hIH]
    linarith
  · show (saturatingState ℝ).deltaIH realMath 1000 0.9 * 1000 ≤ 1 / 2
    rw [hIH]
    linarith
  · show |(saturatingState ℝ).deltaHO realMath 1000 0.9| ≤ 1 / 4
    rw [hdHO, abs_le]
    constructor <;> linarith [hg.1]
  · show |7 / 16 + (saturatingState ℝ).deltaHO realMath 1000 0.9| ≤ 1 + 0 / 4
    rw [hdHO, abs_le]
    constructor <;> linarith [hg.1]
  · show -(1 / 2) + (saturatingState ℝ).gradient realMath 1000 0.9 ≤ -(1 / 2) + 1 / 40 + 0 / 40
    linarith

theorem saturated_iterate (n : Nat) (hn : n ≤ 48) :
    (Nat.iterate (SymState.step realMath 1000 0.9) (n + 1) (saturatingState ℝ)).Saturated n := by
  induction n with
  | zero =>
    rw [Nat.cast_zero]
    exact saturated_first
  | succ k ih =>
    rw [Function.iterate_succ_apply']
    have hk : (k : ℝ) ≤ 48 := by
      have : k ≤ 48 := by omega
      exact_mod_cast this
    have := saturated_step (Nat.cast_nonneg k) hk (ih (by omega))
    rw [Nat.cast_succ]
    exact this

/-- With the hidden layer saturated after 49 calls, the error of the 50th exceeds 0.1. -/
theorem saturated_error_gt {s : SymState ℝ} (hs : s.Saturated 48) :
    0.1 < |0.9 - s.output realMath 1000| := by
  obtain ⟨hz, -, -, hv, hd⟩ := hs
  obtain ⟨hh0, hh1⟩ := sigmoid_real_bounds (s.a * 1000 + s.c)
  have hhe : s.hidden realMath 1000 ≤ 1 / 2 ^ 100 := by
    refine le_trans (sigmoid_real_le_exp _) (le_trans ?_ exp_neg_hundred)
    exact Real.exp_le_exp.mpr (by linarith)
  have hvh : s.v * s.hidden realMath 1000 ≤ 13 * (1 / 2 ^ 100) := by
    have h0 : 0 < s.hidden realMath 1000 := hh0
    have hv2 : s.v ≤ 13 := by
      have := (abs_le.mp hv).2
      linarith
    calc s.v * s.hidden realMath 1000 ≤ 13 * s.hidden realMath 1000 :=
          mul_le_mul_of_nonneg_right hv2 h0.le
      _ ≤ 13 * (1 / 2 ^ 100) := mul_le_mul_of_nonneg_left hhe (by norm_num)
  have hp : 16 * (s.v * s.hidden realMath 1000) + s.d ≤ 1 := by
    norm_num at hvh hd ⊢
    linarith
  have ho : s.output realMath 1000 < 0.8 :=
    lt_of_le_of_lt (sigmoid_real_mono hp) sigmoid_one_real
  rw [lt_abs]
  left
  linarith


/-- The comparison of the 50th error with the first does not hold for every input. The network
built by the constructor from `saturatingRng` (draws in [0, 1), learning rate 0.1, momentum
0.9), trained 50 times in succession on the input (1000, 0, 0, 0, 0, 0, 0, 0) with every target
0.9, returns an error below 0.1 on the first call and an error above 0.1 on the 50th. -/
theorem repeated_training_error_grows :
    (∀ k, 0 ≤ saturatingRng ℝ k ∧ saturatingRng ℝ k < 1) ∧
    (NeuralNetwork.new 8 16 4 (saturatingRng ℝ)).1.learningRate = 0.1 ∧
    (NeuralNetwork.new 8 16 4 (saturatingRng ℝ)).1.momentum = 0.9 ∧
    ∃ (nn : NeuralNetwork ℝ) (errs : List ℝ) (rng' : Rng ℝ) (e1 e50 : ℝ),
      trainRepeatedly realMath [1000, 0, 0, 0, 0, 0, 0, 0] [0.9, 0.9, 0.9, 0.9] 50
        (NeuralNetwork.new 8 16 4 (saturatingRng ℝ)).1
        (NeuralNetwork.new 8 16 4 (saturatingRng ℝ)).2 = some (nn, errs, rng') ∧
      errs[0]? = some e1 ∧ errs[49]? = some e50 ∧ e1 < 0.1 ∧ 0.1 < e50 ∧ ¬ e50 ≤ e1 := by
  refine ⟨saturatingRng_range, rfl, rfl, ?_⟩
  obtain ⟨rng', h⟩ := trainRepeatedly_symNet realMath (1000 : ℝ) 0.9 50 (saturatingState ℝ)
    (NeuralNetwork.new 8 16 4 (saturatingRng ℝ)).2
  rw [new_saturatingRng]
  have h1 := first_error_lt
  have h2 : (0.1 : ℝ) < |0.9 - (Nat.iterate (SymState.step realMath 1000 0.9) 49
      (saturatingState ℝ)).output realMath 1000| := by
    have h48 := saturated_iterate 48 (le_refl 48)
    rw [show ((48 : Nat) : ℝ) = 48 by norm_num] at h48
    exact saturated_error_gt h48
  refine ⟨_, _, rng', _, _, h, ?_, ?_, h1, h2, by linarith⟩
  · rw [List.getElem?_map, List.getElem?_range (by norm_num)]
    rfl
  · rw [List.getElem?_map, List.getElem?_range (by norm_num)]
    rfl


/-! ## C1 and C26: a saturated output -/

/-- Where `Math.exp` underflows to 0 the sigmoid is exactly 1: `sigmoid(800)` is
`1 / (1 + Math.exp(-800)) = 1 / (1 + 0)`. -/
theorem sigmoid_underflow : sigmoid underflowMath 800 = 1 := by
  show 1 / (1 + (if -(800 : ℝ) < -746 then (0 : ℝ) else Real.exp (-800))) = 1
  rw [if_pos (by norm_num)]
  norm_num

/-- The network of sizes (8, 16, 4) with all weights 0 and output biases (800, 0, 0, 0), on the
zero input, with the exponential that underflows: the first entry that `predict` returns is
exactly 1, so not every entry is strictly between 0 and 1. -/
theorem predict_saturates_counterexample :
    (biasNet ℝ 800 0 0 0).WellShaped ∧ (biasNet ℝ 800 0 0 0).inputSize = 8 ∧
    (biasNet ℝ 800 0 0 0).hiddenSize = 16 ∧ (biasNet ℝ 800 0 0 0).outputSize = 4 ∧
    ∃ out, (biasNet ℝ 800 0 0 0).predict underflowMath [0, 0, 0, 0, 0, 0, 0, 0] = some out ∧
      out.length = 4 ∧ out[0]? = some 1 ∧ ¬ ∀ y ∈ out, 0 < y ∧ y < 1 := by
  refine ⟨wellShaped_biasNet 800 0 0 0, rfl, rfl, rfl, _,
    predict_biasNet underflowMath 800 0 0 0 [0, 0, 0, 0, 0, 0, 0, 0] rfl, rfl, ?_, ?_⟩
  · rw [sigmoid_underflow]
    rfl
  · intro h
    have h1 := (h (sigmoid underflowMath 800) (List.mem_cons_self _ _)).2
    rw [sigmoid_underflow] at h1
    exact lt_irrefl 1 h1

/-- A tick of the game whose network has output biases (800, 0, 0, 0), with the exponential
that underflows: output 0 is exactly 1, the first component of the move vector is exactly 1,
not inside (-1, 1), and the AI leaves the tick with `vx = 1 * speed = 1.125`. -/
theorem move_vector_saturates_counterexample :
    ∃ r o0 o1 o2 o3,
      (arena (biasNet ℝ 800 0 0 0)).updateAI underflowMath (Clock.at 1000000) (halfRng ℝ)
        = some r ∧
      (arena (biasNet ℝ 800 0 0 0)).nn.predict underflowMath
        ((arena (biasNet ℝ 800 0 0 0)).getNeuralNetworkInputs
          (Clock.at (1000000 : ℝ)).getNeuralNetworkInputs) = some [o0, o1, o2, o3] ∧
      o0 = 1 ∧ (o0 - 0.5) * 2 = 1 ∧ ¬ (o0 - 0.5) * 2 < 1 ∧ r.1.ai.vx = 1.125 := by
  have hg : (arena (biasNet ℝ 800 0 0 0)).WellFormed :=
    wellFormed_arena (wellShaped_biasNet 800 0 0 0) rfl rfl
  obtain ⟨r, o0, o1, o2, o3, hr, -, hp, hai, -⟩ :=
    updateAI_wf underflowMath hg (Clock.at 1000000) (halfRng ℝ)
  rw [speedBoostCountdown_inputs] at hp
  have hb := predict_biasNet underflowMath (800 : ℝ) 0 0 0
    ((arena (biasNet ℝ 800 0 0 0)).getNeuralNetworkInputs
      (Clock.at (1000000 : ℝ)).getNeuralNetworkInputs) (length_getNeuralNetworkInputs _ _)
  have hnn : (arena (biasNet ℝ 800 0 0 0)).nn = biasNet ℝ 800 0 0 0 := rfl
  rw [hnn, hb] at hp
  have ho : o0 = 1 := by
    have := congrArg (fun l : List ℝ => l.head?) (Option.some.inj hp)
    simp only [List.head?_cons, Option.some.injEq] at this
    rw [← this, sigmoid_underflow]
  have hoff : (arena (biasNet ℝ 800 0 0 0)).speedBoostCountdown = arena (biasNet ℝ 800 0 0 0) :=
    speedBoostCountdown_off rfl
  obtain ⟨a1, -⟩ := act_normal_motion underflowMath (arena (biasNet ℝ 800 0 0 0))
    ((arena (biasNet ℝ 800 0 0 0)).decision (Clock.at (1000000 : ℝ)).updateAI o0 o1 o2 o3)
    (Clock.at 1000000) (halfRng ℝ) rfl rfl
  rw [hoff] at hai
  refine ⟨r, o0, o1, o2, o3, hr, ?_, ho, ?_, ?_, ?_⟩
  · rw [hnn, hb, ← hp]
  · rw [ho]; norm_num
  · rw [ho]; norm_num
  · rw [hai, a1]
    show (o0 - 0.5) * 2 * (1.125 : ℝ) = 1.125
    rw [ho]
    norm_num

end NeuralPursuit
